import Mathlib

/-!
The RTPS/UDP reliability core of OpenDDS (`RtpsUdpDataLink`)

A shallow embedding of the reader side, the writer side and the bundler of
`dds/DCPS/transport/rtps_udp/RtpsUdpDataLink.cpp`, followed by the properties
proved about it.

Conventions of the embedding.

* A `SequenceNumber` is an `Int`.  The source uses signed 64-bit values;
  `MAX_VALUE` is kept as the explicit constant `2^63 - 1` where the source
  compares against it, and the one 64-bit difference that is cast to
  `CORBA::ULong` (`bitmap_num_longs`) is wrapped explicitly.
* `CORBA::Long` counters are `Int`, `CORBA::ULong` values and `size_t` are `Nat`.
  The writer's `heartbeat_count_` is incremented with the 32-bit wrap; the
  counts received and the reader's own counters are only compared and copied.
* A `std::map` / `std::multimap` is the list of its entries in iteration order.
* Calls into collaborators (receive strategy, send strategy, reactor, queue
  elements) are recorded as lists of events, in call order.
* Every handler takes `link : Bool`, the outcome of `link_.lock()`.
-/

namespace OpenDDS
namespace DCPS

/-! ## Sequence numbers -/

/-! A `SequenceNumber` is an `Int` throughout, a `SequenceRange` the pair
`(first, second)` of its ends. -/

namespace SequenceNumber

/-- Modelled from the spec: `SequenceNumber::ZERO()`, the reserved value 0. -/
def ZERO : Int := 0

/-- Modelled from the spec: the default-constructed `SequenceNumber`, the first
valid value 1 (a heartbeat is valid when `lastSN ≥ 1`). -/
def INITIAL_VALUE : Int := 1

/-- Modelled from the spec: `SequenceNumber::SEQUENCENUMBER_UNKNOWN()`, a reserved
negative sentinel; the RTPS wire value is `{high = -1, low = 0}`. -/
def SEQUENCENUMBER_UNKNOWN : Int := -4294967296

/-- Modelled from the spec: `SequenceNumber::MAX_VALUE`, the largest signed
64-bit value. -/
def MAX_VALUE : Int := 9223372036854775807

/-- Modelled from the spec: `SequenceNumber::previous()`, written `seq - 1` there. -/
def previous (n : Int) : Int := n - 1

/-- Modelled from the spec: pre-increment `++SequenceNumber(n)`, written `n + 1` there. -/
def next (n : Int) : Int := n + 1

end SequenceNumber

/-! ## Bitmaps of the RTPS wire format -/

/-- A `LongSeq8` / raw `CORBA::Long[]` bitmap: 32-bit words, bit `i` of the
bitmap being bit `31 - i % 32` of word `i / 32`. -/
abbrev LongSeq8 := List Nat

/-- Test of bit `i` of a bitmap (most significant bit of word 0 is bit 0). -/
def bitmap_bit (bitmap : LongSeq8) (i : Nat) : Bool :=
  (bitmap.getD (i / 32) 0).testBit (31 - i % 32)

/-- Set bit `i` of a bitmap; an index past the buffer writes nothing. -/
def bitmap_set (bitmap : LongSeq8) (i : Nat) : LongSeq8 :=
  if i / 32 < bitmap.length then
    bitmap.set (i / 32) (bitmap.getD (i / 32) 0 ||| (1 <<< (31 - i % 32)))
  else bitmap

/-- Set the `n` bits `lo, lo + 1, …, lo + n - 1`. -/
def bitmap_set_run (bitmap : LongSeq8) (lo : Nat) : Nat → LongSeq8
  | 0 => bitmap
  | n + 1 => bitmap_set (bitmap_set_run bitmap lo n) (lo + n)

/-- The C++ `bitmap.length(n)`: resize to `n` words, new words zero. -/
def bitmap_resize (bitmap : LongSeq8) (n : Nat) : LongSeq8 :=
  bitmap.take n ++ List.replicate (n - bitmap.length) 0

/-- An RTPS `SequenceNumberSet`. -/
structure SequenceNumberSet where
  bitmapBase : Int
  numBits : Nat
  bitmap : LongSeq8
deriving DecidableEq, Repr

/-- An RTPS `FragmentNumberSet`. -/
structure FragmentNumberSet where
  bitmapBase : Nat
  numBits : Nat
  bitmap : LongSeq8
deriving DecidableEq, Repr

/-! ## DisjointSequence -/

/-- Modelled from the spec: the `SequenceSet` of §3/§4.1 (`DisjointSequence`, whose
source is not part of the fragment): a semantic set of sequence numbers, kept as
the ascending list of its maximal runs `(first, second)`.  The clause of §4.1
about rejecting an insert below `low()` is not modelled: it contradicts the
order-independence invariant of §3 and scenario 3 of §8. -/
structure DisjointSequence where
  sequences_ : List (Int × Int)
deriving DecidableEq, Repr

namespace DisjointSequence

/-- The empty set, as default-constructed. -/
def nil : DisjointSequence := ⟨[]⟩

/-- Modelled from the spec: `empty?`. -/
def empty (s : DisjointSequence) : Bool := s.sequences_.isEmpty

/-- Modelled from the spec: `low`, the smallest member (the sentinel when empty). -/
def low (s : DisjointSequence) : Int :=
  match s.sequences_ with
  | [] => SequenceNumber.SEQUENCENUMBER_UNKNOWN
  | r :: _ => r.1

/-- Modelled from the spec: `cumulative_ack`, the largest `N` such that
`[low..N]` is contiguous (the sentinel when empty). -/
def cumulative_ack (s : DisjointSequence) : Int :=
  match s.sequences_ with
  | [] => SequenceNumber.SEQUENCENUMBER_UNKNOWN
  | r :: _ => r.2

/-- Modelled from the spec: `high`, the largest member (the sentinel when empty). -/
def high (s : DisjointSequence) : Int :=
  match s.sequences_.getLast? with
  | none => SequenceNumber.SEQUENCENUMBER_UNKNOWN
  | some r => r.2

/-- Modelled from the spec: `last_ack`, the start of the highest run (the
sentinel when empty). -/
def last_ack (s : DisjointSequence) : Int :=
  match s.sequences_.getLast? with
  | none => SequenceNumber.SEQUENCENUMBER_UNKNOWN
  | some r => r.1

/-- Modelled from the spec: `disjoint?`, whether the set has a hole. -/
def disjoint (s : DisjointSequence) : Bool := decide (1 < s.sequences_.length)

/-- Modelled from the spec: `contains(n)`. -/
def contains (s : DisjointSequence) (n : Int) : Bool :=
  s.sequences_.any (fun r => decide (r.1 ≤ n) && decide (n ≤ r.2))

/-- Union of the run `[first, second]` with an ascending list of runs. -/
def insert_i (first second : Int) : List (Int × Int) → List (Int × Int)
  | [] => [(first, second)]
  | r :: rest =>
    if second + 1 < r.1 then (first, second) :: r :: rest
    else if r.2 + 1 < first then r :: insert_i first second rest
    else insert_i (min first r.1) (max second r.2) rest

/-- Modelled from the spec: `insert(range)` inserts `[a, b]` inclusive; a range
with `a > b` is invalid and inserts nothing. -/
def insert_range (s : DisjointSequence) (range : (Int × Int)) : DisjointSequence :=
  if range.1 ≤ range.2 then ⟨insert_i range.1 range.2 s.sequences_⟩ else s

/-- Modelled from the spec: `insert(n)`. -/
def insert (s : DisjointSequence) (n : Int) : DisjointSequence :=
  s.insert_range (n, n)

/-- Insert `base + i` for every set bit `i < n` of the bitmap. -/
def insert_bits (base : Int) (bits : LongSeq8) : Nat → DisjointSequence → DisjointSequence
  | 0, s => s
  | n + 1, s =>
    let s1 := insert_bits base bits n s
    if bitmap_bit bits n then s1.insert (base + n) else s1

/-- Modelled from the spec: `insert_from_bitmap(base, numBits, bits)`. -/
def insert_bitmap (s : DisjointSequence) (base : Int) (num_bits : Nat)
    (bits : LongSeq8) : DisjointSequence :=
  insert_bits base bits num_bits s

/-- The holes between consecutive runs. -/
def missing_i : List (Int × Int) → List (Int × Int)
  | [] => []
  | [_] => []
  | r :: r2 :: rest =>
    if r.2 + 1 ≤ r2.1 - 1 then (r.2 + 1, r2.1 - 1) :: missing_i (r2 :: rest)
    else missing_i (r2 :: rest)

/-- Modelled from the spec: `missing_sequence_ranges`, the holes of the set in
ascending order. -/
def missing_sequence_ranges (s : DisjointSequence) : List (Int × Int) :=
  missing_i s.sequences_

/-- Modelled from the spec: `present_sequence_ranges`, the runs of the set in
ascending order. -/
def present_sequence_ranges (s : DisjointSequence) : List (Int × Int) :=
  s.sequences_

/-- Modelled from the spec: `fill_bitmap_range(lo_idx, hi_idx, buf, len,
numBits_out)` sets bits `[lo_idx..hi_idx]` and updates
`numBits_out = max(numBits_out, hi_idx + 1)`.  The buffer has `len` words: a
range starting past it is refused (`false`, nothing written), one ending past it
is cut at the last bit of the buffer (`false` as well).  Result:
`(ok, bitmap, num_bits)`. -/
def fill_bitmap_range (lo hi : Nat) (bitmap : LongSeq8) (length num_bits : Nat) :
    Bool × LongSeq8 × Nat :=
  if length ≤ lo / 32 then (false, bitmap, num_bits)
  else
    let clamped := decide (length ≤ hi / 32)
    let hi1 := if clamped then length * 32 - 1 else hi
    (!clamped, bitmap_set_run bitmap lo (hi1 + 1 - lo), max num_bits (hi1 + 1))

/-- The loop of `to_bitmap` over consecutive runs `prev`, `iter`. -/
def to_bitmap_i (base : Int) (invert : Bool) (length : Nat) :
    List (Int × Int) → LongSeq8 → Nat → Bool × LongSeq8 × Nat
  | [], bitmap, num_bits => (true, bitmap, num_bits)
  | [_], bitmap, num_bits => (true, bitmap, num_bits)
  | prev :: iter :: rest, bitmap, num_bits =>
    let lo := if invert then (prev.2 + 1 - base).toNat else (iter.1 - base).toNat
    let hi := if invert then (iter.1 - base - 1).toNat else (iter.2 - base).toNat
    let r := fill_bitmap_range lo hi bitmap length num_bits
    if r.1 then to_bitmap_i base invert length (iter :: rest) r.2.1 r.2.2
    else (false, r.2.1, r.2.2)

/-- Modelled from the spec: `to_bitmap(buf, len, numBits_out, invert)` writes up
to `len * 32` bits of the window starting at `cumulative_ack + 1` and sets
`numBits_out`: the members above the first run, or with `invert` the holes
between the runs.  A set without a hole writes nothing and gives
`numBits_out = 0`.  Result: `(ok, bitmap, num_bits)`. -/
def to_bitmap (s : DisjointSequence) (bitmap : LongSeq8) (length : Nat) (invert : Bool) :
    Bool × LongSeq8 × Nat :=
  if !s.disjoint then (true, bitmap, 0)
  else to_bitmap_i (SequenceNumber.next s.cumulative_ack) invert length s.sequences_ bitmap 0

/-- Membership in the set. -/
def Mem (s : DisjointSequence) (n : Int) : Prop :=
  ∃ r ∈ s.sequences_, r.1 ≤ n ∧ n ≤ r.2

/-- Runs that are non-empty, ascending, separated by at least one missing
number, and all above `lb`. -/
def RunsFrom (lb : Int) : List (Int × Int) → Prop
  | [] => True
  | r :: rest => lb < r.1 ∧ r.1 ≤ r.2 ∧ RunsFrom (r.2 + 1) rest

/-- Representation invariant of a `DisjointSequence`: its runs are maximal and
listed in ascending order. -/
def WF (s : DisjointSequence) : Prop := ∃ lb, RunsFrom lb s.sequences_

end DisjointSequence


/-! ## Identifiers, submessages and meta-submessages -/

/-- A GUID (`RepoId`): participant prefix and entity id, compared as the pair. -/
structure RepoId where
  guidPrefix : Nat
  entityId : Nat
deriving DecidableEq, Repr

/-- The entity id `ENTITYID_UNKNOWN`. -/
def ENTITYID_UNKNOWN : Nat := 0

/-- The prefix `GUIDPREFIX_UNKNOWN`. -/
def GUIDPREFIX_UNKNOWN : Nat := 0

/-- The zero GUID `GUID_UNKNOWN`. -/
def GUID_UNKNOWN : RepoId := ⟨GUIDPREFIX_UNKNOWN, ENTITYID_UNKNOWN⟩

/-- The order `GUID_tKeyLessThan`: prefix first, then entity id. -/
def RepoId.lt (a b : RepoId) : Bool :=
  decide (a.guidPrefix < b.guidPrefix) ||
    (decide (a.guidPrefix = b.guidPrefix) && decide (a.entityId < b.entityId))

/-- Modelled from the spec: the submessage flag E (endianness), bit 0 of the flags. -/
def FLAG_E : Nat := 1

/-- Modelled from the spec: the submessage flag F (final), bit 1 of the flags. -/
def FLAG_F : Nat := 2

/-- Modelled from the spec: the heartbeat flag L (liveliness), bit 2 of the flags. -/
def FLAG_L : Nat := 4

/-- Modelled from the spec: RTPS submessage kind of ACKNACK. -/
def ACKNACK : Nat := 6

/-- Modelled from the spec: RTPS submessage kind of HEARTBEAT. -/
def HEARTBEAT : Nat := 7

/-- Modelled from the spec: RTPS submessage kind of GAP. -/
def GAP : Nat := 8

/-- Modelled from the spec: RTPS submessage kind of INFO_DST. -/
def INFO_DST : Nat := 14

/-- Modelled from the spec: RTPS submessage kind of NACK_FRAG. -/
def NACK_FRAG : Nat := 18

/-- Modelled from the spec: length of the body of a HEARTBEAT submessage. -/
def HEARTBEAT_SZ : Nat := 28

/-- Modelled from the spec: length of the body of an INFO_DST submessage. -/
def INFO_DST_SZ : Nat := 12

/-- Modelled from the spec: length of a submessage header. -/
def SMHDR_SZ : Nat := 4

/-- The conversion `CORBA::ULong(x)` of a 64-bit value: reduction modulo `2^32`. -/
def toULong (x : Int) : Nat := (x % 4294967296).toNat

/-- Two's-complement wrap of a 32-bit signed result (`CORBA::Long`). -/
def wrap_int32 (x : Int) : Int := (x + 2147483648) % 4294967296 - 2147483648

/-- Two's-complement wrap of a 64-bit signed result. -/
def wrap_int64 (x : Int) : Int := (x + 9223372036854775808) % 18446744073709551616 - 9223372036854775808

/-- An RTPS submessage header. -/
structure SubmessageHeader where
  submessageId : Nat
  flags : Nat
  submessageLength : Nat
deriving DecidableEq, Repr

/-- The fields of a DATA submessage the reliability core reads. -/
structure DataSubmessage where
  readerId : Nat
  writerId : Nat
  writerSN : Int
deriving DecidableEq, Repr

/-- A GAP submessage. -/
structure GapSubmessage where
  smHeader : SubmessageHeader
  readerId : Nat
  writerId : Nat
  gapStart : Int
  gapList : SequenceNumberSet
deriving DecidableEq, Repr

/-- A HEARTBEAT submessage. -/
structure HeartBeatSubmessage where
  smHeader : SubmessageHeader
  readerId : Nat
  writerId : Nat
  firstSN : Int
  lastSN : Int
  count : Int
deriving DecidableEq, Repr

/-- A HEARTBEAT_FRAG submessage. -/
structure HeartBeatFragSubmessage where
  smHeader : SubmessageHeader
  readerId : Nat
  writerId : Nat
  writerSN : Int
  lastFragmentNum : Nat
  count : Int
deriving DecidableEq, Repr

/-- An ACKNACK submessage. -/
structure AckNackSubmessage where
  smHeader : SubmessageHeader
  readerId : Nat
  writerId : Nat
  readerSNState : SequenceNumberSet
  count : Int
deriving DecidableEq, Repr

/-- A NACK_FRAG submessage. -/
structure NackFragSubmessage where
  smHeader : SubmessageHeader
  readerId : Nat
  writerId : Nat
  writerSN : Int
  fragmentNumberState : FragmentNumberSet
  count : Int
deriving DecidableEq, Repr

/-- The union `RTPS::Submessage` as far as the bundler distinguishes it; `unset`
stands for every other discriminator. -/
inductive Submessage where
  | heartbeat_sm (hb : HeartBeatSubmessage)
  | acknack_sm (an : AckNackSubmessage)
  | gap_sm (gap : GapSubmessage)
  | nack_frag_sm (nf : NackFragSubmessage)
  | unset
deriving DecidableEq, Repr

/-- A `MetaSubmessage`: a submessage with its logical source, destination and
extra destinations (`to_guids_`, a set kept as a duplicate-free list). -/
structure MetaSubmessage where
  from_guid_ : RepoId
  dst_guid_ : RepoId
  to_guids_ : List RepoId
  sm_ : Submessage
deriving DecidableEq, Repr

/-- A received sample, identified by an opaque number. -/
abbrev ReceivedDataSample := Nat

/-! ## Ordered maps keyed by sequence number -/

/-- The C++ `std::map::insert`: put `(k, v)` at its place in key order; an existing
entry for `k` is kept. -/
def map_insert {α : Type} : List (Int × α) → Int → α → List (Int × α)
  | [], k, v => [(k, v)]
  | e :: rest, k, v =>
    if k < e.1 then (k, v) :: e :: rest
    else if k = e.1 then e :: rest
    else e :: map_insert rest k v

/-- The C++ `std::map::operator[]` assignment: insert or overwrite. -/
def map_assign {α : Type} : List (Int × α) → Int → α → List (Int × α)
  | [], k, v => [(k, v)]
  | e :: rest, k, v =>
    if k < e.1 then (k, v) :: e :: rest
    else if k = e.1 then (k, v) :: rest
    else e :: map_assign rest k v

/-- The C++ `std::multimap::insert`: after the entries with an equal key. -/
def multimap_insert {α : Type} : List (Int × α) → Int → α → List (Int × α)
  | [], k, v => [(k, v)]
  | e :: rest, k, v =>
    if k < e.1 then (k, v) :: e :: rest
    else e :: multimap_insert rest k v

/-- The C++ `std::map::erase(key)`. -/
def map_erase {α : Type} (m : List (Int × α)) (k : Int) : List (Int × α) :=
  m.filter (fun e => decide (e.1 ≠ k))

/-- The C++ `std::map::find`. -/
def map_find {α : Type} (m : List (Int × α)) (k : Int) : Option α :=
  (m.find? (fun e => decide (e.1 = k))).map (fun e => e.2)

/-- Lookup in a map keyed by GUID. -/
def guid_find {α : Type} (m : List (RepoId × α)) (id : RepoId) : Option α :=
  (m.find? (fun e => decide (e.1 = id))).map (fun e => e.2)

/-- Replace the value stored for a GUID. -/
def guid_set {α : Type} (m : List (RepoId × α)) (id : RepoId) (v : α) : List (RepoId × α) :=
  m.map (fun e => if e.1 = id then (e.1, v) else e)

/-! ## Reader side -/

/-- What the reliability core asks of the receive strategy (read-only queries on
its reassembly state).  `has_fragments range pub` gives the answer and the entries
it appends to `frag_info`; `remove_frags_from_bitmap bitmap num_bits base pub`
gives whether it modified the bitmap, and the bitmap. -/
structure ReceiveStrategy where
  has_fragments : (Int × Int) → RepoId → Bool × List (Int × FragmentNumberSet)
  remove_frags_from_bitmap : LongSeq8 → Nat → Int → RepoId → Bool × LongSeq8

/-- Calls a reader makes on its collaborators, in call order.  The sequence number
names the DATA being processed (`seq`) or the key of the held entry. -/
inductive ReaderEvent where
  | withhold_data_from (seq : Int)
  | do_not_withhold_data_from (seq : Int)
  | held_data (seq : Int) (sample : ReceivedDataSample)
  | notify
deriving DecidableEq, Repr

/-- The sequence numbers of the samples released to the application, in release
order: samples not withheld, and samples moved out of `held_`. -/
def released : List ReaderEvent → List Int
  | [] => []
  | ReaderEvent.do_not_withhold_data_from seq :: rest => seq :: released rest
  | ReaderEvent.held_data seq _ :: rest => seq :: released rest
  | _ :: rest => released rest

/-- The reader-side record of one remote writer (`WriterInfo`). -/
structure WriterInfo where
  recvd_ : DisjointSequence
  held_ : List (Int × ReceivedDataSample)
  hb_range_ : (Int × Int)
  frags_ : List (Int × Nat)
  ack_pending_ : Bool
  initial_hb_ : Bool
  heartbeat_recvd_count_ : Int
  hb_frag_recvd_count_ : Int
  acknack_count_ : Int
  nackfrag_count_ : Int
deriving DecidableEq, Repr

/-- The constructor `WriterInfo()`. -/
def WriterInfo.fresh : WriterInfo :=
  { recvd_ := DisjointSequence.nil, held_ := [],
    hb_range_ := (SequenceNumber.INITIAL_VALUE, SequenceNumber.ZERO), frags_ := [],
    ack_pending_ := false, initial_hb_ := true, heartbeat_recvd_count_ := 0,
    hb_frag_recvd_count_ := 0, acknack_count_ := 0, nackfrag_count_ := 0 }

/-- `WriterInfo::should_nack`. -/
def WriterInfo.should_nack (info : WriterInfo) : Bool :=
  if info.recvd_.disjoint && decide (info.recvd_.cumulative_ack < info.hb_range_.2) then true
  else if !info.recvd_.empty then decide (info.recvd_.high < info.hb_range_.2)
  else false

/-- A local reliable reader (`RtpsReader`). -/
structure RtpsReader where
  id_ : RepoId
  durable_ : Bool
  remote_writers_ : List (RepoId × WriterInfo)
deriving DecidableEq, Repr

/-- What a reader handler leaves behind: the reader, the collaborator calls, the
meta-submessages it pushed, and its return value. -/
structure ReaderResult where
  reader : RtpsReader
  events : List ReaderEvent
  meta_submessages : List MetaSubmessage
  ret : Bool
deriving DecidableEq, Repr

/-- `RtpsReader::should_nack_durable`. -/
def should_nack_durable (durable : Bool) (info : WriterInfo) : Bool :=
  durable && (info.recvd_.empty || decide (info.recvd_.low > info.hb_range_.1))

/-- `HeldDataDeliveryHandler::notify_delivery`: move the held entries up to the
cumulative ack, in key order, to the delivery queue and notify the reactor. -/
def notify_delivery (info : WriterInfo) : WriterInfo × List ReaderEvent :=
  let ca := info.recvd_.cumulative_ack
  ({ info with held_ := info.held_.dropWhile (fun e => decide (e.1 ≤ ca)) },
   (info.held_.takeWhile (fun e => decide (e.1 ≤ ca))).map
      (fun e => ReaderEvent.held_data e.1 e.2) ++ [ReaderEvent.notify])

/-- `RtpsUdpDataLink::deliver_held_data`. -/
def deliver_held_data (info : WriterInfo) (durable : Bool) : WriterInfo × List ReaderEvent :=
  if durable && (info.recvd_.empty || decide (info.recvd_.low > 1)) then (info, [])
  else notify_delivery info

/-- The three-way decision of `process_data_i` on a DATA from an associated writer. -/
inductive DataDisposition where
  | duplicate
  | hold
  | deliver
deriving DecidableEq, Repr

/-- The conditions of `process_data_i` (lines 1110, 1121-1124). -/
def data_disposition (durable : Bool) (info : WriterInfo) (seq : Int) : DataDisposition :=
  if info.recvd_.contains seq then DataDisposition.duplicate
  else if info.recvd_.disjoint ||
      (!info.recvd_.empty && decide (info.recvd_.cumulative_ack ≠ SequenceNumber.previous seq))
      || (durable && !info.recvd_.empty && decide (info.recvd_.low > 1))
      || (durable && info.recvd_.empty && decide (seq > 1)) then DataDisposition.hold
  else DataDisposition.deliver

/-- The withhold / hold / deliver step of `process_data_i`, before `recvd_` is
updated: the record with `frags_[seq]` erased and the sample possibly stored in
`held_`, and the call made on the receive strategy. -/
def process_data_decide (durable : Bool) (info : WriterInfo) (seq : Int)
    (sample : ReceivedDataSample) : WriterInfo × List ReaderEvent :=
  let info1 := { info with frags_ := map_erase info.frags_ seq }
  match data_disposition durable info1 seq with
  | DataDisposition.duplicate => (info1, [ReaderEvent.withhold_data_from seq])
  | DataDisposition.hold =>
    ({ info1 with held_ := map_insert info1.held_ seq sample },
     [ReaderEvent.withhold_data_from seq])
  | DataDisposition.deliver => (info1, [ReaderEvent.do_not_withhold_data_from seq])

/-- The body of `process_data_i` for an associated writer and a live link. -/
def process_data_wi (durable : Bool) (info : WriterInfo) (seq : Int)
    (sample : ReceivedDataSample) : WriterInfo × List ReaderEvent :=
  let d := process_data_decide durable info seq sample
  let h := deliver_held_data { d.1 with recvd_ := d.1.recvd_.insert seq } durable
  (h.1, d.2 ++ h.2)

/-- `RtpsReader::process_data_i`; `sample` is the sample the receive strategy is
holding for this DATA. -/
def RtpsReader.process_data_i (r : RtpsReader) (link : Bool) (data : DataSubmessage)
    (sample : ReceivedDataSample) (src : RepoId) : ReaderResult :=
  match guid_find r.remote_writers_ src, link with
  | some info, true =>
    let p := process_data_wi r.durable_ info data.writerSN sample
    ⟨{ r with remote_writers_ := guid_set r.remote_writers_ src p.1 }, p.2, [], false⟩
  | _, true => ⟨r, [ReaderEvent.do_not_withhold_data_from data.writerSN], [], false⟩
  | _, false => ⟨r, [], [], false⟩

/-- The end `sr.second` of the range `process_gap_i` inserts (lines 1196-1203). -/
def gap_range_end (recvd : DisjointSequence) (base : Int) : Int :=
  let first_received :=
    if !recvd.empty then
      match recvd.missing_sequence_ranges with
      | [] => SequenceNumber.MAX_VALUE
      | m :: _ => m.2
    else SequenceNumber.MAX_VALUE
  min first_received (SequenceNumber.previous base)

/-- The body of `process_gap_i` for an associated writer and a live link. -/
def process_gap_wi (durable : Bool) (info : WriterInfo) (gap : GapSubmessage) :
    WriterInfo × List ReaderEvent :=
  let sr : (Int × Int) := (gap.gapStart, gap_range_end info.recvd_ gap.gapList.bitmapBase)
  let recvd1 := if sr.1 ≤ sr.2 then info.recvd_.insert_range sr else info.recvd_
  let recvd2 := recvd1.insert_bitmap gap.gapList.bitmapBase gap.gapList.numBits gap.gapList.bitmap
  deliver_held_data { info with recvd_ := recvd2 } durable

/-- `RtpsReader::process_gap_i`. -/
def RtpsReader.process_gap_i (r : RtpsReader) (link : Bool) (gap : GapSubmessage)
    (src : RepoId) : ReaderResult :=
  match guid_find r.remote_writers_ src, link with
  | some info, true =>
    let p := process_gap_wi r.durable_ info gap
    ⟨{ r with remote_writers_ := guid_set r.remote_writers_ src p.1 }, p.2, [], false⟩
  | _, _ => ⟨r, [], [], false⟩

/-- `bitmap_num_longs` (lines 46-53): the 64-bit difference wraps, the division
truncates, and the conversion to `CORBA::ULong` reduces modulo `2^32`. -/
def bitmap_num_longs (low high : Int) : Nat :=
  if high < low then 1
  else min 8 (toULong (Int.tdiv (wrap_int64 (high - low + 32)) 32))

/-- `RtpsUdpDataLink::extend_bitmap_range`, in 32-bit unsigned arithmetic. -/
def extend_bitmap_range (fnSet : FragmentNumberSet) (extent : Nat) : FragmentNumberSet :=
  if extent < fnSet.bitmapBase then fnSet
  else
    let new_num_bits := min 255 ((extent - fnSet.bitmapBase + 1) % 4294967296)
    let len := (new_num_bits + 31) / 32
    if new_num_bits < fnSet.numBits then fnSet
    else
      let r := DisjointSequence.fill_bitmap_range (fnSet.numBits + 1) new_num_bits
        (bitmap_resize fnSet.bitmap len) len fnSet.numBits
      { fnSet with bitmap := r.2.1, numBits := r.2.2 }

/-- Entries of `frag_info`. -/
abbrev FragmentInfo := List (Int × FragmentNumberSet)

/-- Apply `f` to the last entry (`frag_info.back()`). -/
def frag_info_back (f : FragmentNumberSet → FragmentNumberSet) : FragmentInfo → FragmentInfo
  | [] => []
  | [e] => [(e.1, f e.2)]
  | e :: rest => e :: frag_info_back f rest

/-- One iteration of step 2 of `generate_nack_frags` (lines 1901-1914). -/
def nack_frag_step (rs : ReceiveStrategy) (pub_id : RepoId) (entry : Int × Nat)
    (frag_info : FragmentInfo) : FragmentInfo :=
  let q := rs.has_fragments (entry.1, entry.1) pub_id
  if q.1 then
    frag_info_back (fun fn => extend_bitmap_range fn entry.2) (frag_info ++ q.2)
  else
    let numBits := min 256 entry.2
    frag_info ++ [(entry.1, { bitmapBase := 1, numBits := numBits,
                              bitmap := List.replicate ((numBits + 31) / 32) 4294967295 })]

/-- The loop of step 2 of `generate_nack_frags` (lines 1892-1915) over the
positions of `frags_`: `low` and `high` are the positions of the iterators of
that name, `frags.length` standing for `end`.  `none`: the fuel is used up. -/
def nack_frag_walk (rs : ReceiveStrategy) (pub_id : RepoId) (frags : List (Int × Nat))
    (low high : Nat) : Nat → Nat → FragmentInfo → Option FragmentInfo
  | 0, _, _ => none
  | fuel + 1, i, frag_info =>
    if frags.length ≤ i then some frag_info
    else if i = low then
      if high = frags.length then some frag_info
      else
        match frags.get? high with
        | none => some frag_info
        | some e => nack_frag_walk rs pub_id frags low high fuel (high + 1)
                      (nack_frag_step rs pub_id e frag_info)
    else
      match frags.get? i with
      | none => some frag_info
      | some e => nack_frag_walk rs pub_id frags low high fuel (i + 1)
                    (nack_frag_step rs pub_id e frag_info)

/-- The NACK_FRAG submessages of `generate_nack_frags` (lines 1930-1937), counted
from `count`. -/
def nack_frag_msgs : FragmentInfo → Int → List NackFragSubmessage
  | [], _ => []
  | e :: rest, count =>
    { smHeader := ⟨NACK_FRAG, FLAG_E, 0⟩, readerId := ENTITYID_UNKNOWN,
      writerId := ENTITYID_UNKNOWN, writerSN := e.1, fragmentNumberState := e.2,
      count := count + 1 } :: nack_frag_msgs rest (count + 1)

/-- `RtpsReader::generate_nack_frags`.  A run of the loop of step 2 that ends
visits every position of `frags_` at most once, so `frags_.length + 1` rounds
are enough for it; `none` is a loop that does not end. -/
def generate_nack_frags (rs : ReceiveStrategy) (wi : WriterInfo) (pub_id : RepoId) :
    Option (WriterInfo × List NackFragSubmessage) :=
  let info1 : FragmentInfo :=
    (wi.recvd_.missing_sequence_ranges.map (fun m => (rs.has_fragments m pub_id).2)).flatten
  let info2 : FragmentInfo :=
    if !wi.recvd_.empty then
      info1 ++ (rs.has_fragments (wi.recvd_.high, wi.hb_range_.2) pub_id).2
    else info1
  let info3 : FragmentInfo := info2.map (fun e =>
    match map_find wi.frags_ e.1 with
    | some v => (e.1, extend_bitmap_range e.2 v)
    | none => e)
  let low := (wi.frags_.takeWhile (fun e => decide (e.1 < wi.recvd_.cumulative_ack))).length
  let high := (wi.frags_.takeWhile (fun e => decide (e.1 ≤ wi.recvd_.last_ack))).length
  match nack_frag_walk rs pub_id wi.frags_ low high (wi.frags_.length + 1) 0 info3 with
  | none => none
  | some frag_info =>
    some ({ wi with nackfrag_count_ := wi.nackfrag_count_ + frag_info.length },
          nack_frag_msgs frag_info wi.nackfrag_count_)

/-- The three branches of `gather_ack_nacks_i` that choose the acknowledged base
and the first bitmap for one writer (lines 1499-1537), and the received set they
leave.  Result: `(ack, bitmap, num_bits, recvd)`. -/
def acknack_base (durable : Bool) (info : WriterInfo) (prev_ack_pending nack : Bool) :
    Int × LongSeq8 × Nat × DisjointSequence :=
  let recvd := info.recvd_
  let hb_low := info.hb_range_.1
  let hb_high := info.hb_range_.2
  if recvd.empty then
    if hb_low ≤ hb_high then
      let bitmap := bitmap_resize [0] (bitmap_num_longs hb_low hb_high)
      let idx := if hb_high > hb_low + 255 then 255 else toULong (hb_high - hb_low)
      let f := DisjointSequence.fill_bitmap_range 0 idx bitmap bitmap.length 1
      (hb_low, f.2.1, f.2.2, recvd)
    else (SequenceNumber.INITIAL_VALUE, [0], 1, recvd)
  else if ((prev_ack_pending && !nack) || should_nack_durable durable info)
      && decide (recvd.low > hb_low) then
    let rec_low := recvd.low
    let bitmap := bitmap_resize [0] (bitmap_num_longs hb_low rec_low)
    let idx := if rec_low > hb_low + 255 then 255 else toULong (rec_low - hb_low)
    let f := DisjointSequence.fill_bitmap_range 0 idx bitmap bitmap.length 1
    (hb_low, f.2.1, f.2.2, recvd)
  else
    let ack := SequenceNumber.next recvd.cumulative_ack
    let recvd1 :=
      if recvd.low > 1 then recvd.insert_range (SequenceNumber.ZERO, recvd.low) else recvd
    if recvd1.disjoint then
      let bitmap := bitmap_resize [0] (bitmap_num_longs ack (SequenceNumber.previous recvd1.last_ack))
      let t := recvd1.to_bitmap bitmap bitmap.length true
      (ack, t.2.1, t.2.2, recvd1)
    else (ack, [0], 1, recvd1)

/-- The extension of the bitmap up to the heartbeat's `lastSN` (lines 1539-1560). -/
def acknack_extend (hb_high : Int) (b : Int × LongSeq8 × Nat × DisjointSequence) :
    Int × LongSeq8 × Nat × DisjointSequence :=
  let ack := b.1
  let recvd := b.2.2.2
  if !recvd.empty && decide (hb_high > recvd.high) then
    let eff_high := if hb_high ≤ ack + 255 then hb_high else ack + 255
    let old_len := b.2.1.length
    let new_len := bitmap_num_longs ack eff_high
    let bitmap := if new_len > old_len then bitmap_resize b.2.1 new_len else b.2.1
    let idx_hb_high := toULong (eff_high - ack)
    let idx_recv_high := if recvd.disjoint then toULong (recvd.high - ack) else 0
    let f := DisjointSequence.fill_bitmap_range idx_recv_high idx_hb_high bitmap new_len b.2.2.1
    (ack, f.2.1, f.2.2, recvd)
  else b

/-- The acknowledged base, bitmap and bit count that `gather_ack_nacks_i` builds
for one writer before the fragment subtraction (lines 1488-1560), and the
received set it leaves.  Result: `(ack, bitmap, num_bits, recvd)`. -/
def acknack_bitmap (durable : Bool) (info : WriterInfo) (prev_ack_pending nack : Bool) :
    Int × LongSeq8 × Nat × DisjointSequence :=
  acknack_extend info.hb_range_.2 (acknack_base durable info prev_ack_pending nack)

/-- The re-evaluation of `is_final` after the fragment subtraction (lines 1568-1583).
The 32-bit shift is reduced modulo `2^32`; a shift by the full width, for a word
that lies wholly beyond `num_bits`, gives the mask 0. -/
def acknack_bitmap_empty (bitmap : LongSeq8) (num_bits : Nat) : Bool :=
  (List.range bitmap.length).all (fun i =>
    if (i + 1) * 32 ≤ num_bits then bitmap.getD i 0 == 0
    else ((4294967295 <<< (32 - num_bits % 32)) % 4294967296) &&& bitmap.getD i 0 == 0)

/-- The body of the loop of `gather_ack_nacks_i` for one remote writer: the
record afterwards and the meta-submessages pushed.  `none`: the call does not
return (a dead link is dereferenced, or `generate_nack_frags` does not end). -/
def gather_ack_nacks_wi (id_ : RepoId) (durable link : Bool) (rs : ReceiveStrategy)
    (finalFlag : Bool) (wid : RepoId) (info : WriterInfo) :
    Option (WriterInfo × List MetaSubmessage) :=
  let nack := info.should_nack || should_nack_durable durable info
  let is_final := finalFlag || !nack
  if info.ack_pending_ || nack || finalFlag then
    let prev_ack_pending := info.ack_pending_
    let b := acknack_bitmap durable info prev_ack_pending nack
    let info1 := { info with ack_pending_ := false, recvd_ := b.2.2.2 }
    if !link then none
    else
      let fr := rs.remove_frags_from_bitmap b.2.1 b.2.2.1 b.1 wid
      let is_final1 :=
        if fr.1 && !is_final then acknack_bitmap_empty fr.2 b.2.2.1 else is_final
      let acknack : AckNackSubmessage :=
        { smHeader := ⟨ACKNACK, FLAG_E ||| (if is_final1 then FLAG_F else 0), 0⟩,
          readerId := id_.entityId, writerId := wid.entityId,
          readerSNState := ⟨b.1, b.2.2.1, fr.2⟩,
          count := wrap_int32 (info1.acknack_count_ + 1) }
      let info2 := { info1 with acknack_count_ := wrap_int32 (info1.acknack_count_ + 1) }
      match generate_nack_frags rs info2 wid with
      | none => none
      | some g =>
        some (g.1, ⟨id_, wid, [], Submessage.acknack_sm acknack⟩ ::
          g.2.map (fun nf => ⟨id_, wid, [], Submessage.nack_frag_sm
            { nf with readerId := id_.entityId, writerId := wid.entityId }⟩))
  else some (info, [])

/-- The loop of `gather_ack_nacks_i` over `remote_writers_`. -/
def gather_ack_nacks_loop (id_ : RepoId) (durable link : Bool) (rs : ReceiveStrategy)
    (finalFlag : Bool) :
    List (RepoId × WriterInfo) → Option (List (RepoId × WriterInfo) × List MetaSubmessage)
  | [] => some ([], [])
  | e :: rest =>
    match gather_ack_nacks_wi id_ durable link rs finalFlag e.1 e.2 with
    | none => none
    | some g =>
      match gather_ack_nacks_loop id_ durable link rs finalFlag rest with
      | none => none
      | some t => some ((e.1, g.1) :: t.1, g.2 ++ t.2)

/-- `RtpsReader::gather_ack_nacks_i`: the reader afterwards and the
meta-submessages pushed. -/
def RtpsReader.gather_ack_nacks_i (r : RtpsReader) (link : Bool) (rs : ReceiveStrategy)
    (finalFlag : Bool) : Option (RtpsReader × List MetaSubmessage) :=
  match gather_ack_nacks_loop r.id_ r.durable_ link rs finalFlag r.remote_writers_ with
  | none => none
  | some g => some ({ r with remote_writers_ := g.1 }, g.2)

/-- The part of `process_heartbeat_i` that applies an accepted heartbeat to the
record (lines 1305-1347): count, `hb_range_`, the baseline inserted into
`recvd_`, the promotion of held data and `initial_hb_`. -/
def process_heartbeat_apply (durable : Bool) (info : WriterInfo) (heartbeat : HeartBeatSubmessage) :
    WriterInfo × List ReaderEvent :=
  let info1 := { info with heartbeat_recvd_count_ := heartbeat.count,
                           hb_range_ := (heartbeat.firstSN, heartbeat.lastSN) }
  let first := heartbeat.firstSN
  let last := heartbeat.lastSN
  if last ≥ SequenceNumber.INITIAL_VALUE then
    let recvd := info1.recvd_
    let recvd1 :=
      if !durable && info1.initial_hb_ then
        if recvd.empty || decide (recvd.low ≥ last) then
          recvd.insert_range (SequenceNumber.ZERO, last)
        else recvd.insert_range (SequenceNumber.ZERO, recvd.low)
      else if !recvd.empty then
        recvd.insert_range (SequenceNumber.ZERO,
          if first > SequenceNumber.INITIAL_VALUE then SequenceNumber.previous first
          else SequenceNumber.ZERO)
      else recvd
    let d := deliver_held_data { info1 with recvd_ := recvd1 } durable
    ({ d.1 with initial_hb_ := false }, d.2)
  else (info1, [])

/-- `RtpsReader::process_heartbeat_i`.  `none`: the call does not return. -/
def RtpsReader.process_heartbeat_i (r : RtpsReader) (link : Bool) (rs : ReceiveStrategy)
    (heartbeat : HeartBeatSubmessage) (src : RepoId) : Option ReaderResult :=
  match guid_find r.remote_writers_ src, link with
  | some info, true =>
    if heartbeat.count ≤ info.heartbeat_recvd_count_ then some ⟨r, [], [], false⟩
    else
      let immediate_reply := decide (info.hb_range_.2 = 0) && decide (heartbeat.lastSN ≠ 0)
      let a := process_heartbeat_apply r.durable_ info heartbeat
      let is_final := heartbeat.smHeader.flags &&& FLAG_F != 0
      let liveliness := heartbeat.smHeader.flags &&& FLAG_L != 0
      if !is_final || (!liveliness && (a.1.should_nack || should_nack_durable r.durable_ a.1
          || (rs.has_fragments a.1.hb_range_ src).1)) then
        let info3 := { a.1 with ack_pending_ := true }
        let r1 := { r with remote_writers_ := guid_set r.remote_writers_ src info3 }
        if immediate_reply then
          match r1.gather_ack_nacks_i link rs false with
          | none => none
          | some g => some ⟨g.1, a.2, g.2, false⟩
        else some ⟨r1, a.2, [], true⟩
      else some ⟨{ r with remote_writers_ := guid_set r.remote_writers_ src a.1 }, a.2, [], false⟩
  | _, _ => some ⟨r, [], [], false⟩

/-- `RtpsReader::process_hb_frag_i`. -/
def RtpsReader.process_hb_frag_i (r : RtpsReader) (hb_frag : HeartBeatFragSubmessage)
    (src : RepoId) : ReaderResult :=
  match guid_find r.remote_writers_ src with
  | none => ⟨r, [], [], false⟩
  | some info =>
    if hb_frag.count ≤ info.hb_frag_recvd_count_ then ⟨r, [], [], false⟩
    else
      let info1 := { info with hb_frag_recvd_count_ := hb_frag.count }
      let seq := hb_frag.writerSN
      if seq < info1.hb_range_.1 || seq > info1.hb_range_.2 || !info1.recvd_.contains seq then
        let info2 := { info1 with frags_ := map_assign info1.frags_ seq hb_frag.lastFragmentNum,
                                  ack_pending_ := true }
        ⟨{ r with remote_writers_ := guid_set r.remote_writers_ src info2 }, [], [], true⟩
      else ⟨{ r with remote_writers_ := guid_set r.remote_writers_ src info1 }, [], [], false⟩

/-- A submessage a reader receives from one remote writer: a DATA with the sample
the receive strategy holds for it, a GAP, or a HEARTBEAT with the state of the
receive strategy at its arrival. -/
inductive ReaderInput where
  | data (d : DataSubmessage) (sample : ReceivedDataSample)
  | gap (g : GapSubmessage)
  | heartbeat (hb : HeartBeatSubmessage) (rs : ReceiveStrategy)

/-- The dispatch of one received submessage to its handler, with a live link. -/
def RtpsReader.receive (r : RtpsReader) (src : RepoId) : ReaderInput → Option ReaderResult
  | ReaderInput.data d sample => some (r.process_data_i true d sample src)
  | ReaderInput.gap g => some (r.process_gap_i true g src)
  | ReaderInput.heartbeat hb rs => r.process_heartbeat_i true rs hb src

/-- Received submessages, each with the GUID of the writer that sent it, processed
one after the other: the reader at the end and all collaborator calls, in order.
`none`: a handler does not return. -/
def RtpsReader.receive_all (r : RtpsReader) :
    List (RepoId × ReaderInput) → Option (RtpsReader × List ReaderEvent)
  | [] => some (r, [])
  | m :: rest =>
    match r.receive m.1 m.2 with
    | none => none
    | some res =>
      match RtpsReader.receive_all res.reader rest with
      | none => none
      | some t => some (t.1, res.events ++ t.2)

/-- Submessages that respect the reserved sequence numbers of §3: a DATA numbered
at least 1, a GAP starting and based at 1 or above, a HEARTBEAT whose `lastSN` is
not negative. -/
def ReaderInput.valid : ReaderInput → Bool
  | ReaderInput.data d _ => decide (1 ≤ d.writerSN)
  | ReaderInput.gap g => decide (1 ≤ g.gapStart) && decide (1 ≤ g.gapList.bitmapBase)
  | ReaderInput.heartbeat hb _ => decide (0 ≤ hb.lastSN)

/-! ## Writer side -/

/-- A queue element (`TransportQueueElement*`), identified by an opaque number. -/
abbrev TransportQueueElement := Nat

/-- A multimap from sequence numbers to queue elements (`SnToTqeMap`). -/
abbrev SnToTqeMap := List (Int × TransportQueueElement)

/-- An entry of the send buffer: the sequence number, the stored message chain and
the readers that pinned it with `retain_all`. -/
structure SendBufferEntry where
  seq : Int
  chain : Nat
  pins : List RepoId
deriving DecidableEq, Repr

/-- Modelled from the spec: the `SendBuffer` of §3/§4.2 (`SingleSendBuffer`, whose
source is not part of the fragment): the stored samples in ascending order of
their sequence numbers. -/
structure SingleSendBuffer where
  buffers_ : List SendBufferEntry
deriving DecidableEq, Repr

namespace SingleSendBuffer

/-- Modelled from the spec: whether the buffer holds no sample. -/
def empty (sb : SingleSendBuffer) : Bool := sb.buffers_.isEmpty

/-- Modelled from the spec: the lowest stored sequence number (`low_or_1`). -/
def low (sb : SingleSendBuffer) : Int :=
  match sb.buffers_.head? with
  | none => 1
  | some e => e.seq

/-- Modelled from the spec: the highest stored sequence number (`high_or_0`). -/
def high (sb : SingleSendBuffer) : Int :=
  match sb.buffers_.getLast? with
  | none => 0
  | some e => e.seq

/-- Modelled from the spec: `contains(seq)`. -/
def contains (sb : SingleSendBuffer) (seq : Int) : Bool :=
  sb.buffers_.any (fun e => decide (e.seq = seq))

/-- Modelled from the spec: `release_acked(seq)` removes the entry if and only if
no retain-pin exists. -/
def release_acked (sb : SingleSendBuffer) (seq : Int) : SingleSendBuffer :=
  ⟨sb.buffers_.filter (fun e => !(decide (e.seq = seq) && e.pins.isEmpty))⟩

end SingleSendBuffer

/-- The writer-side record of one remote reader (`ReaderInfo`); times are numbers,
`ACE_Time_Value::zero` being 0. -/
structure ReaderInfo where
  acknack_recvd_count_ : Int
  nackfrag_recvd_count_ : Int
  requested_changes_ : List SequenceNumberSet
  requested_frags_ : List (Int × FragmentNumberSet)
  cur_cumulative_ack_ : Int
  handshake_done_ : Bool
  durable_ : Bool
  durable_data_ : List (Int × TransportQueueElement)
  durable_timestamp_ : Nat
deriving DecidableEq, Repr

/-- The constructor `ReaderInfo(durable)`. -/
def ReaderInfo.fresh (durable : Bool) : ReaderInfo :=
  { acknack_recvd_count_ := 0, nackfrag_recvd_count_ := 0, requested_changes_ := [],
    requested_frags_ := [], cur_cumulative_ack_ := SequenceNumber.INITIAL_VALUE,
    handshake_done_ := false, durable_ := durable, durable_data_ := [],
    durable_timestamp_ := 0 }

/-- `ReaderInfo::expecting_durable_data`. -/
def ReaderInfo.expecting_durable_data (ri : ReaderInfo) : Bool :=
  ri.durable_ && (decide (ri.durable_timestamp_ = 0) || !ri.durable_data_.isEmpty)

/-- A local reliable writer (`RtpsWriter`); `send_buff_ = none` is the nil handle. -/
structure RtpsWriter where
  remote_readers_ : List (RepoId × ReaderInfo)
  send_buff_ : Option SingleSendBuffer
  expected_ : Int
  elems_not_acked_ : SnToTqeMap
  to_deliver_ : SnToTqeMap
  id_ : RepoId
  durable_ : Bool
  heartbeat_count_ : Int
deriving DecidableEq, Repr

/-- Calls a writer makes on its collaborators, in call order. -/
inductive WriterEvent where
  | data_delivered (element : TransportQueueElement)
  | durability_resend (element : TransportQueueElement)
  | nack_reply_schedule
  | invoke_on_start_callbacks (local_id remote_id : RepoId) (ok : Bool)
deriving DecidableEq, Repr

/-- What a writer handler leaves behind: the writer, the collaborator calls and the
meta-submessages it pushed. -/
structure WriterResult where
  writer : RtpsWriter
  events : List WriterEvent
  meta_submessages : List MetaSubmessage
deriving DecidableEq, Repr

/-- The largest key of a map (`rbegin()->first`), 0 for an empty map. -/
def map_last_key {α : Type} (m : List (Int × α)) : Int :=
  match m.getLast? with
  | none => 0
  | some e => e.1

/-- `RtpsWriter::heartbeat_high`. -/
def RtpsWriter.heartbeat_high (w : RtpsWriter) (ri : ReaderInfo) : Int :=
  let durable_max := if ri.durable_data_.isEmpty then 0 else map_last_key ri.durable_data_
  let data_max :=
    match w.send_buff_ with
    | none => 0
    | some sb => if sb.empty then 0 else sb.high
  max durable_max data_max

/-- `bitmapNonEmpty` (lines 55-71). -/
def bitmapNonEmpty (snSet : SequenceNumberSet) : Bool :=
  (List.range snSet.bitmap.length).any (fun i =>
    decide (snSet.bitmap.getD i 0 ≠ 0) &&
      (decide (snSet.numBits ≥ (i + 1) * 32) ||
        (List.range 32).any (fun bit =>
          (snSet.bitmap.getD i 0).testBit bit && decide (snSet.numBits ≥ i * 32 + (31 - bit)))))

/-- Insertion into a `std::set` of sequence numbers. -/
def sn_set_insert : List Int → Int → List Int
  | [], k => [k]
  | x :: rest, k =>
    if k < x then k :: x :: rest
    else if k = x then x :: rest
    else x :: sn_set_insert rest k

/-- Insertion into a `RepoIdSet`, ordered by `GUID_tKeyLessThan`. -/
def guid_set_insert : List RepoId → RepoId → List RepoId
  | [], k => [k]
  | x :: rest, k =>
    if k.lt x then k :: x :: rest
    else if k = x then x :: rest
    else x :: guid_set_insert rest k

/-- The loop of `acked_by_all_helper_i` over the readers (lines 2654-2662). -/
def all_readers_ack (readers : List (RepoId × ReaderInfo)) : Int :=
  readers.foldl (fun acc ri => if ri.2.cur_cumulative_ack_ < acc then ri.2.cur_cumulative_ack_
    else acc) SequenceNumber.MAX_VALUE

/-- The entries `acked_by_all_helper_i` moves out of `elems_not_acked_`
(lines 2668-2679): the leading entries with a key below `ack`. -/
def acked_entries (w : RtpsWriter) (ack : Int) : SnToTqeMap :=
  w.elems_not_acked_.takeWhile (fun e => decide (e.1 < ack))

/-- The set `sns_to_release` of `acked_by_all_helper_i`. -/
def sns_to_release (moved : SnToTqeMap) : List Int :=
  moved.foldl (fun sns e => sn_set_insert sns e.1) []

/-- The second half of `acked_by_all_helper_i` (lines 2667-2684), for the minimum
`ack` of the readers.  `none`: `release_acked` is called on a nil `send_buff_`. -/
def RtpsWriter.acked_by_all_release (w : RtpsWriter) (ack : Int) (to_deliver : SnToTqeMap) :
    Option (RtpsWriter × SnToTqeMap) :=
  match w.send_buff_ with
  | some sb =>
    some ({ w with
            elems_not_acked_ := w.elems_not_acked_.dropWhile (fun e => decide (e.1 < ack))
            send_buff_ := some ((sns_to_release (acked_entries w ack)).foldl
              SingleSendBuffer.release_acked sb) },
          (acked_entries w ack).foldl (fun m e => multimap_insert m e.1 e.2) to_deliver)
  | none =>
    if (sns_to_release (acked_entries w ack)).isEmpty then
      some ({ w with
              elems_not_acked_ := w.elems_not_acked_.dropWhile (fun e => decide (e.1 < ack)) },
            (acked_entries w ack).foldl (fun m e => multimap_insert m e.1 e.2) to_deliver)
    else none

/-- `RtpsWriter::acked_by_all_helper_i`: the writer afterwards and `to_deliver`.
`none`: `release_acked` is called on a nil `send_buff_`. -/
def RtpsWriter.acked_by_all_helper_i (w : RtpsWriter) (link : Bool) (to_deliver : SnToTqeMap) :
    Option (RtpsWriter × SnToTqeMap) :=
  if !link then some (w, to_deliver)
  else if w.elems_not_acked_.isEmpty then some (w, to_deliver)
  else if all_readers_ack w.remote_readers_ = SequenceNumber.MAX_VALUE then some (w, to_deliver)
  else w.acked_by_all_release (all_readers_ack w.remote_readers_) to_deliver

/-- `RtpsWriter::gather_gaps_i`: the meta-submessages pushed. -/
def RtpsWriter.gather_gaps_i (w : RtpsWriter) (reader : RepoId) (gaps : DisjointSequence) :
    List MetaSubmessage :=
  let firstMissing := gaps.low
  let base := SequenceNumber.next gaps.cumulative_ack
  let bm : LongSeq8 × Nat :=
    if gaps.disjoint then
      let bitmap := bitmap_resize [] (bitmap_num_longs base gaps.high)
      let t := gaps.to_bitmap bitmap bitmap.length false
      (t.2.1, t.2.2)
    else ([0], 1)
  let gap : GapSubmessage :=
    { smHeader := ⟨GAP, FLAG_E, 0⟩, readerId := reader.entityId, writerId := w.id_.entityId,
      gapStart := firstMissing, gapList := ⟨base, bm.2, bm.1⟩ }
  let meta_submessage : MetaSubmessage := ⟨w.id_, reader, [], Submessage.gap_sm gap⟩
  if w.durable_ && decide (reader.entityId = ENTITYID_UNKNOWN) then
    (w.remote_readers_.filter (fun ri => !ri.2.expecting_durable_data)).map
      (fun ri => { meta_submessage with
                   dst_guid_ := ⟨ri.1.guidPrefix, meta_submessage.dst_guid_.entityId⟩ })
  else [meta_submessage]

/-- The state of the scan of `durable_data_` in `process_acknack` (lines 2211-2243):
the iterator `it` as the entries not yet passed, `lastSent`, `gaps`, `sent_some`
and the elements resent so far. -/
structure DurableScan where
  it : List (Int × TransportQueueElement)
  lastSent : Int
  gaps : DisjointSequence
  sent_some : Bool
  resent : List TransportQueueElement
deriving DecidableEq, Repr

/-- The resend of one stored durable sample (lines 2225-2235). -/
def durable_scan_send (st : DurableScan) (e : Int × TransportQueueElement) : DurableScan :=
  { st with
    resent := st.resent ++ [e.2]
    sent_some := true
    gaps := if e.1 > st.lastSent + 1 then
        st.gaps.insert_range (st.lastSent + 1, SequenceNumber.previous e.1)
      else st.gaps
    lastSent := e.1 }

/-- One round of the loop over the requested ranges `psr[i]` (lines 2220-2243). -/
def durable_scan_range (dd_last : Int) (st : DurableScan) (r : Int × Int) : DurableScan :=
  let it1 := st.it.dropWhile (fun e => decide (e.1 < r.1))
  let st1 := (it1.takeWhile (fun e => decide (e.1 ≤ r.2))).foldl durable_scan_send st
  let it2 := it1.dropWhile (fun e => decide (e.1 ≤ r.2))
  let st2 := { st1 with it := it2 }
  if st2.lastSent < r.2 && decide (r.2 < dd_last) then
    let g1 := st2.gaps.insert_range (st2.lastSent + 1, r.2)
    let g2 :=
      match it2 with
      | [] => g1
      | e :: _ => g1.insert_range (r.2, SequenceNumber.previous e.1)
    { st2 with gaps := g2 }
  else st2

/-- The loop of lines 2269-2275: the requested ranges that start at or below
`dd_first`, cut at `dd_first`. -/
def gaps_below_durable (dd_first : Int) : List (Int × Int) → DisjointSequence → DisjointSequence
  | [], gaps => gaps
  | r :: rest, gaps =>
    if r.1 > dd_first then gaps
    else gaps_below_durable dd_first rest (gaps.insert_range (r.1, min r.2 dd_first))

/-- The outcome of the durable-data part of `process_acknack` (lines 2176-2285) for
a reader with stashed durable data: either the call returns from inside it, or
it goes on with `pendingCallbacks` and the reader's remaining `durable_data_`. -/
inductive DurableOutcome where
  | returned (events : List WriterEvent) (meta_submessages : List MetaSubmessage)
  | goes_on (events : List WriterEvent) (meta_submessages : List MetaSubmessage)
      (pendingCallbacks : List (Int × TransportQueueElement))
      (durable_data : List (Int × TransportQueueElement))
deriving DecidableEq, Repr

/-- The durable-data part of `process_acknack` (lines 2176-2285); `ri` has a
non-empty `durable_data_`. -/
def RtpsWriter.process_acknack_durable (w : RtpsWriter) (ri : ReaderInfo)
    (acknack : AckNackSubmessage) (remote : RepoId) (is_final : Bool) : DurableOutcome :=
  let ack := acknack.readerSNState.bitmapBase
  let dd_last := map_last_key ri.durable_data_
  if ack > dd_last then DurableOutcome.goes_on [] [] ri.durable_data_ []
  else
    let requests0 := DisjointSequence.nil.insert_bitmap ack acknack.readerSNState.numBits
      acknack.readerSNState.bitmap
    let requests :=
      if requests0.empty && !is_final && decide (ack = w.heartbeat_high ri) then
        if (map_find ri.durable_data_ ack).isSome then requests0.insert ack else requests0
      else requests0
    let psr := requests.present_sequence_ranges
    let lastSent :=
      if !requests.empty then SequenceNumber.previous requests.low else SequenceNumber.ZERO
    let st := psr.foldl (durable_scan_range dd_last)
      ⟨ri.durable_data_, lastSent, DisjointSequence.nil, false, []⟩
    let events := st.resent.map WriterEvent.durability_resend
    let ms1 := if !st.gaps.empty then w.gather_gaps_i remote st.gaps else []
    if st.sent_some then DurableOutcome.returned events ms1
    else
      let dd_first := match ri.durable_data_.head? with
        | none => 0
        | some e => e.1
      if !requests.empty && decide (requests.high < dd_first) then
        DurableOutcome.returned events (ms1 ++ w.gather_gaps_i remote
          (requests.insert_range (requests.high, SequenceNumber.previous dd_first)))
      else if !requests.empty && decide (requests.low < dd_first) then
        DurableOutcome.returned events (ms1 ++ w.gather_gaps_i remote
          (gaps_below_durable dd_first psr st.gaps))
      else DurableOutcome.goes_on events ms1 [] ri.durable_data_

/-- The update of the reader record in lines 2286-2297 of `process_acknack`: the
cumulative ack and the recorded request. -/
def acknack_update_reader (ri : ReaderInfo) (acknack : AckNackSubmessage) (is_final : Bool) :
    ReaderInfo :=
  let ack := acknack.readerSNState.bitmapBase
  let ri1 :=
    if ack ≠ SequenceNumber.SEQUENCENUMBER_UNKNOWN ∧ ack ≠ SequenceNumber.ZERO then
      { ri with cur_cumulative_ack_ := ack }
    else ri
  if !is_final || bitmapNonEmpty acknack.readerSNState then
    { ri1 with requested_changes_ := ri1.requested_changes_ ++ [acknack.readerSNState] }
  else ri1

/-- The calls made in lines 2302-2320 of `process_acknack`, after the ones made
before (`events`). -/
def acknack_finish_events (local_id remote : RepoId) (is_final first_ack : Bool)
    (events : List WriterEvent) (pendingCallbacks to_deliver : SnToTqeMap) : List WriterEvent :=
  events ++ (if !is_final then [WriterEvent.nack_reply_schedule] else [])
    ++ pendingCallbacks.map (fun e => WriterEvent.data_delivered e.2)
    ++ to_deliver.map (fun e => WriterEvent.data_delivered e.2)
    ++ (if first_ack then [WriterEvent.invoke_on_start_callbacks local_id remote true] else [])

/-- The part of `process_acknack` after the durable-data part (lines 2286-2320), for
the reader record `ri` as updated so far. -/
def RtpsWriter.process_acknack_finish (w : RtpsWriter) (ri : ReaderInfo)
    (acknack : AckNackSubmessage) (remote : RepoId) (is_final first_ack : Bool)
    (events : List WriterEvent) (meta_submessages : List MetaSubmessage)
    (pendingCallbacks : List (Int × TransportQueueElement)) : Option WriterResult :=
  match RtpsWriter.acked_by_all_helper_i
      { w with remote_readers_ :=
                 guid_set w.remote_readers_ remote (acknack_update_reader ri acknack is_final) }
      true [] with
  | none => none
  | some a =>
    some ⟨a.1, acknack_finish_events w.id_ remote is_final first_ack events pendingCallbacks a.2,
      meta_submessages⟩

/-- `RtpsWriter::process_acknack`.  `none`: the call does not return normally. -/
def RtpsWriter.process_acknack (w : RtpsWriter) (link : Bool) (acknack : AckNackSubmessage)
    (src : RepoId) : Option WriterResult :=
  if !link then some ⟨w, [], []⟩
  else
    match guid_find w.remote_readers_ src with
    | none => some ⟨w, [], []⟩
    | some ri =>
      if acknack.count ≤ ri.acknack_recvd_count_ then some ⟨w, [], []⟩
      else
        let first_ack := !ri.handshake_done_
        let ri1 := { ri with acknack_recvd_count_ := acknack.count, handshake_done_ := true }
        let is_final := acknack.smHeader.flags &&& FLAG_F != 0
        if !ri1.durable_data_.isEmpty then
          match w.process_acknack_durable ri1 acknack src is_final with
          | DurableOutcome.returned events ms =>
            some ⟨{ w with remote_readers_ := guid_set w.remote_readers_ src ri1 }, events, ms⟩
          | DurableOutcome.goes_on events ms pending dd =>
            w.process_acknack_finish { ri1 with durable_data_ := dd } acknack src is_final
              first_ack events ms pending
        else w.process_acknack_finish ri1 acknack src is_final first_ack [] [] []

/-- `RtpsWriter::process_nackfrag`. -/
def RtpsWriter.process_nackfrag (w : RtpsWriter) (link : Bool) (nackfrag : NackFragSubmessage)
    (src : RepoId) : WriterResult :=
  if !link then ⟨w, [], []⟩
  else
    match guid_find w.remote_readers_ src with
    | none => ⟨w, [], []⟩
    | some ri =>
      if nackfrag.count ≤ ri.nackfrag_recvd_count_ then ⟨w, [], []⟩
      else
        let ri1 := { ri with
          nackfrag_recvd_count_ := nackfrag.count
          requested_frags_ :=
            map_assign ri.requested_frags_ nackfrag.writerSN nackfrag.fragmentNumberState }
        ⟨{ w with remote_readers_ := guid_set w.remote_readers_ src ri1 },
          [WriterEvent.nack_reply_schedule], []⟩

/-- Modelled from the spec: the entity id of the secure volatile-participant
writer (`ENTITYID_P2P_BUILTIN_PARTICIPANT_VOLATILE_SECURE_WRITER`). -/
def ENTITYID_P2P_BUILTIN_PARTICIPANT_VOLATILE_SECURE_WRITER : Nat := 4278321859

/-- The state of the loop of `gather_heartbeats` over the readers (lines 2824-2855). -/
structure HeartbeatGather where
  to_guids_ : List RepoId
  pre_assoc_hb_guids : List RepoId
  pendingCallbacks : List TransportQueueElement
  has_durable_data : Bool
  durable_max : Int
  readers : List (RepoId × ReaderInfo)
deriving DecidableEq, Repr

/-- One round of the loop of `gather_heartbeats` over the readers. -/
def gather_heartbeats_reader (has_data : Bool) (now durable_data_timeout : Nat)
    (st : HeartbeatGather) (ri : RepoId × ReaderInfo) : HeartbeatGather :=
  let st1 :=
    if has_data then { st with to_guids_ := guid_set_insert st.to_guids_ ri.1 }
    else if !ri.2.handshake_done_ then
      { st with pre_assoc_hb_guids := guid_set_insert st.pre_assoc_hb_guids ri.1 }
    else st
  if !ri.2.durable_data_.isEmpty then
    if now > ri.2.durable_timestamp_ + durable_data_timeout then
      { st1 with
        pendingCallbacks := st1.pendingCallbacks ++ ri.2.durable_data_.map (fun e => e.2)
        readers := st1.readers ++ [(ri.1, { ri.2 with durable_data_ := [] })] }
    else
      { st1 with
        has_durable_data := true
        durable_max := if map_last_key ri.2.durable_data_ > st1.durable_max then
            map_last_key ri.2.durable_data_ else st1.durable_max
        to_guids_ := guid_set_insert st1.to_guids_ ri.1
        readers := st1.readers ++ [ri] }
  else { st1 with readers := st1.readers ++ [ri] }

/-- The result of `gather_heartbeats`: its return value, the writer afterwards, the
elements appended to `pendingCallbacks` and the meta-submessages pushed. -/
structure HeartbeatResult where
  ret : Bool
  writer : RtpsWriter
  pendingCallbacks : List TransportQueueElement
  meta_submessages : List MetaSubmessage
deriving DecidableEq, Repr

/-- The meta-submessages that `gather_heartbeats` pushes (lines 2877-2908): the
directed, non-final pre-association heartbeats, then, unless the call ends there
(`stop`), the combined heartbeat or, for the secure volatile writer, one directed
heartbeat for each destination. -/
def heartbeat_messages (security : Bool) (id_ : RepoId) (to_guids_ pre_assoc_hb_guids : List RepoId)
    (hb : HeartBeatSubmessage) (stop : Bool) : List MetaSubmessage :=
  let meta_submessage : MetaSubmessage := ⟨id_, GUID_UNKNOWN, to_guids_, Submessage.heartbeat_sm hb⟩
  let pre_hb : HeartBeatSubmessage :=
    { hb with smHeader := { hb.smHeader with flags := hb.smHeader.flags &&& (255 - FLAG_F) } }
  let pre := pre_assoc_hb_guids.map (fun g =>
    (⟨id_, g, [], Submessage.heartbeat_sm { pre_hb with readerId := g.entityId }⟩ :
      MetaSubmessage))
  if stop then pre
  else if security &&
      decide (id_.entityId = ENTITYID_P2P_BUILTIN_PARTICIPANT_VOLATILE_SECURE_WRITER) then
    pre ++ to_guids_.map (fun g =>
      (⟨id_, g, [], Submessage.heartbeat_sm { hb with readerId := g.entityId }⟩ :
        MetaSubmessage))
  else pre ++ [meta_submessage]

/-- `RtpsWriter::gather_heartbeats`.  `security` is the build option
`OPENDDS_SECURITY`, `now` the time of the call and `durable_data_timeout` the
configured timeout. -/
def RtpsWriter.gather_heartbeats (w : RtpsWriter) (link security : Bool)
    (now durable_data_timeout : Nat) (additional_guids : List RepoId) (allow_final : Bool) :
    HeartbeatResult :=
  if !link then ⟨false, w, [], []⟩
  else
    let has_data :=
      match w.send_buff_ with
      | none => false
      | some sb => !sb.empty
    let st := w.remote_readers_.foldl (gather_heartbeats_reader has_data now durable_data_timeout)
      ⟨additional_guids, [], [], false, SequenceNumber.ZERO, []⟩
    let is_final := allow_final && w.elems_not_acked_.isEmpty
    let send_low := match w.send_buff_ with
      | none => 1
      | some sb => sb.low
    let send_high := match w.send_buff_ with
      | none => 0
      | some sb => sb.high
    let firstSN := if w.durable_ || !has_data then 1 else send_low
    let lastSN := max st.durable_max (if has_data then send_high else SequenceNumber.ZERO)
    let hb : HeartBeatSubmessage :=
      { smHeader := ⟨HEARTBEAT, FLAG_E ||| (if is_final then FLAG_F else 0), HEARTBEAT_SZ⟩,
        readerId := ENTITYID_UNKNOWN, writerId := w.id_.entityId,
        firstSN := firstSN, lastSN := lastSN, count := wrap_int32 (w.heartbeat_count_ + 1) }
    let w1 := { w with
      heartbeat_count_ := wrap_int32 (w.heartbeat_count_ + 1)
      remote_readers_ := st.readers }
    ⟨true, w1, st.pendingCallbacks,
      heartbeat_messages security w.id_ st.to_guids_ st.pre_assoc_hb_guids hb
        (is_final && !has_data && !st.has_durable_data)⟩

/-- The loop of `RtpsWriter::send_heartbeats_manual_i` over the readers
(lines 3005-3015). -/
def manual_durable_max (now durable_data_timeout : Nat) (durable_max : Int)
    (ri : RepoId × ReaderInfo) : Int :=
  if !ri.2.durable_data_.isEmpty then
    if now ≤ ri.2.durable_timestamp_ + durable_data_timeout
        ∧ map_last_key ri.2.durable_data_ > durable_max then
      map_last_key ri.2.durable_data_
    else durable_max
  else durable_max

/-- `RtpsWriter::send_heartbeats_manual_i`: the writer afterwards and the
meta-submessages pushed. -/
def RtpsWriter.send_heartbeats_manual_i (w : RtpsWriter) (link : Bool)
    (now durable_data_timeout : Nat) : RtpsWriter × List MetaSubmessage :=
  if !link then (w, [])
  else
    let has_data :=
      match w.send_buff_ with
      | none => false
      | some sb => !sb.empty
    let durable_max := w.remote_readers_.foldl (manual_durable_max now durable_data_timeout)
      SequenceNumber.INITIAL_VALUE
    let send_low := match w.send_buff_ with
      | none => 1
      | some sb => sb.low
    let send_high := match w.send_buff_ with
      | none => 0
      | some sb => sb.high
    let firstSN := if w.durable_ || !has_data then 1 else send_low
    let lastSN := max durable_max (if has_data then send_high else 1)
    let counter := wrap_int32 (w.heartbeat_count_ + 1)
    let hb : HeartBeatSubmessage :=
      { smHeader := ⟨HEARTBEAT, FLAG_E ||| FLAG_F ||| FLAG_L, HEARTBEAT_SZ⟩,
        readerId := ENTITYID_UNKNOWN, writerId := w.id_.entityId,
        firstSN := firstSN, lastSN := lastSN, count := counter }
    ({ w with heartbeat_count_ := counter },
     [⟨w.id_, GUID_UNKNOWN, [], Submessage.heartbeat_sm hb⟩])

/-- A call that makes a writer emit heartbeats. -/
inductive HeartbeatCall where
  | gather (additional_guids : List RepoId) (allow_final : Bool)
  | manual
deriving DecidableEq, Repr

/-- One heartbeat call in the life of a writer: the call, the writer's state at
that time apart from `heartbeat_count_` (which only the heartbeat calls change),
and the environment of the call. -/
structure HeartbeatStep where
  state : RtpsWriter
  link : Bool
  security : Bool
  now : Nat
  durable_data_timeout : Nat
  call : HeartbeatCall
deriving DecidableEq, Repr

/-- One heartbeat call on the writer whose counter is `count`: the counter
afterwards and the meta-submessages pushed. -/
def heartbeat_step (count : Int) (s : HeartbeatStep) : Int × List MetaSubmessage :=
  let w := { s.state with heartbeat_count_ := count }
  match s.call with
  | HeartbeatCall.gather additional_guids allow_final =>
    let r := w.gather_heartbeats s.link s.security s.now s.durable_data_timeout
      additional_guids allow_final
    (r.writer.heartbeat_count_, r.meta_submessages)
  | HeartbeatCall.manual =>
    let r := w.send_heartbeats_manual_i s.link s.now s.durable_data_timeout
    (r.1.heartbeat_count_, r.2)

/-- A sequence of heartbeat calls of one writer, starting with the counter
`count`: the meta-submessages pushed by each call. -/
def heartbeat_calls (count : Int) : List HeartbeatStep → List (List MetaSubmessage)
  | [] => []
  | s :: rest => (heartbeat_step count s).2 :: heartbeat_calls (heartbeat_step count s).1 rest

/-- The counts of the HEARTBEAT submessages among meta-submessages. -/
def heartbeat_counts : List MetaSubmessage → List Int
  | [] => []
  | m :: rest =>
    match m.sm_ with
    | Submessage.heartbeat_sm hb => hb.count :: heartbeat_counts rest
    | _ => heartbeat_counts rest

/-! ## Bundler -/

/-- Insertion into an `AddrSet` (`std::set<ACE_INET_Addr>`).  An address is the
natural number that gives its place in the order of `ACE_INET_Addr`. -/
def addr_set_insert : List Nat → Nat → List Nat
  | [], k => [k]
  | x :: rest, k =>
    if k < x then k :: x :: rest
    else if k = x then x :: rest
    else x :: addr_set_insert rest k

/-- The order of `AddrSet` as a map key: `operator<` of `std::set`, the
lexicographic comparison of the two ascending sequences. -/
def addr_set_lt : List Nat → List Nat → Bool
  | _, [] => false
  | [], _ :: _ => true
  | a :: as, b :: bs => decide (a < b) || (decide (a = b) && addr_set_lt as bs)

/-- The default-constructed `ACE_INET_Addr` (`NO_ADDR`). -/
def NO_ADDR : Nat := 0

/-- What the bundler reads of the link: the locator tables, the configured
`max_bundle_size_` and relay address, and the collaborators `peer_ids` (of
`DataLink`), `GuidConverter::isReader` / `isWriter` and the ICE agent
(`ice_address = none` without `OPENDDS_SECURITY` or without an endpoint). -/
structure RtpsUdpDataLink where
  locators_ : List (RepoId × Nat)
  interesting_readers_ : List (RepoId × Nat)
  interesting_writers_ : List (RepoId × Nat)
  max_bundle_size_ : Nat
  rtps_relay_address : Nat
  peer_ids : RepoId → Option (List RepoId)
  is_reader : RepoId → Bool
  is_writer : RepoId → Bool
  ice_address : Option (RepoId → RepoId → Nat)

/-- `RtpsUdpDataLink::accumulate_addresses`. -/
def RtpsUdpDataLink.accumulate_addresses (link : RtpsUdpDataLink) (local_id remote : RepoId)
    (addresses : List Nat) : List Nat :=
  let normal_addr : Nat :=
    match guid_find link.locators_ remote with
    | some a => a
    | none =>
      if link.is_reader remote then (guid_find link.interesting_readers_ remote).getD NO_ADDR
      else if link.is_writer remote then (guid_find link.interesting_writers_ remote).getD NO_ADDR
      else NO_ADDR
  let ice_addr : Nat :=
    match link.ice_address with
    | none => NO_ADDR
    | some f => f local_id remote
  if ice_addr = NO_ADDR then
    let a1 := if normal_addr ≠ NO_ADDR then addr_set_insert addresses normal_addr else addresses
    if link.rtps_relay_address ≠ NO_ADDR then addr_set_insert a1 link.rtps_relay_address else a1
  else if ice_addr ≠ normal_addr then addr_set_insert addresses ice_addr
  else if normal_addr ≠ NO_ADDR then addr_set_insert addresses normal_addr
  else addresses

/-- `RtpsUdpDataLink::get_addresses_i(local)`. -/
def RtpsUdpDataLink.get_addresses_i (link : RtpsUdpDataLink) (local_id : RepoId) : List Nat :=
  match link.peer_ids local_id with
  | none => []
  | some peers => peers.foldl (fun acc p => link.accumulate_addresses local_id p acc) []

/-- The C++ `std::map::operator[]` followed by a change of the mapped value: the
entry for `k` is created with `dflt` when there is none, and `f` is applied to
its value.  `lt` is the order of the keys. -/
def map_modify {κ α : Type} [DecidableEq κ] (lt : κ → κ → Bool) :
    List (κ × α) → κ → α → (α → α) → List (κ × α)
  | [], k, dflt, f => [(k, f dflt)]
  | e :: rest, k, dflt, f =>
    if lt k e.1 then (k, f dflt) :: e :: rest
    else if k = e.1 then (e.1, f e.2) :: rest
    else e :: map_modify lt rest k dflt f

/-- The address set of a meta-submessage, computed by one round of the loop of
`build_meta_submessage_map` (lines 1624-1631) from the value `addrs` has then. -/
def meta_addrs (link : RtpsUdpDataLink) (addrs : List Nat) (m : MetaSubmessage) : List Nat :=
  let addrs0 :=
    if m.dst_guid_ = GUID_UNKNOWN then link.get_addresses_i m.from_guid_
    else link.accumulate_addresses m.from_guid_ m.dst_guid_ addrs
  m.to_guids_.foldl (fun a g => link.accumulate_addresses m.from_guid_ g a) addrs0

/-- The destination key of a meta-submessage in the map (lines 1635-1642): its
prefix with the unknown entity id, or `GUID_UNKNOWN`. -/
def dest_key (m : MetaSubmessage) : RepoId :=
  if m.dst_guid_.guidPrefix ≠ GUIDPREFIX_UNKNOWN then ⟨m.dst_guid_.guidPrefix, ENTITYID_UNKNOWN⟩
  else GUID_UNKNOWN

/-- One round of the loop of `build_meta_submessage_map`; the state is the local
`addrs` and the map, `it` the position of `m` in the vector (its iterator). -/
def build_step (link : RtpsUdpDataLink) (st : List Nat × List (List Nat × List (RepoId × List Nat)))
    (it : Nat) (m : MetaSubmessage) : List Nat × List (List Nat × List (RepoId × List Nat)) :=
  let addrs := meta_addrs link st.1 m
  if addrs.isEmpty then (addrs, st.2)
  else
    ([], map_modify addr_set_lt st.2 addrs []
      (fun dests => map_modify RepoId.lt dests (dest_key m) [] (fun v => v ++ [it])))

/-- The loop of `build_meta_submessage_map` over the vector, from position `it`. -/
def build_loop (link : RtpsUdpDataLink) :
    Nat → List MetaSubmessage → List Nat × List (List Nat × List (RepoId × List Nat)) →
      List Nat × List (List Nat × List (RepoId × List Nat))
  | _, [], st => st
  | it, m :: rest, st => build_loop link (it + 1) rest (build_step link st it m)

/-- `RtpsUdpDataLink::build_meta_submessage_map`, started on an empty map: the
`AddrDestMetaSubmessageMap`, whose iterators are positions in the vector. -/
def RtpsUdpDataLink.build_meta_submessage_map (link : RtpsUdpDataLink)
    (meta_submessages : List MetaSubmessage) : List (List Nat × List (RepoId × List Nat)) :=
  (build_loop link 0 meta_submessages ([], [])).2

/-- What the bundler measures and serializes: an INFO_DST with its prefix, or a
submessage. -/
inductive BundleItem where
  | info_dst (guidPrefix : Nat)
  | sm (s : Submessage)
deriving DecidableEq, Repr

/-- Modelled from the spec: `gen_find_size(val, size, padding)` adds to `size` the
bytes `val` occupies and to `padding` the alignment it needs at that position.
The generated functions are the parameter `sizes`: `sizes val size padding` is
the pair of the two amounts added. -/
def gen_find_size (sizes : BundleItem → Nat → Nat → Nat × Nat) (val : BundleItem)
    (size padding : Nat) : Nat × Nat :=
  (size + (sizes val size padding).1, padding + (sizes val size padding).2)

/-- The struct `BundleHelper`. -/
structure BundleHelper where
  max_bundle_size_ : Nat
  size_ : Nat
  padding_ : Nat
  prev_size_ : Nat
  prev_padding_ : Nat
  meta_submessage_bundle_sizes_ : List Nat
deriving DecidableEq, Repr

/-- `BundleHelper::end_bundle`. -/
def BundleHelper.end_bundle (h : BundleHelper) : BundleHelper :=
  { h with
    meta_submessage_bundle_sizes_ := h.meta_submessage_bundle_sizes_ ++ [h.size_ + h.padding_]
    size_ := 0
    padding_ := 0
    prev_size_ := 0
    prev_padding_ := 0 }

/-- `BundleHelper::push_to_next_bundle`. -/
def BundleHelper.push_to_next_bundle (h : BundleHelper) : BundleHelper :=
  { h with
    meta_submessage_bundle_sizes_ :=
      h.meta_submessage_bundle_sizes_ ++ [h.prev_size_ + h.prev_padding_]
    size_ := h.size_ - h.prev_size_
    padding_ := h.padding_ - h.prev_padding_
    prev_size_ := 0
    prev_padding_ := 0 }

/-- `BundleHelper::add_to_bundle`: the helper afterwards and the value returned. -/
def BundleHelper.add_to_bundle (sizes : BundleItem → Nat → Nat → Nat × Nat) (h : BundleHelper)
    (val : BundleItem) : BundleHelper × Bool :=
  let h1 := { h with
    prev_size_ := h.size_
    prev_padding_ := h.padding_
    size_ := (gen_find_size sizes val h.size_ h.padding_).1
    padding_ := (gen_find_size sizes val h.size_ h.padding_).2 }
  if h1.size_ + h1.padding_ > h1.max_bundle_size_ then (h1.push_to_next_bundle, false)
  else (h1, true)

/-- `BundleHelper::prev_size_diff`. -/
def BundleHelper.prev_size_diff (h : BundleHelper) : Nat := h.size_ - h.prev_size_

/-- The value stored in `submessageLength` (lines 1729-1744):
`static_cast<CORBA::UShort>(prev_size_diff()) - SMHDR_SZ`, converted to the
16-bit field. -/
def backfill_length (diff : Nat) : Nat := (diff % 65536 + 65536 - SMHDR_SZ) % 65536

/-- The assignment to `smHeader.submessageLength` of the submessage in the union. -/
def set_submessage_length (sm : Submessage) (len : Nat) : Submessage :=
  match sm with
  | Submessage.heartbeat_sm hb =>
    Submessage.heartbeat_sm { hb with smHeader := { hb.smHeader with submessageLength := len } }
  | Submessage.acknack_sm an =>
    Submessage.acknack_sm { an with smHeader := { an.smHeader with submessageLength := len } }
  | Submessage.gap_sm gap =>
    Submessage.gap_sm { gap with smHeader := { gap.smHeader with submessageLength := len } }
  | Submessage.nack_frag_sm nf =>
    Submessage.nack_frag_sm { nf with smHeader := { nf.smHeader with submessageLength := len } }
  | Submessage.unset => Submessage.unset

/-- The call `meta_submessage_bundles.back().push_back(it)`. -/
def back_push_back : List (List Nat) → Nat → List (List Nat)
  | [], it => [[it]]
  | [b], it => [b ++ [it]]
  | b :: c :: rest, it => b :: back_push_back (c :: rest) it

/-- The state of `bundle_mapped_meta_submessages`: the helper, `prev_dst`, the
three output vectors (the sizes are in the helper) and the vector of
meta-submessages, whose `submessageLength` fields it fills in. -/
structure BundleState where
  helper : BundleHelper
  prev_dst : RepoId
  meta_submessage_bundles : List (List Nat)
  meta_submessage_bundle_addrs : List (List Nat)
  meta_submessages : List MetaSubmessage
deriving DecidableEq, Repr

/-- The INFO_DST check at the head of the innermost loop (lines 1716-1722). -/
def bundle_info_dst (sizes : BundleItem → Nat → Nat → Nat × Nat) (addr : List Nat)
    (dest : RepoId) (st : BundleState) : BundleState :=
  if dest ≠ GUID_UNKNOWN ∧ dest ≠ st.prev_dst then
    if (st.helper.add_to_bundle sizes (BundleItem.info_dst 0)).2 then
      { st with helper := (st.helper.add_to_bundle sizes (BundleItem.info_dst 0)).1 }
    else
      { st with
        helper := (st.helper.add_to_bundle sizes (BundleItem.info_dst 0)).1
        meta_submessage_bundles := st.meta_submessage_bundles ++ [[]]
        meta_submessage_bundle_addrs := st.meta_submessage_bundle_addrs ++ [addr] }
  else st

/-- The `switch` of the innermost loop (lines 1724-1749) on the meta-submessage
at `it`: the helper, `result` and the vector afterwards.  An iterator of the map
always points into the vector. -/
def bundle_submessage (sizes : BundleItem → Nat → Nat → Nat × Nat) (st : BundleState) (it : Nat) :
    BundleHelper × Bool × List MetaSubmessage :=
  match st.meta_submessages.get? it with
  | none => (st.helper, true, st.meta_submessages)
  | some res =>
    match res.sm_ with
    | Submessage.unset => (st.helper, false, st.meta_submessages)
    | sm =>
      let r := st.helper.add_to_bundle sizes (BundleItem.sm sm)
      (r.1, r.2, st.meta_submessages.set it
        { res with sm_ := set_submessage_length sm (backfill_length r.1.prev_size_diff) })

/-- The body of the innermost loop of `bundle_mapped_meta_submessages`
(lines 1715-1759) for the iterator `it` of destination `dest` in the address set
`addr`. -/
def bundle_item (sizes : BundleItem → Nat → Nat → Nat × Nat) (addr : List Nat) (dest : RepoId)
    (st : BundleState) (it : Nat) : BundleState :=
  let st1 := bundle_info_dst sizes addr dest st
  let r := bundle_submessage sizes st1 it
  if r.2.1 then
    { helper := r.1
      prev_dst := dest
      meta_submessage_bundles := back_push_back st1.meta_submessage_bundles it
      meta_submessage_bundle_addrs := st1.meta_submessage_bundle_addrs
      meta_submessages := r.2.2 }
  else
    { helper := r.1
      prev_dst := GUID_UNKNOWN
      meta_submessage_bundles := back_push_back (st1.meta_submessage_bundles ++ [[]]) it
      meta_submessage_bundle_addrs := st1.meta_submessage_bundle_addrs ++ [addr]
      meta_submessages := r.2.2 }

/-- The loop over one destination of an address set. -/
def bundle_dest (sizes : BundleItem → Nat → Nat → Nat × Nat) (addr : List Nat)
    (st : BundleState) (e : RepoId × List Nat) : BundleState :=
  e.2.foldl (bundle_item sizes addr e.1) st

/-- The body of the outer loop: one address set. -/
def bundle_addr (sizes : BundleItem → Nat → Nat → Nat × Nat) (st : BundleState)
    (e : List Nat × List (RepoId × List Nat)) : BundleState :=
  let st1 := { st with
    meta_submessage_bundles := st.meta_submessage_bundles ++ [[]]
    meta_submessage_bundle_addrs := st.meta_submessage_bundle_addrs ++ [e.1]
    prev_dst := GUID_UNKNOWN }
  let st2 := e.2.foldl (bundle_dest sizes e.1) st1
  { st2 with helper := st2.helper.end_bundle }

/-- `RtpsUdpDataLink::bundle_mapped_meta_submessages`, started on empty output
vectors. -/
def bundle_mapped_meta_submessages (sizes : BundleItem → Nat → Nat → Nat × Nat)
    (max_bundle_size : Nat) (adr_map : List (List Nat × List (RepoId × List Nat)))
    (meta_submessages : List MetaSubmessage) : BundleState :=
  adr_map.foldl (bundle_addr sizes)
    ⟨⟨max_bundle_size, 0, 0, 0, 0, []⟩, GUID_UNKNOWN, [], [], meta_submessages⟩

/-- What `send_bundled_submessages` serializes for one bundle (lines 1797-1806),
`prev_dst` being the destination of the last INFO_DST. -/
def serialize_bundle (meta_submessages : List MetaSubmessage) : RepoId → List Nat → List BundleItem
  | _, [] => []
  | prev_dst, it :: rest =>
    match meta_submessages.get? it with
    | none => serialize_bundle meta_submessages prev_dst rest
    | some res =>
      let dst : RepoId := ⟨res.dst_guid_.guidPrefix, ENTITYID_UNKNOWN⟩
      (if dst ≠ GUID_UNKNOWN ∧ dst ≠ prev_dst then [BundleItem.info_dst dst.guidPrefix] else [])
        ++ BundleItem.sm res.sm_ :: serialize_bundle meta_submessages dst rest

/-- A call `send_rtps_control(mb, addrs)`: the capacity of the message block, the
bundle (the iterators serialized into it, in order), what was serialized, and the
address set. -/
structure SendEvent where
  capacity : Nat
  bundle : List Nat
  content : List BundleItem
  addrs : List Nat
deriving DecidableEq, Repr

/-- The bytes that serializing `content` from the start of a buffer needs. -/
def serialized_size (sizes : BundleItem → Nat → Nat → Nat × Nat) (content : List BundleItem) : Nat :=
  let r := content.foldl (fun sp val => gen_find_size sizes val sp.1 sp.2) (0, 0)
  r.1 + r.2

/-- The loop of `send_bundled_submessages` over the bundles (lines 1793-1808);
`none` when a bundle has no recorded size or address set (a read past the end of
the vector). -/
def send_loop (meta_submessages : List MetaSubmessage) :
    List (List Nat) → List (List Nat) → List Nat → Option (List SendEvent)
  | [], _, _ => some []
  | b :: bundles, a :: addrs, s :: sizes =>
    (send_loop meta_submessages bundles addrs sizes).map
      (fun evs => ⟨s, b, serialize_bundle meta_submessages GUID_UNKNOWN b, a⟩ :: evs)
  | _ :: _, _, _ => none

/-- `RtpsUdpDataLink::send_bundled_submessages`: the calls of `send_rtps_control`,
in order. -/
def RtpsUdpDataLink.send_bundled_submessages (link : RtpsUdpDataLink)
    (sizes : BundleItem → Nat → Nat → Nat × Nat) (meta_submessages : List MetaSubmessage) :
    Option (List SendEvent) :=
  if meta_submessages.isEmpty then some []
  else
    let st := bundle_mapped_meta_submessages sizes link.max_bundle_size_
      (link.build_meta_submessage_map meta_submessages) meta_submessages
    send_loop st.meta_submessages st.meta_submessage_bundles st.meta_submessage_bundle_addrs
      st.helper.meta_submessage_bundle_sizes_

/-! ## Invariants used in the proofs -/

/-- The part of the in-order invariant that holds at every point of a handler:
about a record and the sequence numbers `L` released so far. -/
structure HeldOrdered (info : WriterInfo) (L : List Int) : Prop where
  wf : info.recvd_.WF
  nonneg : ∀ n, info.recvd_.Mem n → 0 ≤ n
  held_sorted : info.held_.Pairwise (fun a b => a.1 < b.1)
  held_mem : ∀ e ∈ info.held_, info.recvd_.Mem e.1
  log_sorted : L.Pairwise (fun a b => a < b)
  frags : info.frags_ = []
  closed : (info.recvd_.empty = true ∨ 1 < info.recvd_.low) → L = []
  below : info.recvd_.empty = false → info.recvd_.low ≤ 1 →
    ∀ x ∈ L, x ≤ info.recvd_.cumulative_ack
  sep : ∀ x ∈ L, ∀ e ∈ info.held_, x < e.1

/-- Between handlers, once the received set reaches down to 1, every held
sample lies above the cumulative ack. -/
def HeldAbove (info : WriterInfo) : Prop :=
  info.recvd_.empty = false → info.recvd_.low ≤ 1 →
    ∀ e ∈ info.held_, info.recvd_.cumulative_ack < e.1

/-- The state of a durable reader with the single remote writer `w`, after the
sequence numbers `L` have been released. -/
def DurableOrdered (w : RepoId) (r : RtpsReader) (L : List Int) : Prop :=
  r.durable_ = true ∧ ∃ info, r.remote_writers_ = [(w, info)] ∧ HeldOrdered info L ∧ HeldAbove info

/-- The helper respects the limit `max`: its current size and every size it has
recorded are at most `max`. -/
def HelperOk (max : Nat) (h : BundleHelper) : Prop :=
  h.max_bundle_size_ = max ∧ h.size_ + h.padding_ ≤ max ∧
    ∀ s ∈ h.meta_submessage_bundle_sizes_, s ≤ max

/-- Inside the loop over one address set: no meta-submessage has an unset
union, every bundle has its address set, and every bundle but the current one
has its size. -/
def LengthsInner (st : BundleState) : Prop :=
  (∀ m ∈ st.meta_submessages, m.sm_ ≠ Submessage.unset) ∧
  st.meta_submessage_bundles.length = st.meta_submessage_bundle_addrs.length ∧
  st.meta_submessage_bundles.length = st.helper.meta_submessage_bundle_sizes_.length + 1

/-- Between two address sets: as `LengthsInner`, and every bundle has its size. -/
def LengthsOuter (st : BundleState) : Prop :=
  (∀ m ∈ st.meta_submessages, m.sm_ ≠ Submessage.unset) ∧
  st.meta_submessage_bundles.length = st.meta_submessage_bundle_addrs.length ∧
  st.meta_submessage_bundles.length = st.helper.meta_submessage_bundle_sizes_.length

/-- A strict total order given as a Boolean comparison. -/
def StrictTotal {κ : Type} (lt : κ → κ → Bool) : Prop :=
  (∀ a, lt a a = false) ∧ (∀ a b c, lt a b = true → lt b c = true → lt a c = true) ∧
    (∀ a b, lt a b = false → a ≠ b → lt b a = true)

/-- The keys of a map are in strictly ascending order. -/
def KeysSorted {κ α : Type} (lt : κ → κ → Bool) (m : List (κ × α)) : Prop :=
  m.Pairwise (fun a b => lt a.1 b.1 = true)

/-- The iterators of a destination map, in iteration order. -/
def dests_iters (dests : List (RepoId × List Nat)) : List Nat :=
  (dests.map (fun e => e.2)).flatten

/-- The iterators of an address map, in iteration order. -/
def adr_map_iters (m : List (List Nat × List (RepoId × List Nat))) : List Nat :=
  (m.map (fun e => dests_iters e.2)).flatten

/-- The invariant of the loop of `build_meta_submessage_map` after the
meta-submessages `done`: both levels of the map are sorted, every vector of
iterators is ascending, every processed meta-submessage with a non-empty address
set is filed under its address set and destination key, and no iterator is
filed twice. -/
def BuildInv (link : RtpsUdpDataLink) (done : List MetaSubmessage)
    (m : List (List Nat × List (RepoId × List Nat))) : Prop :=
  KeysSorted addr_set_lt m ∧
  (∀ e ∈ m, KeysSorted RepoId.lt e.2) ∧
  (∀ e ∈ m, ∀ d ∈ e.2, d.2.Pairwise (fun a b => a < b)) ∧
  (∀ i mi, done.get? i = some mi → meta_addrs link [] mi ≠ [] →
    ∃ dests, (meta_addrs link [] mi, dests) ∈ m ∧ ∃ vec, (dest_key mi, vec) ∈ dests ∧ i ∈ vec) ∧
  (adr_map_iters m).Nodup ∧
  (∀ x ∈ adr_map_iters m, x < done.length)

/-- The test of `process_heartbeat_i` for an immediate reply (lines 1310-1312),
on the record as it is when the heartbeat arrives. -/
def heartbeat_immediate_reply (info : WriterInfo) (heartbeat : HeartBeatSubmessage) : Bool :=
  decide (info.hb_range_.2 = 0) && decide (heartbeat.lastSN ≠ 0)

/-- The test of `process_heartbeat_i` for a reply (lines 1352-1354), on the
record `info` as it is after the heartbeat has been applied. -/
def heartbeat_reply_owed (durable : Bool) (rs : ReceiveStrategy) (src : RepoId)
    (info : WriterInfo) (heartbeat : HeartBeatSubmessage) : Bool :=
  !(heartbeat.smHeader.flags &&& FLAG_F != 0) ||
    (!(heartbeat.smHeader.flags &&& FLAG_L != 0) &&
      (info.should_nack || should_nack_durable durable info
        || (rs.has_fragments info.hb_range_ src).1))

/-- The counts of the ACKNACK submessages among meta-submessages that are
addressed to the writer `wid`, in the order they were pushed. -/
def acknack_counts (wid : RepoId) : List MetaSubmessage → List Int
  | [] => []
  | m :: rest =>
    match m.sm_ with
    | Submessage.acknack_sm an =>
      if m.dst_guid_ = wid then an.count :: acknack_counts wid rest else acknack_counts wid rest
    | _ => acknack_counts wid rest

/-- The condition under which `gather_ack_nacks_i` builds an ACKNACK for one
writer record (line 1483): `ack_pending_ || nack || finalFlag`. -/
def acknack_emitted (durable finalFlag : Bool) (info : WriterInfo) : Bool :=
  info.ack_pending_ || (info.should_nack || should_nack_durable durable info) || finalFlag

/-- The test `has_data` of `gather_heartbeats` (lines 2808-2809): the send buffer
has been created and holds a sample. -/
def send_buff_has_data (send_buff : Option SingleSendBuffer) : Bool :=
  match send_buff with
  | none => false
  | some sb => !sb.empty

/-- Durable data of a reader that `gather_heartbeats` running at `now` keeps
(lines 2831-2834): there is some, and `now` is not later than its expiration. -/
def ReaderInfo.unexpired_durable_data (ri : ReaderInfo) (now durable_data_timeout : Nat) : Bool :=
  !ri.durable_data_.isEmpty && decide (now ≤ ri.durable_timestamp_ + durable_data_timeout)

/-! ## The link: associations, dispatch and heartbeat counts -/

/-- The status of an interesting remote entity (`InterestingRemote::status`). -/
inductive InterestingStatus where
  | DOES_NOT_EXIST
  | EXISTS
deriving DecidableEq, Repr

/-- An `InterestingRemote`: the local entity interested in the remote one, the
remote address, the time of the last HEARTBEAT or ACKNACK received from it and
its status; the listener is the target of the callback events. -/
structure InterestingRemote where
  localid : RepoId
  address : Nat
  last_activity : Nat
  status : InterestingStatus
deriving DecidableEq, Repr

/-- The tables of `RtpsUdpDataLink` that associations, dispatch and the heartbeat
timers work on.  An `RtpsReader_rch` is the position of the reader object in
`reader_objs`, so that `readers_` and `readers_of_writer_` share the objects as
the handles do; the writers are owned by `writers_` alone and are kept there. -/
structure LinkState where
  local_prefix_ : Nat
  rtps_relay_address : Nat
  writers_ : List (RepoId × RtpsWriter)
  reader_objs : List RtpsReader
  readers_ : List (RepoId × Nat)
  readers_of_writer_ : List (RepoId × Nat)
  heartbeat_counts_ : List (RepoId × Int)
  interesting_readers_ : List (RepoId × InterestingRemote)
  interesting_writers_ : List (RepoId × InterestingRemote)
  interesting_ack_nacks_ : List (RepoId × RepoId × Nat)
  best_effort_heartbeat_count_ : Int
deriving DecidableEq, Repr

/-- A link on which nothing has been associated or registered. -/
def LinkState.fresh ( local_prefix : Nat) : LinkState :=
  { local_prefix_ := local_prefix, rtps_relay_address := NO_ADDR, writers_ := [],
    reader_objs := [], readers_ := [], readers_of_writer_ := [], heartbeat_counts_ := [],
    interesting_readers_ := [], interesting_writers_ := [], interesting_ack_nacks_ := [],
    best_effort_heartbeat_count_ := 0 }

/-- Calls the link makes on its collaborators, in call order. -/
inductive LinkEvent where
  | relay_beacon_schedule_enable (reenable : Bool)
  | heartbeat_schedule_enable (reenable : Bool)
  | heartbeat_disable
  | invoke_on_start_callbacks (local_id remote_id : RepoId) (ok : Bool)
  | data_delivered (element : TransportQueueElement)
  | data_dropped (element : TransportQueueElement) (dropped_by_transport : Bool)
  | send_bundled_submessages (meta_submessages : List MetaSubmessage)
  | reader_does_not_exist (reader writer : RepoId)
  | heartbeatchecker_schedule_enable (reenable : Bool)
  | writer_does_not_exist (writer reader : RepoId)
  | writer_exists (writer reader : RepoId)
  | reader_exists (reader writer : RepoId)
  | heartbeat_reply_schedule
deriving DecidableEq, Repr

/-- Insertion into a `std::multimap` keyed by GUID: after the entries with an
equal key. -/
def guid_multimap_insert {α : Type} : List (RepoId × α) → RepoId → α → List (RepoId × α)
  | [], k, v => [(k, v)]
  | e :: rest, k, v =>
    if k.lt e.1 then (k, v) :: e :: rest else e :: guid_multimap_insert rest k v

/-- `std::map::erase(key)` for a map keyed by GUID. -/
def guid_erase {α : Type} (m : List (RepoId × α)) (id : RepoId) : List (RepoId × α) :=
  m.filter (fun e => !decide (e.1 = id))

/-- The constructor `RtpsWriter(link, id, durable, hbc)`; `expected_` is the
default-constructed `SequenceNumber`. -/
def RtpsWriter.make (id : RepoId) (durable : Bool) (hbc : Int) : RtpsWriter :=
  { remote_readers_ := [], send_buff_ := none, expected_ := SequenceNumber.INITIAL_VALUE,
    elems_not_acked_ := [], to_deliver_ := [], id_ := id, durable_ := durable,
    heartbeat_count_ := hbc }

/-- `RtpsWriter::add_reader`. -/
def RtpsWriter.add_reader (w : RtpsWriter) (id : RepoId) (info : ReaderInfo) : RtpsWriter :=
  match guid_find w.remote_readers_ id with
  | some _ => w
  | none => { w with remote_readers_ := map_modify RepoId.lt w.remote_readers_ id info (fun x => x) }

/-- `RtpsWriter::remove_reader`: the writer afterwards and the elements that the
destructor of the erased `ReaderInfo` reports as dropped (`expire_durable_data`). -/
def RtpsWriter.remove_reader (w : RtpsWriter) (id : RepoId) :
    RtpsWriter × List TransportQueueElement :=
  ({ w with remote_readers_ := guid_erase w.remote_readers_ id },
   match guid_find w.remote_readers_ id with
   | some ri => ri.durable_data_.map (fun e => e.2)
   | none => [])

/-- `RtpsWriter::reader_count`. -/
def RtpsWriter.reader_count (w : RtpsWriter) : Nat := w.remote_readers_.length

/-- `RtpsWriter::pre_stop_helper`: the writer afterwards, `to_deliver` and
`to_drop`.  `none`: `release_acked` is called on a nil `send_buff_`. -/
def RtpsWriter.pre_stop_helper (w : RtpsWriter)
    (to_deliver to_drop : List TransportQueueElement) :
    Option (RtpsWriter × List TransportQueueElement × List TransportQueueElement) :=
  let to_deliver1 := to_deliver ++ w.to_deliver_.map (fun e => e.2)
  if w.elems_not_acked_.isEmpty then some ({ w with to_deliver_ := [] }, to_deliver1, to_drop)
  else
    match w.send_buff_ with
    | none => none
    | some sb =>
      some ({ w with
              to_deliver_ := []
              elems_not_acked_ := []
              send_buff_ := some ((sns_to_release w.elems_not_acked_).foldl
                SingleSendBuffer.release_acked sb) },
            to_deliver1, to_drop ++ w.elems_not_acked_.map (fun e => e.2))

/-- `RtpsWriter::process_acked_by_all`: the writer afterwards and the elements
reported as delivered.  `none`: `release_acked` is called on a nil `send_buff_`. -/
def RtpsWriter.process_acked_by_all (w : RtpsWriter) :
    Option (RtpsWriter × List TransportQueueElement) :=
  match w.acked_by_all_helper_i true [] with
  | none => none
  | some r => some (r.1, r.2.map (fun e => e.2))

/-- The constructor `RtpsReader(link, id, durable)`. -/
def RtpsReader.make (id : RepoId) (durable : Bool) : RtpsReader :=
  { id_ := id, durable_ := durable, remote_writers_ := [] }

/-- `RtpsReader::add_writer`. -/
def RtpsReader.add_writer (r : RtpsReader) (id : RepoId) (info : WriterInfo) : RtpsReader :=
  match guid_find r.remote_writers_ id with
  | some _ => r
  | none => { r with remote_writers_ := map_modify RepoId.lt r.remote_writers_ id info (fun x => x) }

/-- `RtpsReader::remove_writer`. -/
def RtpsReader.remove_writer (r : RtpsReader) (id : RepoId) : RtpsReader :=
  { r with remote_writers_ := guid_erase r.remote_writers_ id }

/-- `RtpsReader::writer_count`. -/
def RtpsReader.writer_count (r : RtpsReader) : Nat := r.remote_writers_.length

/-- A call through an `RtpsReader_rch`: the object at the handle is replaced by
what the call leaves. -/
def modify_reader (objs : List RtpsReader) (h : Nat) (f : RtpsReader → RtpsReader) :
    List RtpsReader :=
  match objs[h]? with
  | some r => objs.set h (f r)
  | none => objs

/-- `RtpsUdpDataLink::associated`.  `is_writer` and `is_reader` are
`GuidConverter::isWriter` and `isReader`. -/
def LinkState.associated (link : LinkState) (is_writer is_reader : RepoId → Bool)
    (local_id remote_id : RepoId)
    (local_reliable remote_reliable local_durable remote_durable : Bool) :
    LinkState × List LinkEvent :=
  let ev0 : List LinkEvent :=
    if is_reader local_id && decide (link.rtps_relay_address ≠ NO_ADDR) then
      [LinkEvent.relay_beacon_schedule_enable false]
    else []
  if !local_reliable then (link, ev0)
  else if is_writer local_id then
    if remote_reliable then
      let link1 : LinkState :=
        match guid_find link.writers_ local_id with
        | some _ => link
        | none =>
          let hb_start : Int := (guid_find link.heartbeat_counts_ local_id).getD 0
          { link with
            heartbeat_counts_ := guid_erase link.heartbeat_counts_ local_id
            writers_ := map_modify RepoId.lt link.writers_ local_id
              (RtpsWriter.make local_id local_durable hb_start) (fun x => x) }
      ({ link1 with
         writers_ := link1.writers_.map (fun e =>
           if e.1 = local_id then (e.1, e.2.add_reader remote_id (ReaderInfo.fresh remote_durable))
           else e) },
       ev0 ++ [LinkEvent.heartbeat_schedule_enable true])
    else (link, ev0 ++ [LinkEvent.invoke_on_start_callbacks local_id remote_id true])
  else if is_reader local_id then
    let t : LinkState × Nat :=
      match guid_find link.readers_ local_id with
      | some h => (link, h)
      | none =>
        ({ link with
           reader_objs := link.reader_objs ++ [RtpsReader.make local_id local_durable]
           readers_ := map_modify RepoId.lt link.readers_ local_id link.reader_objs.length
             (fun x => x) },
         link.reader_objs.length)
    ({ t.1 with
       readers_of_writer_ := guid_multimap_insert t.1.readers_of_writer_ remote_id t.2
       reader_objs := modify_reader t.1.reader_objs t.2
         (fun r => r.add_writer remote_id WriterInfo.fresh) },
     ev0)
  else (link, ev0)

/-- `RtpsUdpDataLink::register_for_reader`. -/
def LinkState.register_for_reader (link : LinkState) (writerid readerid : RepoId)
    (address : Nat) : LinkState × List LinkEvent :=
  ({ link with
     interesting_readers_ := guid_multimap_insert link.interesting_readers_ readerid
       ⟨writerid, address, 0, InterestingStatus.DOES_NOT_EXIST⟩
     heartbeat_counts_ :=
       match guid_find link.heartbeat_counts_ writerid with
       | some _ => link.heartbeat_counts_
       | none => map_modify RepoId.lt link.heartbeat_counts_ writerid 0 (fun _ => 0) },
   if link.interesting_readers_.isEmpty then [LinkEvent.heartbeat_schedule_enable false] else [])

/-- `RtpsUdpDataLink::release_reservations_i`.  `none`: the call does not return
(`release_acked` on a nil `send_buff_`). -/
def LinkState.release_reservations_i (link : LinkState) (is_writer is_reader : RepoId → Bool)
    (remote_id local_id : RepoId) : Option (LinkState × List LinkEvent) :=
  if is_writer local_id then
    match guid_find link.writers_ local_id with
    | none => some (link, [])
    | some writer =>
      let rm := writer.remove_reader remote_id
      let dropped : List LinkEvent := rm.2.map (fun e => LinkEvent.data_dropped e false)
      if rm.1.reader_count = 0 then
        match rm.1.pre_stop_helper [] [] with
        | none => none
        | some p =>
          let hbc : Nat := toULong p.1.heartbeat_count_
          some ({ link with
                  heartbeat_counts_ := map_modify RepoId.lt link.heartbeat_counts_ local_id 0
                    (fun _ => wrap_int32 hbc)
                  writers_ := guid_erase link.writers_ local_id },
                dropped ++ p.2.1.map (fun e => LinkEvent.data_delivered e)
                  ++ p.2.2.map (fun e => LinkEvent.data_dropped e true))
      else
        match rm.1.process_acked_by_all with
        | none => none
        | some a =>
          some ({ link with writers_ := guid_set link.writers_ local_id a.1 },
                dropped ++ a.2.map (fun e => LinkEvent.data_delivered e))
  else if is_reader local_id then
    match guid_find link.readers_ local_id with
    | none => some (link, [])
    | some h =>
      let row := link.readers_of_writer_.filter
        (fun e => !(decide (e.1 = remote_id) && decide (e.1 = local_id)))
      let objs := modify_reader link.reader_objs h (fun r => r.remove_writer remote_id)
      let count : Nat :=
        match objs[h]? with
        | some r => r.writer_count
        | none => 0
      some ({ link with
              readers_of_writer_ := row
              reader_objs := objs
              readers_ := if count = 0 then guid_erase link.readers_ local_id else link.readers_ },
            [])
  else some (link, [])

/-- The vector `to_call` of `datareader_dispatch`: the handles of the readers a
submessage from `src` with the reader entity id `readerId` is given to. -/
def LinkState.datareader_targets (link : LinkState) (readerId : Nat) (src : RepoId) :
    List Nat :=
  if readerId = ENTITYID_UNKNOWN then
    (link.readers_of_writer_.filter (fun e => decide (e.1 = src))).map (fun e => e.2)
  else
    match guid_find link.readers_ ⟨link.local_prefix_, readerId⟩ with
    | none => []
    | some h => [h]

/-- The call of `func` on every reader of `to_call`, in order (the loop of
`datareader_dispatch`): the reader objects afterwards, for each called reader its
GUID and the calls it made, the meta-submessages pushed and `schedule_timer`.
`none`: a handler does not return. -/
def dispatch_calls (func : RtpsReader → Option ReaderResult) :
    List Nat → List RtpsReader →
      Option (List RtpsReader × List (RepoId × List ReaderEvent) × List MetaSubmessage × Bool)
  | [], objs => some (objs, [], [], false)
  | h :: rest, objs =>
    match objs[h]? with
    | none => dispatch_calls func rest objs
    | some r =>
      match func r with
      | none => none
      | some res =>
        match dispatch_calls func rest (objs.set h res.reader) with
        | none => none
        | some t =>
          some (t.1, (r.id_, res.events) :: t.2.1, res.meta_submessages ++ t.2.2.1,
            res.ret || t.2.2.2)

/-- Calls made by `datareader_dispatch`: those of the readers called, then the
send of the bundled meta-submessages and the scheduling of the heartbeat reply. -/
structure DispatchResult where
  link : LinkState
  calls : List (RepoId × List ReaderEvent)
  meta_submessages : List MetaSubmessage
  schedule_timer : Bool
deriving DecidableEq, Repr

/-- `RtpsUdpDataLink::datareader_dispatch` for a submessage with the reader entity
id `readerId` from the writer `src`; a submessage for a reader the link does not
know is dropped. -/
def LinkState.datareader_dispatch (link : LinkState) (readerId : Nat) (src : RepoId)
    (func : RtpsReader → Option ReaderResult) : Option DispatchResult :=
  match dispatch_calls func (link.datareader_targets readerId src) link.reader_objs with
  | none => none
  | some t => some ⟨{ link with reader_objs := t.1 }, t.2.1, t.2.2.1, t.2.2.2⟩

/-- `RtpsUdpDataLink::received(DataSubmessage)`; `sample` is the sample the
receive strategy is holding for this DATA. -/
def LinkState.received_data (link : LinkState) (data : DataSubmessage)
    (sample : ReceivedDataSample) ( src_prefix : Nat) : Option DispatchResult :=
  link.datareader_dispatch data.readerId ⟨ src_prefix, data.writerId⟩
    (fun r => some (r.process_data_i true data sample ⟨ src_prefix, data.writerId⟩))

/-- The state of the first loop of `send_heartbeats` (lines 2723-2736): the
entries of `interesting_readers_` passed so far, `writers_to_advertise` and
`readerDoesNotExistCallbacks`. -/
structure HeartbeatScan where
  interesting : List (RepoId × InterestingRemote)
  writers_to_advertise : List (RepoId × List RepoId)
  callbacks : List (RepoId × InterestingRemote)
deriving DecidableEq, Repr

/-- One round of the first loop of `send_heartbeats`.  The comparison
`last_activity < now - n * heartbeat_period` of signed times is written with the
product on the left. -/
def send_heartbeats_scan (now heartbeat_period : Nat) (st : HeartbeatScan)
    (pos : RepoId × InterestingRemote) : HeartbeatScan :=
  let adv :=
    if pos.2.status = InterestingStatus.DOES_NOT_EXIST ∨
        (pos.2.status = InterestingStatus.EXISTS ∧
          pos.2.last_activity + 3 * heartbeat_period < now) then
      map_modify RepoId.lt st.writers_to_advertise pos.2.localid []
        (fun s => guid_set_insert s pos.1)
    else st.writers_to_advertise
  if pos.2.status = InterestingStatus.EXISTS ∧
      pos.2.last_activity + 10 * heartbeat_period < now then
    { interesting := st.interesting ++
        [(pos.1, { pos.2 with status := InterestingStatus.DOES_NOT_EXIST })]
      writers_to_advertise := adv
      callbacks := st.callbacks ++ [pos] }
  else { st with interesting := st.interesting ++ [pos], writers_to_advertise := adv }

/-- The state of the loop of `send_heartbeats` over the writers (lines 2750-2759). -/
structure HeartbeatSend where
  writers : List (RepoId × RtpsWriter)
  writers_to_advertise : List (RepoId × List RepoId)
  pendingCallbacks : List TransportQueueElement
  meta_submessages : List MetaSubmessage
deriving DecidableEq, Repr

/-- One round of the loop of `send_heartbeats` over the writers. -/
def send_heartbeats_writer (security : Bool) (now durable_data_timeout : Nat)
    (st : HeartbeatSend) (rw : RepoId × RtpsWriter) : HeartbeatSend :=
  match guid_find st.writers_to_advertise rw.1 with
  | none =>
    let g := rw.2.gather_heartbeats true security now durable_data_timeout [] true
    { st with
      writers := st.writers ++ [(rw.1, g.writer)]
      pendingCallbacks := st.pendingCallbacks ++ g.pendingCallbacks
      meta_submessages := st.meta_submessages ++ g.meta_submessages }
  | some guids =>
    let g := rw.2.gather_heartbeats true security now durable_data_timeout guids false
    { writers := st.writers ++ [(rw.1, g.writer)]
      writers_to_advertise :=
        if g.ret then guid_erase st.writers_to_advertise rw.1 else st.writers_to_advertise
      pendingCallbacks := st.pendingCallbacks ++ g.pendingCallbacks
      meta_submessages := st.meta_submessages ++ g.meta_submessages }

/-- One round of the last loop of `send_heartbeats` (lines 2761-2779): the
heartbeat that advertises a writer without an `RtpsWriter` to the interesting
readers, counted in `heartbeat_counts_`. -/
def send_heartbeats_advertise (st : List (RepoId × Int) × List MetaSubmessage)
    (pos : RepoId × List RepoId) : List (RepoId × Int) × List MetaSubmessage :=
  let counts := map_modify RepoId.lt st.1 pos.1 0 (fun c => wrap_int32 (c + 1))
  let hb : HeartBeatSubmessage :=
    { smHeader := ⟨HEARTBEAT, FLAG_E, HEARTBEAT_SZ⟩, readerId := ENTITYID_UNKNOWN,
      writerId := pos.1.entityId, firstSN := 1, lastSN := SequenceNumber.ZERO,
      count := (guid_find counts pos.1).getD 0 }
  (counts, st.2 ++ [⟨pos.1, GUID_UNKNOWN, pos.2, Submessage.heartbeat_sm hb⟩])

/-- `RtpsUdpDataLink::send_heartbeats` at the time `now`; `heartbeat_period` and
`durable_data_timeout` are the configured values, `security` the build option
`OPENDDS_SECURITY`. -/
def LinkState.send_heartbeats (link : LinkState) (security : Bool)
    (now heartbeat_period durable_data_timeout : Nat) : LinkState × List LinkEvent :=
  let scan := link.interesting_readers_.foldl (send_heartbeats_scan now heartbeat_period)
    ⟨[], [], []⟩
  let disable : List LinkEvent :=
    if link.writers_.isEmpty && link.interesting_readers_.isEmpty then
      [LinkEvent.heartbeat_disable]
    else []
  let snd := link.writers_.foldl (send_heartbeats_writer security now durable_data_timeout)
    ⟨[], scan.writers_to_advertise, [], []⟩
  let adv := snd.writers_to_advertise.foldl send_heartbeats_advertise
    (link.heartbeat_counts_, snd.meta_submessages)
  ({ link with
     interesting_readers_ := scan.interesting
     writers_ := snd.writers
     heartbeat_counts_ := adv.1 },
   disable ++ [LinkEvent.send_bundled_submessages adv.2]
     ++ scan.callbacks.map (fun c => LinkEvent.reader_does_not_exist c.1 c.2.localid)
     ++ snd.pendingCallbacks.map (fun e => LinkEvent.data_dropped e false))

/-! ## The send path: `customize_queue_element` -/

/-- The message ids of control elements that `customize_queue_element` tells
apart; `other` stands for every other `MessageId`. -/
inductive MessageId where
  | DATAWRITER_LIVELINESS
  | END_HISTORIC_SAMPLES
  | other (code : Nat)
deriving DecidableEq, Repr

/-- The dynamic type of a queue element: a `TransportSendControlElement` with its
message id and the GUID in its body, a `TransportSendElement` or a
`TransportCustomizedElement` with the `historic_sample_` flag of its sample, or
another `TransportQueueElement`. -/
inductive ElementKind where
  | control (message_id : MessageId) (body_sub : RepoId)
  | send (historic_sample : Bool)
  | customized (historic_sample : Bool)
  | other
deriving DecidableEq, Repr

/-- What `customize_queue_element` reads of a queue element: its identity, whether
it has a message block, sequence number, publication, subscription and kind. -/
structure QueueElement where
  id : TransportQueueElement
  has_msg : Bool
  sequence : Int
  publication_id : RepoId
  subscription_id : RepoId
  kind : ElementKind
deriving DecidableEq, Repr

/-- A submessage of an `RTPS::SubmessageSeq` built on the send path: an inline
GAP, an INFO_DST with its GUID prefix, or a submessage that
`RtpsSampleHeader::populate_data_*_submessages` produced. -/
inductive InlineSubmessage where
  | gap_sm (gap : GapSubmessage)
  | info_dst_sm (guidPrefix : Nat)
  | populated (tag : Nat)
deriving DecidableEq, Repr

/-- What `customize_queue_element` returns: the null pointer, the element itself,
or a new `RtpsCustomizedElement` around the element with the submessages that
form its header. -/
inductive CustomizeReturn where
  | null
  | element (e : QueueElement)
  | rtps (e : QueueElement) (subm : List InlineSubmessage)
deriving DecidableEq, Repr

/-- The collaborators of the send path: `RtpsSampleHeader::control_message_supported`,
the submessages `populate_data_control_submessages` /
`populate_data_sample_submessages` append for an element and `requires_inline_qos`,
and the size `gen_find_size` computes for a GAP. -/
structure SendPath where
  control_message_supported : MessageId → Bool
  populate : QueueElement → Bool → List InlineSubmessage
  gap_size : GapSubmessage → Nat

/-- The loop of `customize_queue_element_helper` over the readers (lines 704-721):
`gap_ok` and `gap_receivers`, a map from the prefix of a reader (with the unknown
entity id) to the readers with that prefix; the loop ends at the first reader
that is expecting durable data. -/
def gap_receivers_loop :
    List (RepoId × ReaderInfo) → List (RepoId × List RepoId) → Bool × List (RepoId × List RepoId)
  | [], m => (true, m)
  | ri :: rest, m =>
    let m1 := map_modify RepoId.lt m ⟨ri.1.guidPrefix, ENTITYID_UNKNOWN⟩ []
      (fun v => v ++ [ri.1])
    if ri.2.expecting_durable_data then (false, m1) else gap_receivers_loop rest m1

/-- `RtpsWriter::add_gap_submsg_i`: the submessages appended to `msg`. -/
def RtpsWriter.add_gap_submsg_i (w : RtpsWriter) (sp : SendPath) (tqe : QueueElement)
    (dtem : List (RepoId × List RepoId)) : List InlineSubmessage :=
  if tqe.sequence = SequenceNumber.SEQUENCENUMBER_UNKNOWN ∨ tqe.publication_id = GUID_UNKNOWN
      ∨ tqe.subscription_id ≠ GUID_UNKNOWN then []
  else if tqe.sequence ≠ w.expected_ then
    let gap0 : GapSubmessage :=
      { smHeader := ⟨GAP, FLAG_E, 0⟩, readerId := ENTITYID_UNKNOWN,
        writerId := tqe.publication_id.entityId, gapStart := w.expected_,
        gapList := ⟨tqe.sequence, 1, [0]⟩ }
    let gap : GapSubmessage :=
      { gap0 with smHeader := ⟨GAP, FLAG_E, backfill_length (sp.gap_size gap0)⟩ }
    if !w.durable_ then [InlineSubmessage.gap_sm gap]
    else
      (dtem.map (fun d => InlineSubmessage.info_dst_sm d.1.guidPrefix ::
        d.2.map (fun reader =>
          InlineSubmessage.gap_sm { gap with readerId := reader.entityId }))).flatten
  else []

/-- `RtpsWriter::end_historic_samples_i` at the time `now`, for the GUID `sub`
read from the body of the control message (`GUID_UNKNOWN` without one): the
writer afterwards and whether `heartbeat_->schedule_enable(true)` is called. -/
def RtpsWriter.end_historic_samples_i (w : RtpsWriter) (link : Bool) (now : Nat)
    (sub : RepoId) : RtpsWriter × Bool :=
  if w.durable_ then
    let readers :=
      if sub = GUID_UNKNOWN then
        w.remote_readers_.map (fun ri =>
          if ri.2.durable_ then (ri.1, { ri.2 with durable_timestamp_ := now }) else ri)
      else
        match guid_find w.remote_readers_ sub with
        | some ri =>
          if ri.durable_ then guid_set w.remote_readers_ sub { ri with durable_timestamp_ := now }
          else w.remote_readers_
        | none => w.remote_readers_
    ({ w with remote_readers_ := readers }, link)
  else (w, false)

/-- What a call on the send path leaves behind: the writer (for a reliable one),
the value returned, the collaborator calls, the meta-submessages pushed and
`deliver_after_send`. -/
structure CustomizeResult where
  writer : RtpsWriter
  result : CustomizeReturn
  events : List LinkEvent
  meta_submessages : List MetaSubmessage
  deliver_after_send : Bool
deriving DecidableEq, Repr

/-- `RtpsWriter::customize_queue_element_helper` at the time `now`. -/
def RtpsWriter.customize_queue_element_helper (w : RtpsWriter) (link : Bool) (sp : SendPath)
    (now durable_data_timeout : Nat) (element : QueueElement) (requires_inline_qos : Bool) :
    CustomizeResult :=
  if !link then ⟨w, CustomizeReturn.null, [], [], false⟩
  else
    let g := gap_receivers_loop w.remote_readers_ []
    let subm0 : List InlineSubmessage :=
      if g.1 then w.add_gap_submsg_i sp element g.2 else []
    let w1 : RtpsWriter :=
      if element.sequence ≠ SequenceNumber.SEQUENCENUMBER_UNKNOWN then
        { w with expected_ := SequenceNumber.next element.sequence }
      else w
    let finish (durable : Bool) : CustomizeResult :=
      let subm := subm0 ++ sp.populate element requires_inline_qos
      if durable && decide (element.subscription_id ≠ GUID_UNKNOWN) then
        match guid_find w1.remote_readers_ element.subscription_id with
        | some ri =>
          let ri1 : ReaderInfo :=
            { ri with
              durable_data_ := map_assign ri.durable_data_ element.sequence element.id
              durable_timestamp_ := now }
          ⟨{ w1 with
             remote_readers_ := guid_set w1.remote_readers_ element.subscription_id ri1 },
            CustomizeReturn.null, [], [], false⟩
        | none => ⟨w1, CustomizeReturn.rtps element subm, [], [], false⟩
      else ⟨w1, CustomizeReturn.rtps element subm, [], [], false⟩
    match element.kind with
    | ElementKind.control message_id body_sub =>
      if sp.control_message_supported message_id then finish false
      else if message_id = MessageId.END_HISTORIC_SAMPLES then
        let e := w1.end_historic_samples_i link now body_sub
        ⟨e.1, CustomizeReturn.null,
          (if e.2 then [LinkEvent.heartbeat_schedule_enable true] else [])
            ++ [LinkEvent.data_delivered element.id], [], false⟩
      else if message_id = MessageId.DATAWRITER_LIVELINESS then
        let h := w1.send_heartbeats_manual_i link now durable_data_timeout
        ⟨h.1, CustomizeReturn.null, [], h.2, true⟩
      else ⟨w1, CustomizeReturn.null, [LinkEvent.data_dropped element.id true], [], false⟩
    | ElementKind.send historic_sample => finish historic_sample
    | ElementKind.customized historic_sample => finish historic_sample
    | ElementKind.other => ⟨w1, CustomizeReturn.element element, [], [], false⟩

/-- `RtpsUdpDataLink::send_heartbeats_manual_i(tsce, meta_submessages)`: the
counter afterwards and the meta-submessage pushed. -/
def send_heartbeats_manual_i (best_effort_heartbeat_count : Int) (tsce : QueueElement) :
    Int × List MetaSubmessage :=
  let counter := wrap_int32 (best_effort_heartbeat_count + 1)
  let hb : HeartBeatSubmessage :=
    { smHeader := ⟨HEARTBEAT, FLAG_E ||| FLAG_F ||| FLAG_L, HEARTBEAT_SZ⟩,
      readerId := ENTITYID_UNKNOWN, writerId := tsce.publication_id.entityId,
      firstSN := 1, lastSN := tsce.sequence, count := counter }
  (counter, [⟨tsce.publication_id, GUID_UNKNOWN, [], Submessage.heartbeat_sm hb⟩])

/-- The result of `customize_queue_element` on the link. -/
structure LinkCustomizeResult where
  link : LinkState
  result : CustomizeReturn
  events : List LinkEvent
deriving DecidableEq, Repr

/-- `RtpsUdpDataLink::customize_queue_element_non_reliable_i`: the counter
`best_effort_heartbeat_count_` afterwards, the value returned, the collaborator
calls, the meta-submessages pushed and `deliver_after_send`. -/
def customize_queue_element_non_reliable_i (best_effort_heartbeat_count : Int) (sp : SendPath)
    (element : QueueElement) (requires_inline_qos : Bool) :
    Int × CustomizeReturn × List LinkEvent × List MetaSubmessage × Bool :=
  match element.kind with
  | ElementKind.control message_id _ =>
    if sp.control_message_supported message_id then
      (best_effort_heartbeat_count,
        CustomizeReturn.rtps element (sp.populate element requires_inline_qos), [], [], false)
    else if message_id = MessageId.DATAWRITER_LIVELINESS then
      let h := send_heartbeats_manual_i best_effort_heartbeat_count element
      (h.1, CustomizeReturn.null, [], h.2, true)
    else
      (best_effort_heartbeat_count, CustomizeReturn.null,
        [LinkEvent.data_dropped element.id true], [], false)
  | ElementKind.send _ =>
    (best_effort_heartbeat_count,
      CustomizeReturn.rtps element (sp.populate element requires_inline_qos), [], [], false)
  | ElementKind.customized _ =>
    (best_effort_heartbeat_count,
      CustomizeReturn.rtps element (sp.populate element requires_inline_qos), [], [], false)
  | ElementKind.other =>
    (best_effort_heartbeat_count, CustomizeReturn.element element, [], [], false)

/-- `RtpsUdpDataLink::customize_queue_element` at the time `now`;
`requires_inline_qos` is the value the link computes for the peers of the
publication. -/
def LinkState.customize_queue_element (link : LinkState) (sp : SendPath)
    (now durable_data_timeout : Nat) (requires_inline_qos : Bool) (element : QueueElement) :
    LinkCustomizeResult :=
  if !element.has_msg then ⟨link, CustomizeReturn.element element, []⟩
  else
    match guid_find link.writers_ element.publication_id with
    | some writer =>
      let c := writer.customize_queue_element_helper true sp now durable_data_timeout element
        requires_inline_qos
      ⟨{ link with writers_ := guid_set link.writers_ element.publication_id c.writer },
        c.result,
        c.events ++ [LinkEvent.send_bundled_submessages c.meta_submessages]
          ++ (if c.deliver_after_send then [LinkEvent.data_delivered element.id] else [])⟩
    | none =>
      let c := customize_queue_element_non_reliable_i link.best_effort_heartbeat_count_ sp
        element requires_inline_qos
      ⟨{ link with best_effort_heartbeat_count_ := c.1 }, c.2.1,
        c.2.2.1 ++ [LinkEvent.send_bundled_submessages c.2.2.2.1]
          ++ (if c.2.2.2.2 then [LinkEvent.data_delivered element.id] else [])⟩

/-- `RtpsUdpDataLink::get_addresses(local, remote)` (lines 3299-3318). -/
def RtpsUdpDataLink.get_addresses (link : RtpsUdpDataLink) (local_id remote : RepoId) :
    List Nat :=
  link.accumulate_addresses local_id remote []

/-- Calls that the replies to the NACKs make on the send buffer, in call order;
`destinations` is the override of the destinations of the send strategy that is
in force during the call. -/
inductive ResendEvent where
  | resend (destinations : List Nat) (seq : Int)
  | resend_directed (destinations : List Nat) (reader : RepoId) (seq : Int)
  | resend_fragments (destination : Nat) (seq : Int) (fragments : DisjointSequence)
deriving DecidableEq, Repr

/-- Modelled from the spec: `resend_range([a,b], out_gaps)` of §4.2 iterates
`[a,b]`: each contained sequence number is re-sent, each missing one is added to
`out_gaps`.  Result: the sequence numbers re-sent and `out_gaps`. -/
def SingleSendBuffer.resend_i (sb : SingleSendBuffer) (range : Int × Int)
    (gaps : DisjointSequence) : List Int × DisjointSequence :=
  (List.range (range.2 + 1 - range.1).toNat).foldl
    (fun st i =>
      if sb.contains (range.1 + (i : Int)) then (st.1 ++ [range.1 + (i : Int)], st.2)
      else (st.1, st.2.insert (range.1 + (i : Int))))
    ([], gaps)

/-- `RtpsWriter::process_requested_changes_i`: the requests of one reader added to
`requests`.  `bitmap[0] & 1` is the least significant bit of the first word. -/
def RtpsWriter.process_requested_changes_i (w : RtpsWriter) (requests : DisjointSequence)
    (reader : ReaderInfo) : DisjointSequence :=
  reader.requested_changes_.foldl
    (fun requests sn_state =>
      let base := sn_state.bitmapBase
      if sn_state.numBits = 1 ∧ sn_state.bitmap.getD 0 0 % 2 = 0 ∧
          base = w.heartbeat_high reader then
        match w.send_buff_ with
        | none => requests
        | some sb => if sb.contains base then requests.insert base else requests
      else requests.insert_bitmap base sn_state.numBits sn_state.bitmap)
    requests

/-- The step from `requests` to `gaps` (lines 2431-2450, and again lines
2590-2609): without a send buffer, or with an empty one, the requests are the
gaps; otherwise every range of the requests is re-sent and the numbers the
buffer misses are the gaps.  `ev` names the call made for a number re-sent.
Result: the calls and `gaps`. -/
def RtpsWriter.resend_requests (w : RtpsWriter) (requests : DisjointSequence)
    (ev : Int → ResendEvent) : List ResendEvent × DisjointSequence :=
  if requests.empty then ([], DisjointSequence.nil)
  else
    match w.send_buff_ with
    | none => ([], requests)
    | some sb =>
      if sb.empty then ([], requests)
      else
        requests.present_sequence_ranges.foldl
          (fun st range =>
            let r := sb.resend_i range st.2
            (st.1 ++ r.1.map ev, r.2))
          ([], DisjointSequence.nil)

/-- `RtpsWriter::send_directed_nack_replies_i`: the reader record, the calls on the
send buffer and the meta-submessages pushed. -/
def RtpsWriter.send_directed_nack_replies_i (w : RtpsWriter) (link : Option RtpsUdpDataLink)
    (readerId : RepoId) (reader : ReaderInfo) :
    ReaderInfo × List ResendEvent × List MetaSubmessage :=
  match link with
  | none => (reader, [], [])
  | some l =>
    let addrs := l.get_addresses w.id_ readerId
    if addrs.isEmpty then (reader, [], [])
    else
      let requests := w.process_requested_changes_i DisjointSequence.nil reader
      let reader1 : ReaderInfo := { reader with requested_changes_ := [] }
      let r := w.resend_requests requests (ResendEvent.resend_directed addrs readerId)
      if r.2.empty then (reader1, r.1, [])
      else (reader1, r.1, w.gather_gaps_i readerId r.2)

/-- The state of `send_nackfrag_replies_i`: the reader records passed, `gaps`,
`gap_recipients` and the local map `requests` (address, then sequence number, to
the fragments to send again). -/
structure NackFragScan where
  readers : List (RepoId × ReaderInfo)
  gaps : DisjointSequence
  gap_recipients : List Nat
  requests : List (Nat × List (Int × DisjointSequence))
deriving DecidableEq, Repr

/-- One entry of `requested_frags_` (lines 2514-2525), the send buffer existing. -/
def nackfrag_entry (sb : SingleSendBuffer) (remote_addrs : List Nat) (st : NackFragScan)
    (rf : Int × FragmentNumberSet) : NackFragScan :=
  if sb.contains rf.1 then
    { st with
      requests := remote_addrs.foldl
        (fun rq pos =>
          map_modify (fun a b : Nat => decide (a < b)) rq pos []
            (fun fi => map_modify (fun a b : Int => decide (a < b)) fi rf.1 DisjointSequence.nil
              (fun ds => ds.insert_bitmap rf.2.bitmapBase rf.2.numBits rf.2.bitmap)))
        st.requests }
  else
    { st with
      gaps := st.gaps.insert rf.1,
      gap_recipients := remote_addrs.foldl addr_set_insert st.gap_recipients }

/-- One reader of the first loop of `send_nackfrag_replies_i` (lines 2499-2527).
`none`: `send_buff_->contains` is called on the nil handle. -/
def nackfrag_reader (w : RtpsWriter) (l : RtpsUdpDataLink) (st : Option NackFragScan)
    (ri : RepoId × ReaderInfo) : Option NackFragScan :=
  match st with
  | none => none
  | some s =>
    if ri.2.requested_frags_.isEmpty then some { s with readers := s.readers ++ [ri] }
    else
      let remote_addrs := l.get_addresses w.id_ ri.1
      if remote_addrs.isEmpty then some { s with readers := s.readers ++ [ri] }
      else
        match w.send_buff_ with
        | none => none
        | some sb =>
          let s1 := ri.2.requested_frags_.foldl (nackfrag_entry sb remote_addrs) s
          some { s1 with
                 readers := s1.readers ++ [(ri.1, { ri.2 with requested_frags_ := [] })] }

/-- What `send_nackfrag_replies_i` leaves behind: the writer, `gaps`,
`gap_recipients` and the calls on the send buffer. -/
structure NackFragReply where
  writer : RtpsWriter
  gaps : DisjointSequence
  gap_recipients : List Nat
  events : List ResendEvent
deriving DecidableEq, Repr

/-- `RtpsWriter::send_nackfrag_replies_i`; `none` when the nil `send_buff_` is
dereferenced. -/
def RtpsWriter.send_nackfrag_replies_i (w : RtpsWriter) (link : Option RtpsUdpDataLink)
    (gaps : DisjointSequence) (gap_recipients : List Nat) : Option NackFragReply :=
  match link with
  | none => some ⟨w, gaps, gap_recipients, []⟩
  | some l =>
    match w.remote_readers_.foldl (nackfrag_reader w l) (some ⟨[], gaps, gap_recipients, []⟩) with
    | none => none
    | some s =>
      some ⟨{ w with remote_readers_ := s.readers }, s.gaps, s.gap_recipients,
        s.requests.flatMap
          (fun req => req.2.map (fun sn => ResendEvent.resend_fragments req.1 sn.1 sn.2))⟩

/-- The state of the loop of `send_and_gather_nack_replies` over the readers: the
reader records passed, `recipients`, `requests`, and the calls and
meta-submessages of the directed replies. -/
structure NackReplyScan where
  readers : List (RepoId × ReaderInfo)
  recipients : List Nat
  requests : DisjointSequence
  events : List ResendEvent
  meta_submessages : List MetaSubmessage
deriving DecidableEq, Repr

/-- One reader of the loop of `send_and_gather_nack_replies` (lines 2399-2428);
`all_readers_ack` is computed there and never read. -/
def nack_reply_reader (w : RtpsWriter) (l : RtpsUdpDataLink) (is_pvs_writer : Bool)
    (st : NackReplyScan) (ri : RepoId × ReaderInfo) : NackReplyScan :=
  if is_pvs_writer && !ri.2.requested_changes_.isEmpty then
    let d := w.send_directed_nack_replies_i (some l) ri.1 ri.2
    { st with
      readers := st.readers ++ [(ri.1, d.1)],
      events := st.events ++ d.2.1,
      meta_submessages := st.meta_submessages ++ d.2.2 }
  else
    let requests := w.process_requested_changes_i st.requests ri.2
    if !ri.2.requested_changes_.isEmpty then
      let addrs := l.get_addresses w.id_ ri.1
      { st with
        readers := st.readers ++ [(ri.1, { ri.2 with requested_changes_ := [] })],
        recipients :=
          if addrs.isEmpty then st.recipients else addrs.foldl addr_set_insert st.recipients,
        requests := requests }
    else { st with readers := st.readers ++ [ri], requests := requests }

/-- What `send_and_gather_nack_replies` leaves behind: the writer, the calls on the
send buffer and the meta-submessages pushed. -/
structure NackReplyResult where
  writer : RtpsWriter
  events : List ResendEvent
  meta_submessages : List MetaSubmessage
deriving DecidableEq, Repr

/-- `RtpsWriter::send_and_gather_nack_replies`; `security` is `OPENDDS_SECURITY`.
`none` when `send_nackfrag_replies_i` dereferences the nil `send_buff_`. -/
def RtpsWriter.send_and_gather_nack_replies (w : RtpsWriter) (link : Option RtpsUdpDataLink)
    (security : Bool) : Option NackReplyResult :=
  match link with
  | none => some ⟨w, [], []⟩
  | some l =>
    let is_pvs_writer :=
      security && decide (w.id_.entityId = ENTITYID_P2P_BUILTIN_PARTICIPANT_VOLATILE_SECURE_WRITER)
    let st := w.remote_readers_.foldl (nack_reply_reader w l is_pvs_writer)
      ⟨[], [], DisjointSequence.nil, [], []⟩
    let r := w.resend_requests st.requests (ResendEvent.resend st.recipients)
    let w1 : RtpsWriter := { w with remote_readers_ := st.readers }
    match w1.send_nackfrag_replies_i (some l) r.2 st.recipients with
    | none => none
    | some f =>
      some ⟨f.writer, st.events ++ r.1 ++ f.events,
        st.meta_submessages ++
          (if f.gaps.empty then [] else f.writer.gather_gaps_i GUID_UNKNOWN f.gaps)⟩

/-- Durable data of a reader that `gather_heartbeats` running at `now` drops
(lines 2831-2834): there is some, and `now` is later than its expiration
`durable_timestamp_ + durable_data_timeout`. -/
def ReaderInfo.expired_durable_data (ri : ReaderInfo) (now durable_data_timeout : Nat) : Bool :=
  !ri.durable_data_.isEmpty && decide (now > ri.durable_timestamp_ + durable_data_timeout)

/-! ## Interesting remote entities: existence callbacks and pre-association ACKNACKs -/

/-- `RtpsUdpDataLink::register_for_writer`. -/
def LinkState.register_for_writer (link : LinkState) (readerid writerid : RepoId)
    (address : Nat) : LinkState × List LinkEvent :=
  ({ link with
     interesting_writers_ := guid_multimap_insert link.interesting_writers_ writerid
       ⟨readerid, address, 0, InterestingStatus.DOES_NOT_EXIST⟩ },
   if link.interesting_writers_.isEmpty then [LinkEvent.heartbeatchecker_schedule_enable false]
   else [])

/-- `RtpsReader::has_writer`. -/
def RtpsReader.has_writer (r : RtpsReader) (id : RepoId) : Bool :=
  (guid_find r.remote_writers_ id).isSome

/-- Insertion into `interesting_ack_nacks_`, a `std::set<InterestingAckNack>` whose
order compares the writer id and then the reader id: an element with the same
two ids is already there, whatever its address. -/
def ack_nack_set_insert :
    List (RepoId × RepoId × Nat) → RepoId × RepoId × Nat → List (RepoId × RepoId × Nat)
  | [], k => [k]
  | x :: rest, k =>
    if k.1.lt x.1 || (decide (k.1 = x.1) && k.2.1.lt x.2.1) then k :: x :: rest
    else if k.1 = x.1 ∧ k.2.1 = x.2.1 then x :: rest
    else x :: ack_nack_set_insert rest k

/-- The state of the loop of `received(HeartBeatSubmessage)` (lines 1250-1269): the
entries of `interesting_writers_` passed so far, `interesting_ack_nacks_` and
`callbacks`. -/
structure WriterInterestScan where
  interesting : List (RepoId × InterestingRemote)
  interesting_ack_nacks : List (RepoId × RepoId × Nat)
  callbacks : List InterestingRemote
deriving DecidableEq, Repr

/-- One entry of `interesting_writers_` in `received(HeartBeatSubmessage)`: the
entries with the key `src` are those of the range the loop walks.  A handle of
`readers_` without its object does not occur. -/
def received_heartbeat_scan (link : LinkState) (src : RepoId) (now : Nat)
    (st : WriterInterestScan) (pos : RepoId × InterestingRemote) : WriterInterestScan :=
  if pos.1 = src then
    let readerid := pos.2.localid
    let added := ack_nack_set_insert st.interesting_ack_nacks (src, readerid, pos.2.address)
    let acks :=
      match guid_find link.readers_ readerid with
      | none => added
      | some h =>
        match link.reader_objs[h]? with
        | none => st.interesting_ack_nacks
        | some r => if r.has_writer src then added else st.interesting_ack_nacks
    if pos.2.status = InterestingStatus.DOES_NOT_EXIST then
      { interesting := st.interesting ++
          [(pos.1, { pos.2 with last_activity := now, status := InterestingStatus.EXISTS })]
        interesting_ack_nacks := acks
        callbacks := st.callbacks ++ [{ pos.2 with last_activity := now }] }
    else
      { st with
        interesting := st.interesting ++ [(pos.1, { pos.2 with last_activity := now })]
        interesting_ack_nacks := acks }
  else { st with interesting := st.interesting ++ [pos] }

/-- `RtpsUdpDataLink::received(HeartBeatSubmessage)` at the time `now`: the calls
made before the dispatch (the `writer_exists` callbacks and the scheduling of the
heartbeat reply), and the dispatch to the readers, `none` when a reader's
`process_heartbeat_i` does not return. -/
def LinkState.received_heartbeat (link : LinkState) (rs : ReceiveStrategy)
    (heartbeat : HeartBeatSubmessage) ( src_prefix : Nat) (now : Nat) :
    List LinkEvent × Option DispatchResult :=
  let src : RepoId := ⟨ src_prefix, heartbeat.writerId⟩
  let scan := link.interesting_writers_.foldl (received_heartbeat_scan link src now)
    ⟨[], link.interesting_ack_nacks_, []⟩
  let link1 : LinkState :=
    { link with
      interesting_writers_ := scan.interesting
      interesting_ack_nacks_ := scan.interesting_ack_nacks }
  (scan.callbacks.map (fun c => LinkEvent.writer_exists src c.localid)
     ++ (if !scan.interesting_ack_nacks.isEmpty then [LinkEvent.heartbeat_reply_schedule]
         else []),
   link1.datareader_dispatch heartbeat.readerId src
     (fun r => r.process_heartbeat_i true rs heartbeat src))

/-- What `datawriter_dispatch` leaves behind: the link, the calls of the writer
called and the meta-submessages handed to `send_bundled_submessages`. -/
structure WriterDispatchResult where
  link : LinkState
  calls : List WriterEvent
  meta_submessages : List MetaSubmessage
deriving DecidableEq, Repr

/-- `RtpsUdpDataLink::datawriter_dispatch` for a submessage with the writer entity
id `writerId` and the reader entity id `readerId`; a submessage for a writer the
link does not know is dropped.  `none`: the handler does not return. -/
def LinkState.datawriter_dispatch (link : LinkState) (writerId readerId : Nat)
    ( src_prefix : Nat) (func : RtpsWriter → RepoId → Option WriterResult) :
    Option WriterDispatchResult :=
  match guid_find link.writers_ ⟨link.local_prefix_, writerId⟩ with
  | none => some ⟨link, [], []⟩
  | some w =>
    match func w ⟨ src_prefix, readerId⟩ with
    | none => none
    | some res =>
      some ⟨{ link with
              writers_ := link.writers_.map
                (fun e => if e.1 = ⟨link.local_prefix_, writerId⟩ then (e.1, res.writer)
                  else e) },
        res.events, res.meta_submessages⟩

/-- The state of the loop of `received(AckNackSubmessage)` (lines 2024-2037): the
entries of `interesting_readers_` passed so far and the listeners to call. -/
structure ReaderInterestScan where
  interesting : List (RepoId × InterestingRemote)
  callbacks : Nat
deriving DecidableEq, Repr

/-- One entry of `interesting_readers_` in `received(AckNackSubmessage)`: the
entries with the key `remote` are those of the range the loop walks. -/
def received_acknack_scan (local_id remote : RepoId) (now : Nat)
    (st : ReaderInterestScan) (pos : RepoId × InterestingRemote) : ReaderInterestScan :=
  if pos.1 = remote then
    if local_id = pos.2.localid ∧ pos.2.status = InterestingStatus.DOES_NOT_EXIST then
      { interesting := st.interesting ++
          [(pos.1, { pos.2 with last_activity := now, status := InterestingStatus.EXISTS })]
        callbacks := st.callbacks + 1 }
    else
      { st with interesting := st.interesting ++ [(pos.1, { pos.2 with last_activity := now })] }
  else { st with interesting := st.interesting ++ [pos] }

/-- `RtpsUdpDataLink::received(AckNackSubmessage)` at the time `now`: the
`reader_exists` callbacks, one for each listener collected, and the dispatch to
the writer, `none` when `process_acknack` does not return. -/
def LinkState.received_acknack (link : LinkState) (acknack : AckNackSubmessage)
    ( src_prefix : Nat) (now : Nat) : List LinkEvent × Option WriterDispatchResult :=
  let local_id : RepoId := ⟨link.local_prefix_, acknack.writerId⟩
  let remote : RepoId := ⟨ src_prefix, acknack.readerId⟩
  let scan := link.interesting_readers_.foldl (received_acknack_scan local_id remote now) ⟨[], 0⟩
  let link1 : LinkState := { link with interesting_readers_ := scan.interesting }
  (List.replicate scan.callbacks (LinkEvent.reader_exists remote local_id),
   link1.datawriter_dispatch acknack.writerId acknack.readerId src_prefix
     (fun w src => w.process_acknack true acknack src))

/-- The state of the loop of `check_heartbeats` (lines 2920-2929): the entries of
`interesting_writers_` passed so far and `writerDoesNotExistCallbacks`. -/
structure HeartbeatCheck where
  interesting : List (RepoId × InterestingRemote)
  callbacks : List (RepoId × InterestingRemote)
deriving DecidableEq, Repr

/-- One round of the loop of `check_heartbeats`.  The comparison
`last_activity < now - 10 * heartbeat_period` of signed times is written with the
product on the left. -/
def check_heartbeats_scan (now heartbeat_period : Nat) (st : HeartbeatCheck)
    (pos : RepoId × InterestingRemote) : HeartbeatCheck :=
  if pos.2.status = InterestingStatus.EXISTS ∧
      pos.2.last_activity + 10 * heartbeat_period < now then
    { interesting := st.interesting ++
        [(pos.1, { pos.2 with status := InterestingStatus.DOES_NOT_EXIST })]
      callbacks := st.callbacks ++ [pos] }
  else { st with interesting := st.interesting ++ [pos] }

/-- `RtpsUdpDataLink::check_heartbeats` at the time `now`. -/
def LinkState.check_heartbeats (link : LinkState) (now heartbeat_period : Nat) :
    LinkState × List LinkEvent :=
  let scan := link.interesting_writers_.foldl (check_heartbeats_scan now heartbeat_period)
    ⟨[], []⟩
  ({ link with interesting_writers_ := scan.interesting },
   scan.callbacks.map (fun c => LinkEvent.writer_does_not_exist c.1 c.2.localid))

/-- The events on which the status of an interesting remote entity depends: the
arrival of a HEARTBEAT or of an ACKNACK and the two timers. -/
inductive InterestOp where
  | heartbeat (heartbeat : HeartBeatSubmessage) ( src_prefix : Nat) (now : Nat)
  | acknack (acknack : AckNackSubmessage) ( src_prefix : Nat) (now : Nat)
  | check_heartbeats (now heartbeat_period : Nat)
  | send_heartbeats (security : Bool) (now heartbeat_period durable_data_timeout : Nat)
deriving DecidableEq, Repr

/-- One event on the link: the calls on the collaborators, and the link afterwards,
`none` when the handler does not return. -/
def LinkState.interest_step (link : LinkState) (rs : ReceiveStrategy) :
    InterestOp → List LinkEvent × Option LinkState
  | InterestOp.heartbeat hb p now =>
    ((link.received_heartbeat rs hb p now).1,
      (link.received_heartbeat rs hb p now).2.map (fun d => d.link))
  | InterestOp.acknack an p now =>
    ((link.received_acknack an p now).1,
      (link.received_acknack an p now).2.map (fun d => d.link))
  | InterestOp.check_heartbeats now period =>
    ((link.check_heartbeats now period).2, some (link.check_heartbeats now period).1)
  | InterestOp.send_heartbeats security now period timeout =>
    ((link.send_heartbeats security now period timeout).2,
      some (link.send_heartbeats security now period timeout).1)

/-- The calls made by a sequence of events on the link, up to and including those
of an event whose handler does not return. -/
def LinkState.interest_run (link : LinkState) (rs : ReceiveStrategy) :
    List InterestOp → List LinkEvent
  | [] => []
  | op :: rest =>
    (link.interest_step rs op).1 ++
      (match (link.interest_step rs op).2 with
       | none => []
       | some link1 => link1.interest_run rs rest)

/-- The existence callbacks made for the remote writer `w` and the local reader
`r`: `true` for `writer_exists`, `false` for `writer_does_not_exist`. -/
def writer_callbacks (w r : RepoId) : List LinkEvent → List Bool
  | [] => []
  | LinkEvent.writer_exists w1 r1 :: rest =>
    if w1 = w ∧ r1 = r then true :: writer_callbacks w r rest else writer_callbacks w r rest
  | LinkEvent.writer_does_not_exist w1 r1 :: rest =>
    if w1 = w ∧ r1 = r then false :: writer_callbacks w r rest else writer_callbacks w r rest
  | _ :: rest => writer_callbacks w r rest

/-- The existence callbacks made for the remote reader `r` and the local writer
`w`: `true` for `reader_exists`, `false` for `reader_does_not_exist`. -/
def reader_callbacks (r w : RepoId) : List LinkEvent → List Bool
  | [] => []
  | LinkEvent.reader_exists r1 w1 :: rest =>
    if r1 = r ∧ w1 = w then true :: reader_callbacks r w rest else reader_callbacks r w rest
  | LinkEvent.reader_does_not_exist r1 w1 :: rest =>
    if r1 = r ∧ w1 = w then false :: reader_callbacks r w rest else reader_callbacks r w rest
  | _ :: rest => reader_callbacks r w rest

/-- A sequence of callbacks that alternates, beginning with `next`. -/
def alternates (next : Bool) : List Bool → Bool
  | [] => true
  | x :: rest => (x == next) && alternates (!next) rest

/-- The entries of a table of interesting remote entities for the remote entity
`remote` and the local entity `local_id`. -/
def interest_entries (m : List (RepoId × InterestingRemote)) (remote local_id : RepoId) :
    List (RepoId × InterestingRemote) :=
  m.filter (fun e => decide (e.1 = remote) && decide (e.2.localid = local_id))

/-- The test of `send_heartbeats` (line 2731) and `check_heartbeats` (line 2924) at
the time `now`: the entity exists and its last activity is older than
`now - 10 * heartbeat_period`. -/
def InterestingRemote.timed_out (e : InterestingRemote) (now heartbeat_period : Nat) : Bool :=
  decide (e.status = InterestingStatus.EXISTS) &&
    decide (e.last_activity + 10 * heartbeat_period < now)

/-! ## `TransportInst::set_port_in_addr_string` -/

/-- The value `std::string::npos` of a 64-bit `size_type`. -/
def npos : Nat := 18446744073709551615

/-- The scan of `find_last_of`: `i` is the position of the head of the list and
`acc` the last position found so far. -/
def find_last_of_i (c : Char) : List Char → Nat → Nat → Nat
  | [], _, acc => acc
  | x :: rest, i, acc => find_last_of_i c rest (i + 1) (if x = c then i else acc)

/-- `std::string::find_last_of` for a single character: the last position of `c`
in the string, `npos` when it does not occur. -/
def find_last_of (s : List Char) (c : Char) : Nat :=
  find_last_of_i c s 0 npos

/-- `std::string::c_str` as `%s` reads it: the characters before the first NUL. -/
def c_str (s : List Char) : List Char :=
  s.takeWhile (fun c => decide (c ≠ Char.ofNat 0))

/-- The conversion `%hu` of a port number: its value as an `unsigned short`, in
decimal. -/
def format_hu (port_number : Nat) : List Char :=
  Nat.toDigits 10 (port_number % 65536)

/-- `ACE_OS::snprintf(result, bufsize, "%.*s:%hu", precision, str, port_number)`:
a negative precision counts as omitted, and the output is cut to the buffer. -/
def snprintf_precision_s (bufsize : Nat) (precision : Int) (str : List Char) (port_number : Nat) :
    List Char :=
  ((if precision < 0 then c_str str else (c_str str).take precision.toNat)
    ++ ':' :: format_hu port_number).take (bufsize - 1)

/-- `ACE_OS::snprintf(result, bufsize, "[%s]:%hu", str, port_number)`. -/
def snprintf_bracket (bufsize : Nat) (str : List Char) (port_number : Nat) : List Char :=
  ('[' :: c_str str ++ ']' :: ':' :: format_hu port_number).take (bufsize - 1)

/-- `TransportInst::set_port_in_addr_string`: the new value of `addr_str`.  The
positions are `size_type` values converted to `int`. -/
def set_port_in_addr_string (addr_str : List Char) (port_number : Nat) : List Char :=
  if addr_str.count ':' < 2 then
    let pos := find_last_of addr_str ':'
    snprintf_precision_s 1024 (wrap_int32 pos) addr_str port_number
  else if addr_str.head? ≠ some '[' then snprintf_bracket 1024 addr_str port_number
  else
    let pos := find_last_of addr_str ']'
    snprintf_precision_s 1024 (wrap_int32 (((pos + 1) % 18446744073709551616 : Nat) : Int)) addr_str
      port_number

/-! # Properties -/

/-! ## The sequence set -/

namespace DisjointSequence

theorem runsFrom_mono {lb lb1 : Int} {l : List (Int × Int)} (h : lb1 ≤ lb)
    (hl : RunsFrom lb l) : RunsFrom lb1 l := by
  cases l with
  | nil => trivial
  | cons r rest => exact ⟨lt_of_le_of_lt h hl.1, hl.2.1, hl.2.2⟩

theorem runsFrom_insert_i {l : List (Int × Int)} :
    ∀ {lb a b : Int}, RunsFrom lb l → lb < a → a ≤ b → RunsFrom lb (insert_i a b l) := by
  induction l with
  | nil => intro lb a b _ h1 h2; exact ⟨h1, h2, trivial⟩
  | cons r rest ih =>
    intro lb a b hl h1 h2
    obtain ⟨hr1, hr2, hrest⟩ := hl
    unfold insert_i
    split_ifs with c1 c2
    · exact ⟨h1, h2, c1, hr2, hrest⟩
    · exact ⟨hr1, hr2, ih hrest c2 h2⟩
    · apply ih (runsFrom_mono (by omega) hrest)
      · exact lt_min h1 hr1
      · exact le_trans (min_le_left _ _) (le_trans h2 (le_max_left _ _))

theorem mem_runs_gt {l : List (Int × Int)} :
    ∀ {lb : Int}, RunsFrom lb l → ∀ r ∈ l, lb < r.1 ∧ r.1 ≤ r.2 := by
  induction l with
  | nil => intro lb _ r hr; cases hr
  | cons r0 rest ih =>
    intro lb hl r hr
    rcases List.mem_cons.1 hr with h | h
    · subst h; exact ⟨hl.1, hl.2.1⟩
    · have := ih hl.2.2 r h
      exact ⟨by have := hl.1; have := hl.2.1; omega, this.2⟩

theorem mem_insert_i {l : List (Int × Int)} (n : Int) :
    ∀ {a b : Int}, (∀ r ∈ l, r.1 ≤ r.2) → a ≤ b →
      ((∃ r ∈ insert_i a b l, r.1 ≤ n ∧ n ≤ r.2) ↔
        ((a ≤ n ∧ n ≤ b) ∨ ∃ r ∈ l, r.1 ≤ n ∧ n ≤ r.2)) := by
  induction l with
  | nil => intro a b _ _; simp [insert_i]
  | cons r rest ih =>
    intro a b hv hab
    have hr : r.1 ≤ r.2 := hv r (List.mem_cons_self _ _)
    have hrest : ∀ x ∈ rest, x.1 ≤ x.2 := fun x hx => hv x (List.mem_cons_of_mem _ hx)
    unfold insert_i
    split_ifs with c1 c2
    · simp
    · simp only [List.exists_mem_cons_iff] at *
      rw [ih hrest hab]
      tauto
    · rw [ih hrest (le_trans (min_le_left _ _) (le_trans hab (le_max_left _ _)))]
      simp only [List.exists_mem_cons_iff]
      constructor
      · rintro (⟨h1, h2⟩ | h)
        · by_cases hn : a ≤ n ∧ n ≤ b
          · exact Or.inl hn
          · right; left
            rcases min_le_iff.1 h1 with h | h <;> rcases le_max_iff.1 h2 with h3 | h3 <;>
              constructor <;> omega
        · exact Or.inr (Or.inr h)
      · rintro (⟨h1, h2⟩ | ⟨h1, h2⟩ | h)
        · exact Or.inl ⟨le_trans (min_le_left _ _) h1, le_trans h2 (le_max_left _ _)⟩
        · exact Or.inl ⟨le_trans (min_le_right _ _) h1, le_trans h2 (le_max_right _ _)⟩
        · exact Or.inr h

theorem contains_iff (s : DisjointSequence) (n : Int) : s.contains n = true ↔ s.Mem n := by
  simp [contains, Mem, List.any_eq_true]

theorem contains_eq_false_iff (s : DisjointSequence) (n : Int) :
    s.contains n = false ↔ ¬ s.Mem n := by
  rw [← contains_iff]; simp

theorem wf_nil : WF nil := ⟨0, trivial⟩

theorem not_mem_nil (n : Int) : ¬ Mem nil n := by
  simp [Mem, nil]

theorem runs_valid {s : DisjointSequence} (hs : s.WF) : ∀ r ∈ s.sequences_, r.1 ≤ r.2 := by
  obtain ⟨lb, h⟩ := hs
  exact fun r hr => (mem_runs_gt h r hr).2

theorem wf_insert_range {s : DisjointSequence} (hs : s.WF) (r : Int × Int) :
    (s.insert_range r).WF := by
  unfold insert_range
  split_ifs with h
  · obtain ⟨lb, hl⟩ := hs
    refine ⟨min lb (r.1 - 1), ?_⟩
    exact runsFrom_insert_i (runsFrom_mono (min_le_left _ _) hl)
      (lt_of_le_of_lt (min_le_right _ _) (by omega)) h
  · exact hs

theorem mem_insert_range {s : DisjointSequence} (hs : s.WF) (r : Int × Int) (n : Int) :
    (s.insert_range r).Mem n ↔ ((r.1 ≤ n ∧ n ≤ r.2) ∨ s.Mem n) := by
  unfold insert_range
  split_ifs with h
  · exact mem_insert_i n (runs_valid hs) h
  · constructor
    · exact Or.inr
    · rintro (⟨h1, h2⟩ | h1)
      · omega
      · exact h1

theorem wf_insert {s : DisjointSequence} (hs : s.WF) (k : Int) : (s.insert k).WF :=
  wf_insert_range hs (k, k)

theorem mem_insert {s : DisjointSequence} (hs : s.WF) (k n : Int) :
    (s.insert k).Mem n ↔ (n = k ∨ s.Mem n) := by
  unfold insert
  rw [mem_insert_range hs]
  constructor
  · rintro (⟨h1, h2⟩ | h)
    · exact Or.inl (le_antisymm h2 h1)
    · exact Or.inr h
  · rintro (h | h)
    · subst h; exact Or.inl ⟨le_refl _, le_refl _⟩
    · exact Or.inr h

theorem wf_insert_bits {s : DisjointSequence} (hs : s.WF) (base : Int) (bits : LongSeq8) :
    ∀ k : Nat, (insert_bits base bits k s).WF := by
  intro k
  induction k with
  | zero => exact hs
  | succ k ih =>
    unfold insert_bits
    simp only
    split_ifs
    · exact wf_insert ih _
    · exact ih

theorem mem_insert_bits {s : DisjointSequence} (hs : s.WF) (base : Int) (bits : LongSeq8)
    (n : Int) : ∀ k : Nat, (insert_bits base bits k s).Mem n ↔
      (s.Mem n ∨ ∃ i : Nat, i < k ∧ bitmap_bit bits i = true ∧ n = base + i) := by
  intro k
  induction k with
  | zero => simp [insert_bits]
  | succ k ih =>
    unfold insert_bits
    simp only
    split_ifs with hb
    · rw [mem_insert (wf_insert_bits hs base bits k), ih]
      constructor
      · rintro (h | h | ⟨i, hi, h1, h2⟩)
        · exact Or.inr ⟨k, Nat.lt_succ_self k, hb, h⟩
        · exact Or.inl h
        · exact Or.inr ⟨i, Nat.lt_succ_of_lt hi, h1, h2⟩
      · rintro (h | ⟨i, hi, h1, h2⟩)
        · exact Or.inr (Or.inl h)
        · rcases Nat.lt_succ_iff_lt_or_eq.1 hi with h | h
          · exact Or.inr (Or.inr ⟨i, h, h1, h2⟩)
          · subst h; exact Or.inl h2
    · rw [ih]
      constructor
      · rintro (h | ⟨i, hi, h1, h2⟩)
        · exact Or.inl h
        · exact Or.inr ⟨i, Nat.lt_succ_of_lt hi, h1, h2⟩
      · rintro (h | ⟨i, hi, h1, h2⟩)
        · exact Or.inl h
        · rcases Nat.lt_succ_iff_lt_or_eq.1 hi with h | h
          · exact Or.inr ⟨i, h, h1, h2⟩
          · subst h; rw [h1] at hb; exact absurd rfl hb

theorem wf_insert_bitmap {s : DisjointSequence} (hs : s.WF) (base : Int) (num_bits : Nat)
    (bits : LongSeq8) : (s.insert_bitmap base num_bits bits).WF :=
  wf_insert_bits hs base bits num_bits

theorem mem_insert_bitmap {s : DisjointSequence} (hs : s.WF) (base : Int) (num_bits : Nat)
    (bits : LongSeq8) (n : Int) : (s.insert_bitmap base num_bits bits).Mem n ↔
      (s.Mem n ∨ ∃ i : Nat, i < num_bits ∧ bitmap_bit bits i = true ∧ n = base + i) :=
  mem_insert_bits hs base bits n num_bits

theorem empty_eq_true_iff (s : DisjointSequence) : s.empty = true ↔ s.sequences_ = [] := by
  simp [empty]

theorem not_mem_of_empty {s : DisjointSequence} (h : s.empty = true) (n : Int) : ¬ s.Mem n := by
  rw [empty_eq_true_iff] at h
  simp [Mem, h]

theorem nonempty_of_mem {s : DisjointSequence} {n : Int} (h : s.Mem n) : s.empty = false := by
  cases he : s.empty with
  | false => rfl
  | true => exact absurd h (not_mem_of_empty he n)

/-- A non-empty well-formed set: its first run is `[low, cumulative_ack]`, and every
other member lies beyond `cumulative_ack + 1`. -/
theorem first_run {s : DisjointSequence} (hs : s.WF) (hne : s.empty = false) :
    s.low ≤ s.cumulative_ack ∧
    (∀ n, s.low ≤ n → n ≤ s.cumulative_ack → s.Mem n) ∧
    (∀ n, s.Mem n → (s.low ≤ n ∧ n ≤ s.cumulative_ack) ∨ s.cumulative_ack + 1 < n) := by
  obtain ⟨lb, hl⟩ := hs
  rcases s with ⟨l⟩
  cases l with
  | nil => simp [empty] at hne
  | cons r rest =>
    obtain ⟨_, h2, h3⟩ := hl
    refine ⟨h2, ?_, ?_⟩
    · intro n h4 h5
      exact ⟨r, List.mem_cons_self _ _, h4, h5⟩
    · rintro n ⟨x, hx, h4, h5⟩
      rcases List.mem_cons.1 hx with h | h
      · subst h; exact Or.inl ⟨h4, h5⟩
      · have := (mem_runs_gt h3 x h).1
        right
        show r.2 + 1 < n
        omega

theorem low_le {s : DisjointSequence} (hs : s.WF) {n : Int} (h : s.Mem n) : s.low ≤ n := by
  have hf := first_run hs (nonempty_of_mem h)
  rcases hf.2.2 n h with h1 | h1
  · exact h1.1
  · have := hf.1; omega

theorem mem_low {s : DisjointSequence} (hs : s.WF) (hne : s.empty = false) : s.Mem s.low :=
  let hf := first_run hs hne
  hf.2.1 _ (le_refl _) hf.1

theorem le_cumulative_ack_of_contiguous {s : DisjointSequence} (hs : s.WF) {m : Int}
    (hm : s.Mem m) (h : ∀ n, s.low ≤ n → n ≤ m → s.Mem n) : m ≤ s.cumulative_ack := by
  have hf := first_run hs (nonempty_of_mem hm)
  rcases hf.2.2 m hm with h1 | h1
  · exact h1.2
  · exfalso
    have h2 := h (s.cumulative_ack + 1) (by have := hf.1; omega) (by omega)
    rcases hf.2.2 _ h2 with h3 | h3 <;> omega

theorem le_cumulative_ack_of_not_disjoint {s : DisjointSequence} (hd : s.disjoint = false)
    {n : Int} (h : s.Mem n) : n ≤ s.cumulative_ack := by
  rcases s with ⟨l⟩
  obtain ⟨r, hr, _, h2⟩ := h
  cases l with
  | nil => cases hr
  | cons r0 rest =>
    cases rest with
    | nil =>
      rcases List.mem_cons.1 hr with h | h
      · subst h; exact h2
      · cases h
    | cons r1 rest1 => simp [disjoint] at hd

/-- The cumulative ack does not decrease when the set grows, as long as nothing
is added below `low - 1`. -/
theorem cumulative_ack_mono {s t : DisjointSequence} (hs : s.WF) (ht : t.WF)
    (hne : s.empty = false) (hsub : ∀ n, s.Mem n → t.Mem n)
    (hlow : ∀ n, t.Mem n → s.low - 1 ≤ n) : s.cumulative_ack ≤ t.cumulative_ack := by
  have hf := first_run hs hne
  have hlo : t.Mem s.low := hsub _ (mem_low hs hne)
  have hg := first_run ht (nonempty_of_mem hlo)
  by_contra hc
  have h1 : t.low ≤ s.low := low_le ht hlo
  have h2 : s.low - 1 ≤ t.low := hlow _ (mem_low ht (nonempty_of_mem hlo))
  have h3 : s.Mem (t.cumulative_ack + 1) := hf.2.1 _ (by have := hg.1; omega) (by omega)
  rcases hg.2.2 _ (hsub _ h3) with h4 | h4 <;> omega

theorem low_antitone {s t : DisjointSequence} (hs : s.WF) (ht : t.WF) (hne : s.empty = false)
    (hsub : ∀ n, s.Mem n → t.Mem n) : t.low ≤ s.low :=
  low_le ht (hsub _ (mem_low hs hne))

end DisjointSequence

/-! ## Held samples and release order -/

theorem released_append (a b : List ReaderEvent) : released (a ++ b) = released a ++ released b := by
  induction a with
  | nil => rfl
  | cons e rest ih => cases e <;> simp [released, ih]

theorem released_held (l : List (Int × ReceivedDataSample)) :
    released (l.map (fun e => ReaderEvent.held_data e.1 e.2) ++ [ReaderEvent.notify]) =
      l.map (fun e => e.1) := by
  induction l with
  | nil => rfl
  | cons e rest ih => simpa [released] using ih

theorem mem_map_insert {α : Type} {m : List (Int × α)} {k : Int} {v : α} {e : Int × α}
    (h : e ∈ map_insert m k v) : e = (k, v) ∨ e ∈ m := by
  induction m with
  | nil => simpa [map_insert] using h
  | cons x rest ih =>
    unfold map_insert at h
    split_ifs at h with c1 c2
    · rcases List.mem_cons.1 h with h | h
      · exact Or.inl h
      · exact Or.inr h
    · exact Or.inr h
    · rcases List.mem_cons.1 h with h | h
      · exact Or.inr (h ▸ List.mem_cons_self _ _)
      · rcases ih h with h | h
        · exact Or.inl h
        · exact Or.inr (List.mem_cons_of_mem _ h)

theorem map_insert_sorted {α : Type} {m : List (Int × α)} (k : Int) (v : α)
    (hm : m.Pairwise (fun a b => a.1 < b.1)) :
    (map_insert m k v).Pairwise (fun a b => a.1 < b.1) := by
  induction m with
  | nil => simp [map_insert]
  | cons x rest ih =>
    obtain ⟨h1, h2⟩ := List.pairwise_cons.1 hm
    unfold map_insert
    split_ifs with c1 c2
    · refine List.pairwise_cons.2 ⟨?_, hm⟩
      intro b hb
      rcases List.mem_cons.1 hb with h | h
      · subst h; exact c1
      · exact lt_trans c1 (h1 b h)
    · exact hm
    · refine List.pairwise_cons.2 ⟨?_, ih h2⟩
      intro b hb
      rcases mem_map_insert hb with h | h
      · subst h
        show x.1 < k
        omega
      · exact h1 b h

theorem dropWhile_keys_gt {α : Type} (ca : Int) {m : List (Int × α)}
    (hm : m.Pairwise (fun a b => a.1 < b.1)) :
    ∀ e ∈ m.dropWhile (fun e => decide (e.1 ≤ ca)), ca < e.1 := by
  induction m with
  | nil => intro e he; cases he
  | cons x rest ih =>
    obtain ⟨h1, h2⟩ := List.pairwise_cons.1 hm
    intro e he
    by_cases c : x.1 ≤ ca
    · rw [List.dropWhile_cons_of_pos (by simpa using c)] at he
      exact ih h2 e he
    · rw [List.dropWhile_cons_of_neg (by simpa using c)] at he
      rcases List.mem_cons.1 he with h | h
      · subst h; omega
      · have := h1 e h; omega

theorem takeWhile_keys_le {α : Type} (ca : Int) (m : List (Int × α)) :
    ∀ e ∈ m.takeWhile (fun e => decide (e.1 ≤ ca)), e.1 ≤ ca := by
  intro e he
  simpa using List.mem_takeWhile_imp he

theorem heldOrdered_fresh : HeldOrdered WriterInfo.fresh [] where
  wf := DisjointSequence.wf_nil
  nonneg := fun n h => absurd h (DisjointSequence.not_mem_nil n)
  held_sorted := List.Pairwise.nil
  held_mem := fun e he => by cases he
  log_sorted := List.Pairwise.nil
  frags := rfl
  closed := fun _ => rfl
  below := fun _ _ x hx => by cases hx
  sep := fun x hx => by cases hx

theorem heldAbove_fresh : HeldAbove WriterInfo.fresh := by
  intro h; simp [WriterInfo.fresh, DisjointSequence.nil, DisjointSequence.empty] at h

theorem heldOrdered_congr {info info1 : WriterInfo} {L : List Int} (h : HeldOrdered info L)
    (h1 : info1.recvd_ = info.recvd_) (h2 : info1.held_ = info.held_)
    (h3 : info1.frags_ = info.frags_) : HeldOrdered info1 L where
  wf := h1 ▸ h.wf
  nonneg := h1 ▸ h.nonneg
  held_sorted := h2 ▸ h.held_sorted
  held_mem := by rw [h1, h2]; exact h.held_mem
  log_sorted := h.log_sorted
  frags := h3 ▸ h.frags
  closed := h1 ▸ h.closed
  below := h1 ▸ h.below
  sep := h2 ▸ h.sep

theorem heldAbove_congr {info info1 : WriterInfo} (h : HeldAbove info)
    (h1 : info1.recvd_ = info.recvd_) (h2 : info1.held_ = info.held_) : HeldAbove info1 := by
  unfold HeldAbove; rw [h1, h2]; exact h

/-- `deliver_held_data` of a durable reader releases the held samples up to the
cumulative ack in ascending order, after everything released before. -/
theorem deliver_held_data_ordered {info : WriterInfo} {L : List Int} (h : HeldOrdered info L) :
    HeldOrdered (deliver_held_data info true).1 (L ++ released (deliver_held_data info true).2) ∧
      HeldAbove (deliver_held_data info true).1 := by
  unfold deliver_held_data
  split_ifs with c
  · simp only [released, List.append_nil]
    refine ⟨h, ?_⟩
    intro h1 h2
    simp only [Bool.true_and, Bool.or_eq_true, decide_eq_true_eq] at c
    rcases c with c | c
    · rw [h1] at c; cases c
    · omega
  · simp only [Bool.true_and, Bool.or_eq_true, decide_eq_true_eq, not_or, Bool.not_eq_true,
      not_lt] at c
    unfold notify_delivery
    simp only [released_held]
    refine ⟨?_, ?_⟩
    · refine ⟨h.wf, h.nonneg, ?_, ?_, ?_, h.frags, ?_, ?_, ?_⟩
      · exact h.held_sorted.sublist (List.dropWhile_sublist _)
      · exact fun e he => h.held_mem e ((List.dropWhile_sublist _).subset he)
      · refine List.pairwise_append.2 ⟨h.log_sorted, ?_, ?_⟩
        · exact (List.pairwise_map.2 h.held_sorted).sublist
            ((List.takeWhile_sublist _).map _)
        · intro a ha b hb
          obtain ⟨e, he, rfl⟩ := List.mem_map.1 hb
          exact h.sep a ha e ((List.takeWhile_sublist _).subset he)
      · rintro (c1 | c1)
        · rw [c.1] at c1; cases c1
        · exfalso
          have c2 : 1 < info.recvd_.low := c1
          have := c.2; omega
      · intro _ _ x hx
        rcases List.mem_append.1 hx with hx | hx
        · exact h.below c.1 c.2 x hx
        · obtain ⟨e, he, rfl⟩ := List.mem_map.1 hx
          exact takeWhile_keys_le _ _ e he
      · intro x hx e he
        have h4 := dropWhile_keys_gt info.recvd_.cumulative_ack h.held_sorted e he
        rcases List.mem_append.1 hx with hx | hx
        · have := h.below c.1 c.2 x hx; omega
        · obtain ⟨e1, he1, rfl⟩ := List.mem_map.1 hx
          have := takeWhile_keys_le _ _ e1 he1
          show e1.1 < e.1
          omega
    · intro _ _ e he
      exact dropWhile_keys_gt info.recvd_.cumulative_ack h.held_sorted e he

/-- Growing the received set by numbers `≥ 0` keeps the invariant. -/
theorem heldOrdered_grow {info : WriterInfo} {L : List Int} (h : HeldOrdered info L)
    (t : DisjointSequence) (ht : t.WF) (hsub : ∀ n, info.recvd_.Mem n → t.Mem n)
    (hnn : ∀ n, t.Mem n → 0 ≤ n) : HeldOrdered { info with recvd_ := t } L := by
  have hopen : ∀ x ∈ L, info.recvd_.empty = false ∧ info.recvd_.low ≤ 1 := by
    intro x hx
    by_contra hc
    have : L = [] := by
      apply h.closed
      cases he : info.recvd_.empty with
      | true => exact Or.inl rfl
      | false =>
        right
        by_contra h2
        exact hc ⟨he, by omega⟩
    rw [this] at hx; cases hx
  refine ⟨ht, hnn, h.held_sorted, fun e he => hsub _ (h.held_mem e he), h.log_sorted, h.frags,
    ?_, ?_, h.sep⟩
  · intro hc
    by_contra hL
    obtain ⟨x, hx⟩ := List.exists_mem_of_ne_nil L hL
    obtain ⟨h1, h2⟩ := hopen x hx
    have h3 := hsub _ (DisjointSequence.mem_low h.wf h1)
    have h4 : t.low ≤ info.recvd_.low := DisjointSequence.low_le ht h3
    rcases hc with hc | hc
    · exact DisjointSequence.not_mem_of_empty hc _ h3
    · have hc1 : 1 < t.low := hc
      omega
  · intro _ _ x hx
    obtain ⟨h1, h2⟩ := hopen x hx
    have h3 := h.below h1 h2 x hx
    have h4 : info.recvd_.cumulative_ack ≤ t.cumulative_ack :=
      DisjointSequence.cumulative_ack_mono h.wf ht h1 hsub
        (fun n hn => by have := hnn n hn; omega)
    show x ≤ t.cumulative_ack
    omega

theorem data_disposition_frags (durable : Bool) (info : WriterInfo) (seq : Int)
    (f : List (Int × Nat)) :
    data_disposition durable { info with frags_ := f } seq = data_disposition durable info seq :=
  rfl

theorem data_disposition_hold_or_deliver {durable : Bool} {info : WriterInfo} {seq : Int}
    (h : data_disposition durable info seq ≠ DataDisposition.duplicate) :
    ¬ info.recvd_.Mem seq := by
  intro hm
  apply h
  unfold data_disposition
  rw [(DisjointSequence.contains_iff _ _).2 hm]
  rfl

theorem data_disposition_deliver {info : WriterInfo} {seq : Int}
    (h : data_disposition true info seq = DataDisposition.deliver) :
    info.recvd_.disjoint = false ∧
    (info.recvd_.empty = false → info.recvd_.cumulative_ack = seq - 1 ∧ info.recvd_.low ≤ 1) ∧
    (info.recvd_.empty = true → seq ≤ 1) := by
  unfold data_disposition at h
  split_ifs at h with c1 c2
  simp only [SequenceNumber.previous, Bool.true_and, Bool.or_eq_true, Bool.and_eq_true,
    Bool.not_eq_true', decide_eq_true_eq, not_or, not_and, Bool.not_eq_true, not_lt,
    Bool.not_eq_false, Decidable.not_not, gt_iff_lt, ne_eq] at c2
  obtain ⟨⟨⟨h1, h2⟩, h3⟩, h4⟩ := c2
  exact ⟨h1, fun he => ⟨h2 he, h3 he⟩, h4⟩

theorem heldOrdered_hold {info : WriterInfo} {L : List Int} (h : HeldOrdered info L)
    {seq : Int} (sample : ReceivedDataSample) (hseq : 1 ≤ seq) (hn : ¬ info.recvd_.Mem seq) :
    HeldOrdered { info with held_ := map_insert info.held_ seq sample,
                            recvd_ := info.recvd_.insert seq } L := by
  have hg := heldOrdered_grow h (info.recvd_.insert seq) (DisjointSequence.wf_insert h.wf seq)
    (fun n hn => (DisjointSequence.mem_insert h.wf seq n).2 (Or.inr hn))
    (fun n hn => by
      rcases (DisjointSequence.mem_insert h.wf seq n).1 hn with h1 | h1
      · omega
      · exact h.nonneg n h1)
  refine ⟨hg.wf, hg.nonneg, map_insert_sorted seq sample h.held_sorted, ?_, h.log_sorted, h.frags,
    hg.closed, hg.below, ?_⟩
  · intro e he
    rcases mem_map_insert he with h1 | h1
    · subst h1; exact (DisjointSequence.mem_insert h.wf seq seq).2 (Or.inl rfl)
    · exact hg.held_mem e h1
  · intro x hx e he
    rcases mem_map_insert he with h1 | h1
    · subst h1
      show x < seq
      cases hem : info.recvd_.empty with
      | true => rw [h.closed (Or.inl hem)] at hx; cases hx
      | false =>
        by_cases hlow : info.recvd_.low ≤ 1
        · have h2 := h.below hem hlow x hx
          have hf := DisjointSequence.first_run h.wf hem
          by_contra hc
          exact hn (hf.2.1 seq (by omega) (by omega))
        · rw [h.closed (Or.inr (by omega))] at hx; cases hx
    · exact h.sep x hx e h1

theorem heldOrdered_deliver {info : WriterInfo} {L : List Int} (h : HeldOrdered info L)
    (ha : HeldAbove info) {seq : Int} (hseq : 1 ≤ seq)
    (hd : data_disposition true info seq = DataDisposition.deliver) :
    HeldOrdered { info with recvd_ := info.recvd_.insert seq } (L ++ [seq]) := by
  have hn : ¬ info.recvd_.Mem seq := data_disposition_hold_or_deliver (by rw [hd]; simp)
  obtain ⟨d1, d2, d3⟩ := data_disposition_deliver hd
  have hwf := DisjointSequence.wf_insert h.wf seq
  have hmem := DisjointSequence.mem_insert h.wf seq
  have hseqm : (info.recvd_.insert seq).Mem seq := (hmem seq).2 (Or.inl rfl)
  have hlt : ∀ x ∈ L, x < seq := by
    intro x hx
    cases hem : info.recvd_.empty with
    | true => rw [h.closed (Or.inl hem)] at hx; cases hx
    | false =>
      have := h.below hem (d2 hem).2 x hx
      have := (d2 hem).1
      omega
  have hheld : ∀ e ∈ info.held_, False := by
    intro e he
    have h1 := h.held_mem e he
    have hem := DisjointSequence.nonempty_of_mem h1
    have h2 := ha hem (d2 hem).2 e he
    have h3 := DisjointSequence.le_cumulative_ack_of_not_disjoint d1 h1
    omega
  have hlow1 : (info.recvd_.insert seq).low ≤ 1 := by
    have h1 := DisjointSequence.low_le hwf hseqm
    cases hem : info.recvd_.empty with
    | true => have := d3 hem; omega
    | false =>
      have := (d2 hem).2
      have := DisjointSequence.low_le hwf ((hmem _).2 (Or.inr (DisjointSequence.mem_low h.wf hem)))
      omega
  have hca : seq ≤ (info.recvd_.insert seq).cumulative_ack := by
    apply DisjointSequence.le_cumulative_ack_of_contiguous hwf hseqm
    intro n h1 h2
    rcases (hmem _).1 (DisjointSequence.mem_low hwf (DisjointSequence.nonempty_of_mem hseqm))
      with h3 | h3
    · exact (hmem n).2 (Or.inl (by omega))
    · have hem := DisjointSequence.nonempty_of_mem h3
      have h4 := DisjointSequence.low_le h.wf h3
      by_cases h5 : n = seq
      · exact (hmem n).2 (Or.inl h5)
      · exact (hmem n).2 (Or.inr ((DisjointSequence.first_run h.wf hem).2.1 n (by omega)
          (by have := (d2 hem).1; omega)))
  refine ⟨hwf, ?_, h.held_sorted, fun e he => (hmem _).2 (Or.inr (h.held_mem e he)), ?_, h.frags,
    ?_, ?_, ?_⟩
  · intro n hn1
    rcases (hmem n).1 hn1 with h1 | h1
    · omega
    · exact h.nonneg n h1
  · refine List.pairwise_append.2 ⟨h.log_sorted, List.pairwise_singleton _ _, ?_⟩
    intro a ha1 b hb
    rw [List.mem_singleton.1 hb]
    exact hlt a ha1
  · rintro (hc | hc)
    · exact absurd hseqm (DisjointSequence.not_mem_of_empty hc seq)
    · exfalso
      have hc1 : 1 < (info.recvd_.insert seq).low := hc
      omega
  · intro _ _ x hx
    show x ≤ (info.recvd_.insert seq).cumulative_ack
    rcases List.mem_append.1 hx with h1 | h1
    · have := hlt x h1; omega
    · rw [List.mem_singleton.1 h1]; exact hca
  · intro x _ e he
    exact absurd (hheld e he) id

/-- `process_data_i` of a durable reader keeps the invariant: what it releases
follows, in ascending order, everything released before. -/
theorem process_data_wi_ordered {info : WriterInfo} {L : List Int} (h : HeldOrdered info L)
    (ha : HeldAbove info) {seq : Int} (sample : ReceivedDataSample) (hseq : 1 ≤ seq) :
    HeldOrdered (process_data_wi true info seq sample).1
        (L ++ released (process_data_wi true info seq sample).2) ∧
      HeldAbove (process_data_wi true info seq sample).1 := by
  have hfr : map_erase info.frags_ seq = info.frags_ := by rw [h.frags]; rfl
  have h1 : HeldOrdered { info with frags_ := map_erase info.frags_ seq } L :=
    heldOrdered_congr h rfl rfl hfr
  have ha1 : HeldAbove { info with frags_ := map_erase info.frags_ seq } := heldAbove_congr ha rfl rfl
  unfold process_data_wi
  simp only [released_append, ← List.append_assoc]
  unfold process_data_decide
  simp only [data_disposition_frags]
  cases hd : data_disposition true info seq with
  | duplicate =>
    simp only [released, List.append_nil]
    apply deliver_held_data_ordered
    exact heldOrdered_grow h1 _ (DisjointSequence.wf_insert h.wf seq)
      (fun n hn => (DisjointSequence.mem_insert h.wf seq n).2 (Or.inr hn))
      (fun n hn => by
        rcases (DisjointSequence.mem_insert h.wf seq n).1 hn with h2 | h2
        · omega
        · exact h.nonneg n h2)
  | hold =>
    simp only [released, List.append_nil]
    apply deliver_held_data_ordered
    have hne : data_disposition true info seq ≠ DataDisposition.duplicate := by rw [hd]; simp
    exact heldOrdered_hold h1 sample hseq (data_disposition_hold_or_deliver hne)
  | deliver =>
    simp only [released]
    apply deliver_held_data_ordered
    exact heldOrdered_deliver h1 ha1 hseq hd

theorem deliver_held_data_recvd (info : WriterInfo) (durable : Bool) :
    (deliver_held_data info durable).1.recvd_ = info.recvd_ := by
  unfold deliver_held_data notify_delivery
  split_ifs <;> rfl

theorem deliver_held_data_frags (info : WriterInfo) (durable : Bool) :
    (deliver_held_data info durable).1.frags_ = info.frags_ := by
  unfold deliver_held_data notify_delivery
  split_ifs <;> rfl

/-- `process_gap_i` of a durable reader keeps the invariant. -/
theorem process_gap_wi_ordered {info : WriterInfo} {L : List Int} (h : HeldOrdered info L)
    (gap : GapSubmessage) (h1 : 1 ≤ gap.gapStart) (h2 : 1 ≤ gap.gapList.bitmapBase) :
    HeldOrdered (process_gap_wi true info gap).1
        (L ++ released (process_gap_wi true info gap).2) ∧
      HeldAbove (process_gap_wi true info gap).1 := by
  unfold process_gap_wi
  apply deliver_held_data_ordered
  simp only
  have hw1 : (if gap.gapStart ≤ gap_range_end info.recvd_ gap.gapList.bitmapBase then
      info.recvd_.insert_range (gap.gapStart, gap_range_end info.recvd_ gap.gapList.bitmapBase)
      else info.recvd_).WF := by
    split_ifs
    · exact DisjointSequence.wf_insert_range h.wf _
    · exact h.wf
  have hm1 : ∀ n, (if gap.gapStart ≤ gap_range_end info.recvd_ gap.gapList.bitmapBase then
      info.recvd_.insert_range (gap.gapStart, gap_range_end info.recvd_ gap.gapList.bitmapBase)
      else info.recvd_).Mem n ↔ ((gap.gapStart ≤ n ∧
        n ≤ gap_range_end info.recvd_ gap.gapList.bitmapBase) ∨ info.recvd_.Mem n) := by
    intro n
    split_ifs with c
    · exact DisjointSequence.mem_insert_range h.wf _ n
    · constructor
      · exact Or.inr
      · rintro (⟨a, b⟩ | a)
        · omega
        · exact a
  apply heldOrdered_grow h _ (DisjointSequence.wf_insert_bitmap hw1 _ _ _)
  · intro n hn
    exact (DisjointSequence.mem_insert_bitmap hw1 _ _ _ n).2 (Or.inl ((hm1 n).2 (Or.inr hn)))
  · intro n hn
    rcases (DisjointSequence.mem_insert_bitmap hw1 _ _ _ n).1 hn with h3 | ⟨i, _, _, h3⟩
    · rcases (hm1 n).1 h3 with h4 | h4
      · omega
      · exact h.nonneg n h4
    · omega

/-- The application of a heartbeat by a durable reader keeps the invariant; a
valid heartbeat leaves the received set empty or reaching down to 0. -/
theorem process_heartbeat_apply_ordered {info : WriterInfo} {L : List Int}
    (h : HeldOrdered info L) (ha : HeldAbove info) (hb : HeartBeatSubmessage) :
    HeldOrdered (process_heartbeat_apply true info hb).1
        (L ++ released (process_heartbeat_apply true info hb).2) ∧
      HeldAbove (process_heartbeat_apply true info hb).1 ∧
      (1 ≤ hb.lastSN → (process_heartbeat_apply true info hb).1.recvd_.empty = true ∨
        (process_heartbeat_apply true info hb).1.recvd_.low ≤ 1) := by
  unfold process_heartbeat_apply
  simp only [SequenceNumber.INITIAL_VALUE, SequenceNumber.ZERO, SequenceNumber.previous,
    Bool.not_true, Bool.false_and, Bool.false_eq_true, if_false, ge_iff_le]
  split_ifs with c1 c2 c3
  · -- valid, received set not empty, firstSN > 1
    have hwf := DisjointSequence.wf_insert_range h.wf (0, hb.firstSN - 1)
    have hmem := DisjointSequence.mem_insert_range h.wf (0, hb.firstSN - 1)
    have hg : HeldOrdered
        { info with
          heartbeat_recvd_count_ := hb.count
          hb_range_ := (hb.firstSN, hb.lastSN)
          recvd_ := info.recvd_.insert_range (0, hb.firstSN - 1) } L :=
      heldOrdered_congr (heldOrdered_grow h _ hwf (fun n hn => (hmem n).2 (Or.inr hn))
        (fun n hn => by
          rcases (hmem n).1 hn with h3 | h3
          · exact h3.1
          · exact h.nonneg n h3)) rfl rfl rfl
    have hd := deliver_held_data_ordered hg
    refine ⟨heldOrdered_congr hd.1 rfl rfl rfl, heldAbove_congr hd.2 rfl rfl, fun _ => Or.inr ?_⟩
    show (deliver_held_data _ true).1.recvd_.low ≤ 1
    rw [deliver_held_data_recvd]
    have : (info.recvd_.insert_range (0, hb.firstSN - 1)).Mem 0 :=
      (hmem 0).2 (Or.inl ⟨le_refl _, by show (0 : Int) ≤ hb.firstSN - 1; omega⟩)
    have := DisjointSequence.low_le hwf this
    show (info.recvd_.insert_range (0, hb.firstSN - 1)).low ≤ 1
    omega
  · -- valid, received set not empty, firstSN ≤ 1
    have hwf := DisjointSequence.wf_insert_range h.wf (0, 0)
    have hmem := DisjointSequence.mem_insert_range h.wf (0, 0)
    have hg : HeldOrdered
        { info with
          heartbeat_recvd_count_ := hb.count
          hb_range_ := (hb.firstSN, hb.lastSN)
          recvd_ := info.recvd_.insert_range (0, 0) } L :=
      heldOrdered_congr (heldOrdered_grow h _ hwf (fun n hn => (hmem n).2 (Or.inr hn))
        (fun n hn => by
          rcases (hmem n).1 hn with h3 | h3
          · exact h3.1
          · exact h.nonneg n h3)) rfl rfl rfl
    have hd := deliver_held_data_ordered hg
    refine ⟨heldOrdered_congr hd.1 rfl rfl rfl, heldAbove_congr hd.2 rfl rfl, fun _ => Or.inr ?_⟩
    show (deliver_held_data _ true).1.recvd_.low ≤ 1
    rw [deliver_held_data_recvd]
    have : (info.recvd_.insert_range (0, 0)).Mem 0 :=
      (hmem 0).2 (Or.inl ⟨le_refl _, le_refl _⟩)
    have := DisjointSequence.low_le hwf this
    show (info.recvd_.insert_range (0, 0)).low ≤ 1
    omega
  · -- valid, received set empty
    have hg : HeldOrdered
        { info with
          heartbeat_recvd_count_ := hb.count
          hb_range_ := (hb.firstSN, hb.lastSN) } L := heldOrdered_congr h rfl rfl rfl
    have hd := deliver_held_data_ordered hg
    refine ⟨heldOrdered_congr hd.1 rfl rfl rfl, heldAbove_congr hd.2 rfl rfl, fun _ => Or.inl ?_⟩
    show (deliver_held_data _ true).1.recvd_.empty = true
    rw [deliver_held_data_recvd]
    simpa using c2
  · -- not valid
    simp only [released, List.append_nil]
    exact ⟨heldOrdered_congr h rfl rfl rfl, heldAbove_congr ha rfl rfl, fun hv => absurd hv (by omega)⟩

theorem acknack_extend_recvd (hb_high : Int) (b : Int × LongSeq8 × Nat × DisjointSequence) :
    (acknack_extend hb_high b).2.2.2 = b.2.2.2 := by
  unfold acknack_extend
  simp only
  split_ifs <;> rfl

theorem acknack_base_recvd (durable : Bool) (info : WriterInfo) (p n : Bool)
    (h : info.recvd_.empty = true ∨ info.recvd_.low ≤ 1) :
    (acknack_base durable info p n).2.2.2 = info.recvd_ := by
  unfold acknack_base
  simp only
  by_cases c1 : info.recvd_.empty = true
  · rw [if_pos c1]
    split_ifs <;> rfl
  · rw [if_neg c1]
    have hlow : ¬ info.recvd_.low > 1 := by
      rcases h with h | h
      · exact absurd h c1
      · omega
    rw [if_neg hlow]
    split_ifs <;> rfl

theorem acknack_bitmap_recvd (durable : Bool) (info : WriterInfo) (p n : Bool)
    (h : info.recvd_.empty = true ∨ info.recvd_.low ≤ 1) :
    (acknack_bitmap durable info p n).2.2.2 = info.recvd_ := by
  unfold acknack_bitmap
  rw [acknack_extend_recvd, acknack_base_recvd durable info p n h]

theorem generate_nack_frags_no_frags (rs : ReceiveStrategy) (wi : WriterInfo) (pub_id : RepoId)
    (h : wi.frags_ = []) :
    ∃ g, generate_nack_frags rs wi pub_id = some g ∧ g.1.recvd_ = wi.recvd_ ∧
      g.1.held_ = wi.held_ ∧ g.1.frags_ = wi.frags_ := by
  unfold generate_nack_frags
  simp only [h, List.takeWhile_nil, List.length_nil, Nat.zero_add]
  unfold nack_frag_walk
  simp

theorem gather_ack_nacks_wi_recvd (id_ : RepoId) (durable : Bool) (rs : ReceiveStrategy)
    (finalFlag : Bool) (wid : RepoId) (info : WriterInfo) (hfr : info.frags_ = [])
    (h : info.recvd_.empty = true ∨ info.recvd_.low ≤ 1) :
    ∃ g, gather_ack_nacks_wi id_ durable true rs finalFlag wid info = some g ∧
      g.1.recvd_ = info.recvd_ ∧ g.1.held_ = info.held_ ∧ g.1.frags_ = info.frags_ := by
  unfold gather_ack_nacks_wi
  simp only [Bool.not_true, Bool.false_eq_true, if_false]
  by_cases c : (info.ack_pending_ || (info.should_nack || should_nack_durable durable info)
      || finalFlag) = true
  · rw [if_pos c]
    obtain ⟨g, hg, h1, h2, h3⟩ := generate_nack_frags_no_frags rs
      { info with ack_pending_ := false,
                  recvd_ := (acknack_bitmap durable info info.ack_pending_
                    (info.should_nack || should_nack_durable durable info)).2.2.2,
                  acknack_count_ := wrap_int32 (info.acknack_count_ + 1) } wid hfr
    rw [hg]
    refine ⟨_, rfl, ?_, h2, h3⟩
    rw [h1]
    exact acknack_bitmap_recvd durable info _ _ h
  · rw [if_neg c]
    exact ⟨_, rfl, rfl, rfl, rfl⟩

theorem guid_find_single {α : Type} (w : RepoId) (v : α) : guid_find [(w, v)] w = some v := by
  simp [guid_find]

theorem guid_set_single {α : Type} (w : RepoId) (v v1 : α) :
    guid_set [(w, v)] w v1 = [(w, v1)] := by
  simp [guid_set]

theorem receive_ordered {w : RepoId} {r : RtpsReader} {L : List Int} (h : DurableOrdered w r L)
    (m : ReaderInput) (hv : m.valid = true) :
    ∃ res, r.receive w m = some res ∧ DurableOrdered w res.reader (L ++ released res.events) := by
  obtain ⟨hd, info, hw, ho, ha⟩ := h
  cases m with
  | data d sample =>
    refine ⟨_, rfl, ?_⟩
    have hseq : 1 ≤ d.writerSN := by simpa [ReaderInput.valid] using hv
    have hp := process_data_wi_ordered ho ha sample hseq
    simp only [RtpsReader.process_data_i, hw, guid_find_single, guid_set_single, hd]
    exact ⟨rfl, _, rfl, hp.1, hp.2⟩
  | gap g =>
    refine ⟨_, rfl, ?_⟩
    have hg : 1 ≤ g.gapStart ∧ 1 ≤ g.gapList.bitmapBase := by
      simpa [ReaderInput.valid] using hv
    have hp := process_gap_wi_ordered ho g hg.1 hg.2
    simp only [RtpsReader.process_gap_i, hw, guid_find_single, guid_set_single, hd]
    exact ⟨rfl, _, rfl, hp.1, hp.2⟩
  | heartbeat hb rs =>
    have hl : 0 ≤ hb.lastSN := by simpa [ReaderInput.valid] using hv
    have hp := process_heartbeat_apply_ordered ho ha hb
    simp only [RtpsReader.receive, RtpsReader.process_heartbeat_i, hw, guid_find_single,
      guid_set_single, hd]
    split_ifs with c1 c2 c3
    · refine ⟨_, rfl, ?_⟩
      simp only [released, List.append_nil]
      exact ⟨hd, info, hw, ho, ha⟩
    · -- immediate reply
      have hlast : 1 ≤ hb.lastSN := by
        simp only [Bool.and_eq_true, decide_eq_true_eq] at c3
        have := c3.2
        omega
      have hfr : (process_heartbeat_apply true info hb).1.frags_ = [] := hp.1.frags
      obtain ⟨g, hg, h1, h2, h3⟩ := gather_ack_nacks_wi_recvd r.id_ true rs false w
        { (process_heartbeat_apply true info hb).1 with ack_pending_ := true } hfr
        (hp.2.2 hlast)
      simp only [RtpsReader.gather_ack_nacks_i, gather_ack_nacks_loop, hd, hg]
      exact ⟨_, rfl, rfl, _, rfl, heldOrdered_congr hp.1 h1 h2 h3, heldAbove_congr hp.2.1 h1 h2⟩
    · exact ⟨_, rfl, rfl, _, rfl, heldOrdered_congr hp.1 rfl rfl rfl, heldAbove_congr hp.2.1 rfl rfl⟩
    · exact ⟨_, rfl, rfl, _, rfl, hp.1, hp.2.1⟩

theorem receive_all_ordered {w : RepoId} (msgs : List ReaderInput) :
    ∀ {r : RtpsReader} {L : List Int}, DurableOrdered w r L →
      (∀ m ∈ msgs, m.valid = true) →
      ∃ t, r.receive_all (msgs.map (fun m => (w, m))) = some t ∧
        DurableOrdered w t.1 (L ++ released t.2) := by
  induction msgs with
  | nil =>
    intro r L h _
    exact ⟨_, rfl, by simpa [released] using h⟩
  | cons m rest ih =>
    intro r L h hv
    obtain ⟨res, h1, h2⟩ := receive_ordered h m (hv m (List.mem_cons_self _ _))
    obtain ⟨t, h3, h4⟩ := ih h2 (fun x hx => hv x (List.mem_cons_of_mem _ hx))
    refine ⟨(t.1, res.events ++ t.2), ?_, ?_⟩
    · simp only [List.map_cons, RtpsReader.receive_all, h1, h3]
    · simpa [released_append, List.append_assoc] using h4

/-- C1 (amended): in-order delivery of a durable reader.  For a durable local
reader whose one associated remote writer is `w`, starting from a fresh
`WriterInfo`, and for every sequence of DATA, GAP and HEARTBEAT submessages of `w`
that respect the reserved sequence numbers (DATA numbered at least 1, GAP start
and base at least 1, HEARTBEAT `lastSN` not negative), the handlers
`process_data_i` / `process_gap_i` / `process_heartbeat_i` all return, and the
sequence numbers of the samples released to the application (samples not
withheld, plus samples moved out of `held_` by `notify_delivery`, in release
order) are strictly increasing. -/
theorem in_order_delivery_durable (id_ w : RepoId) (msgs : List ReaderInput)
    (hv : ∀ m ∈ msgs, m.valid = true) :
    ∃ t, RtpsReader.receive_all ⟨id_, true, [(w, WriterInfo.fresh)]⟩
        (msgs.map (fun m => (w, m))) = some t ∧
      (released t.2).Pairwise (fun a b => a < b) := by
  have h0 : DurableOrdered w ⟨id_, true, [(w, WriterInfo.fresh)]⟩ [] :=
    ⟨rfl, WriterInfo.fresh, rfl, heldOrdered_fresh, heldAbove_fresh⟩
  obtain ⟨t, h1, h2⟩ := receive_all_ordered msgs h0 hv
  refine ⟨t, h1, ?_⟩
  obtain ⟨_, info, _, ho, _⟩ := h2
  simpa using ho.log_sorted

/-- Witness for C1: DATA 3, 1, 2 at a durable reader.  DATA 3 is withheld on
arrival and the application sees 1, 2, 3. -/
theorem in_order_delivery_durable_witness :
    (∀ m ∈ [ReaderInput.data ⟨4, 2, 3⟩ 103, ReaderInput.data ⟨4, 2, 1⟩ 101,
        ReaderInput.data ⟨4, 2, 2⟩ 102], m.valid = true) ∧
    (∃ t, RtpsReader.receive_all ⟨⟨1, 4⟩, true, [(⟨7, 2⟩, WriterInfo.fresh)]⟩
        ([ReaderInput.data ⟨4, 2, 3⟩ 103, ReaderInput.data ⟨4, 2, 1⟩ 101,
          ReaderInput.data ⟨4, 2, 2⟩ 102].map (fun m => ((⟨7, 2⟩ : RepoId), m))) = some t ∧
      (released t.2).Pairwise (fun a b => a < b)) ∧
    (RtpsReader.process_data_i ⟨⟨1, 4⟩, true, [(⟨7, 2⟩, WriterInfo.fresh)]⟩ true ⟨4, 2, 3⟩ 103
        ⟨7, 2⟩).events = [ReaderEvent.withhold_data_from 3] ∧
    (RtpsReader.receive_all ⟨⟨1, 4⟩, true, [(⟨7, 2⟩, WriterInfo.fresh)]⟩
        [(⟨7, 2⟩, ReaderInput.data ⟨4, 2, 3⟩ 103), (⟨7, 2⟩, ReaderInput.data ⟨4, 2, 1⟩ 101),
          (⟨7, 2⟩, ReaderInput.data ⟨4, 2, 2⟩ 102)]).map (fun t => released t.2) =
      some [1, 2, 3] :=
  ⟨by decide,
   in_order_delivery_durable ⟨1, 4⟩ ⟨7, 2⟩ [ReaderInput.data ⟨4, 2, 3⟩ 103,
     ReaderInput.data ⟨4, 2, 1⟩ 101, ReaderInput.data ⟨4, 2, 2⟩ 102] (by decide),
   by decide, by decide⟩

/-- C1 as stated fails.  (1) A non-durable reader with a fresh `WriterInfo`
releases DATA 3 on arrival and the application sees 3, 1, 2.  (2) A DATA with
the reserved number 0 is released after DATA 1 by a durable reader.  (3) With a
second remote writer `v`, the first heartbeat of `v` makes `gather_ack_nacks_i`
insert `[0, 3]` into the received set of `w` while DATA 3 of `w` is held, and
DATA 4 of `w` is then released before DATA 3. -/
theorem in_order_delivery_counterexample :
    (RtpsReader.receive_all ⟨⟨1, 4⟩, false, [(⟨7, 2⟩, WriterInfo.fresh)]⟩
        [(⟨7, 2⟩, ReaderInput.data ⟨4, 2, 3⟩ 103), (⟨7, 2⟩, ReaderInput.data ⟨4, 2, 1⟩ 101),
          (⟨7, 2⟩, ReaderInput.data ⟨4, 2, 2⟩ 102)]).map (fun t => released t.2) =
      some [3, 1, 2] ∧
    (RtpsReader.process_data_i ⟨⟨1, 4⟩, false, [(⟨7, 2⟩, WriterInfo.fresh)]⟩ true ⟨4, 2, 3⟩ 103
        ⟨7, 2⟩).events = [ReaderEvent.do_not_withhold_data_from 3, ReaderEvent.notify] ∧
    (RtpsReader.receive_all ⟨⟨1, 4⟩, true, [(⟨7, 2⟩, WriterInfo.fresh)]⟩
        [(⟨7, 2⟩, ReaderInput.data ⟨4, 2, 1⟩ 101),
          (⟨7, 2⟩, ReaderInput.data ⟨4, 2, 0⟩ 100)]).map (fun t => released t.2) =
      some [1, 0] ∧
    (RtpsReader.receive_all
        ⟨⟨1, 4⟩, true, [(⟨7, 2⟩, WriterInfo.fresh), (⟨8, 2⟩, WriterInfo.fresh)]⟩
        [(⟨7, 2⟩, ReaderInput.heartbeat ⟨⟨HEARTBEAT, FLAG_E, HEARTBEAT_SZ⟩, 0, 2, 3, 5, 1⟩
            ⟨fun _ _ => (false, []), fun b _ _ _ => (false, b)⟩),
          (⟨7, 2⟩, ReaderInput.data ⟨4, 2, 3⟩ 103),
          (⟨8, 2⟩, ReaderInput.heartbeat ⟨⟨HEARTBEAT, FLAG_E, HEARTBEAT_SZ⟩, 0, 2, 1, 1, 1⟩
            ⟨fun _ _ => (false, []), fun b _ _ _ => (false, b)⟩),
          (⟨7, 2⟩, ReaderInput.data ⟨4, 2, 4⟩ 104)]).map (fun t => released t.2) =
      some [4, 3] := by
  refine ⟨by decide, by decide, by decide, by decide⟩

/-! ## Withhold decision, GAP and heartbeat baseline -/

/-- C2 (amended): the withhold decision of `process_data_i`.  For a DATA numbered
`seq` from an associated writer whose `recvd` does not contain `seq`, the sample
is stored in `held[seq]` and withheld if and only if `recvd` is disjoint, or
`recvd` is not empty and `recvd.cumulative_ack() ≠ seq - 1`, or the reader is
durable and (`recvd` is not empty and its lowest number is `> 1`, or `recvd` is
empty and `seq > 1`); in every other case the sample is delivered at once and no
entry is added to `held`. -/
theorem withhold_decision (durable : Bool) (info : WriterInfo) (seq : Int)
    (sample : ReceivedDataSample) (hn : info.recvd_.contains seq = false) :
    ((info.recvd_.disjoint = true ∨
        (info.recvd_.empty = false ∧ info.recvd_.cumulative_ack ≠ seq - 1) ∨
        (durable = true ∧ ((info.recvd_.empty = false ∧ 1 < info.recvd_.low) ∨
          (info.recvd_.empty = true ∧ 1 < seq)))) →
      (process_data_decide durable info seq sample).1.held_ = map_insert info.held_ seq sample ∧
      (process_data_decide durable info seq sample).2 = [ReaderEvent.withhold_data_from seq] ∧
      (process_data_wi durable info seq sample).2.head? =
        some (ReaderEvent.withhold_data_from seq)) ∧
    (¬ (info.recvd_.disjoint = true ∨
        (info.recvd_.empty = false ∧ info.recvd_.cumulative_ack ≠ seq - 1) ∨
        (durable = true ∧ ((info.recvd_.empty = false ∧ 1 < info.recvd_.low) ∨
          (info.recvd_.empty = true ∧ 1 < seq)))) →
      (process_data_decide durable info seq sample).1.held_ = info.held_ ∧
      (process_data_decide durable info seq sample).2 =
        [ReaderEvent.do_not_withhold_data_from seq] ∧
      (process_data_wi durable info seq sample).2.head? =
        some (ReaderEvent.do_not_withhold_data_from seq)) := by
  have key : data_disposition durable info seq =
      if (info.recvd_.disjoint = true ∨
        (info.recvd_.empty = false ∧ info.recvd_.cumulative_ack ≠ seq - 1) ∨
        (durable = true ∧ ((info.recvd_.empty = false ∧ 1 < info.recvd_.low) ∨
          (info.recvd_.empty = true ∧ 1 < seq)))) then DataDisposition.hold
      else DataDisposition.deliver := by
    unfold data_disposition
    rw [hn]
    simp only [Bool.false_eq_true, if_false, SequenceNumber.previous]
    cases info.recvd_.disjoint <;> cases info.recvd_.empty <;> cases durable <;> simp
  constructor
  · intro c
    unfold process_data_wi process_data_decide
    simp only [data_disposition_frags, key, if_pos c]
    exact ⟨trivial, trivial, rfl⟩
  · intro c
    unfold process_data_wi process_data_decide
    simp only [data_disposition_frags, key, if_neg c]
    exact ⟨trivial, trivial, rfl⟩

/-- Witness for C2: DATA 3 at a durable reader with nothing received is held. -/
theorem withhold_decision_witness :
    WriterInfo.fresh.recvd_.contains 3 = false ∧
    (process_data_decide true WriterInfo.fresh 3 103).1.held_ = [(3, 103)] ∧
    (process_data_decide true WriterInfo.fresh 3 103).2 = [ReaderEvent.withhold_data_from 3] :=
  ⟨by decide,
   ((withhold_decision true WriterInfo.fresh 3 103 (by decide)).1 (by decide)).1,
   ((withhold_decision true WriterInfo.fresh 3 103 (by decide)).1 (by decide)).2.1⟩

/-- C2 as stated fails on an empty `recvd`: at a non-durable reader with nothing
received, DATA 3 is delivered at once and not held, although
`recvd.cumulative_ack()` (the sentinel of the empty set) differs from `seq - 1`. -/
theorem withhold_decision_counterexample :
    WriterInfo.fresh.recvd_.contains 3 = false ∧
    WriterInfo.fresh.recvd_.cumulative_ack ≠ 3 - 1 ∧
    (process_data_decide false WriterInfo.fresh 3 103).1.held_ = [] ∧
    (process_data_decide false WriterInfo.fresh 3 103).2 =
      [ReaderEvent.do_not_withhold_data_from 3] ∧
    (process_data_wi false WriterInfo.fresh 3 103).1.held_ = [] := by
  decide

/-- C3 (amended): what a GAP adds.  After `process_gap_i`, `recvd` contains every
number of `[gapStart, e]`, where `e` is the smaller of `gapListBase - 1` and the
end of the first hole of the previous `recvd` (`MAX_VALUE` when it has no hole),
every number `gapListBase + i` whose bit `i < numBits` is set in `gapList`, and
everything it contained before.  When the previous `recvd` has no hole, that is
the whole range `[gapStart, gapListBase - 1]`. -/
theorem gap_coverage (durable : Bool) (info : WriterInfo) (gap : GapSubmessage)
    (hwf : info.recvd_.WF) :
    (∀ n, gap.gapStart ≤ n → n ≤ gap_range_end info.recvd_ gap.gapList.bitmapBase →
      (process_gap_wi durable info gap).1.recvd_.contains n = true) ∧
    (∀ i : Nat, i < gap.gapList.numBits → bitmap_bit gap.gapList.bitmap i = true →
      (process_gap_wi durable info gap).1.recvd_.contains (gap.gapList.bitmapBase + i) = true) ∧
    (∀ n, info.recvd_.contains n = true →
      (process_gap_wi durable info gap).1.recvd_.contains n = true) ∧
    (info.recvd_.disjoint = false → gap.gapList.bitmapBase - 1 ≤ SequenceNumber.MAX_VALUE →
      ∀ n, gap.gapStart ≤ n → n ≤ gap.gapList.bitmapBase - 1 →
        (process_gap_wi durable info gap).1.recvd_.contains n = true) := by
  have hw1 : (if gap.gapStart ≤ gap_range_end info.recvd_ gap.gapList.bitmapBase then
      info.recvd_.insert_range (gap.gapStart, gap_range_end info.recvd_ gap.gapList.bitmapBase)
      else info.recvd_).WF := by
    split_ifs
    · exact DisjointSequence.wf_insert_range hwf _
    · exact hwf
  have hm1 : ∀ n, (if gap.gapStart ≤ gap_range_end info.recvd_ gap.gapList.bitmapBase then
      info.recvd_.insert_range (gap.gapStart, gap_range_end info.recvd_ gap.gapList.bitmapBase)
      else info.recvd_).Mem n ↔ ((gap.gapStart ≤ n ∧
        n ≤ gap_range_end info.recvd_ gap.gapList.bitmapBase) ∨ info.recvd_.Mem n) := by
    intro n
    split_ifs with c
    · exact DisjointSequence.mem_insert_range hwf _ n
    · constructor
      · exact Or.inr
      · rintro (⟨a, b⟩ | a)
        · omega
        · exact a
  have hr : (process_gap_wi durable info gap).1.recvd_ =
      (if gap.gapStart ≤ gap_range_end info.recvd_ gap.gapList.bitmapBase then
        info.recvd_.insert_range (gap.gapStart, gap_range_end info.recvd_ gap.gapList.bitmapBase)
        else info.recvd_).insert_bitmap gap.gapList.bitmapBase gap.gapList.numBits
          gap.gapList.bitmap := by
    unfold process_gap_wi
    rw [deliver_held_data_recvd]
  have hrange : ∀ n, gap.gapStart ≤ n → n ≤ gap_range_end info.recvd_ gap.gapList.bitmapBase →
      (process_gap_wi durable info gap).1.recvd_.contains n = true := by
    intro n h1 h2
    rw [hr, DisjointSequence.contains_iff, DisjointSequence.mem_insert_bitmap hw1]
    exact Or.inl ((hm1 n).2 (Or.inl ⟨h1, h2⟩))
  refine ⟨hrange, ?_, ?_, ?_⟩
  · intro i h1 h2
    rw [hr, DisjointSequence.contains_iff, DisjointSequence.mem_insert_bitmap hw1]
    exact Or.inr ⟨i, h1, h2, rfl⟩
  · intro n h1
    rw [hr, DisjointSequence.contains_iff, DisjointSequence.mem_insert_bitmap hw1]
    exact Or.inl ((hm1 n).2 (Or.inr ((DisjointSequence.contains_iff _ _).1 h1)))
  · intro hd hmax n h1 h2
    apply hrange n h1
    have hmiss : info.recvd_.missing_sequence_ranges = [] := by
      unfold DisjointSequence.missing_sequence_ranges
      unfold DisjointSequence.disjoint at hd
      rcases hs : info.recvd_.sequences_ with _ | ⟨r, _ | ⟨r2, rest⟩⟩
      · rfl
      · rfl
      · rw [hs] at hd; simp at hd
    unfold gap_range_end
    simp only [hmiss, SequenceNumber.previous]
    split_ifs <;> exact le_min (by omega) h2

/-- Witness for C3: the GAP `[3, 4]` with base 5 after DATA 1, 2 (scenario 5 of the spec). -/
theorem gap_coverage_witness :
    DisjointSequence.WF ⟨[(1, 2)]⟩ ∧
    (process_gap_wi false { WriterInfo.fresh with recvd_ := ⟨[(1, 2)]⟩ }
      ⟨⟨GAP, FLAG_E, 0⟩, 4, 2, 3, ⟨5, 1, [0]⟩⟩).1.recvd_.contains 4 = true :=
  ⟨⟨0, by simp [DisjointSequence.RunsFrom]⟩,
   (gap_coverage false { WriterInfo.fresh with recvd_ := ⟨[(1, 2)]⟩ }
      ⟨⟨GAP, FLAG_E, 0⟩, 4, 2, 3, ⟨5, 1, [0]⟩⟩ ⟨0, by simp [DisjointSequence.RunsFrom]⟩).2.2.2
      (by decide) (by decide) 4 (by decide) (by decide)⟩

/-- C3 as stated fails: after DATA 1, 5, 6, 10 the received set is `{1, 5, 6, 10}`;
the GAP with `gapStart = 7`, `gapListBase = 10` and no bit set is clipped at the
end 4 of the first hole, so nothing of `[7, 9]` is inserted, and 7, 8, 9 were
not received before. -/
theorem gap_coverage_counterexample :
    (RtpsReader.receive_all ⟨⟨1, 4⟩, false, [(⟨7, 2⟩, WriterInfo.fresh)]⟩
        [(⟨7, 2⟩, ReaderInput.data ⟨4, 2, 1⟩ 101), (⟨7, 2⟩, ReaderInput.data ⟨4, 2, 5⟩ 105),
          (⟨7, 2⟩, ReaderInput.data ⟨4, 2, 6⟩ 106),
          (⟨7, 2⟩, ReaderInput.data ⟨4, 2, 10⟩ 110)]).map
        (fun t => t.1.remote_writers_.map (fun e => e.2.recvd_)) =
      some [⟨[(1, 1), (5, 6), (10, 10)]⟩] ∧
    (7 : Int) ≤ 10 - 1 ∧
    (process_gap_wi false { WriterInfo.fresh with recvd_ := ⟨[(1, 1), (5, 6), (10, 10)]⟩ }
      ⟨⟨GAP, FLAG_E, 0⟩, 4, 2, 7, ⟨10, 1, [0]⟩⟩).1.recvd_ = ⟨[(1, 1), (5, 6), (10, 10)]⟩ ∧
    (process_gap_wi false { WriterInfo.fresh with recvd_ := ⟨[(1, 1), (5, 6), (10, 10)]⟩ }
      ⟨⟨GAP, FLAG_E, 0⟩, 4, 2, 7, ⟨10, 1, [0]⟩⟩).1.recvd_.contains 7 = false := by
  decide

theorem process_heartbeat_apply_recvd (info : WriterInfo) (hb : HeartBeatSubmessage)
    (hl : 1 ≤ hb.lastSN) :
    (process_heartbeat_apply false info hb).1.recvd_ =
      if info.initial_hb_ = true then
        if info.recvd_.empty = true ∨ hb.lastSN ≤ info.recvd_.low then
          info.recvd_.insert_range (0, hb.lastSN)
        else info.recvd_.insert_range (0, info.recvd_.low)
      else if info.recvd_.empty = false then
        info.recvd_.insert_range (0, if 1 < hb.firstSN then hb.firstSN - 1 else 0)
      else info.recvd_ := by
  unfold process_heartbeat_apply
  simp only [SequenceNumber.INITIAL_VALUE, SequenceNumber.ZERO, SequenceNumber.previous,
    ge_iff_le, hl, if_true, gt_iff_lt]
  show (deliver_held_data _ false).1.recvd_ = _
  rw [deliver_held_data_recvd]
  cases info.initial_hb_ <;> cases info.recvd_.empty <;> simp

theorem process_heartbeat_apply_baseline (info : WriterInfo) (hb : HeartBeatSubmessage)
    (hwf : info.recvd_.WF) (hl : 1 ≤ hb.lastSN) :
    (info.initial_hb_ = true → (info.recvd_.empty = true ∨ hb.lastSN ≤ info.recvd_.low) →
      ∀ n, 0 ≤ n → n ≤ hb.lastSN →
        (process_heartbeat_apply false info hb).1.recvd_.contains n = true) ∧
    (info.initial_hb_ = true → info.recvd_.empty = false → info.recvd_.low < hb.lastSN →
      ∀ n, 0 ≤ n → n ≤ info.recvd_.low →
        (process_heartbeat_apply false info hb).1.recvd_.contains n = true) ∧
    (info.initial_hb_ = false → info.recvd_.empty = false →
      ∀ n, 0 ≤ n → n ≤ max (hb.firstSN - 1) 0 →
        (process_heartbeat_apply false info hb).1.recvd_.contains n = true) ∧
    (∀ n, info.recvd_.contains n = true →
      (process_heartbeat_apply false info hb).1.recvd_.contains n = true) := by
  rw [process_heartbeat_apply_recvd info hb hl]
  refine ⟨?_, ?_, ?_, ?_⟩
  · intro h1 h2 n h3 h4
    rw [if_pos h1, if_pos h2, DisjointSequence.contains_iff,
      DisjointSequence.mem_insert_range hwf]
    exact Or.inl ⟨h3, h4⟩
  · intro h1 h2 h3 n h4 h5
    have hc : ¬ (info.recvd_.empty = true ∨ hb.lastSN ≤ info.recvd_.low) := by
      rintro (c | c)
      · rw [h2] at c; cases c
      · omega
    rw [if_pos h1, if_neg hc, DisjointSequence.contains_iff,
      DisjointSequence.mem_insert_range hwf]
    exact Or.inl ⟨h4, h5⟩
  · intro h1 h2 n h3 h4
    rw [if_neg (by simp [h1]), if_pos h2, DisjointSequence.contains_iff,
      DisjointSequence.mem_insert_range hwf]
    left
    refine ⟨h3, ?_⟩
    show n ≤ if 1 < hb.firstSN then hb.firstSN - 1 else 0
    split_ifs with c
    · rcases le_max_iff.1 h4 with h | h <;> omega
    · rcases le_max_iff.1 h4 with h | h <;> omega
  · intro n h1
    have h2 := (DisjointSequence.contains_iff _ _).1 h1
    rw [DisjointSequence.contains_iff]
    split_ifs <;>
      first
      | exact h2
      | exact (DisjointSequence.mem_insert_range hwf _ n).2 (Or.inr h2)

/-- C4 as stated fails.  (1) A non-durable reader that received DATA 3 first and
then accepts the final heartbeat `[1, 5]` (count 1) ends with `recvd = [0, 3]`:
4 and 5 are missing.  (2) After a first heartbeat `[1, 2]`, the final heartbeat
`[1, 5]` (count 2) inserts `[0, 0]` only: 3, 4 and 5 are missing. -/
theorem heartbeat_baseline_counterexample :
    (RtpsReader.receive_all ⟨⟨1, 4⟩, false, [(⟨7, 2⟩, WriterInfo.fresh)]⟩
        [(⟨7, 2⟩, ReaderInput.data ⟨4, 2, 3⟩ 103),
          (⟨7, 2⟩, ReaderInput.heartbeat ⟨⟨HEARTBEAT, FLAG_E ||| FLAG_F, HEARTBEAT_SZ⟩, 0, 2, 1, 5, 1⟩
            ⟨fun _ _ => (false, []), fun b _ _ _ => (false, b)⟩)]).map
        (fun t => t.1.remote_writers_.map (fun e => (e.2.recvd_, e.2.recvd_.contains 4))) =
      some [(⟨[(0, 3)]⟩, false)] ∧
    (RtpsReader.receive_all ⟨⟨1, 4⟩, false, [(⟨7, 2⟩, WriterInfo.fresh)]⟩
        [(⟨7, 2⟩, ReaderInput.heartbeat ⟨⟨HEARTBEAT, FLAG_E ||| FLAG_F, HEARTBEAT_SZ⟩, 0, 2, 1, 2, 1⟩
            ⟨fun _ _ => (false, []), fun b _ _ _ => (false, b)⟩),
          (⟨7, 2⟩, ReaderInput.heartbeat ⟨⟨HEARTBEAT, FLAG_E ||| FLAG_F, HEARTBEAT_SZ⟩, 0, 2, 1, 5, 2⟩
            ⟨fun _ _ => (false, []), fun b _ _ _ => (false, b)⟩)]).map
        (fun t => t.1.remote_writers_.map (fun e => (e.2.recvd_, e.2.recvd_.contains 4))) =
      some [(⟨[(0, 2)]⟩, false)] := by
  refine ⟨by decide, by decide⟩

/-! ## ACKNACK generation -/

/-- C5 (code defect): `gather_ack_nacks_i` nacks a sample it has received.
(1) A non-durable reader that received DATA 1, 2, 5 and then the first heartbeat
`[1, 8]` replies at once with an ACKNACK of base 3, `numBits = 6` and the bits
0 to 5 set: bit 2 stands for sequence number 5, which is in `recvd`.  (2) In the
branch that nacks below the received low, a durable reader with `recvd = {3}`
and the heartbeat range `[1, 3]` sends base 1 with the bits 0 to 2 set: it nacks
`[hb_low, recvd.low()]`, the received 3 included, not `[hb_low, recvd.low() - 1]`. -/
theorem acknack_nacks_received_sample :
    (RtpsReader.receive_all ⟨⟨1, 4⟩, false, [(⟨7, 2⟩, WriterInfo.fresh)]⟩
        [(⟨7, 2⟩, ReaderInput.data ⟨4, 2, 1⟩ 101), (⟨7, 2⟩, ReaderInput.data ⟨4, 2, 2⟩ 102),
          (⟨7, 2⟩, ReaderInput.data ⟨4, 2, 5⟩ 105)]).map (fun t => t.1) =
      some ⟨⟨1, 4⟩, false, [(⟨7, 2⟩, { WriterInfo.fresh with recvd_ := ⟨[(1, 2), (5, 5)]⟩,
                                                              held_ := [(5, 105)] })]⟩ ∧
    ((RtpsReader.process_heartbeat_i
        ⟨⟨1, 4⟩, false, [(⟨7, 2⟩, { WriterInfo.fresh with recvd_ := ⟨[(1, 2), (5, 5)]⟩,
                                                            held_ := [(5, 105)] })]⟩
        true ⟨fun _ _ => (false, []), fun b _ _ _ => (false, b)⟩
        ⟨⟨HEARTBEAT, FLAG_E, HEARTBEAT_SZ⟩, 4, 2, 1, 8, 1⟩ ⟨7, 2⟩).map
      (fun res => (res.meta_submessages.map (fun m => m.sm_),
        res.reader.remote_writers_.map (fun e => e.2.recvd_.contains (3 + 2))))) =
      some ([Submessage.acknack_sm ⟨⟨ACKNACK, FLAG_E, 0⟩, 4, 2, ⟨3, 6, [4227858432]⟩, 1⟩],
        [true]) ∧
    bitmap_bit [4227858432] 2 = true ∧
    ((gather_ack_nacks_wi ⟨1, 4⟩ true true ⟨fun _ _ => (false, []), fun b _ _ _ => (false, b)⟩
        false ⟨7, 2⟩
        { WriterInfo.fresh with recvd_ := ⟨[(3, 3)]⟩, held_ := [(3, 103)], hb_range_ := (1, 3) }).map
      (fun g => (g.2.map (fun m => m.sm_), g.1.recvd_.contains (1 + 2)))) =
      some ([Submessage.acknack_sm ⟨⟨ACKNACK, FLAG_E, 0⟩, 4, 2, ⟨1, 3, [3758096384]⟩, 1⟩],
        true) ∧
    bitmap_bit [3758096384] 2 = true := by
  refine ⟨by decide, by decide, by decide, by decide, by decide⟩

/-! ## Writer side: duplicates, acknowledgement by all readers, heartbeat counts -/

theorem guid_find_set {α : Type} (m : List (RepoId × α)) (k : RepoId) (v0 v : α)
    (h : guid_find m k = some v0) : guid_find (guid_set m k v) k = some v := by
  induction m with
  | nil => simp [guid_find] at h
  | cons e rest ih =>
    by_cases c : e.1 = k
    · simp [guid_find, guid_set, c]
    · have h1 : guid_find rest k = some v0 := by
        simpa [guid_find, List.find?_cons, c] using h
      have h2 := ih h1
      simpa [guid_find, guid_set, List.find?_cons, c] using h2

theorem acked_by_all_helper_i_readers (w : RtpsWriter) (link : Bool) (td : SnToTqeMap)
    (a : RtpsWriter × SnToTqeMap) (h : w.acked_by_all_helper_i link td = some a) :
    a.1.remote_readers_ = w.remote_readers_ := by
  unfold RtpsWriter.acked_by_all_helper_i at h
  split_ifs at h with c1 c2 c3
  · cases h; rfl
  · cases h; rfl
  · cases h; rfl
  · unfold RtpsWriter.acked_by_all_release at h
    cases hsb : w.send_buff_ with
    | none =>
      rw [hsb] at h
      simp only at h
      split_ifs at h
      cases h; rfl
    | some sb =>
      rw [hsb] at h
      cases h; rfl

theorem acked_by_all_helper_i_returns (w : RtpsWriter) (link : Bool) (td : SnToTqeMap)
    (h : w.send_buff_ ≠ none) : ∃ a, w.acked_by_all_helper_i link td = some a := by
  obtain ⟨sb, hsb⟩ := Option.ne_none_iff_exists'.1 h
  unfold RtpsWriter.acked_by_all_helper_i
  split_ifs
  · exact ⟨_, rfl⟩
  · exact ⟨_, rfl⟩
  · exact ⟨_, rfl⟩
  · unfold RtpsWriter.acked_by_all_release
    rw [hsb]
    exact ⟨_, rfl⟩

theorem acknack_update_reader_count (ri : ReaderInfo) (an : AckNackSubmessage) (f : Bool) :
    (acknack_update_reader ri an f).acknack_recvd_count_ = ri.acknack_recvd_count_ := by
  unfold acknack_update_reader
  simp only
  split_ifs <;> rfl

theorem process_acknack_finish_count (w : RtpsWriter) (ri0 ri : ReaderInfo)
    (an : AckNackSubmessage) (src : RepoId) (is_final first_ack : Bool)
    (events : List WriterEvent) (ms : List MetaSubmessage)
    (pending : List (Int × TransportQueueElement)) (res : WriterResult)
    (hri : guid_find w.remote_readers_ src = some ri0)
    (h : w.process_acknack_finish ri an src is_final first_ack events ms pending = some res) :
    ∃ ri1, guid_find res.writer.remote_readers_ src = some ri1 ∧
      ri1.acknack_recvd_count_ = ri.acknack_recvd_count_ := by
  unfold RtpsWriter.process_acknack_finish at h
  split at h
  · cases h
  · rename_i a ha
    cases h
    simp only
    rw [acked_by_all_helper_i_readers _ _ _ _ ha]
    exact ⟨_, guid_find_set _ _ _ _ hri, acknack_update_reader_count ri an is_final⟩

/-- C6: writer-side duplicate suppression.  For a reader `src` known to the
writer: an ACKNACK whose count is `≤ acknack_recvd_count` and a NACK_FRAG whose
count is `≤ nackfrag_recvd_count` leave the whole writer unchanged, push no
meta-submessage and make no call (no callback, no timer); an accepted ACKNACK or
NACK_FRAG leaves its count as the stored count when the call returns, and
`process_acknack` returns whenever the send buffer has been created; so the stored
counts never decrease. -/
theorem writer_duplicate_suppression (w : RtpsWriter) (link : Bool) (an : AckNackSubmessage)
    (nf : NackFragSubmessage) (src : RepoId) (ri : ReaderInfo)
    (hri : guid_find w.remote_readers_ src = some ri) :
    (an.count ≤ ri.acknack_recvd_count_ → w.process_acknack link an src = some ⟨w, [], []⟩) ∧
    (nf.count ≤ ri.nackfrag_recvd_count_ → w.process_nackfrag link nf src = ⟨w, [], []⟩) ∧
    (ri.acknack_recvd_count_ < an.count → ∀ res, w.process_acknack true an src = some res →
      ∃ ri1, guid_find res.writer.remote_readers_ src = some ri1 ∧
        ri1.acknack_recvd_count_ = an.count) ∧
    (ri.acknack_recvd_count_ < an.count → w.send_buff_ ≠ none →
      ∃ res, w.process_acknack true an src = some res) ∧
    (ri.nackfrag_recvd_count_ < nf.count →
      ∃ ri1, guid_find (w.process_nackfrag true nf src).writer.remote_readers_ src = some ri1 ∧
        ri1.nackfrag_recvd_count_ = nf.count) ∧
    (∀ res, w.process_acknack link an src = some res →
      ∃ ri1, guid_find res.writer.remote_readers_ src = some ri1 ∧
        ri.acknack_recvd_count_ ≤ ri1.acknack_recvd_count_) ∧
    (∃ ri1, guid_find (w.process_nackfrag link nf src).writer.remote_readers_ src = some ri1 ∧
        ri.nackfrag_recvd_count_ ≤ ri1.nackfrag_recvd_count_) := by
  have hacc : ri.acknack_recvd_count_ < an.count → ∀ res,
      w.process_acknack true an src = some res →
      ∃ ri1, guid_find res.writer.remote_readers_ src = some ri1 ∧
        ri1.acknack_recvd_count_ = an.count := by
    intro hc res hres
    unfold RtpsWriter.process_acknack at hres
    simp only [Bool.not_true, Bool.false_eq_true, if_false, hri, if_neg (not_le.2 hc)] at hres
    split_ifs at hres with c1
    · split at hres
      · cases hres
        exact ⟨_, guid_find_set _ _ _ _ hri, rfl⟩
      · exact process_acknack_finish_count w ri _ an src _ _ _ _ _ res hri hres
    · exact process_acknack_finish_count w ri _ an src _ _ _ _ _ res hri hres
  have hnf : ri.nackfrag_recvd_count_ < nf.count →
      ∃ ri1, guid_find (w.process_nackfrag true nf src).writer.remote_readers_ src = some ri1 ∧
        ri1.nackfrag_recvd_count_ = nf.count := by
    intro hc
    unfold RtpsWriter.process_nackfrag
    simp only [Bool.not_true, Bool.false_eq_true, if_false, hri, if_neg (not_le.2 hc)]
    exact ⟨_, guid_find_set _ _ _ _ hri, rfl⟩
  have hdup : ∀ l : Bool, an.count ≤ ri.acknack_recvd_count_ →
      w.process_acknack l an src = some ⟨w, [], []⟩ := by
    intro l hc
    unfold RtpsWriter.process_acknack
    simp only [hri, if_pos hc]
    split_ifs <;> rfl
  have hdupnf : ∀ l : Bool, nf.count ≤ ri.nackfrag_recvd_count_ →
      w.process_nackfrag l nf src = ⟨w, [], []⟩ := by
    intro l hc
    unfold RtpsWriter.process_nackfrag
    simp only [hri, if_pos hc]
    split_ifs <;> rfl
  have hdead : w.process_acknack false an src = some ⟨w, [], []⟩ := by
    unfold RtpsWriter.process_acknack
    rfl
  have hdeadnf : w.process_nackfrag false nf src = ⟨w, [], []⟩ := by
    unfold RtpsWriter.process_nackfrag
    rfl
  refine ⟨hdup link, hdupnf link, hacc, ?_, hnf, ?_, ?_⟩
  · intro hc hsb
    have hfin : ∀ (ri2 : ReaderInfo) (f a : Bool) (ev : List WriterEvent)
        (ms : List MetaSubmessage) (pd : List (Int × TransportQueueElement)),
        ∃ res, w.process_acknack_finish ri2 an src f a ev ms pd = some res := by
      intro ri2 f a ev ms pd
      unfold RtpsWriter.process_acknack_finish
      obtain ⟨x, hx⟩ := acked_by_all_helper_i_returns
        { w with remote_readers_ :=
                   guid_set w.remote_readers_ src (acknack_update_reader ri2 an f) } true [] hsb
      rw [hx]
      exact ⟨_, rfl⟩
    unfold RtpsWriter.process_acknack
    simp only [Bool.not_true, Bool.false_eq_true, if_false, hri, if_neg (not_le.2 hc)]
    split_ifs with c1
    · split
      · exact ⟨_, rfl⟩
      · exact hfin _ _ _ _ _ _
    · exact hfin _ _ _ _ _ _
  · intro res hres
    cases link with
    | false =>
      rw [hdead] at hres
      cases hres
      exact ⟨ri, hri, le_refl _⟩
    | true =>
      by_cases hc : an.count ≤ ri.acknack_recvd_count_
      · rw [hdup true hc] at hres
        cases hres
        exact ⟨ri, hri, le_refl _⟩
      · obtain ⟨ri1, h1, h2⟩ := hacc (not_le.1 hc) res hres
        exact ⟨ri1, h1, by omega⟩
  · cases link with
    | false =>
      rw [hdeadnf]
      exact ⟨ri, hri, le_refl _⟩
    | true =>
      by_cases hc : nf.count ≤ ri.nackfrag_recvd_count_
      · rw [hdupnf true hc]
        exact ⟨ri, hri, le_refl _⟩
      · obtain ⟨ri1, h1, h2⟩ := hnf (not_le.1 hc)
        exact ⟨ri1, h1, by omega⟩

/-- Witness for C6: a duplicate ACKNACK (count 3, stored count 3) to a writer with
one reader changes nothing. -/
theorem writer_duplicate_suppression_witness :
    guid_find [((⟨9, 7⟩ : RepoId), { ReaderInfo.fresh false with acknack_recvd_count_ := 3 })]
        ⟨9, 7⟩ = some { ReaderInfo.fresh false with acknack_recvd_count_ := 3 } ∧
    (3 : Int) ≤ 3 ∧
    RtpsWriter.process_acknack
        ⟨[(⟨9, 7⟩, { ReaderInfo.fresh false with acknack_recvd_count_ := 3 })], none, 1,
          [(1, 11)], [], ⟨1, 2⟩, false, 0⟩ true
        ⟨⟨ACKNACK, FLAG_E, 0⟩, 7, 2, ⟨2, 1, [0]⟩, 3⟩ ⟨9, 7⟩ =
      some ⟨⟨[(⟨9, 7⟩, { ReaderInfo.fresh false with acknack_recvd_count_ := 3 })], none, 1,
          [(1, 11)], [], ⟨1, 2⟩, false, 0⟩, [], []⟩ :=
  ⟨by decide, by decide,
   (writer_duplicate_suppression
      ⟨[(⟨9, 7⟩, { ReaderInfo.fresh false with acknack_recvd_count_ := 3 })], none, 1,
        [(1, 11)], [], ⟨1, 2⟩, false, 0⟩ true
      ⟨⟨ACKNACK, FLAG_E, 0⟩, 7, 2, ⟨2, 1, [0]⟩, 3⟩
      ⟨⟨NACK_FRAG, FLAG_E, 0⟩, 7, 2, 1, ⟨1, 1, [0]⟩, 0⟩ ⟨9, 7⟩
      { ReaderInfo.fresh false with acknack_recvd_count_ := 3 } (by decide)).1 (by decide)⟩

theorem all_readers_ack_foldl (m : Int) (l : List (RepoId × ReaderInfo)) :
    ∀ acc : Int, (∀ ri ∈ l, m ≤ ri.2.cur_cumulative_ack_) → m ≤ acc →
      ((∃ ri ∈ l, ri.2.cur_cumulative_ack_ = m) ∨ acc = m) →
      l.foldl (fun acc ri => if ri.2.cur_cumulative_ack_ < acc then ri.2.cur_cumulative_ack_
        else acc) acc = m := by
  induction l with
  | nil =>
    intro acc _ _ h
    rcases h with ⟨ri, hri, _⟩ | h
    · cases hri
    · exact h
  | cons r rest ih =>
    intro acc h1 h2 h3
    simp only [List.foldl_cons]
    have hr := h1 r (List.mem_cons_self _ _)
    apply ih _ (fun ri hri => h1 ri (List.mem_cons_of_mem _ hri))
    · split_ifs <;> omega
    · rcases h3 with ⟨ri, hri, h4⟩ | h3
      · rcases List.mem_cons.1 hri with h5 | h5
        · subst h5
          right
          split_ifs <;> omega
        · exact Or.inl ⟨ri, h5, h4⟩
      · right
        split_ifs <;> omega

theorem takeWhile_lt_eq_filter (m : Int) (l : SnToTqeMap)
    (h : l.Pairwise (fun a b => a.1 ≤ b.1)) :
    l.takeWhile (fun e => decide (e.1 < m)) = l.filter (fun e => decide (e.1 < m)) ∧
    l.dropWhile (fun e => decide (e.1 < m)) = l.filter (fun e => decide (m ≤ e.1)) := by
  induction l with
  | nil => exact ⟨rfl, rfl⟩
  | cons x rest ih =>
    obtain ⟨h1, h2⟩ := List.pairwise_cons.1 h
    by_cases c : x.1 < m
    · have c1 : ¬ m ≤ x.1 := by omega
      simp only [List.takeWhile_cons, List.dropWhile_cons, List.filter_cons, c, c1,
        decide_True, decide_False, if_true, if_false]
      exact ⟨by rw [(ih h2).1], (ih h2).2⟩
    · have c1 : m ≤ x.1 := by omega
      have h3 : ∀ b ∈ rest, m ≤ b.1 := fun b hb => le_trans c1 (h1 b hb)
      have h4 : rest.filter (fun e => decide (e.1 < m)) = [] :=
        List.filter_eq_nil_iff.2 (fun b hb => by have := h3 b hb; simp; omega)
      have h5 : rest.filter (fun e => decide (m ≤ e.1)) = rest :=
        List.filter_eq_self.2 (fun b hb => by have := h3 b hb; simpa using this)
      simp [List.takeWhile_cons, List.dropWhile_cons, List.filter_cons, c, c1, h4, h5]

theorem multimap_insert_perm {α : Type} (l : List (Int × α)) (k : Int) (v : α) :
    (multimap_insert l k v).Perm ((k, v) :: l) := by
  induction l with
  | nil => exact List.Perm.refl _
  | cons x rest ih =>
    unfold multimap_insert
    split_ifs
    · exact List.Perm.refl _
    · exact ((List.Perm.cons x ih).trans (List.Perm.swap _ _ _))

theorem foldl_multimap_insert_perm (moved : SnToTqeMap) :
    ∀ td : SnToTqeMap,
      (moved.foldl (fun m e => multimap_insert m e.1 e.2) td).Perm (td ++ moved) := by
  induction moved with
  | nil => intro td; simp
  | cons x rest ih =>
    intro td
    simp only [List.foldl_cons]
    refine (ih _).trans ?_
    refine ((multimap_insert_perm td x.1 x.2).append_right rest).trans ?_
    have hm : (td ++ x :: rest).Perm (x :: (td ++ rest)) := List.perm_middle
    exact hm.symm

theorem mem_sn_set_insert (l : List Int) (k x : Int) :
    x ∈ sn_set_insert l k ↔ (x = k ∨ x ∈ l) := by
  induction l with
  | nil => simp [sn_set_insert]
  | cons y rest ih =>
    unfold sn_set_insert
    split_ifs with c1 c2
    · simp
    · subst c2; simp
    · simp only [List.mem_cons, ih]
      tauto

theorem mem_sns_foldl (moved : SnToTqeMap) (x : Int) :
    ∀ acc : List Int, x ∈ moved.foldl (fun sns e => sn_set_insert sns e.1) acc ↔
      (x ∈ acc ∨ ∃ e ∈ moved, e.1 = x) := by
  induction moved with
  | nil => intro acc; simp
  | cons y rest ih =>
    intro acc
    simp only [List.foldl_cons, ih, mem_sn_set_insert, List.exists_mem_cons_iff]
    constructor
    · rintro ((h | h) | h)
      · exact Or.inr (Or.inl h.symm)
      · exact Or.inl h
      · exact Or.inr (Or.inr h)
    · rintro (h | h | h)
      · exact Or.inl (Or.inr h)
      · exact Or.inl (Or.inl h.symm)
      · exact Or.inr h

/-- C7 (amended): acknowledgement by all readers.  With no remote readers,
`acked_by_all_helper_i` leaves `elems_not_acked` and `to_deliver` unchanged.  With
at least one remote reader, let `m` be the minimum of `cur_cumulative_ack` over
the readers; when `m` is below `MAX_VALUE` and the send buffer has been created,
the call returns, `elems_not_acked` holds exactly its former entries with
sequence number `≥ m`, `to_deliver` has received exactly the former entries with
sequence number `< m` (each once), `release_acked` has been applied to the send
buffer for each of their sequence numbers, and the reader records are unchanged. -/
theorem acked_by_all (w : RtpsWriter) (link : Bool) (to_deliver : SnToTqeMap) :
    (w.remote_readers_ = [] → w.acked_by_all_helper_i link to_deliver = some (w, to_deliver)) ∧
    (∀ (sb : SingleSendBuffer) (m : Int), w.send_buff_ = some sb →
      w.elems_not_acked_.Pairwise (fun a b => a.1 ≤ b.1) →
      (∃ ri ∈ w.remote_readers_, ri.2.cur_cumulative_ack_ = m) →
      (∀ ri ∈ w.remote_readers_, m ≤ ri.2.cur_cumulative_ack_) →
      m < SequenceNumber.MAX_VALUE →
      ∃ w1 td, w.acked_by_all_helper_i true to_deliver = some (w1, td) ∧
        w1.elems_not_acked_ = w.elems_not_acked_.filter (fun e => decide (m ≤ e.1)) ∧
        td = (w.elems_not_acked_.filter (fun e => decide (e.1 < m))).foldl
          (fun t e => multimap_insert t e.1 e.2) to_deliver ∧
        td.Perm (to_deliver ++ w.elems_not_acked_.filter (fun e => decide (e.1 < m))) ∧
        w1.send_buff_ = some ((sns_to_release
          (w.elems_not_acked_.filter (fun e => decide (e.1 < m)))).foldl
            SingleSendBuffer.release_acked sb) ∧
        (∀ x, x ∈ sns_to_release (w.elems_not_acked_.filter (fun e => decide (e.1 < m))) ↔
          ∃ e ∈ w.elems_not_acked_, e.1 < m ∧ e.1 = x) ∧
        w1.remote_readers_ = w.remote_readers_) := by
  constructor
  · intro h
    unfold RtpsWriter.acked_by_all_helper_i
    have : all_readers_ack w.remote_readers_ = SequenceNumber.MAX_VALUE := by
      rw [h]; rfl
    rw [if_pos this]
    split_ifs <;> rfl
  · intro sb m hsb hsorted hex hmin hmax
    have hack : all_readers_ack w.remote_readers_ = m :=
      all_readers_ack_foldl m w.remote_readers_ _ hmin (le_of_lt hmax) (Or.inl hex)
    obtain ⟨ht, hd⟩ := takeWhile_lt_eq_filter m w.elems_not_acked_ hsorted
    have hsns : ∀ x, x ∈ sns_to_release (w.elems_not_acked_.filter (fun e => decide (e.1 < m))) ↔
        ∃ e ∈ w.elems_not_acked_, e.1 < m ∧ e.1 = x := by
      intro x
      unfold sns_to_release
      rw [mem_sns_foldl]
      simp only [List.not_mem_nil, false_or, List.mem_filter, decide_eq_true_eq]
      constructor
      · rintro ⟨e, ⟨h1, h2⟩, h3⟩; exact ⟨e, h1, h2, h3⟩
      · rintro ⟨e, h1, h2, h3⟩; exact ⟨e, ⟨h1, h2⟩, h3⟩
    unfold RtpsWriter.acked_by_all_helper_i
    simp only [Bool.not_true, Bool.false_eq_true, if_false, hack]
    by_cases c1 : w.elems_not_acked_.isEmpty = true
    · rw [if_pos c1]
      have hnil : w.elems_not_acked_ = [] := List.isEmpty_iff.1 c1
      refine ⟨w, to_deliver, rfl, ?_, ?_, ?_, ?_, hsns, rfl⟩
      · rw [hnil]; rfl
      · rw [hnil]; rfl
      · rw [hnil]; simp
      · rw [hnil, hsb]; rfl
    · rw [if_neg c1, if_neg (ne_of_lt hmax)]
      unfold RtpsWriter.acked_by_all_release acked_entries
      rw [hsb, ht, hd]
      refine ⟨_, _, rfl, rfl, rfl, ?_, rfl, hsns, rfl⟩
      exact foldl_multimap_insert_perm _ _

/-- Witness for C7: two readers with cumulative acks 3 and 5, and the elements 1,
2, 3 awaiting acknowledgement: 1 and 2 are delivered and released, 3 stays. -/
theorem acked_by_all_witness :
    (∃ w1 td, RtpsWriter.acked_by_all_helper_i
        ⟨[(⟨9, 7⟩, { ReaderInfo.fresh false with cur_cumulative_ack_ := 3 }),
          (⟨9, 8⟩, { ReaderInfo.fresh false with cur_cumulative_ack_ := 5 })],
          some ⟨[⟨1, 0, []⟩, ⟨2, 0, []⟩, ⟨3, 0, []⟩]⟩, 4, [(1, 11), (2, 12), (3, 13)], [],
          ⟨1, 2⟩, false, 0⟩ true [] = some (w1, td) ∧
      w1.elems_not_acked_ = [(3, 13)] ∧ td = [(1, 11), (2, 12)] ∧
      w1.send_buff_ = some ⟨[⟨3, 0, []⟩]⟩) := by
  obtain ⟨w1, td, h1, h2, h3, _, h5, _, _⟩ := (acked_by_all
    ⟨[(⟨9, 7⟩, { ReaderInfo.fresh false with cur_cumulative_ack_ := 3 }),
      (⟨9, 8⟩, { ReaderInfo.fresh false with cur_cumulative_ack_ := 5 })],
      some ⟨[⟨1, 0, []⟩, ⟨2, 0, []⟩, ⟨3, 0, []⟩]⟩, 4, [(1, 11), (2, 12), (3, 13)], [],
      ⟨1, 2⟩, false, 0⟩ true []).2 ⟨[⟨1, 0, []⟩, ⟨2, 0, []⟩, ⟨3, 0, []⟩]⟩ 3 rfl (by decide)
    ⟨_, List.mem_cons_self _ _, rfl⟩ (by decide) (by decide)
  exact ⟨w1, td, h1, by rw [h2]; decide, by rw [h3]; decide, by rw [h5]; decide⟩

/-- C7 as stated fails at the sentinel: a writer whose one remote reader has
acknowledged up to `MAX_VALUE` (an ACKNACK with that base) keeps the element 5 in
`elems_not_acked` and delivers nothing, although 5 is below the minimum. -/
theorem acked_by_all_counterexample :
    RtpsWriter.acked_by_all_helper_i
        ⟨[(⟨9, 7⟩, { ReaderInfo.fresh false with cur_cumulative_ack_ := 9223372036854775807 })],
          some ⟨[⟨5, 0, []⟩]⟩, 6, [(5, 15)], [], ⟨1, 2⟩, false, 0⟩ true [] =
      some (⟨[(⟨9, 7⟩, { ReaderInfo.fresh false with cur_cumulative_ack_ := 9223372036854775807 })],
          some ⟨[⟨5, 0, []⟩]⟩, 6, [(5, 15)], [], ⟨1, 2⟩, false, 0⟩, []) ∧
    (5 : Int) < 9223372036854775807 := by
  refine ⟨by decide, by decide⟩

/-! ## Heartbeat counts -/

theorem mem_heartbeat_counts (l : List MetaSubmessage) (a : Int) :
    a ∈ heartbeat_counts l ↔
      ∃ m ∈ l, ∃ hb, m.sm_ = Submessage.heartbeat_sm hb ∧ hb.count = a := by
  induction l with
  | nil => simp [heartbeat_counts]
  | cons m rest ih =>
    unfold heartbeat_counts
    cases hm : m.sm_ <;> simp [ih, hm]
    constructor
    · rintro (h | h)
      · exact Or.inl h.symm
      · exact Or.inr h
    · rintro (h | h)
      · exact Or.inl h.symm
      · exact Or.inr h

theorem wrap_int32_succ (count : Int) (hlo : -2147483648 ≤ count) (hhi : count < 2147483647) :
    wrap_int32 (count + 1) = count + 1 := by
  unfold wrap_int32
  omega

theorem heartbeat_messages_count (security : Bool) (id_ : RepoId)
    (to_guids_ pre_assoc_hb_guids : List RepoId) (hb : HeartBeatSubmessage) (stop : Bool) :
    ∀ a ∈ heartbeat_counts
      (heartbeat_messages security id_ to_guids_ pre_assoc_hb_guids hb stop), a = hb.count := by
  intro a ha
  rw [mem_heartbeat_counts] at ha
  obtain ⟨m, hm, hb1, h1, h2⟩ := ha
  have key : ∃ hb2 : HeartBeatSubmessage, m.sm_ = Submessage.heartbeat_sm hb2 ∧
      hb2.count = hb.count := by
    unfold heartbeat_messages at hm
    simp only at hm
    split_ifs at hm
    · obtain ⟨g, _, rfl⟩ := List.mem_map.1 hm
      exact ⟨_, rfl, rfl⟩
    · rcases List.mem_append.1 hm with hm | hm
      · obtain ⟨g, _, rfl⟩ := List.mem_map.1 hm
        exact ⟨_, rfl, rfl⟩
      · obtain ⟨g, _, rfl⟩ := List.mem_map.1 hm
        exact ⟨_, rfl, rfl⟩
    · rcases List.mem_append.1 hm with hm | hm
      · obtain ⟨g, _, rfl⟩ := List.mem_map.1 hm
        exact ⟨_, rfl, rfl⟩
      · rw [List.mem_singleton.1 hm]
        exact ⟨_, rfl, rfl⟩
  obtain ⟨hb2, h3, h4⟩ := key
  rw [h1] at h3
  simp only [Submessage.heartbeat_sm.injEq] at h3
  rw [← h2, h3, h4]

theorem heartbeat_step_count (count : Int) (s : HeartbeatStep)
    (hlo : -2147483648 ≤ count) (hhi : count < 2147483647) :
    count ≤ (heartbeat_step count s).1 ∧ (heartbeat_step count s).1 ≤ count + 1 ∧
    ∀ a ∈ heartbeat_counts (heartbeat_step count s).2, a = count + 1 := by
  have hw := wrap_int32_succ count hlo hhi
  unfold heartbeat_step
  cases hc : s.call with
  | gather additional_guids allow_final =>
    simp only
    unfold RtpsWriter.gather_heartbeats
    cases s.link
    · simp [heartbeat_counts]
    · simp only [Bool.not_true, Bool.false_eq_true, if_false, hw]
      refine ⟨by omega, by omega, ?_⟩
      intro a ha
      exact heartbeat_messages_count _ _ _ _ _ _ a ha
  | manual =>
    simp only
    unfold RtpsWriter.send_heartbeats_manual_i
    cases s.link
    · simp [heartbeat_counts]
    · simp only [Bool.not_true, Bool.false_eq_true, if_false, hw]
      refine ⟨by omega, by omega, ?_⟩
      intro a ha
      simpa [heartbeat_counts] using ha

theorem heartbeat_messages_step (count : Int) (s : HeartbeatStep)
    (hlo : -2147483648 ≤ count) (hhi : count < 2147483647) :
    ∀ a ∈ heartbeat_counts (heartbeat_step count s).2, (heartbeat_step count s).1 = count + 1 := by
  have hw := wrap_int32_succ count hlo hhi
  unfold heartbeat_step
  cases hc : s.call with
  | gather additional_guids allow_final =>
    simp only
    unfold RtpsWriter.gather_heartbeats
    cases s.link
    · simp [heartbeat_counts]
    · simp only [Bool.not_true, Bool.false_eq_true, if_false, hw]
      intro a _
      trivial
  | manual =>
    simp only
    unfold RtpsWriter.send_heartbeats_manual_i
    cases s.link
    · simp [heartbeat_counts]
    · simp only [Bool.not_true, Bool.false_eq_true, if_false, hw]
      intro a _
      trivial

theorem heartbeat_calls_bounds (steps : List HeartbeatStep) :
    ∀ count : Int, -2147483648 ≤ count → count + steps.length ≤ 2147483647 →
      (∀ c ∈ heartbeat_calls count steps, ∀ a ∈ heartbeat_counts c, count < a) ∧
      (heartbeat_calls count steps).Pairwise
        (fun c1 c2 => ∀ a ∈ heartbeat_counts c1, ∀ b ∈ heartbeat_counts c2, a < b) ∧
      (∀ c ∈ heartbeat_calls count steps,
        ∀ a ∈ heartbeat_counts c, ∀ b ∈ heartbeat_counts c, a = b) := by
  induction steps with
  | nil =>
    intro count _ _
    simp [heartbeat_calls]
  | cons s rest ih =>
    intro count hlo hhi
    simp only [List.length_cons, Nat.cast_add, Nat.cast_one] at hhi
    obtain ⟨h1, h2, h3⟩ := heartbeat_step_count count s hlo (by omega)
    obtain ⟨i1, i2, i3⟩ := ih (heartbeat_step count s).1 (by omega) (by omega)
    unfold heartbeat_calls
    refine ⟨?_, ?_, ?_⟩
    · intro c hc a ha
      rcases List.mem_cons.1 hc with rfl | hc
      · rw [h3 a ha]; omega
      · have := i1 c hc a ha
        omega
    · refine List.pairwise_cons.2 ⟨?_, i2⟩
      intro c hc a ha b hb
      have h4 := i1 c hc b hb
      have h5 := heartbeat_messages_step count s hlo (by omega) a ha
      rw [h3 a ha]
      omega
    · intro c hc a ha b hb
      rcases List.mem_cons.1 hc with rfl | hc
      · rw [h3 a ha, h3 b hb]
      · exact i3 c hc a ha b hb

/-- C8 (amended): heartbeat counts across calls.  For every writer whose counter
starts at `count` and every sequence of `gather_heartbeats` and
`send_heartbeats_manual_i` calls that keeps the counter within the 32-bit range,
every HEARTBEAT pushed by a later call carries a count strictly greater than
every HEARTBEAT pushed by an earlier call, all the HEARTBEATs pushed by one call
(the directed pre-association heartbeats and the combined one) carry the same
count, and every count is greater than the initial counter. -/
theorem heartbeat_count_monotonic (count : Int) (steps : List HeartbeatStep)
    (hlo : -2147483648 ≤ count) (hhi : count + steps.length ≤ 2147483647) :
    (heartbeat_calls count steps).Pairwise
      (fun c1 c2 => ∀ a ∈ heartbeat_counts c1, ∀ b ∈ heartbeat_counts c2, a < b) ∧
    (∀ c ∈ heartbeat_calls count steps,
      ∀ a ∈ heartbeat_counts c, ∀ b ∈ heartbeat_counts c, a = b) ∧
    (∀ c ∈ heartbeat_calls count steps, ∀ a ∈ heartbeat_counts c, count < a) := by
  obtain ⟨h1, h2, h3⟩ := heartbeat_calls_bounds steps count hlo hhi
  exact ⟨h2, h3, h1⟩

/-- Witness for C8: a `gather_heartbeats` call on a writer with two readers that
have not completed the handshake, then a manual heartbeat: the counts are 1, 1,
1 and then 2. -/
theorem heartbeat_count_monotonic_witness :
    (-2147483648 : Int) ≤ 0 ∧
    (heartbeat_calls 0
      [⟨⟨[(⟨9, 7⟩, ReaderInfo.fresh false), (⟨9, 8⟩, ReaderInfo.fresh false)], none, 1, [], [],
          ⟨1, 2⟩, false, 0⟩, true, false, 0, 0, HeartbeatCall.gather [] false⟩,
       ⟨⟨[(⟨9, 7⟩, ReaderInfo.fresh false), (⟨9, 8⟩, ReaderInfo.fresh false)], none, 1, [], [],
          ⟨1, 2⟩, false, 0⟩, true, false, 0, 0, HeartbeatCall.manual⟩]).map heartbeat_counts =
      [[1, 1, 1], [2]] ∧
    (heartbeat_calls 0
      [⟨⟨[(⟨9, 7⟩, ReaderInfo.fresh false), (⟨9, 8⟩, ReaderInfo.fresh false)], none, 1, [], [],
          ⟨1, 2⟩, false, 0⟩, true, false, 0, 0, HeartbeatCall.gather [] false⟩,
       ⟨⟨[(⟨9, 7⟩, ReaderInfo.fresh false), (⟨9, 8⟩, ReaderInfo.fresh false)], none, 1, [], [],
          ⟨1, 2⟩, false, 0⟩, true, false, 0, 0, HeartbeatCall.manual⟩]).Pairwise
      (fun c1 c2 => ∀ a ∈ heartbeat_counts c1, ∀ b ∈ heartbeat_counts c2, a < b) :=
  ⟨by decide, by decide,
   (heartbeat_count_monotonic 0
      [⟨⟨[(⟨9, 7⟩, ReaderInfo.fresh false), (⟨9, 8⟩, ReaderInfo.fresh false)], none, 1, [], [],
          ⟨1, 2⟩, false, 0⟩, true, false, 0, 0, HeartbeatCall.gather [] false⟩,
       ⟨⟨[(⟨9, 7⟩, ReaderInfo.fresh false), (⟨9, 8⟩, ReaderInfo.fresh false)], none, 1, [], [],
          ⟨1, 2⟩, false, 0⟩, true, false, 0, 0, HeartbeatCall.manual⟩]
      (by decide) (by decide)).1⟩

/-- C8 as stated fails inside one call: `gather_heartbeats` on a writer with no
data and two readers that have not completed the handshake pushes two directed
pre-association heartbeats and the combined heartbeat, all three with count 1. -/
theorem heartbeat_count_counterexample :
    (RtpsWriter.gather_heartbeats
        ⟨[(⟨9, 7⟩, ReaderInfo.fresh false), (⟨9, 8⟩, ReaderInfo.fresh false)], none, 1, [], [],
          ⟨1, 2⟩, false, 0⟩ true false 0 0 [] false).meta_submessages.map
      (fun m => (m.dst_guid_, heartbeat_counts [m])) =
      [(⟨9, 7⟩, [1]), (⟨9, 8⟩, [1]), (GUID_UNKNOWN, [1])] := by
  decide

/-! ## Bundler: sizes -/

theorem foldl_invariant {σ β : Type} (P : σ → Prop) (f : σ → β → σ)
    (h : ∀ s x, P s → P (f s x)) : ∀ (l : List β) (s : σ), P s → P (l.foldl f s) := by
  intro l
  induction l with
  | nil => intro s hs; exact hs
  | cons x rest ih => intro s hs; exact ih _ (h s x hs)

theorem add_to_bundle_ok (sizes : BundleItem → Nat → Nat → Nat × Nat) (max : Nat)
    (H : ∀ item s p, (sizes item s p).1 + (sizes item s p).2 ≤ max)
    (h : BundleHelper) (val : BundleItem) (hok : HelperOk max h) :
    HelperOk max (h.add_to_bundle sizes val).1 := by
  obtain ⟨h1, h2, h3⟩ := hok
  have hv := H val h.size_ h.padding_
  unfold BundleHelper.add_to_bundle
  simp only [gen_find_size]
  split_ifs with c
  · refine ⟨h1, ?_, ?_⟩
    · simp only [BundleHelper.push_to_next_bundle]
      omega
    · intro s hs
      simp only [BundleHelper.push_to_next_bundle, List.mem_append, List.mem_singleton] at hs
      rcases hs with hs | hs
      · exact h3 s hs
      · omega
  · refine ⟨h1, ?_, h3⟩
    simp only [h1] at c
    simp only
    omega

theorem end_bundle_ok (max : Nat) (h : BundleHelper) (hok : HelperOk max h) :
    HelperOk max h.end_bundle := by
  obtain ⟨h1, h2, h3⟩ := hok
  refine ⟨h1, ?_, ?_⟩
  · simp [BundleHelper.end_bundle]
  · intro s hs
    simp only [BundleHelper.end_bundle, List.mem_append, List.mem_singleton] at hs
    rcases hs with hs | hs
    · exact h3 s hs
    · omega

theorem bundle_info_dst_ok (sizes : BundleItem → Nat → Nat → Nat × Nat) (max : Nat)
    (H : ∀ item s p, (sizes item s p).1 + (sizes item s p).2 ≤ max)
    (addr : List Nat) (dest : RepoId) (st : BundleState) (hok : HelperOk max st.helper) :
    HelperOk max (bundle_info_dst sizes addr dest st).helper := by
  unfold bundle_info_dst
  split_ifs
  · exact add_to_bundle_ok sizes max H _ _ hok
  · exact add_to_bundle_ok sizes max H _ _ hok
  · exact hok

theorem bundle_submessage_ok (sizes : BundleItem → Nat → Nat → Nat × Nat) (max : Nat)
    (H : ∀ item s p, (sizes item s p).1 + (sizes item s p).2 ≤ max)
    (st : BundleState) (it : Nat) (hok : HelperOk max st.helper) :
    HelperOk max (bundle_submessage sizes st it).1 := by
  unfold bundle_submessage
  cases st.meta_submessages.get? it with
  | none => exact hok
  | some res =>
    cases hsm : res.sm_ <;> simp only [hsm]
    · exact add_to_bundle_ok sizes max H _ _ hok
    · exact add_to_bundle_ok sizes max H _ _ hok
    · exact add_to_bundle_ok sizes max H _ _ hok
    · exact add_to_bundle_ok sizes max H _ _ hok
    · exact hok

theorem bundle_item_ok (sizes : BundleItem → Nat → Nat → Nat × Nat) (max : Nat)
    (H : ∀ item s p, (sizes item s p).1 + (sizes item s p).2 ≤ max)
    (addr : List Nat) (dest : RepoId) (st : BundleState) (it : Nat)
    (hok : HelperOk max st.helper) :
    HelperOk max (bundle_item sizes addr dest st it).helper := by
  have h1 := bundle_info_dst_ok sizes max H addr dest st hok
  have h2 := bundle_submessage_ok sizes max H _ it h1
  unfold bundle_item
  simp only
  split_ifs
  · exact h2
  · exact h2

theorem bundle_addr_ok (sizes : BundleItem → Nat → Nat → Nat × Nat) (max : Nat)
    (H : ∀ item s p, (sizes item s p).1 + (sizes item s p).2 ≤ max)
    (st : BundleState) (e : List Nat × List (RepoId × List Nat))
    (hok : HelperOk max st.helper) :
    HelperOk max (bundle_addr sizes st e).helper := by
  unfold bundle_addr
  simp only
  apply end_bundle_ok
  refine foldl_invariant (fun s : BundleState => HelperOk max s.helper) _ ?_ _ _ hok
  intro s x hs
  unfold bundle_dest
  exact foldl_invariant (fun s : BundleState => HelperOk max s.helper) _
    (fun s1 x1 hs1 => bundle_item_ok sizes max H e.1 x.1 s1 x1 hs1) _ _ hs

theorem bundle_mapped_ok (sizes : BundleItem → Nat → Nat → Nat × Nat) (max : Nat)
    (H : ∀ item s p, (sizes item s p).1 + (sizes item s p).2 ≤ max)
    (adr_map : List (List Nat × List (RepoId × List Nat))) (ms : List MetaSubmessage) :
    HelperOk max (bundle_mapped_meta_submessages sizes max adr_map ms).helper := by
  unfold bundle_mapped_meta_submessages
  refine foldl_invariant (fun s : BundleState => HelperOk max s.helper) _ ?_ _ _
    ⟨rfl, Nat.zero_le _, fun s hs => by cases hs⟩
  intro s x hs
  exact bundle_addr_ok sizes max H s x hs

theorem send_loop_capacity (ms : List MetaSubmessage) :
    ∀ (bundles addrs : List (List Nat)) (szs : List Nat) (evs : List SendEvent),
      send_loop ms bundles addrs szs = some evs →
      (∀ ev ∈ evs, ev.capacity ∈ szs) ∧ evs.map (fun ev => ev.bundle) = bundles := by
  intro bundles
  induction bundles with
  | nil =>
    intro addrs szs evs h
    simp only [send_loop, Option.some.injEq] at h
    subst h
    simp
  | cons b rest ih =>
    intro addrs szs evs h
    cases addrs with
    | nil => simp [send_loop] at h
    | cons a addrs1 =>
      cases szs with
      | nil => simp [send_loop] at h
      | cons z szs1 =>
        simp only [send_loop, Option.map_eq_some'] at h
        obtain ⟨evs1, h1, rfl⟩ := h
        obtain ⟨i1, i2⟩ := ih addrs1 szs1 evs1 h1
        refine ⟨?_, ?_⟩
        · intro ev hev
          rcases List.mem_cons.1 hev with rfl | hev
          · exact List.mem_cons_self _ _
          · exact List.mem_cons_of_mem _ (i1 ev hev)
        · simp [i2]

theorem send_loop_returns (ms : List MetaSubmessage) :
    ∀ (bundles addrs : List (List Nat)) (szs : List Nat),
      bundles.length = addrs.length → bundles.length = szs.length →
      ∃ evs, send_loop ms bundles addrs szs = some evs := by
  intro bundles
  induction bundles with
  | nil => intro addrs szs _ _; exact ⟨[], rfl⟩
  | cons b rest ih =>
    intro addrs szs h1 h2
    cases addrs with
    | nil => simp at h1
    | cons a addrs1 =>
      cases szs with
      | nil => simp at h2
      | cons z szs1 =>
        simp only [List.length_cons, add_left_inj] at h1 h2
        obtain ⟨evs, he⟩ := ih addrs1 szs1 h1 h2
        exact ⟨⟨z, b, serialize_bundle ms GUID_UNKNOWN b, a⟩ :: evs, by simp [send_loop, he]⟩

theorem add_to_bundle_sizes (sizes : BundleItem → Nat → Nat → Nat × Nat) (h : BundleHelper)
    (val : BundleItem) :
    ((h.add_to_bundle sizes val).2 = true →
      (h.add_to_bundle sizes val).1.meta_submessage_bundle_sizes_.length =
        h.meta_submessage_bundle_sizes_.length) ∧
    ((h.add_to_bundle sizes val).2 = false →
      (h.add_to_bundle sizes val).1.meta_submessage_bundle_sizes_.length =
        h.meta_submessage_bundle_sizes_.length + 1) := by
  unfold BundleHelper.add_to_bundle
  simp only
  split_ifs <;> simp [BundleHelper.push_to_next_bundle]

theorem back_push_back_length (l : List (List Nat)) (it : Nat) (h : l ≠ []) :
    (back_push_back l it).length = l.length := by
  induction l with
  | nil => exact absurd rfl h
  | cons b rest ih =>
    cases rest with
    | nil => simp [back_push_back]
    | cons c rest1 =>
      simp only [back_push_back, List.length_cons, add_left_inj]
      simpa using ih (by simp)

theorem bundle_info_dst_lengths (sizes : BundleItem → Nat → Nat → Nat × Nat) (addr : List Nat)
    (dest : RepoId) (st : BundleState) (h : LengthsInner st) :
    LengthsInner (bundle_info_dst sizes addr dest st) := by
  obtain ⟨h1, h2, h3⟩ := h
  obtain ⟨a1, a2⟩ := add_to_bundle_sizes sizes st.helper (BundleItem.info_dst 0)
  unfold bundle_info_dst
  split_ifs with c1 c2
  · refine ⟨h1, h2, ?_⟩
    simp only
    rw [a1 c2]
    exact h3
  · have c3 : (st.helper.add_to_bundle sizes (BundleItem.info_dst 0)).2 = false := by
      simpa using c2
    refine ⟨h1, ?_, ?_⟩
    · simp [h2]
    · simp only [List.length_append, List.length_singleton]
      rw [a2 c3]
      omega
  · exact ⟨h1, h2, h3⟩

theorem bundle_submessage_lengths (sizes : BundleItem → Nat → Nat → Nat × Nat)
    (st : BundleState) (it : Nat) (h : ∀ m ∈ st.meta_submessages, m.sm_ ≠ Submessage.unset) :
    (∀ m ∈ (bundle_submessage sizes st it).2.2, m.sm_ ≠ Submessage.unset) ∧
    ((bundle_submessage sizes st it).2.1 = true →
      (bundle_submessage sizes st it).1.meta_submessage_bundle_sizes_.length =
        st.helper.meta_submessage_bundle_sizes_.length) ∧
    ((bundle_submessage sizes st it).2.1 = false →
      (bundle_submessage sizes st it).1.meta_submessage_bundle_sizes_.length =
        st.helper.meta_submessage_bundle_sizes_.length + 1) := by
  unfold bundle_submessage
  cases hg : st.meta_submessages.get? it with
  | none => exact ⟨h, fun _ => rfl, fun c => by simp at c⟩
  | some res =>
    have hres : res.sm_ ≠ Submessage.unset := h res (List.get?_mem hg)
    have key : ∀ x : MetaSubmessage, x.sm_ ≠ Submessage.unset →
        (∀ m ∈ st.meta_submessages.set it x, m.sm_ ≠ Submessage.unset) := by
      intro x hx m hm
      rcases List.mem_or_eq_of_mem_set hm with hm | hm
      · exact h m hm
      · rw [hm]
        exact hx
    cases hsm : res.sm_ <;> simp only [hsm]
    · refine ⟨key _ ?_, (add_to_bundle_sizes sizes st.helper _).1,
        (add_to_bundle_sizes sizes st.helper _).2⟩
      simp [set_submessage_length]
    · refine ⟨key _ ?_, (add_to_bundle_sizes sizes st.helper _).1,
        (add_to_bundle_sizes sizes st.helper _).2⟩
      simp [set_submessage_length]
    · refine ⟨key _ ?_, (add_to_bundle_sizes sizes st.helper _).1,
        (add_to_bundle_sizes sizes st.helper _).2⟩
      simp [set_submessage_length]
    · refine ⟨key _ ?_, (add_to_bundle_sizes sizes st.helper _).1,
        (add_to_bundle_sizes sizes st.helper _).2⟩
      simp [set_submessage_length]
    · exact absurd hsm hres

theorem bundle_item_lengths (sizes : BundleItem → Nat → Nat → Nat × Nat) (addr : List Nat)
    (dest : RepoId) (st : BundleState) (it : Nat) (h : LengthsInner st) :
    LengthsInner (bundle_item sizes addr dest st it) := by
  obtain ⟨h1, h2, h3⟩ := bundle_info_dst_lengths sizes addr dest st h
  obtain ⟨b1, b2, b3⟩ := bundle_submessage_lengths sizes _ it h1
  have hne : (bundle_info_dst sizes addr dest st).meta_submessage_bundles ≠ [] := by
    intro c
    rw [c] at h3
    simp at h3
  unfold bundle_item
  simp only
  split_ifs with c
  · refine ⟨b1, ?_, ?_⟩
    · simp only
      rw [back_push_back_length _ _ hne]
      exact h2
    · simp only
      rw [back_push_back_length _ _ hne, b2 c]
      exact h3
  · have c1 : (bundle_submessage sizes (bundle_info_dst sizes addr dest st) it).2.1 = false := by
      simpa using c
    refine ⟨b1, ?_, ?_⟩
    · simp only
      rw [back_push_back_length _ _ (by simp)]
      simp [h2]
    · simp only
      rw [back_push_back_length _ _ (by simp), b3 c1]
      simp only [List.length_append, List.length_singleton]
      omega

theorem bundle_addr_lengths (sizes : BundleItem → Nat → Nat → Nat × Nat) (st : BundleState)
    (e : List Nat × List (RepoId × List Nat)) (h : LengthsOuter st) :
    LengthsOuter (bundle_addr sizes st e) := by
  obtain ⟨h1, h2, h3⟩ := h
  unfold bundle_addr
  simp only
  have hin : LengthsInner (e.2.foldl (bundle_dest sizes e.1)
      { st with
        meta_submessage_bundles := st.meta_submessage_bundles ++ [[]]
        meta_submessage_bundle_addrs := st.meta_submessage_bundle_addrs ++ [e.1]
        prev_dst := GUID_UNKNOWN }) := by
    refine foldl_invariant LengthsInner _ ?_ _ _ ⟨h1, by simp [h2], by simp [h3]⟩
    intro s x hs
    unfold bundle_dest
    exact foldl_invariant LengthsInner _
      (fun s1 x1 hs1 => bundle_item_lengths sizes e.1 x.1 s1 x1 hs1) _ _ hs
  obtain ⟨i1, i2, i3⟩ := hin
  refine ⟨i1, i2, ?_⟩
  simp only [BundleHelper.end_bundle, List.length_append, List.length_singleton]
  exact i3

theorem bundle_mapped_lengths (sizes : BundleItem → Nat → Nat → Nat × Nat) (max : Nat)
    (adr_map : List (List Nat × List (RepoId × List Nat))) (ms : List MetaSubmessage)
    (h : ∀ m ∈ ms, m.sm_ ≠ Submessage.unset) :
    LengthsOuter (bundle_mapped_meta_submessages sizes max adr_map ms) := by
  unfold bundle_mapped_meta_submessages
  refine foldl_invariant LengthsOuter _ ?_ _ _ ⟨h, rfl, rfl⟩
  intro s x hs
  exact bundle_addr_lengths sizes s x hs

theorem send_bundled_submessages_returns (link : RtpsUdpDataLink)
    (sizes : BundleItem → Nat → Nat → Nat × Nat) (ms : List MetaSubmessage)
    (h : ∀ m ∈ ms, m.sm_ ≠ Submessage.unset) :
    ∃ evs, link.send_bundled_submessages sizes ms = some evs := by
  unfold RtpsUdpDataLink.send_bundled_submessages
  split_ifs
  · exact ⟨[], rfl⟩
  · obtain ⟨_, h2, h3⟩ := bundle_mapped_lengths sizes link.max_bundle_size_
      (link.build_meta_submessage_map ms) ms h
    exact send_loop_returns _ _ _ _ h2 h3

/-- The sizes recorded for the bundles.  When no single INFO_DST or submessage
adds more than `max_bundle_size` bytes (size and padding) to a bundle, every size
recorded by `bundle_mapped_meta_submessages` is at most `max_bundle_size`, and so
is the capacity of every message block that `send_bundled_submessages`
allocates; the call returns whenever every meta-submessage holds a HEARTBEAT,
ACKNACK, GAP or NACK_FRAG. -/
theorem bundle_recorded_size_limit (link : RtpsUdpDataLink) (sizes : BundleItem → Nat → Nat → Nat × Nat)
    (ms : List MetaSubmessage)
    (H : ∀ item s p, (sizes item s p).1 + (sizes item s p).2 ≤ link.max_bundle_size_) :
    (∀ s ∈ (bundle_mapped_meta_submessages sizes link.max_bundle_size_
        (link.build_meta_submessage_map ms) ms).helper.meta_submessage_bundle_sizes_,
      s ≤ link.max_bundle_size_) ∧
    (∀ evs, link.send_bundled_submessages sizes ms = some evs →
      ∀ ev ∈ evs, ev.capacity ≤ link.max_bundle_size_) ∧
    ((∀ m ∈ ms, m.sm_ ≠ Submessage.unset) →
      ∃ evs, link.send_bundled_submessages sizes ms = some evs) := by
  have hok := bundle_mapped_ok sizes link.max_bundle_size_ H
    (link.build_meta_submessage_map ms) ms
  refine ⟨hok.2.2, ?_, send_bundled_submessages_returns link sizes ms⟩
  intro evs hev ev hmem
  unfold RtpsUdpDataLink.send_bundled_submessages at hev
  split_ifs at hev
  · simp only [Option.some.injEq] at hev
    subst hev
    cases hmem
  · have hcap := (send_loop_capacity _ _ _ _ evs hev).1 ev hmem
    exact hok.2.2 _ hcap

/-- Three directed HEARTBEATs (32 bytes each, INFO_DST 16 bytes) to one reader with
a limit of 64 bytes give three bundles of recorded sizes 48, 48 and 32. -/
theorem bundle_recorded_size_three_heartbeats :
    (∀ (item : BundleItem) (s p : Nat),
      ((fun (v : BundleItem) (_ _ : Nat) => match v with
          | BundleItem.info_dst _ => (SMHDR_SZ + INFO_DST_SZ, 0)
          | BundleItem.sm _ => (SMHDR_SZ + HEARTBEAT_SZ, 0)) item s p).1 +
        ((fun (v : BundleItem) (_ _ : Nat) => match v with
          | BundleItem.info_dst _ => (SMHDR_SZ + INFO_DST_SZ, 0)
          | BundleItem.sm _ => (SMHDR_SZ + HEARTBEAT_SZ, 0)) item s p).2 ≤ 64) ∧
    (bundle_mapped_meta_submessages
        (fun (v : BundleItem) (_ _ : Nat) => match v with
          | BundleItem.info_dst _ => (SMHDR_SZ + INFO_DST_SZ, 0)
          | BundleItem.sm _ => (SMHDR_SZ + HEARTBEAT_SZ, 0)) 64
        (RtpsUdpDataLink.build_meta_submessage_map
          ⟨[(⟨9, 7⟩, 5)], [], [], 64, 0, fun _ => none, fun _ => false, fun _ => false, none⟩
          [⟨⟨1, 2⟩, ⟨9, 7⟩, [], Submessage.heartbeat_sm ⟨⟨HEARTBEAT, FLAG_E, HEARTBEAT_SZ⟩, 7, 2, 1, 3, 1⟩⟩,
           ⟨⟨1, 2⟩, ⟨9, 7⟩, [], Submessage.heartbeat_sm ⟨⟨HEARTBEAT, FLAG_E, HEARTBEAT_SZ⟩, 7, 2, 1, 3, 2⟩⟩,
           ⟨⟨1, 2⟩, ⟨9, 7⟩, [], Submessage.heartbeat_sm ⟨⟨HEARTBEAT, FLAG_E, HEARTBEAT_SZ⟩, 7, 2, 1, 3, 3⟩⟩])
        [⟨⟨1, 2⟩, ⟨9, 7⟩, [], Submessage.heartbeat_sm ⟨⟨HEARTBEAT, FLAG_E, HEARTBEAT_SZ⟩, 7, 2, 1, 3, 1⟩⟩,
         ⟨⟨1, 2⟩, ⟨9, 7⟩, [], Submessage.heartbeat_sm ⟨⟨HEARTBEAT, FLAG_E, HEARTBEAT_SZ⟩, 7, 2, 1, 3, 2⟩⟩,
         ⟨⟨1, 2⟩, ⟨9, 7⟩, [], Submessage.heartbeat_sm ⟨⟨HEARTBEAT, FLAG_E, HEARTBEAT_SZ⟩, 7, 2, 1, 3, 3⟩⟩]
      ).helper.meta_submessage_bundle_sizes_ = [48, 48, 32] ∧
    (∀ s ∈ (bundle_mapped_meta_submessages
        (fun (v : BundleItem) (_ _ : Nat) => match v with
          | BundleItem.info_dst _ => (SMHDR_SZ + INFO_DST_SZ, 0)
          | BundleItem.sm _ => (SMHDR_SZ + HEARTBEAT_SZ, 0)) 64
        (RtpsUdpDataLink.build_meta_submessage_map
          ⟨[(⟨9, 7⟩, 5)], [], [], 64, 0, fun _ => none, fun _ => false, fun _ => false, none⟩
          [⟨⟨1, 2⟩, ⟨9, 7⟩, [], Submessage.heartbeat_sm ⟨⟨HEARTBEAT, FLAG_E, HEARTBEAT_SZ⟩, 7, 2, 1, 3, 1⟩⟩,
           ⟨⟨1, 2⟩, ⟨9, 7⟩, [], Submessage.heartbeat_sm ⟨⟨HEARTBEAT, FLAG_E, HEARTBEAT_SZ⟩, 7, 2, 1, 3, 2⟩⟩,
           ⟨⟨1, 2⟩, ⟨9, 7⟩, [], Submessage.heartbeat_sm ⟨⟨HEARTBEAT, FLAG_E, HEARTBEAT_SZ⟩, 7, 2, 1, 3, 3⟩⟩])
        [⟨⟨1, 2⟩, ⟨9, 7⟩, [], Submessage.heartbeat_sm ⟨⟨HEARTBEAT, FLAG_E, HEARTBEAT_SZ⟩, 7, 2, 1, 3, 1⟩⟩,
         ⟨⟨1, 2⟩, ⟨9, 7⟩, [], Submessage.heartbeat_sm ⟨⟨HEARTBEAT, FLAG_E, HEARTBEAT_SZ⟩, 7, 2, 1, 3, 2⟩⟩,
         ⟨⟨1, 2⟩, ⟨9, 7⟩, [], Submessage.heartbeat_sm ⟨⟨HEARTBEAT, FLAG_E, HEARTBEAT_SZ⟩, 7, 2, 1, 3, 3⟩⟩]
      ).helper.meta_submessage_bundle_sizes_, s ≤ 64) :=
  ⟨fun item _ _ => by cases item <;> simp [SMHDR_SZ, INFO_DST_SZ, HEARTBEAT_SZ], by decide,
   (bundle_recorded_size_limit
      ⟨[(⟨9, 7⟩, 5)], [], [], 64, 0, fun _ => none, fun _ => false, fun _ => false, none⟩
      (fun (v : BundleItem) (_ _ : Nat) => match v with
          | BundleItem.info_dst _ => (SMHDR_SZ + INFO_DST_SZ, 0)
          | BundleItem.sm _ => (SMHDR_SZ + HEARTBEAT_SZ, 0))
      [⟨⟨1, 2⟩, ⟨9, 7⟩, [], Submessage.heartbeat_sm ⟨⟨HEARTBEAT, FLAG_E, HEARTBEAT_SZ⟩, 7, 2, 1, 3, 1⟩⟩,
       ⟨⟨1, 2⟩, ⟨9, 7⟩, [], Submessage.heartbeat_sm ⟨⟨HEARTBEAT, FLAG_E, HEARTBEAT_SZ⟩, 7, 2, 1, 3, 2⟩⟩,
       ⟨⟨1, 2⟩, ⟨9, 7⟩, [], Submessage.heartbeat_sm ⟨⟨HEARTBEAT, FLAG_E, HEARTBEAT_SZ⟩, 7, 2, 1, 3, 3⟩⟩]
      (fun item _ _ => by cases item <;> simp [SMHDR_SZ, INFO_DST_SZ, HEARTBEAT_SZ])).1⟩

/-- A submessage larger than the limit: with `max_bundle_size = 20` one undirected
HEARTBEAT of 32 bytes is put in a bundle of its own, the size recorded for it is
32, and 32 bytes are serialized for it (a bundle without content, of recorded
size 0, is sent before it). -/
theorem bundle_oversize_submessage :
    (bundle_mapped_meta_submessages
        (fun (v : BundleItem) (_ _ : Nat) => match v with
          | BundleItem.info_dst _ => (SMHDR_SZ + INFO_DST_SZ, 0)
          | BundleItem.sm _ => (SMHDR_SZ + HEARTBEAT_SZ, 0)) 20
        (RtpsUdpDataLink.build_meta_submessage_map
          ⟨[(⟨9, 7⟩, 5)], [], [], 20, 0, fun _ => some [⟨9, 7⟩], fun _ => false, fun _ => false,
            none⟩
          [⟨⟨1, 2⟩, GUID_UNKNOWN, [], Submessage.heartbeat_sm ⟨⟨HEARTBEAT, FLAG_E, HEARTBEAT_SZ⟩, 0, 2, 1, 3, 1⟩⟩])
        [⟨⟨1, 2⟩, GUID_UNKNOWN, [], Submessage.heartbeat_sm ⟨⟨HEARTBEAT, FLAG_E, HEARTBEAT_SZ⟩, 0, 2, 1, 3, 1⟩⟩]
      ).helper.meta_submessage_bundle_sizes_ = [0, 32] ∧
    (RtpsUdpDataLink.send_bundled_submessages
        ⟨[(⟨9, 7⟩, 5)], [], [], 20, 0, fun _ => some [⟨9, 7⟩], fun _ => false, fun _ => false, none⟩
        (fun (v : BundleItem) (_ _ : Nat) => match v with
          | BundleItem.info_dst _ => (SMHDR_SZ + INFO_DST_SZ, 0)
          | BundleItem.sm _ => (SMHDR_SZ + HEARTBEAT_SZ, 0))
        [⟨⟨1, 2⟩, GUID_UNKNOWN, [], Submessage.heartbeat_sm ⟨⟨HEARTBEAT, FLAG_E, HEARTBEAT_SZ⟩, 0, 2, 1, 3, 1⟩⟩]).map
      (fun evs => evs.map (fun ev => (ev.capacity, ev.bundle, ev.addrs,
        serialized_size (fun (v : BundleItem) (_ _ : Nat) => match v with
          | BundleItem.info_dst _ => (SMHDR_SZ + INFO_DST_SZ, 0)
          | BundleItem.sm _ => (SMHDR_SZ + HEARTBEAT_SZ, 0)) ev.content))) =
      some [(0, [], [5], 0), (32, [0], [5], 32)] ∧
    20 < 32 := by
  refine ⟨by decide, by decide, by decide⟩

/-- C9 (code defect): a datagram longer than `max_bundle_size`.  With a limit of
80 bytes, three HEARTBEATs directed at the reader `(9, 7)` and one directed at
the reader `(10, 7)`, which has the same address, are bundled; a HEARTBEAT is 32
bytes and an INFO_DST 16, so a submessage with its INFO_DST fits.  The third
HEARTBEAT does not fit into the first bundle and opens the second one, counted
without an INFO_DST; the fourth is added to it with its INFO_DST, and the size
recorded is 80.  `send_bundled_submessages` writes into the second bundle an
INFO_DST before the third HEARTBEAT as well: the INFO_DST prefixes and
submessages serialized for that bundle are 96 bytes, 16 more than the limit and
than the message block allocated for them. -/
theorem bundle_datagram_over_limit :
    (RtpsUdpDataLink.send_bundled_submessages
        ⟨[(⟨9, 7⟩, 5), (⟨10, 7⟩, 5)], [], [], 80, 0, fun _ => none, fun _ => false,
          fun _ => false, none⟩
        (fun (v : BundleItem) (_ _ : Nat) => match v with
          | BundleItem.info_dst _ => (SMHDR_SZ + INFO_DST_SZ, 0)
          | BundleItem.sm _ => (SMHDR_SZ + HEARTBEAT_SZ, 0))
        [⟨⟨1, 2⟩, ⟨9, 7⟩, [], Submessage.heartbeat_sm ⟨⟨HEARTBEAT, FLAG_E, HEARTBEAT_SZ⟩, 7, 2, 1, 3, 1⟩⟩,
         ⟨⟨1, 2⟩, ⟨9, 7⟩, [], Submessage.heartbeat_sm ⟨⟨HEARTBEAT, FLAG_E, HEARTBEAT_SZ⟩, 7, 2, 1, 3, 2⟩⟩,
         ⟨⟨1, 2⟩, ⟨9, 7⟩, [], Submessage.heartbeat_sm ⟨⟨HEARTBEAT, FLAG_E, HEARTBEAT_SZ⟩, 7, 2, 1, 3, 3⟩⟩,
         ⟨⟨1, 2⟩, ⟨10, 7⟩, [], Submessage.heartbeat_sm ⟨⟨HEARTBEAT, FLAG_E, HEARTBEAT_SZ⟩, 7, 2, 1, 3, 4⟩⟩]).map
      (fun evs => evs.map (fun ev => (ev.capacity, ev.bundle,
        ev.content.map (fun c => match c with
          | BundleItem.info_dst _ => true
          | BundleItem.sm _ => false),
        serialized_size (fun (v : BundleItem) (_ _ : Nat) => match v with
          | BundleItem.info_dst _ => (SMHDR_SZ + INFO_DST_SZ, 0)
          | BundleItem.sm _ => (SMHDR_SZ + HEARTBEAT_SZ, 0)) ev.content))) =
      some [(80, [0, 1], [true, false, false], 80),
        (80, [2, 3], [true, false, true, false], 96)] ∧
    SMHDR_SZ + INFO_DST_SZ + (SMHDR_SZ + HEARTBEAT_SZ) ≤ 80 ∧ 80 < 96 := by
  refine ⟨by decide, by decide, by decide⟩

/-! ## Bundler: order -/

theorem addr_set_lt_strict : StrictTotal addr_set_lt := by
  refine ⟨?_, ?_, ?_⟩
  · intro a
    induction a with
    | nil => rfl
    | cons x rest ih => simp [addr_set_lt, ih]
  · intro a
    induction a with
    | nil =>
      intro b c h1 h2
      cases b with
      | nil => simp [addr_set_lt] at h1
      | cons y bs =>
        cases c with
        | nil => simp [addr_set_lt] at h2
        | cons z cs => rfl
    | cons x rest ih =>
      intro b c h1 h2
      cases b with
      | nil => simp [addr_set_lt] at h1
      | cons y bs =>
        cases c with
        | nil => simp [addr_set_lt] at h2
        | cons z cs =>
          simp only [addr_set_lt, Bool.or_eq_true, Bool.and_eq_true, decide_eq_true_eq] at h1 h2 ⊢
          rcases h1 with h1 | ⟨h1, h1r⟩
          · rcases h2 with h2 | ⟨h2, _⟩
            · left; omega
            · left; omega
          · rcases h2 with h2 | ⟨h2, h2r⟩
            · left; omega
            · right; exact ⟨by omega, ih bs cs h1r h2r⟩
  · intro a
    induction a with
    | nil =>
      intro b h1 h2
      cases b with
      | nil => exact absurd rfl h2
      | cons y bs => simp [addr_set_lt] at h1
    | cons x rest ih =>
      intro b h1 h2
      cases b with
      | nil => rfl
      | cons y bs =>
        simp only [addr_set_lt, Bool.or_eq_false_iff, Bool.and_eq_false_imp,
          decide_eq_false_iff_not, decide_eq_true_eq] at h1
        simp only [addr_set_lt, Bool.or_eq_true, Bool.and_eq_true, decide_eq_true_eq]
        obtain ⟨h3, h4⟩ := h1
        by_cases c : y < x
        · exact Or.inl c
        · right
          have hxy : x = y := by omega
          refine ⟨hxy.symm, ih bs (h4 hxy) ?_⟩
          intro hr
          exact h2 (by rw [hxy, hr])

theorem repoId_lt_strict : StrictTotal RepoId.lt := by
  refine ⟨?_, ?_, ?_⟩
  · intro a
    simp [RepoId.lt]
  · intro a b c h1 h2
    simp only [RepoId.lt, Bool.or_eq_true, Bool.and_eq_true, decide_eq_true_eq] at h1 h2 ⊢
    omega
  · intro a b h1 h2
    have h3 : a.guidPrefix ≠ b.guidPrefix ∨ a.entityId ≠ b.entityId := by
      by_contra c
      push_neg at c
      apply h2
      cases a
      cases b
      simp only [RepoId.mk.injEq]
      exact c
    simp only [RepoId.lt, Bool.or_eq_false_iff, Bool.and_eq_false_imp,
      decide_eq_false_iff_not, decide_eq_true_eq] at h1
    simp only [RepoId.lt, Bool.or_eq_true, Bool.and_eq_true, decide_eq_true_eq]
    obtain ⟨h4, h5⟩ := h1
    by_cases c : a.guidPrefix = b.guidPrefix
    · have := h5 c
      omega
    · omega

theorem map_modify_mem {κ α : Type} [DecidableEq κ] (lt : κ → κ → Bool) (k : κ) (dflt : α)
    (f : α → α) (m : List (κ × α)) (e : κ × α) (h : e ∈ map_modify lt m k dflt f) :
    e ∈ m ∨ (e.1 = k ∧ (e.2 = f dflt ∨ ∃ v0, (k, v0) ∈ m ∧ e.2 = f v0)) := by
  induction m with
  | nil =>
    simp only [map_modify, List.mem_singleton] at h
    subst h
    exact Or.inr ⟨rfl, Or.inl rfl⟩
  | cons x rest ih =>
    unfold map_modify at h
    split_ifs at h with c1 c2
    · rcases List.mem_cons.1 h with h | h
      · subst h
        exact Or.inr ⟨rfl, Or.inl rfl⟩
      · exact Or.inl h
    · rcases List.mem_cons.1 h with h | h
      · subst h
        refine Or.inr ⟨c2.symm, Or.inr ⟨x.2, ?_, rfl⟩⟩
        rw [c2]
        exact List.mem_cons_self _ _
      · exact Or.inl (List.mem_cons_of_mem _ h)
    · rcases List.mem_cons.1 h with h | h
      · subst h
        exact Or.inl (List.mem_cons_self _ _)
      · rcases ih h with h1 | ⟨h1, h2⟩
        · exact Or.inl (List.mem_cons_of_mem _ h1)
        · refine Or.inr ⟨h1, ?_⟩
          rcases h2 with h2 | ⟨v0, h2, h3⟩
          · exact Or.inl h2
          · exact Or.inr ⟨v0, List.mem_cons_of_mem _ h2, h3⟩

theorem map_modify_sorted {κ α : Type} [DecidableEq κ] (lt : κ → κ → Bool)
    (hlt : StrictTotal lt) (k : κ) (dflt : α) (f : α → α) (m : List (κ × α))
    (h : KeysSorted lt m) : KeysSorted lt (map_modify lt m k dflt f) := by
  obtain ⟨_, htrans, htri⟩ := hlt
  induction m with
  | nil => simp [map_modify, KeysSorted]
  | cons x rest ih =>
    obtain ⟨h1, h2⟩ := List.pairwise_cons.1 h
    unfold map_modify
    split_ifs with c1 c2
    · refine List.pairwise_cons.2 ⟨?_, h⟩
      intro b hb
      rcases List.mem_cons.1 hb with hb | hb
      · subst hb
        exact c1
      · exact htrans _ _ _ c1 (h1 b hb)
    · exact List.pairwise_cons.2 ⟨h1, h2⟩
    · refine List.pairwise_cons.2 ⟨?_, ih h2⟩
      intro b hb
      rcases map_modify_mem lt k dflt f rest b hb with hb | ⟨hb, _⟩
      · exact h1 b hb
      · rw [hb]
        exact htri _ _ (by simpa using c1) c2

theorem map_modify_other {κ α : Type} [DecidableEq κ] (lt : κ → κ → Bool) (k : κ) (dflt : α)
    (f : α → α) (m : List (κ × α)) (e : κ × α) (h : e ∈ m) (hk : e.1 ≠ k) :
    e ∈ map_modify lt m k dflt f := by
  induction m with
  | nil => cases h
  | cons x rest ih =>
    unfold map_modify
    split_ifs with c1 c2
    · exact List.mem_cons_of_mem _ h
    · rcases List.mem_cons.1 h with h | h
      · subst h
        exact absurd c2.symm hk
      · exact List.mem_cons_of_mem _ h
    · rcases List.mem_cons.1 h with h | h
      · subst h
        exact List.mem_cons_self _ _
      · exact List.mem_cons_of_mem _ (ih h)

theorem map_modify_key {κ α : Type} [DecidableEq κ] (lt : κ → κ → Bool) (k : κ) (dflt : α)
    (f : α → α) (m : List (κ × α)) :
    ∃ v, (k, v) ∈ map_modify lt m k dflt f ∧ ∃ v0, v = f v0 := by
  induction m with
  | nil => exact ⟨f dflt, by simp [map_modify], dflt, rfl⟩
  | cons x rest ih =>
    unfold map_modify
    split_ifs with c1 c2
    · exact ⟨f dflt, List.mem_cons_self _ _, dflt, rfl⟩
    · refine ⟨f x.2, ?_, x.2, rfl⟩
      rw [c2]
      exact List.mem_cons_self _ _
    · obtain ⟨v, hv, hv0⟩ := ih
      exact ⟨v, List.mem_cons_of_mem _ hv, hv0⟩

theorem map_modify_found {κ α : Type} [DecidableEq κ] (lt : κ → κ → Bool)
    (hlt : StrictTotal lt) (k : κ) (dflt : α) (f : α → α) (m : List (κ × α))
    (h : KeysSorted lt m) (v0 : α) (hv : (k, v0) ∈ m) :
    (k, f v0) ∈ map_modify lt m k dflt f := by
  obtain ⟨hirr, htrans, _⟩ := hlt
  induction m with
  | nil => cases hv
  | cons x rest ih =>
    obtain ⟨h1, h2⟩ := List.pairwise_cons.1 h
    unfold map_modify
    split_ifs with c1 c2
    · exfalso
      rcases List.mem_cons.1 hv with hv | hv
      · rw [← hv] at c1
        simp [hirr k] at c1
      · have := htrans _ _ _ c1 (h1 _ hv)
        simp [hirr k] at this
    · rcases List.mem_cons.1 hv with hv | hv
      · rw [← hv]
        exact List.mem_cons_self _ _
      · exfalso
        have := h1 _ hv
        rw [← c2] at this
        simp [hirr k] at this
    · rcases List.mem_cons.1 hv with hv | hv
      · exfalso
        apply c2
        rw [← hv]
      · exact List.mem_cons_of_mem _ (ih h2 hv)

theorem keysSorted_unique {κ α : Type} (lt : κ → κ → Bool) (hlt : StrictTotal lt)
    (m : List (κ × α)) (h : KeysSorted lt m) (k : κ) (v1 v2 : α)
    (h1 : (k, v1) ∈ m) (h2 : (k, v2) ∈ m) : v1 = v2 := by
  obtain ⟨hirr, _, _⟩ := hlt
  induction m with
  | nil => cases h1
  | cons x rest ih =>
    obtain ⟨p1, p2⟩ := List.pairwise_cons.1 h
    rcases List.mem_cons.1 h1 with h1 | h1
    · rcases List.mem_cons.1 h2 with h2 | h2
      · have := h1.trans h2.symm
        simpa using this
      · exfalso
        have := p1 _ h2
        rw [← h1] at this
        simp [hirr k] at this
    · rcases List.mem_cons.1 h2 with h2 | h2
      · exfalso
        have := p1 _ h1
        rw [← h2] at this
        simp [hirr k] at this
      · exact ih p2 h1 h2

theorem map_modify_perm {κ α : Type} [DecidableEq κ] (lt : κ → κ → Bool) (k : κ) (dflt : α)
    (f : α → α) (w : α → List Nat) (it : Nat) (hd : w dflt = [])
    (hf : ∀ v, (w (f v)).Perm (it :: w v)) (m : List (κ × α)) :
    ((map_modify lt m k dflt f).map (fun e => w e.2)).flatten.Perm
      (it :: (m.map (fun e => w e.2)).flatten) := by
  induction m with
  | nil =>
    simp only [map_modify, List.map_cons, List.map_nil, List.flatten_cons, List.flatten_nil,
      List.append_nil]
    have := hf dflt
    rw [hd] at this
    exact this
  | cons x rest ih =>
    unfold map_modify
    split_ifs with c1 c2
    · simp only [List.map_cons, List.flatten_cons]
      have := hf dflt
      rw [hd] at this
      exact this.append_right _
    · simp only [List.map_cons, List.flatten_cons]
      exact (hf x.2).append_right _
    · simp only [List.map_cons, List.flatten_cons]
      refine ((List.Perm.append_left (w x.2) ih)).trans ?_
      exact List.perm_middle

theorem mem_split_order (vec : List Nat) (i j : Nat) (h : vec.Pairwise (fun a b => a < b))
    (hi : i ∈ vec) (hj : j ∈ vec) (hij : i < j) :
    ∃ l1 l2 l3, vec = l1 ++ i :: l2 ++ j :: l3 := by
  obtain ⟨l1, r, rfl⟩ := List.append_of_mem hi
  have hj1 : j ∈ r := by
    rcases List.mem_append.1 hj with hj | hj
    · have := (List.pairwise_append.1 h).2.2 j hj i (List.mem_cons_self _ _)
      omega
    · rcases List.mem_cons.1 hj with hj | hj
      · omega
      · exact hj
  obtain ⟨l2, l3, rfl⟩ := List.append_of_mem hj1
  exact ⟨l1, l2, l3, by simp⟩

theorem mem_adr_map_iters (m : List (List Nat × List (RepoId × List Nat)))
    (e : List Nat × List (RepoId × List Nat)) (d : RepoId × List Nat) (x : Nat)
    (he : e ∈ m) (hd : d ∈ e.2) (hx : x ∈ d.2) : x ∈ adr_map_iters m := by
  unfold adr_map_iters dests_iters
  simp only [List.mem_flatten, List.mem_map]
  exact ⟨_, ⟨e, he, rfl⟩, List.mem_flatten.2 ⟨d.2, List.mem_map.2 ⟨d, hd, rfl⟩, hx⟩⟩

theorem adr_map_iters_split (m : List (List Nat × List (RepoId × List Nat)))
    (e : List Nat × List (RepoId × List Nat)) (d : RepoId × List Nat)
    (he : e ∈ m) (hd : d ∈ e.2) :
    ∃ l1 l3, adr_map_iters m = l1 ++ d.2 ++ l3 := by
  obtain ⟨p, q, rfl⟩ := List.append_of_mem he
  obtain ⟨p1, q1, h1⟩ := List.append_of_mem hd
  refine ⟨adr_map_iters p ++ dests_iters p1, dests_iters q1 ++ adr_map_iters q, ?_⟩
  unfold adr_map_iters
  simp only [List.map_append, List.map_cons, List.flatten_append, List.flatten_cons]
  rw [h1]
  unfold dests_iters
  simp only [List.map_append, List.map_cons, List.flatten_append, List.flatten_cons,
    List.append_assoc]

theorem dest_insert_perm (dests : List (RepoId × List Nat)) (k : RepoId) (it : Nat) :
    (dests_iters (map_modify RepoId.lt dests k [] (fun v => v ++ [it]))).Perm
      (it :: dests_iters dests) := by
  unfold dests_iters
  exact map_modify_perm RepoId.lt k [] (fun v => v ++ [it]) (fun v => v) it rfl
    (fun v => List.perm_append_singleton it v) dests

theorem build_step_inv (link : RtpsUdpDataLink) (done : List MetaSubmessage)
    (st : List Nat × List (List Nat × List (RepoId × List Nat))) (m : MetaSubmessage)
    (hst : st.1 = []) (h : BuildInv link done st.2) :
    (build_step link st done.length m).1 = [] ∧
    BuildInv link (done ++ [m]) (build_step link st done.length m).2 := by
  obtain ⟨h1, h2, h3, h4, h5, h6⟩ := h
  have hget : ∀ i mi, (done ++ [m]).get? i = some mi →
      (i < done.length ∧ done.get? i = some mi) ∨ (i = done.length ∧ mi = m) := by
    intro i mi hi
    simp only [List.get?_eq_getElem?] at hi ⊢
    by_cases c : i < done.length
    · rw [List.getElem?_append_left c] at hi
      exact Or.inl ⟨c, hi⟩
    · rw [List.getElem?_append_right (by omega)] at hi
      have hlt : i - done.length < 1 := by
        by_contra c2
        rw [List.getElem?_eq_none (by simp only [List.length_singleton]; omega)] at hi
        cases hi
      have hz : i - done.length = 0 := by omega
      rw [hz] at hi
      simp only [List.getElem?_cons_zero, Option.some.injEq] at hi
      exact Or.inr ⟨by omega, hi.symm⟩
  unfold build_step
  rw [hst]
  by_cases c : (meta_addrs link [] m).isEmpty = true
  · rw [if_pos c]
    have hnil : meta_addrs link [] m = [] := List.isEmpty_iff.1 c
    refine ⟨hnil, h1, h2, h3, ?_, h5, ?_⟩
    · intro i mi hi hne
      rcases hget i mi hi with ⟨_, hi1⟩ | ⟨_, hi1⟩
      · exact h4 i mi hi1 hne
      · rw [hi1] at hne
        exact absurd hnil hne
    · intro x hx
      have := h6 x hx
      simp only [List.length_append, List.length_singleton]
      omega
  · rw [if_neg c]
    have hperm : (adr_map_iters (map_modify addr_set_lt st.2 (meta_addrs link [] m) []
        (fun dests => map_modify RepoId.lt dests (dest_key m) []
          (fun v => v ++ [done.length])))).Perm (done.length :: adr_map_iters st.2) := by
      unfold adr_map_iters
      exact map_modify_perm addr_set_lt _ [] _ dests_iters done.length rfl
        (fun v => dest_insert_perm v (dest_key m) done.length) st.2
    refine ⟨rfl, map_modify_sorted _ addr_set_lt_strict _ _ _ _ h1, ?_, ?_, ?_, ?_, ?_⟩
    · intro e he
      rcases map_modify_mem _ _ _ _ _ e he with he | ⟨_, he | ⟨v0, hv0, he⟩⟩
      · exact h2 e he
      · rw [he]
        exact map_modify_sorted _ repoId_lt_strict _ _ _ _ List.Pairwise.nil
      · rw [he]
        exact map_modify_sorted _ repoId_lt_strict _ _ _ _ (h2 _ hv0)
    · intro e he d hd
      have hnew : ∀ dests0 : List (RepoId × List Nat),
          (∀ d0 ∈ dests0, d0.2.Pairwise (fun a b => a < b) ∧ ∀ x ∈ d0.2, x < done.length) →
          d ∈ map_modify RepoId.lt dests0 (dest_key m) [] (fun v => v ++ [done.length]) →
          d.2.Pairwise (fun a b => a < b) := by
        intro dests0 hd0 hdm
        rcases map_modify_mem _ _ _ _ _ d hdm with hdm | ⟨_, hdm | ⟨v0, hv0, hdm⟩⟩
        · exact (hd0 d hdm).1
        · rw [hdm]
          simp
        · rw [hdm]
          refine List.pairwise_append.2 ⟨(hd0 _ hv0).1, List.pairwise_singleton _ _, ?_⟩
          intro a ha b hb
          rw [List.mem_singleton.1 hb]
          exact (hd0 _ hv0).2 a ha
      rcases map_modify_mem _ _ _ _ _ e he with he | ⟨_, he | ⟨v0, hv0, he⟩⟩
      · exact h3 e he d hd
      · rw [he] at hd
        exact hnew [] (fun d0 hd0 => by cases hd0) hd
      · rw [he] at hd
        refine hnew v0 ?_ hd
        intro d0 hd0
        exact ⟨h3 _ hv0 d0 hd0, fun x hx => h6 x (mem_adr_map_iters _ _ _ _ hv0 hd0 hx)⟩
    · intro i mi hi hne
      rcases hget i mi hi with ⟨_, hi1⟩ | ⟨hi1, hi2⟩
      · obtain ⟨dests, hd1, vec, hv1, hv2⟩ := h4 i mi hi1 hne
        by_cases ca : meta_addrs link [] mi = meta_addrs link [] m
        · rw [ca] at hd1 ⊢
          refine ⟨_, map_modify_found _ addr_set_lt_strict _ _ _ _ h1 dests hd1, ?_⟩
          by_cases cd : dest_key mi = dest_key m
          · rw [cd] at hv1 ⊢
            exact ⟨_, map_modify_found _ repoId_lt_strict _ _ _ _ (h2 _ hd1) vec hv1,
              List.mem_append_left _ hv2⟩
          · exact ⟨vec, map_modify_other _ _ _ _ _ _ hv1 cd, hv2⟩
        · exact ⟨dests, map_modify_other _ _ _ _ _ _ hd1 ca, vec, hv1, hv2⟩
      · rw [hi2, hi1]
        obtain ⟨v, hv, dests0, hv0⟩ := map_modify_key addr_set_lt (meta_addrs link [] m) []
          (fun dests => map_modify RepoId.lt dests (dest_key m) []
            (fun v => v ++ [done.length])) st.2
        refine ⟨v, hv, ?_⟩
        obtain ⟨vec, hvec, vec0, hvec0⟩ := map_modify_key RepoId.lt (dest_key m) []
          (fun v => v ++ [done.length]) dests0
        rw [hv0]
        refine ⟨vec, hvec, ?_⟩
        rw [hvec0]
        exact List.mem_append_right _ (List.mem_singleton_self _)
    · refine (List.Perm.nodup_iff hperm).2 (List.nodup_cons.2 ⟨?_, h5⟩)
      intro hx
      have := h6 _ hx
      omega
    · intro x hx
      have hx1 := (List.Perm.mem_iff hperm).1 hx
      simp only [List.length_append, List.length_singleton]
      rcases List.mem_cons.1 hx1 with hx1 | hx1
      · omega
      · have := h6 x hx1
        omega

theorem build_loop_inv (link : RtpsUdpDataLink) (rest : List MetaSubmessage) :
    ∀ (done : List MetaSubmessage) (st : List Nat × List (List Nat × List (RepoId × List Nat))),
      st.1 = [] → BuildInv link done st.2 →
      BuildInv link (done ++ rest) (build_loop link done.length rest st).2 := by
  induction rest with
  | nil =>
    intro done st _ h
    simpa [build_loop] using h
  | cons m rest ih =>
    intro done st hst h
    obtain ⟨s1, s2⟩ := build_step_inv link done st m hst h
    have := ih (done ++ [m]) _ s1 s2
    simp only [List.length_append, List.length_singleton, List.append_assoc,
      List.singleton_append] at this
    exact this

theorem build_meta_submessage_map_inv (link : RtpsUdpDataLink) (ms : List MetaSubmessage) :
    BuildInv link ms (link.build_meta_submessage_map ms) := by
  have h0 : BuildInv link [] ([] : List (List Nat × List (RepoId × List Nat))) := by
    refine ⟨List.Pairwise.nil, ?_, ?_, ?_, ?_, ?_⟩
    · intro e he; cases he
    · intro e he; cases he
    · intro i mi hi; simp at hi
    · simp [adr_map_iters]
    · intro x hx; simp [adr_map_iters] at hx
  have := build_loop_inv link ms [] ([], []) rfl h0
  simpa [RtpsUdpDataLink.build_meta_submessage_map] using this

theorem back_push_back_flatten (l : List (List Nat)) (it : Nat) :
    (back_push_back l it).flatten = l.flatten ++ [it] := by
  induction l with
  | nil => simp [back_push_back]
  | cons b rest ih =>
    cases rest with
    | nil => simp [back_push_back]
    | cons c rest1 =>
      simp only [back_push_back, List.flatten_cons, List.append_assoc] at ih ⊢
      rw [ih]

theorem bundle_item_flatten (sizes : BundleItem → Nat → Nat → Nat × Nat) (addr : List Nat)
    (dest : RepoId) (st : BundleState) (it : Nat) :
    (bundle_item sizes addr dest st it).meta_submessage_bundles.flatten =
      st.meta_submessage_bundles.flatten ++ [it] := by
  have h1 : (bundle_info_dst sizes addr dest st).meta_submessage_bundles.flatten =
      st.meta_submessage_bundles.flatten := by
    unfold bundle_info_dst
    split_ifs <;> simp
  unfold bundle_item
  simp only
  split_ifs
  · simp only [back_push_back_flatten, h1]
  · simp only [back_push_back_flatten, List.flatten_append, h1]
    simp

theorem bundle_dest_flatten (sizes : BundleItem → Nat → Nat → Nat × Nat) (addr : List Nat)
    (dest : RepoId) (its : List Nat) :
    ∀ st : BundleState,
      (its.foldl (bundle_item sizes addr dest) st).meta_submessage_bundles.flatten =
        st.meta_submessage_bundles.flatten ++ its := by
  induction its with
  | nil => intro st; simp
  | cons it rest ih =>
    intro st
    simp only [List.foldl_cons]
    rw [ih, bundle_item_flatten]
    simp

theorem bundle_dests_flatten (sizes : BundleItem → Nat → Nat → Nat × Nat) (addr : List Nat)
    (dests : List (RepoId × List Nat)) :
    ∀ st : BundleState,
      (dests.foldl (bundle_dest sizes addr) st).meta_submessage_bundles.flatten =
        st.meta_submessage_bundles.flatten ++ dests_iters dests := by
  induction dests with
  | nil => intro st; simp [dests_iters]
  | cons d rest ih =>
    intro st
    simp only [List.foldl_cons]
    rw [ih]
    unfold bundle_dest
    rw [bundle_dest_flatten]
    simp [dests_iters]

theorem bundle_addrs_flatten (sizes : BundleItem → Nat → Nat → Nat × Nat)
    (adr_map : List (List Nat × List (RepoId × List Nat))) :
    ∀ st : BundleState,
      (adr_map.foldl (bundle_addr sizes) st).meta_submessage_bundles.flatten =
        st.meta_submessage_bundles.flatten ++ adr_map_iters adr_map := by
  induction adr_map with
  | nil => intro st; simp [adr_map_iters]
  | cons e rest ih =>
    intro st
    simp only [List.foldl_cons]
    rw [ih]
    unfold bundle_addr
    simp only
    rw [bundle_dests_flatten]
    simp [adr_map_iters]

/-- C10 (amended): bundling preserves the order inside one address set.  For every
input vector and any two meta-submessages at the positions `i < j` whose
destinations have the same GUID prefix (in particular: the same `dst_guid`) and
whose address sets are equal and not empty, every call of
`send_bundled_submessages` that returns serializes each iterator of the map once
and serializes `i` before `j`: earlier in the same datagram or in a datagram that
is sent earlier.  The call returns whenever every meta-submessage holds a
HEARTBEAT, ACKNACK, GAP or NACK_FRAG. -/
theorem bundling_preserves_order (link : RtpsUdpDataLink)
    (sizes : BundleItem → Nat → Nat → Nat × Nat) (ms : List MetaSubmessage) (i j : Nat)
    (mi mj : MetaSubmessage) (hi : ms.get? i = some mi) (hj : ms.get? j = some mj)
    (hij : i < j) (hdst : dest_key mi = dest_key mj)
    (haddr : meta_addrs link [] mi = meta_addrs link [] mj)
    (hne : meta_addrs link [] mi ≠ []) :
    (∀ evs, link.send_bundled_submessages sizes ms = some evs →
      (evs.map (fun ev => ev.bundle)).flatten.Nodup ∧
      ∃ l1 l2 l3, (evs.map (fun ev => ev.bundle)).flatten = l1 ++ i :: l2 ++ j :: l3) ∧
    ((∀ m ∈ ms, m.sm_ ≠ Submessage.unset) →
      ∃ evs, link.send_bundled_submessages sizes ms = some evs) := by
  refine ⟨?_, send_bundled_submessages_returns link sizes ms⟩
  intro evs hev
  have hms : ms.isEmpty = false := by
    cases ms with
    | nil => simp at hi
    | cons a rest => rfl
  unfold RtpsUdpDataLink.send_bundled_submessages at hev
  rw [hms] at hev
  simp only [Bool.false_eq_true, if_false] at hev
  have hb := (send_loop_capacity _ _ _ _ evs hev).2
  have hf := bundle_addrs_flatten sizes (link.build_meta_submessage_map ms)
    ⟨⟨link.max_bundle_size_, 0, 0, 0, 0, []⟩, GUID_UNKNOWN, [], [], ms⟩
  simp only [List.flatten_nil, List.nil_append] at hf
  have hflat : (evs.map (fun ev => ev.bundle)).flatten =
      adr_map_iters (link.build_meta_submessage_map ms) := by
    rw [hb]
    exact hf
  obtain ⟨h1, h2, h3, h4, h5, _⟩ := build_meta_submessage_map_inv link ms
  rw [hflat]
  refine ⟨h5, ?_⟩
  obtain ⟨di, hdi, vi, hvi, hmemi⟩ := h4 i mi hi hne
  obtain ⟨dj, hdj, vj, hvj, hmemj⟩ := h4 j mj hj (by rw [← haddr]; exact hne)
  rw [← haddr] at hdj
  have hdd : di = dj := keysSorted_unique _ addr_set_lt_strict _ h1 _ _ _ hdi hdj
  subst hdd
  rw [← hdst] at hvj
  have hvv : vi = vj := keysSorted_unique _ repoId_lt_strict _ (h2 _ hdi) _ _ _ hvi hvj
  subst hvv
  obtain ⟨l1, l2, l3, hsplit⟩ := mem_split_order vi i j (h3 _ hdi _ hvi) hmemi hmemj hij
  obtain ⟨p, q, hpq⟩ := adr_map_iters_split _ _ _ hdi hvi
  refine ⟨p ++ l1, l2, l3 ++ q, ?_⟩
  rw [hpq]
  have hs2 : vi = l1 ++ i :: l2 ++ j :: l3 := hsplit
  rw [hs2]
  simp only [List.append_assoc, List.cons_append]

/-- Witness for C10: three directed HEARTBEATs to one reader with a limit of 64
bytes go out in three datagrams, in the order of the input. -/
theorem bundling_preserves_order_witness :
    (RtpsUdpDataLink.send_bundled_submessages
        ⟨[(⟨9, 7⟩, 5)], [], [], 64, 0, fun _ => none, fun _ => false, fun _ => false, none⟩
        (fun (v : BundleItem) (_ _ : Nat) => match v with
          | BundleItem.info_dst _ => (SMHDR_SZ + INFO_DST_SZ, 0)
          | BundleItem.sm _ => (SMHDR_SZ + HEARTBEAT_SZ, 0))
        [⟨⟨1, 2⟩, ⟨9, 7⟩, [], Submessage.heartbeat_sm ⟨⟨HEARTBEAT, FLAG_E, HEARTBEAT_SZ⟩, 7, 2, 1, 3, 1⟩⟩,
         ⟨⟨1, 2⟩, ⟨9, 7⟩, [], Submessage.heartbeat_sm ⟨⟨HEARTBEAT, FLAG_E, HEARTBEAT_SZ⟩, 7, 2, 1, 3, 2⟩⟩,
         ⟨⟨1, 2⟩, ⟨9, 7⟩, [], Submessage.heartbeat_sm ⟨⟨HEARTBEAT, FLAG_E, HEARTBEAT_SZ⟩, 7, 2, 1, 3, 3⟩⟩]).map
      (fun evs => evs.map (fun ev => ev.bundle)) = some [[0], [1], [2]] ∧
    (∀ evs, RtpsUdpDataLink.send_bundled_submessages
        ⟨[(⟨9, 7⟩, 5)], [], [], 64, 0, fun _ => none, fun _ => false, fun _ => false, none⟩
        (fun (v : BundleItem) (_ _ : Nat) => match v with
          | BundleItem.info_dst _ => (SMHDR_SZ + INFO_DST_SZ, 0)
          | BundleItem.sm _ => (SMHDR_SZ + HEARTBEAT_SZ, 0))
        [⟨⟨1, 2⟩, ⟨9, 7⟩, [], Submessage.heartbeat_sm ⟨⟨HEARTBEAT, FLAG_E, HEARTBEAT_SZ⟩, 7, 2, 1, 3, 1⟩⟩,
         ⟨⟨1, 2⟩, ⟨9, 7⟩, [], Submessage.heartbeat_sm ⟨⟨HEARTBEAT, FLAG_E, HEARTBEAT_SZ⟩, 7, 2, 1, 3, 2⟩⟩,
         ⟨⟨1, 2⟩, ⟨9, 7⟩, [], Submessage.heartbeat_sm ⟨⟨HEARTBEAT, FLAG_E, HEARTBEAT_SZ⟩, 7, 2, 1, 3, 3⟩⟩] = some evs →
      (evs.map (fun ev => ev.bundle)).flatten.Nodup ∧
      ∃ l1 l2 l3, (evs.map (fun ev => ev.bundle)).flatten = l1 ++ 0 :: l2 ++ 2 :: l3) :=
  ⟨by decide,
   (bundling_preserves_order
      ⟨[(⟨9, 7⟩, 5)], [], [], 64, 0, fun _ => none, fun _ => false, fun _ => false, none⟩
      (fun (v : BundleItem) (_ _ : Nat) => match v with
          | BundleItem.info_dst _ => (SMHDR_SZ + INFO_DST_SZ, 0)
          | BundleItem.sm _ => (SMHDR_SZ + HEARTBEAT_SZ, 0))
      [⟨⟨1, 2⟩, ⟨9, 7⟩, [], Submessage.heartbeat_sm ⟨⟨HEARTBEAT, FLAG_E, HEARTBEAT_SZ⟩, 7, 2, 1, 3, 1⟩⟩,
         ⟨⟨1, 2⟩, ⟨9, 7⟩, [], Submessage.heartbeat_sm ⟨⟨HEARTBEAT, FLAG_E, HEARTBEAT_SZ⟩, 7, 2, 1, 3, 2⟩⟩,
         ⟨⟨1, 2⟩, ⟨9, 7⟩, [], Submessage.heartbeat_sm ⟨⟨HEARTBEAT, FLAG_E, HEARTBEAT_SZ⟩, 7, 2, 1, 3, 3⟩⟩] 0 2
      ⟨⟨1, 2⟩, ⟨9, 7⟩, [], Submessage.heartbeat_sm ⟨⟨HEARTBEAT, FLAG_E, HEARTBEAT_SZ⟩, 7, 2, 1, 3, 1⟩⟩
      ⟨⟨1, 2⟩, ⟨9, 7⟩, [], Submessage.heartbeat_sm ⟨⟨HEARTBEAT, FLAG_E, HEARTBEAT_SZ⟩, 7, 2, 1, 3, 3⟩⟩
      rfl rfl (by decide) (by decide) (by decide) (by decide)).1⟩

/-- C10 as stated fails across address sets: two undirected HEARTBEATs of one
writer, the first with an extra destination at another address (address set
`{5, 12}`), the second without (address set `{5}`), are filed under two address
sets; the map is walked in the order of the address sets, so the second
HEARTBEAT is sent first. -/
theorem bundling_order_counterexample :
    (RtpsUdpDataLink.send_bundled_submessages
        ⟨[(⟨9, 7⟩, 5), (⟨9, 8⟩, 12)], [], [], 64, 0, fun _ => some [⟨9, 7⟩], fun _ => false,
          fun _ => false, none⟩
        (fun (v : BundleItem) (_ _ : Nat) => match v with
          | BundleItem.info_dst _ => (SMHDR_SZ + INFO_DST_SZ, 0)
          | BundleItem.sm _ => (SMHDR_SZ + HEARTBEAT_SZ, 0))
        [⟨⟨1, 2⟩, GUID_UNKNOWN, [⟨9, 8⟩], Submessage.heartbeat_sm ⟨⟨HEARTBEAT, FLAG_E, HEARTBEAT_SZ⟩, 0, 2, 1, 3, 1⟩⟩,
         ⟨⟨1, 2⟩, GUID_UNKNOWN, [], Submessage.heartbeat_sm ⟨⟨HEARTBEAT, FLAG_E, HEARTBEAT_SZ⟩, 0, 2, 1, 3, 2⟩⟩]).map
      (fun evs => evs.map (fun ev => (ev.bundle, ev.addrs))) =
      some [([1], [5]), ([0], [5, 12])] := by
  decide

/-! ## Writer side: what an accepted ACKNACK changes -/

theorem guid_find_set_other {α : Type} (m : List (RepoId × α)) (k other : RepoId) (v : α)
    (h : other ≠ k) : guid_find (guid_set m k v) other = guid_find m other := by
  induction m with
  | nil => rfl
  | cons e rest ih =>
    simp only [guid_find, guid_set, List.map_cons, List.find?_cons] at ih ⊢
    by_cases c : e.1 = k
    · have c2 : ¬ k = other := fun c3 => h c3.symm
      simpa [c, c2] using ih
    · simp only [c, if_false]
      by_cases c2 : e.1 = other
      · simp [c2]
      · simp only [c2, decide_False]
        exact ih

theorem process_acknack_finish_spec (w : RtpsWriter) (ri0 ri : ReaderInfo)
    (an : AckNackSubmessage) (src : RepoId) (is_final first_ack : Bool)
    (events : List WriterEvent) (ms : List MetaSubmessage)
    (pending : List (Int × TransportQueueElement)) (res : WriterResult)
    (hri : guid_find w.remote_readers_ src = some ri0)
    (h : w.process_acknack_finish ri an src is_final first_ack events ms pending = some res) :
    guid_find res.writer.remote_readers_ src = some (acknack_update_reader ri an is_final) ∧
    (∀ other, other ≠ src →
      guid_find res.writer.remote_readers_ other = guid_find w.remote_readers_ other) ∧
    res.meta_submessages = ms ∧
    ∃ td, res.events = acknack_finish_events w.id_ src is_final first_ack events pending td := by
  unfold RtpsWriter.process_acknack_finish at h
  cases ha : RtpsWriter.acked_by_all_helper_i
      { w with remote_readers_ :=
                 guid_set w.remote_readers_ src (acknack_update_reader ri an is_final) }
      true [] with
  | none => rw [ha] at h; cases h
  | some a =>
    rw [ha] at h
    cases h
    have hr := acked_by_all_helper_i_readers _ _ _ _ ha
    refine ⟨?_, ?_, rfl, a.2, rfl⟩
    · show guid_find a.1.remote_readers_ src = _
      rw [hr]
      exact guid_find_set _ _ _ _ hri
    · intro other ho
      show guid_find a.1.remote_readers_ other = _
      rw [hr]
      exact guid_find_set_other _ _ _ _ ho

theorem process_acknack_finish_returns (w : RtpsWriter) (ri : ReaderInfo)
    (an : AckNackSubmessage) (src : RepoId) (is_final first_ack : Bool)
    (events : List WriterEvent) (ms : List MetaSubmessage)
    (pending : List (Int × TransportQueueElement)) (h : w.send_buff_ ≠ none) :
    ∃ res, w.process_acknack_finish ri an src is_final first_ack events ms pending = some res := by
  unfold RtpsWriter.process_acknack_finish
  obtain ⟨a, ha⟩ := acked_by_all_helper_i_returns
    { w with remote_readers_ :=
               guid_set w.remote_readers_ src (acknack_update_reader ri an is_final) }
    true [] h
  rw [ha]
  exact ⟨_, rfl⟩

theorem process_acknack_nondurable (w : RtpsWriter) (an : AckNackSubmessage) (src : RepoId)
    (ri : ReaderInfo) (hri : guid_find w.remote_readers_ src = some ri)
    (hacc : ri.acknack_recvd_count_ < an.count) (hdd : ri.durable_data_ = []) :
    w.process_acknack true an src =
      w.process_acknack_finish
        { ri with acknack_recvd_count_ := an.count, handshake_done_ := true } an src
        (an.smHeader.flags &&& FLAG_F != 0) (!ri.handshake_done_) [] [] [] := by
  unfold RtpsWriter.process_acknack
  simp only [Bool.not_true, Bool.false_eq_true, if_false, hri]
  rw [if_neg (by omega)]
  simp [hdd]

/-- C11 (code defect): the first accepted ACKNACK of a reader can complete the
handshake without the on-start callback.  A durable reader with the stashed
durable sample 1 and `handshake_done = false` sends its first ACKNACK (count 1,
base 1, bit 0 set: a request for 1).  `process_acknack` sets `handshake_done`,
resends the sample and returns from inside the durable-data part, before
`invoke_on_start_callbacks`; the next ACKNACK (count 2, base 2, final) finds
`handshake_done` set, so the callback is not made then either. -/
theorem first_acknack_without_callback :
    (RtpsWriter.process_acknack
        ⟨[(⟨9, 7⟩, { ReaderInfo.fresh true with durable_data_ := [(1, 11)], durable_timestamp_ := 1 })],
          some ⟨[]⟩, 2, [], [], ⟨1, 2⟩, true, 0⟩ true
        ⟨⟨ACKNACK, FLAG_E, 0⟩, 7, 2, ⟨1, 1, [2147483648]⟩, 1⟩ ⟨9, 7⟩).map
      (fun res => (res.writer.remote_readers_.map (fun e => e.2.handshake_done_), res.events)) =
      some ([true], [WriterEvent.durability_resend 11]) ∧
    (RtpsWriter.process_acknack
        ⟨[(⟨9, 7⟩, { ReaderInfo.fresh true with durable_data_ := [(1, 11)], durable_timestamp_ := 1,
                                                 handshake_done_ := true, acknack_recvd_count_ := 1 })],
          some ⟨[]⟩, 2, [], [], ⟨1, 2⟩, true, 0⟩ true
        ⟨⟨ACKNACK, FLAG_E ||| FLAG_F, 0⟩, 7, 2, ⟨2, 1, [0]⟩, 2⟩ ⟨9, 7⟩).map
      (fun res => (res.writer.remote_readers_.map (fun e => e.2.handshake_done_), res.events)) =
      some ([true], [WriterEvent.data_delivered 11]) := by
  refine ⟨by decide, by decide⟩

theorem acknack_update_reader_ack (ri : ReaderInfo) (an : AckNackSubmessage) (f : Bool) :
    (acknack_update_reader ri an f).cur_cumulative_ack_ =
      if an.readerSNState.bitmapBase ≠ SequenceNumber.SEQUENCENUMBER_UNKNOWN ∧
          an.readerSNState.bitmapBase ≠ SequenceNumber.ZERO then an.readerSNState.bitmapBase
      else ri.cur_cumulative_ack_ := by
  unfold acknack_update_reader
  simp only
  split_ifs <;> rfl

theorem acknack_update_reader_requests (ri : ReaderInfo) (an : AckNackSubmessage) (f : Bool) :
    (acknack_update_reader ri an f).requested_changes_ =
      if (!f || bitmapNonEmpty an.readerSNState) = true then
        ri.requested_changes_ ++ [an.readerSNState]
      else ri.requested_changes_ := by
  unfold acknack_update_reader
  simp only
  split_ifs <;> rfl

/-- C12 (amended): cumulative ack update.  For every ACKNACK accepted by
`process_acknack` from a reader without stashed durable data, after the call that
reader's `cur_cumulative_ack` is `readerSNState.bitmapBase` when the base is
neither 0 nor `SEQUENCENUMBER_UNKNOWN`, and is unchanged otherwise; no other
reader's record is modified; the call returns whenever the send buffer has been
created. -/
theorem cumulative_ack_update (w : RtpsWriter) (an : AckNackSubmessage) (src : RepoId)
    (ri : ReaderInfo) (hri : guid_find w.remote_readers_ src = some ri)
    (hacc : ri.acknack_recvd_count_ < an.count) (hdd : ri.durable_data_ = []) :
    (∀ res, w.process_acknack true an src = some res →
      (∃ ri1, guid_find res.writer.remote_readers_ src = some ri1 ∧
        ri1.cur_cumulative_ack_ =
          if an.readerSNState.bitmapBase ≠ SequenceNumber.SEQUENCENUMBER_UNKNOWN ∧
              an.readerSNState.bitmapBase ≠ SequenceNumber.ZERO then an.readerSNState.bitmapBase
          else ri.cur_cumulative_ack_) ∧
      (∀ other, other ≠ src →
        guid_find res.writer.remote_readers_ other = guid_find w.remote_readers_ other)) ∧
    (w.send_buff_ ≠ none → ∃ res, w.process_acknack true an src = some res) := by
  rw [process_acknack_nondurable w an src ri hri hacc hdd]
  refine ⟨?_, fun h => process_acknack_finish_returns w _ an src _ _ _ _ _ h⟩
  intro res hres
  obtain ⟨h1, h2, _, _⟩ := process_acknack_finish_spec w ri _ an src _ _ _ _ _ res hri hres
  exact ⟨⟨_, h1, acknack_update_reader_ack _ an _⟩, h2⟩

/-- Witness for C12: a writer with two readers; the ACKNACK of the first (count 1,
base 4) moves that reader's cumulative ack to 4 and leaves the second reader's
record as it was. -/
theorem cumulative_ack_update_witness :
    (∀ res, RtpsWriter.process_acknack
        ⟨[(⟨9, 7⟩, ReaderInfo.fresh false), (⟨9, 8⟩, ReaderInfo.fresh false)], some ⟨[]⟩, 5, [], [],
          ⟨1, 2⟩, false, 0⟩ true
        ⟨⟨ACKNACK, FLAG_E ||| FLAG_F, 0⟩, 7, 2, ⟨4, 1, [0]⟩, 1⟩ ⟨9, 7⟩ = some res →
      (∃ ri1, guid_find res.writer.remote_readers_ ⟨9, 7⟩ = some ri1 ∧
        ri1.cur_cumulative_ack_ =
          if (4 : Int) ≠ SequenceNumber.SEQUENCENUMBER_UNKNOWN ∧ (4 : Int) ≠ SequenceNumber.ZERO
          then 4 else (ReaderInfo.fresh false).cur_cumulative_ack_) ∧
      (∀ other, other ≠ ⟨9, 7⟩ →
        guid_find res.writer.remote_readers_ other =
          guid_find [(⟨9, 7⟩, ReaderInfo.fresh false), (⟨9, 8⟩, ReaderInfo.fresh false)] other)) ∧
    (RtpsWriter.process_acknack
        ⟨[(⟨9, 7⟩, ReaderInfo.fresh false), (⟨9, 8⟩, ReaderInfo.fresh false)], some ⟨[]⟩, 5, [], [],
          ⟨1, 2⟩, false, 0⟩ true
        ⟨⟨ACKNACK, FLAG_E ||| FLAG_F, 0⟩, 7, 2, ⟨4, 1, [0]⟩, 1⟩ ⟨9, 7⟩).map
      (fun res => res.writer.remote_readers_.map (fun e => e.2.cur_cumulative_ack_)) =
      some [4, 1] :=
  ⟨(cumulative_ack_update
      ⟨[(⟨9, 7⟩, ReaderInfo.fresh false), (⟨9, 8⟩, ReaderInfo.fresh false)], some ⟨[]⟩, 5, [], [],
        ⟨1, 2⟩, false, 0⟩
      ⟨⟨ACKNACK, FLAG_E ||| FLAG_F, 0⟩, 7, 2, ⟨4, 1, [0]⟩, 1⟩ ⟨9, 7⟩ (ReaderInfo.fresh false)
      (by decide) (by decide) (by decide)).1, by decide⟩

/-- C12 as stated fails for the base 0: an accepted ACKNACK with
`bitmapBase = 0` from a reader whose cumulative ack is 5 leaves it at 5. -/
theorem cumulative_ack_update_counterexample :
    (RtpsWriter.process_acknack
        ⟨[(⟨9, 7⟩, { ReaderInfo.fresh false with cur_cumulative_ack_ := 5 })], some ⟨[]⟩, 5, [], [],
          ⟨1, 2⟩, false, 0⟩ true
        ⟨⟨ACKNACK, FLAG_E, 0⟩, 7, 2, ⟨0, 0, [0]⟩, 1⟩ ⟨9, 7⟩).map
      (fun res => res.writer.remote_readers_.map
        (fun e => (e.2.acknack_recvd_count_, e.2.cur_cumulative_ack_))) = some [(1, 5)] := by
  decide

theorem bitmapNonEmpty_iff (s : SequenceNumberSet) (hw : ∀ x ∈ s.bitmap, x < 4294967296) :
    bitmapNonEmpty s = true ↔
      ∃ i, i ≤ s.numBits ∧ i < 32 * s.bitmap.length ∧ bitmap_bit s.bitmap i = true := by
  simp only [bitmapNonEmpty, List.any_eq_true, List.mem_range, Bool.and_eq_true,
    Bool.or_eq_true, decide_eq_true_eq, bitmap_bit]
  constructor
  · rintro ⟨i, hi, hne, h⟩
    have hx : s.bitmap.getD i 0 < 4294967296 := by
      rw [List.getD_eq_getElem _ _ hi]
      exact hw _ (List.getElem_mem _)
    rcases h with h | ⟨bit, hbit, ht, hn⟩
    · obtain ⟨b, hb⟩ := Nat.ne_zero_implies_bit_true hne
      have hb32 : b < 32 := by
        by_contra c
        have h1 : s.bitmap.getD i 0 < 2 ^ b :=
          lt_of_lt_of_le hx (by
            have : (2 : Nat) ^ 32 ≤ 2 ^ b := Nat.pow_le_pow_right (by decide) (by omega)
            simpa using this)
        rw [Nat.testBit_lt_two_pow h1] at hb
        cases hb
      refine ⟨i * 32 + (31 - b), by omega, by omega, ?_⟩
      have e1 : (i * 32 + (31 - b)) / 32 = i := by omega
      have e2 : 31 - (i * 32 + (31 - b)) % 32 = b := by omega
      rw [e1, e2]
      exact hb
    · refine ⟨i * 32 + (31 - bit), by omega, by omega, ?_⟩
      have e1 : (i * 32 + (31 - bit)) / 32 = i := by omega
      have e2 : 31 - (i * 32 + (31 - bit)) % 32 = bit := by omega
      rw [e1, e2]
      exact ht
  · rintro ⟨idx, h1, h2, h3⟩
    refine ⟨idx / 32, by omega, ?_, Or.inr ⟨31 - idx % 32, by omega, h3, by omega⟩⟩
    intro hz
    rw [hz] at h3
    simp at h3

/-- C13 (code defect): `process_acknack` records a request for a final ACKNACK
that has no set bit below `numBits`.  The final ACKNACK with base 2,
`numBits = 1` and only bit 1 set (bit 0, the one bit that counts, is clear) is
appended to `requested_changes`: `bitmapNonEmpty` accepts a set bit at the index
`numBits` itself. -/
theorem acknack_request_recorded_without_bit :
    (RtpsWriter.process_acknack
        ⟨[(⟨9, 7⟩, ReaderInfo.fresh false)], some ⟨[]⟩, 5, [], [], ⟨1, 2⟩, false, 0⟩ true
        ⟨⟨ACKNACK, FLAG_E ||| FLAG_F, 0⟩, 7, 2, ⟨2, 1, [1073741824]⟩, 1⟩ ⟨9, 7⟩).map
      (fun res => res.writer.remote_readers_.map (fun e => e.2.requested_changes_)) =
      some [[⟨2, 1, [1073741824]⟩]] ∧
    (∀ i, i < 1 → bitmap_bit [1073741824] i = false) ∧
    bitmap_bit [1073741824] 1 = true ∧
    bitmapNonEmpty ⟨2, 1, [1073741824]⟩ = true ∧
    ((FLAG_E ||| FLAG_F) &&& FLAG_F != 0) = true := by
  refine ⟨by decide, by decide, by decide, by decide, by decide⟩

theorem nack_reply_scheduled_iff (local_id remote : RepoId) (is_final first_ack : Bool)
    (pending to_deliver : SnToTqeMap) :
    WriterEvent.nack_reply_schedule ∈
        acknack_finish_events local_id remote is_final first_ack [] pending to_deliver ↔
      is_final = false := by
  unfold acknack_finish_events
  cases is_final <;> cases first_ack <;> simp

/-- C14 (code defect): a recorded nack request without a scheduled reply.  The
final ACKNACK with base 2, `numBits = 1` and bit 0 set (a request for 2) is
appended to the reader's `requested_changes`, and the call makes no
`nack_reply_.schedule()`: the timer is scheduled for non-final ACKNACKs only. -/
theorem acknack_request_without_reply :
    (RtpsWriter.process_acknack
        ⟨[(⟨9, 7⟩, ReaderInfo.fresh false)], some ⟨[]⟩, 5, [], [], ⟨1, 2⟩, false, 0⟩ true
        ⟨⟨ACKNACK, FLAG_E ||| FLAG_F, 0⟩, 7, 2, ⟨2, 1, [2147483648]⟩, 1⟩ ⟨9, 7⟩).map
      (fun res => (res.writer.remote_readers_.map (fun e => e.2.requested_changes_),
        res.events)) =
      some ([[⟨2, 1, [2147483648]⟩]], [WriterEvent.invoke_on_start_callbacks ⟨1, 2⟩ ⟨9, 7⟩ true]) ∧
    bitmap_bit [2147483648] 0 = true := by
  refine ⟨by decide, by decide⟩

/-! ## Reader side: what an accepted HEARTBEAT changes -/

theorem deliver_held_data_eq (info : WriterInfo) (durable : Bool) :
    (deliver_held_data info durable).1 =
      { info with held_ := (deliver_held_data info durable).1.held_ } := by
  unfold deliver_held_data notify_delivery
  split_ifs <;> rfl

theorem process_heartbeat_apply_frame (durable : Bool) (info : WriterInfo)
    (hb : HeartBeatSubmessage) :
    (process_heartbeat_apply durable info hb).1.heartbeat_recvd_count_ = hb.count ∧
    (process_heartbeat_apply durable info hb).1.hb_range_ = (hb.firstSN, hb.lastSN) ∧
    (process_heartbeat_apply durable info hb).1.ack_pending_ = info.ack_pending_ ∧
    (process_heartbeat_apply durable info hb).1.frags_ = info.frags_ ∧
    (process_heartbeat_apply durable info hb).1.hb_frag_recvd_count_ = info.hb_frag_recvd_count_ ∧
    (process_heartbeat_apply durable info hb).1.acknack_count_ = info.acknack_count_ ∧
    (process_heartbeat_apply durable info hb).1.nackfrag_count_ = info.nackfrag_count_ := by
  unfold process_heartbeat_apply
  simp only
  split_ifs
  all_goals
    first
    | exact ⟨rfl, rfl, rfl, rfl, rfl, rfl, rfl⟩
    | (rw [deliver_held_data_eq]
       exact ⟨rfl, rfl, rfl, rfl, rfl, rfl, rfl⟩)

theorem process_heartbeat_apply_invalid (durable : Bool) (info : WriterInfo)
    (hb : HeartBeatSubmessage) (h : hb.lastSN < 1) :
    process_heartbeat_apply durable info hb =
      ({ info with heartbeat_recvd_count_ := hb.count,
                   hb_range_ := (hb.firstSN, hb.lastSN) }, []) := by
  unfold process_heartbeat_apply
  simp only
  rw [if_neg (by simp only [SequenceNumber.INITIAL_VALUE]; omega)]

theorem generate_nack_frags_frame (rs : ReceiveStrategy) (wi : WriterInfo) (pub_id : RepoId)
    (g : WriterInfo × List NackFragSubmessage) (h : generate_nack_frags rs wi pub_id = some g) :
    g.1 = { wi with nackfrag_count_ := g.1.nackfrag_count_ } := by
  unfold generate_nack_frags at h
  simp only at h
  split at h
  · cases h
  · cases h
    rfl

theorem acknack_bitmap_recvd_cases (durable : Bool) (info : WriterInfo) (p n : Bool) :
    (acknack_bitmap durable info p n).2.2.2 = info.recvd_ ∨
    (acknack_bitmap durable info p n).2.2.2 =
      info.recvd_.insert_range (SequenceNumber.ZERO, info.recvd_.low) := by
  unfold acknack_bitmap
  rw [acknack_extend_recvd]
  unfold acknack_base
  simp only
  split_ifs
  all_goals first | exact Or.inl rfl | exact Or.inr rfl

theorem gather_ack_nacks_wi_frame (id_ : RepoId) (durable : Bool) (rs : ReceiveStrategy)
    (finalFlag : Bool) (wid : RepoId) (info : WriterInfo) (g : WriterInfo × List MetaSubmessage)
    (h : gather_ack_nacks_wi id_ durable true rs finalFlag wid info = some g) :
    g.1.held_ = info.held_ ∧ g.1.hb_range_ = info.hb_range_ ∧
    g.1.initial_hb_ = info.initial_hb_ ∧
    g.1.heartbeat_recvd_count_ = info.heartbeat_recvd_count_ ∧
    g.1.hb_frag_recvd_count_ = info.hb_frag_recvd_count_ ∧
    g.1.frags_ = info.frags_ ∧
    (g.1.recvd_ = info.recvd_ ∨
      g.1.recvd_ = info.recvd_.insert_range (SequenceNumber.ZERO, info.recvd_.low)) ∧
    (info.ack_pending_ = true → g.1.ack_pending_ = false ∧
      ∃ an rest, g.2 = ⟨id_, wid, [], Submessage.acknack_sm an⟩ :: rest ∧
        an.count = wrap_int32 (info.acknack_count_ + 1)) := by
  unfold gather_ack_nacks_wi at h
  simp only [Bool.not_true, Bool.false_eq_true, if_false] at h
  by_cases c : (info.ack_pending_ || (info.should_nack || should_nack_durable durable info)
      || finalFlag) = true
  · rw [if_pos c] at h
    cases hg : generate_nack_frags rs
      { info with ack_pending_ := false,
                  recvd_ := (acknack_bitmap durable info info.ack_pending_
                    (info.should_nack || should_nack_durable durable info)).2.2.2,
                  acknack_count_ := wrap_int32 (info.acknack_count_ + 1) } wid with
    | none => rw [hg] at h; cases h
    | some g1 =>
      rw [hg] at h
      have hf := generate_nack_frags_frame _ _ _ _ hg
      cases h
      simp only
      rw [hf]
      refine ⟨rfl, rfl, rfl, rfl, rfl, rfl, ?_, fun _ => ⟨rfl, _, _, rfl, rfl⟩⟩
      exact acknack_bitmap_recvd_cases durable info _ _
  · rw [if_neg c] at h
    cases h
    refine ⟨rfl, rfl, rfl, rfl, rfl, rfl, Or.inl rfl, fun hp => ?_⟩
    rw [hp] at c
    simp at c

theorem gather_ack_nacks_wi_returns (id_ : RepoId) (durable : Bool) (rs : ReceiveStrategy)
    (finalFlag : Bool) (wid : RepoId) (info : WriterInfo) (hfr : info.frags_ = []) :
    ∃ g, gather_ack_nacks_wi id_ durable true rs finalFlag wid info = some g := by
  unfold gather_ack_nacks_wi
  simp only [Bool.not_true, Bool.false_eq_true, if_false]
  by_cases c : (info.ack_pending_ || (info.should_nack || should_nack_durable durable info)
      || finalFlag) = true
  · rw [if_pos c]
    obtain ⟨g, hg, _⟩ := generate_nack_frags_no_frags rs
      { info with ack_pending_ := false,
                  recvd_ := (acknack_bitmap durable info info.ack_pending_
                    (info.should_nack || should_nack_durable durable info)).2.2.2,
                  acknack_count_ := wrap_int32 (info.acknack_count_ + 1) } wid hfr
    rw [hg]
    exact ⟨_, rfl⟩
  · rw [if_neg c]
    exact ⟨_, rfl⟩

theorem gather_ack_nacks_loop_find (id_ : RepoId) (durable : Bool) (rs : ReceiveStrategy)
    (finalFlag : Bool) (src : RepoId) (x : WriterInfo) (l : List (RepoId × WriterInfo)) :
    ∀ t, gather_ack_nacks_loop id_ durable true rs finalFlag l = some t →
      guid_find l src = some x →
      ∃ g, gather_ack_nacks_wi id_ durable true rs finalFlag src x = some g ∧
        guid_find t.1 src = some g.1 ∧ ∀ m ∈ g.2, m ∈ t.2 := by
  induction l with
  | nil => intro t _ hf; simp [guid_find] at hf
  | cons e rest ih =>
    intro t ht hf
    unfold gather_ack_nacks_loop at ht
    cases hg : gather_ack_nacks_wi id_ durable true rs finalFlag e.1 e.2 with
    | none => rw [hg] at ht; cases ht
    | some g =>
      rw [hg] at ht
      cases hr : gather_ack_nacks_loop id_ durable true rs finalFlag rest with
      | none => rw [hr] at ht; cases ht
      | some t1 =>
        rw [hr] at ht
        cases ht
        by_cases c : e.1 = src
        · have hx : e.2 = x := by
            simpa [guid_find, List.find?_cons, c] using hf
          rw [c, hx] at hg
          refine ⟨g, hg, by simp [guid_find, List.find?_cons, c], ?_⟩
          intro m hm
          exact List.mem_append_left _ hm
        · have hf1 : guid_find rest src = some x := by
            simpa [guid_find, List.find?_cons, c] using hf
          obtain ⟨g1, h1, h2, h3⟩ := ih t1 hr hf1
          refine ⟨g1, h1, ?_, fun m hm => List.mem_append_right _ (h3 m hm)⟩
          simpa [guid_find, List.find?_cons, c] using h2

theorem gather_ack_nacks_loop_returns (id_ : RepoId) (durable : Bool) (rs : ReceiveStrategy)
    (finalFlag : Bool) (l : List (RepoId × WriterInfo)) (h : ∀ e ∈ l, e.2.frags_ = []) :
    ∃ t, gather_ack_nacks_loop id_ durable true rs finalFlag l = some t := by
  induction l with
  | nil => exact ⟨_, rfl⟩
  | cons e rest ih =>
    obtain ⟨g, hg⟩ := gather_ack_nacks_wi_returns id_ durable rs finalFlag e.1 e.2
      (h e (List.mem_cons_self _ _))
    obtain ⟨t, ht⟩ := ih (fun e1 he1 => h e1 (List.mem_cons_of_mem _ he1))
    unfold gather_ack_nacks_loop
    rw [hg, ht]
    exact ⟨_, rfl⟩

theorem mem_guid_set {α : Type} (m : List (RepoId × α)) (k : RepoId) (v : α) (e : RepoId × α)
    (h : e ∈ guid_set m k v) : e ∈ m ∨ e.2 = v := by
  unfold guid_set at h
  obtain ⟨e0, he0, rfl⟩ := List.mem_map.1 h
  split_ifs
  · exact Or.inr rfl
  · exact Or.inl he0

theorem process_heartbeat_i_accepted (r : RtpsReader) (rs : ReceiveStrategy)
    (hb : HeartBeatSubmessage) (src : RepoId) (info : WriterInfo)
    (a : WriterInfo × List ReaderEvent)
    (hfind : guid_find r.remote_writers_ src = some info)
    (hacc : info.heartbeat_recvd_count_ < hb.count)
    (ha : a = process_heartbeat_apply r.durable_ info hb) :
    r.process_heartbeat_i true rs hb src =
      if heartbeat_reply_owed r.durable_ rs src a.1 hb then
        if heartbeat_immediate_reply info hb then
          (RtpsReader.gather_ack_nacks_i
            { r with remote_writers_ := guid_set r.remote_writers_ src { a.1 with ack_pending_ := true } }
            true rs false).map (fun g => ⟨g.1, a.2, g.2, false⟩)
        else
          some ⟨{ r with remote_writers_ := guid_set r.remote_writers_ src { a.1 with ack_pending_ := true } },
            a.2, [], true⟩
      else
        some ⟨{ r with remote_writers_ := guid_set r.remote_writers_ src a.1 }, a.2, [], false⟩ := by
  subst ha
  unfold RtpsReader.process_heartbeat_i heartbeat_reply_owed heartbeat_immediate_reply
  simp only [hfind]
  rw [if_neg (by omega)]
  split_ifs
  · cases RtpsReader.gather_ack_nacks_i _ true rs false <;> rfl
  · rfl
  · rfl

theorem heartbeat_immediate_result (r : RtpsReader) (rs : ReceiveStrategy) (src : RepoId)
    (info0 info3 : WriterInfo) (hfind : guid_find r.remote_writers_ src = some info0)
    (g : RtpsReader × List MetaSubmessage)
    (hg : RtpsReader.gather_ack_nacks_i
      { r with remote_writers_ := guid_set r.remote_writers_ src info3 } true rs false = some g) :
    ∃ gw, gather_ack_nacks_wi r.id_ r.durable_ true rs false src info3 = some gw ∧
      guid_find g.1.remote_writers_ src = some gw.1 ∧ ∀ m ∈ gw.2, m ∈ g.2 := by
  unfold RtpsReader.gather_ack_nacks_i at hg
  simp only at hg
  cases ht : gather_ack_nacks_loop r.id_ r.durable_ true rs false
      (guid_set r.remote_writers_ src info3) with
  | none => rw [ht] at hg; cases hg
  | some t =>
    rw [ht] at hg
    cases hg
    exact gather_ack_nacks_loop_find r.id_ r.durable_ rs false src info3 _ t ht
      (guid_find_set _ _ _ _ hfind)

theorem process_heartbeat_i_returns (r : RtpsReader) (rs : ReceiveStrategy)
    (hb : HeartBeatSubmessage) (src : RepoId)
    (h : ∀ e ∈ r.remote_writers_, e.2.frags_ = []) :
    ∃ res, r.process_heartbeat_i true rs hb src = some res := by
  cases hfind : guid_find r.remote_writers_ src with
  | none =>
    unfold RtpsReader.process_heartbeat_i
    simp only [hfind]
    exact ⟨_, rfl⟩
  | some info =>
    by_cases hacc : info.heartbeat_recvd_count_ < hb.count
    · rw [process_heartbeat_i_accepted r rs hb src info _ hfind hacc rfl]
      split_ifs
      · have hfr : ∀ e ∈ guid_set r.remote_writers_ src
            { (process_heartbeat_apply r.durable_ info hb).1 with ack_pending_ := true },
            e.2.frags_ = [] := by
          intro e he
          rcases mem_guid_set _ _ _ _ he with he | he
          · exact h e he
          · rw [he]
            show (process_heartbeat_apply r.durable_ info hb).1.frags_ = []
            rw [(process_heartbeat_apply_frame r.durable_ info hb).2.2.2.1]
            have hm : (src, info) ∈ r.remote_writers_ := by
              unfold guid_find at hfind
              cases hf : List.find? (fun e => decide (e.1 = src)) r.remote_writers_ with
              | none => rw [hf] at hfind; cases hfind
              | some e0 =>
                rw [hf] at hfind
                have h1 := List.mem_of_find?_eq_some hf
                have h2 := List.find?_some hf
                simp only [Option.map_some', Option.some.injEq] at hfind
                simp only [decide_eq_true_eq] at h2
                rw [← h2, ← hfind]
                exact h1
            exact h _ hm
        obtain ⟨t, ht⟩ := gather_ack_nacks_loop_returns r.id_ r.durable_ rs false _ hfr
        unfold RtpsReader.gather_ack_nacks_i
        simp only [ht]
        exact ⟨_, rfl⟩
      · exact ⟨_, rfl⟩
      · exact ⟨_, rfl⟩
    · unfold RtpsReader.process_heartbeat_i
      simp only [hfind]
      rw [if_pos (by omega)]
      exact ⟨_, rfl⟩

theorem process_heartbeat_i_count (r : RtpsReader) (rs : ReceiveStrategy)
    (hb : HeartBeatSubmessage) (src : RepoId) (info : WriterInfo)
    (hfind : guid_find r.remote_writers_ src = some info)
    (hacc : info.heartbeat_recvd_count_ < hb.count) (res : ReaderResult)
    (h : r.process_heartbeat_i true rs hb src = some res) :
    ∃ info1, guid_find res.reader.remote_writers_ src = some info1 ∧
      info1.heartbeat_recvd_count_ = hb.count ∧
      info1.hb_frag_recvd_count_ = info.hb_frag_recvd_count_ := by
  have hf := process_heartbeat_apply_frame r.durable_ info hb
  rw [process_heartbeat_i_accepted r rs hb src info _ hfind hacc rfl] at h
  split_ifs at h
  · simp only [Option.map_eq_some'] at h
    obtain ⟨g, hg, rfl⟩ := h
    obtain ⟨gw, h1, h2, _⟩ := heartbeat_immediate_result r rs src info _ hfind g hg
    have hfr := gather_ack_nacks_wi_frame _ _ _ _ _ _ gw h1
    exact ⟨gw.1, h2, hfr.2.2.2.1.trans hf.1, hfr.2.2.2.2.1.trans hf.2.2.2.2.1⟩
  · cases h
    exact ⟨_, guid_find_set _ _ _ _ hfind, hf.1, hf.2.2.2.2.1⟩
  · cases h
    exact ⟨_, guid_find_set _ _ _ _ hfind, hf.1, hf.2.2.2.2.1⟩

/-- C18: reader-side duplicate suppression.  For a writer `src` known to the
reader: a HEARTBEAT whose count is `≤ heartbeat_recvd_count` and a HEARTBEAT_FRAG
whose count is `≤ hb_frag_recvd_count` leave the whole reader unchanged, push no
meta-submessage, make no call and return false; an accepted HEARTBEAT or
HEARTBEAT_FRAG leaves its count as the stored count (and the other count as it
was), and `process_heartbeat_i` returns whenever no record holds a fragment hint;
so the stored counts never decrease. -/
theorem reader_duplicate_suppression (r : RtpsReader) (link : Bool) (rs : ReceiveStrategy)
    (hb : HeartBeatSubmessage) (hbf : HeartBeatFragSubmessage) (src : RepoId) (info : WriterInfo)
    (hfind : guid_find r.remote_writers_ src = some info) :
    (hb.count ≤ info.heartbeat_recvd_count_ →
      r.process_heartbeat_i link rs hb src = some ⟨r, [], [], false⟩) ∧
    (hbf.count ≤ info.hb_frag_recvd_count_ → r.process_hb_frag_i hbf src = ⟨r, [], [], false⟩) ∧
    (info.heartbeat_recvd_count_ < hb.count →
      ∀ res, r.process_heartbeat_i true rs hb src = some res →
        ∃ info1, guid_find res.reader.remote_writers_ src = some info1 ∧
          info1.heartbeat_recvd_count_ = hb.count ∧
          info1.hb_frag_recvd_count_ = info.hb_frag_recvd_count_) ∧
    ((∀ e ∈ r.remote_writers_, e.2.frags_ = []) →
      ∃ res, r.process_heartbeat_i true rs hb src = some res) ∧
    (info.hb_frag_recvd_count_ < hbf.count →
      ∃ info1, guid_find (r.process_hb_frag_i hbf src).reader.remote_writers_ src = some info1 ∧
        info1.hb_frag_recvd_count_ = hbf.count ∧
        info1.heartbeat_recvd_count_ = info.heartbeat_recvd_count_) ∧
    (∀ res, r.process_heartbeat_i link rs hb src = some res →
      ∃ info1, guid_find res.reader.remote_writers_ src = some info1 ∧
        info.heartbeat_recvd_count_ ≤ info1.heartbeat_recvd_count_ ∧
        info.hb_frag_recvd_count_ ≤ info1.hb_frag_recvd_count_) ∧
    (∃ info1, guid_find (r.process_hb_frag_i hbf src).reader.remote_writers_ src = some info1 ∧
      info.heartbeat_recvd_count_ ≤ info1.heartbeat_recvd_count_ ∧
      info.hb_frag_recvd_count_ ≤ info1.hb_frag_recvd_count_) := by
  have hdup : hb.count ≤ info.heartbeat_recvd_count_ →
      r.process_heartbeat_i link rs hb src = some ⟨r, [], [], false⟩ := by
    intro hc
    unfold RtpsReader.process_heartbeat_i
    simp only [hfind]
    cases link
    · rfl
    · simp only
      rw [if_pos hc]
  have hdupf : hbf.count ≤ info.hb_frag_recvd_count_ →
      r.process_hb_frag_i hbf src = ⟨r, [], [], false⟩ := by
    intro hc
    unfold RtpsReader.process_hb_frag_i
    simp only [hfind]
    rw [if_pos hc]
  have haccf : info.hb_frag_recvd_count_ < hbf.count →
      ∃ info1, guid_find (r.process_hb_frag_i hbf src).reader.remote_writers_ src = some info1 ∧
        info1.hb_frag_recvd_count_ = hbf.count ∧
        info1.heartbeat_recvd_count_ = info.heartbeat_recvd_count_ := by
    intro hc
    unfold RtpsReader.process_hb_frag_i
    simp only [hfind]
    rw [if_neg (by omega)]
    split_ifs
    · exact ⟨_, guid_find_set _ _ _ _ hfind, rfl, rfl⟩
    · exact ⟨_, guid_find_set _ _ _ _ hfind, rfl, rfl⟩
  refine ⟨hdup, hdupf, fun hc res hres => process_heartbeat_i_count r rs hb src info hfind hc res hres,
    fun hfr => process_heartbeat_i_returns r rs hb src hfr, haccf, ?_, ?_⟩
  · intro res hres
    by_cases hc : hb.count ≤ info.heartbeat_recvd_count_
    · rw [hdup hc] at hres
      cases hres
      exact ⟨info, hfind, le_refl _, le_refl _⟩
    · cases link
      · unfold RtpsReader.process_heartbeat_i at hres
        simp only [hfind] at hres
        cases hres
        exact ⟨info, hfind, le_refl _, le_refl _⟩
      · obtain ⟨info1, h1, h2, h3⟩ :=
          process_heartbeat_i_count r rs hb src info hfind (by omega) res hres
        exact ⟨info1, h1, by omega, by omega⟩
  · by_cases hc : hbf.count ≤ info.hb_frag_recvd_count_
    · rw [hdupf hc]
      exact ⟨info, hfind, le_refl _, le_refl _⟩
    · obtain ⟨info1, h1, h2, h3⟩ := haccf (by omega)
      exact ⟨info1, h1, by omega, by omega⟩

/-- Witness for C18: a duplicate HEARTBEAT (count 3, stored count 3) changes
nothing. -/
theorem reader_duplicate_suppression_witness :
    guid_find [((⟨7, 2⟩ : RepoId), { WriterInfo.fresh with heartbeat_recvd_count_ := 3 })] ⟨7, 2⟩ =
      some { WriterInfo.fresh with heartbeat_recvd_count_ := 3 } ∧
    (3 : Int) ≤ 3 ∧
    RtpsReader.process_heartbeat_i
        ⟨⟨1, 4⟩, false, [(⟨7, 2⟩, { WriterInfo.fresh with heartbeat_recvd_count_ := 3 })]⟩ true
        ⟨fun _ _ => (false, []), fun b _ _ _ => (false, b)⟩
        ⟨⟨HEARTBEAT, FLAG_E, HEARTBEAT_SZ⟩, 4, 2, 1, 8, 3⟩ ⟨7, 2⟩ =
      some ⟨⟨⟨1, 4⟩, false, [(⟨7, 2⟩, { WriterInfo.fresh with heartbeat_recvd_count_ := 3 })]⟩,
        [], [], false⟩ :=
  ⟨by decide, by decide,
   (reader_duplicate_suppression
      ⟨⟨1, 4⟩, false, [(⟨7, 2⟩, { WriterInfo.fresh with heartbeat_recvd_count_ := 3 })]⟩ true
      ⟨fun _ _ => (false, []), fun b _ _ _ => (false, b)⟩
      ⟨⟨HEARTBEAT, FLAG_E, HEARTBEAT_SZ⟩, 4, 2, 1, 8, 3⟩
      ⟨⟨0, FLAG_E, 0⟩, 4, 2, 1, 1, 0⟩ ⟨7, 2⟩
      { WriterInfo.fresh with heartbeat_recvd_count_ := 3 } (by decide)).1 (by decide)⟩

/-- C15 (amended): an invalid heartbeat is not applied to the received set.  For
every accepted heartbeat with `lastSN < 1` from an associated writer, after
`process_heartbeat_i` the record has `hb_range = (firstSN, lastSN)` and the
heartbeat's count, `held`, `initial_hb` and the fragment hints are unchanged and
no sample is released; `recvd` is unchanged, and nothing is pushed, unless the
reply is made at once (previous `lastSN = 0` and new `lastSN ≠ 0`), in which case
`recvd` is either unchanged or extended by `[0, recvd.low()]`.  The call returns
whenever no reply is made at once. -/
theorem invalid_heartbeat (r : RtpsReader) (rs : ReceiveStrategy) (hb : HeartBeatSubmessage)
    (src : RepoId) (info : WriterInfo) (hfind : guid_find r.remote_writers_ src = some info)
    (hacc : info.heartbeat_recvd_count_ < hb.count) (hinv : hb.lastSN < 1) :
    (∀ res, r.process_heartbeat_i true rs hb src = some res →
      ∃ info1, guid_find res.reader.remote_writers_ src = some info1 ∧
        info1.hb_range_ = (hb.firstSN, hb.lastSN) ∧
        info1.heartbeat_recvd_count_ = hb.count ∧
        info1.held_ = info.held_ ∧ info1.initial_hb_ = info.initial_hb_ ∧
        info1.frags_ = info.frags_ ∧ res.events = [] ∧
        (info1.recvd_ = info.recvd_ ∨
          info1.recvd_ = info.recvd_.insert_range (SequenceNumber.ZERO, info.recvd_.low)) ∧
        (heartbeat_immediate_reply info hb = false →
          info1.recvd_ = info.recvd_ ∧ res.meta_submessages = [])) ∧
    (heartbeat_immediate_reply info hb = false →
      ∃ res, r.process_heartbeat_i true rs hb src = some res) := by
  have ha := process_heartbeat_apply_invalid r.durable_ info hb hinv
  rw [process_heartbeat_i_accepted r rs hb src info _ hfind hacc rfl, ha]
  simp only
  constructor
  · intro res hres
    split_ifs at hres with c1 c2
    · simp only [Option.map_eq_some'] at hres
      obtain ⟨g, hg, rfl⟩ := hres
      obtain ⟨gw, h1, h2, _⟩ := heartbeat_immediate_result r rs src info _ hfind g hg
      obtain ⟨f1, f2, f3, f4, _, f6, f7, _⟩ := gather_ack_nacks_wi_frame _ _ _ _ _ _ gw h1
      refine ⟨gw.1, h2, f2, f4, f1, f3, f6, rfl, f7, fun hn => ?_⟩
      rw [hn] at c2
      cases c2
    · cases hres
      exact ⟨_, guid_find_set _ _ _ _ hfind, rfl, rfl, rfl, rfl, rfl, rfl, Or.inl rfl,
        fun _ => ⟨rfl, rfl⟩⟩
    · cases hres
      exact ⟨_, guid_find_set _ _ _ _ hfind, rfl, rfl, rfl, rfl, rfl, rfl, Or.inl rfl,
        fun _ => ⟨rfl, rfl⟩⟩
  · intro hn
    rw [hn]
    simp only [Bool.false_eq_true, if_false]
    split_ifs
    · exact ⟨_, rfl⟩
    · exact ⟨_, rfl⟩

/-- Witness for C15: the heartbeat `[1, 0]` (count 1, final) at a reader that
received DATA 1 and 2 leaves `recvd` and `held` as they were. -/
theorem invalid_heartbeat_witness :
    (∀ res, RtpsReader.process_heartbeat_i
        ⟨⟨1, 4⟩, false, [(⟨7, 2⟩, { WriterInfo.fresh with recvd_ := ⟨[(1, 2)]⟩ })]⟩ true
        ⟨fun _ _ => (false, []), fun b _ _ _ => (false, b)⟩
        ⟨⟨HEARTBEAT, FLAG_E ||| FLAG_F, HEARTBEAT_SZ⟩, 4, 2, 1, 0, 1⟩ ⟨7, 2⟩ = some res →
      ∃ info1, guid_find res.reader.remote_writers_ ⟨7, 2⟩ = some info1 ∧
        info1.hb_range_ = (1, 0) ∧
        info1.heartbeat_recvd_count_ = 1 ∧
        info1.held_ = [] ∧ info1.initial_hb_ = true ∧
        info1.frags_ = [] ∧ res.events = [] ∧
        (info1.recvd_ = ⟨[(1, 2)]⟩ ∨
          info1.recvd_ = DisjointSequence.insert_range ⟨[(1, 2)]⟩
            (SequenceNumber.ZERO, DisjointSequence.low ⟨[(1, 2)]⟩)) ∧
        (heartbeat_immediate_reply { WriterInfo.fresh with recvd_ := ⟨[(1, 2)]⟩ }
            ⟨⟨HEARTBEAT, FLAG_E ||| FLAG_F, HEARTBEAT_SZ⟩, 4, 2, 1, 0, 1⟩ = false →
          info1.recvd_ = ⟨[(1, 2)]⟩ ∧ res.meta_submessages = [])) ∧
    (RtpsReader.process_heartbeat_i
        ⟨⟨1, 4⟩, false, [(⟨7, 2⟩, { WriterInfo.fresh with recvd_ := ⟨[(1, 2)]⟩ })]⟩ true
        ⟨fun _ _ => (false, []), fun b _ _ _ => (false, b)⟩
        ⟨⟨HEARTBEAT, FLAG_E ||| FLAG_F, HEARTBEAT_SZ⟩, 4, 2, 1, 0, 1⟩ ⟨7, 2⟩).isSome = true :=
  ⟨(invalid_heartbeat
      ⟨⟨1, 4⟩, false, [(⟨7, 2⟩, { WriterInfo.fresh with recvd_ := ⟨[(1, 2)]⟩ })]⟩
      ⟨fun _ _ => (false, []), fun b _ _ _ => (false, b)⟩
      ⟨⟨HEARTBEAT, FLAG_E ||| FLAG_F, HEARTBEAT_SZ⟩, 4, 2, 1, 0, 1⟩ ⟨7, 2⟩
      { WriterInfo.fresh with recvd_ := ⟨[(1, 2)]⟩ } (by decide) (by decide) (by decide)).1,
   by decide⟩

/-- C15 as stated fails twice.  After the valid heartbeat `[1, 5]` the invalid
heartbeat `[1, 0]` replaces `hb_range` by `(1, 0)`.  And at a non-durable reader
that received DATA 5 first, the non-final heartbeat `[7, -1]` is answered at
once, and building that ACKNACK extends `recvd` from `{5}` to `[0, 5]`. -/
theorem invalid_heartbeat_counterexample :
    (RtpsReader.receive_all ⟨⟨1, 4⟩, false, [(⟨7, 2⟩, WriterInfo.fresh)]⟩
        [(⟨7, 2⟩, ReaderInput.heartbeat ⟨⟨HEARTBEAT, FLAG_E ||| FLAG_F, HEARTBEAT_SZ⟩, 4, 2, 1, 5, 1⟩
            ⟨fun _ _ => (false, []), fun b _ _ _ => (false, b)⟩)]).map
      (fun t => t.1.remote_writers_.map (fun e => e.2.hb_range_)) = some [(1, 5)] ∧
    (RtpsReader.receive_all ⟨⟨1, 4⟩, false, [(⟨7, 2⟩, WriterInfo.fresh)]⟩
        [(⟨7, 2⟩, ReaderInput.heartbeat ⟨⟨HEARTBEAT, FLAG_E ||| FLAG_F, HEARTBEAT_SZ⟩, 4, 2, 1, 5, 1⟩
            ⟨fun _ _ => (false, []), fun b _ _ _ => (false, b)⟩),
         (⟨7, 2⟩, ReaderInput.heartbeat ⟨⟨HEARTBEAT, FLAG_E ||| FLAG_F, HEARTBEAT_SZ⟩, 4, 2, 1, 0, 2⟩
            ⟨fun _ _ => (false, []), fun b _ _ _ => (false, b)⟩)]).map
      (fun t => t.1.remote_writers_.map (fun e => e.2.hb_range_)) = some [(1, 0)] ∧
    (RtpsReader.receive_all ⟨⟨1, 4⟩, false, [(⟨7, 2⟩, WriterInfo.fresh)]⟩
        [(⟨7, 2⟩, ReaderInput.data ⟨4, 2, 5⟩ 105)]).map
      (fun t => t.1.remote_writers_.map (fun e => e.2.recvd_)) = some [⟨[(5, 5)]⟩] ∧
    (RtpsReader.receive_all ⟨⟨1, 4⟩, false, [(⟨7, 2⟩, WriterInfo.fresh)]⟩
        [(⟨7, 2⟩, ReaderInput.data ⟨4, 2, 5⟩ 105),
         (⟨7, 2⟩, ReaderInput.heartbeat ⟨⟨HEARTBEAT, FLAG_E, HEARTBEAT_SZ⟩, 4, 2, 7, -1, 1⟩
            ⟨fun _ _ => (false, []), fun b _ _ _ => (false, b)⟩)]).map
      (fun t => t.1.remote_writers_.map (fun e => e.2.recvd_)) = some [⟨[(0, 5)]⟩] := by
  refine ⟨by decide, by decide, by decide, by decide⟩

theorem process_heartbeat_apply_recvd_durable (info : WriterInfo) (hb : HeartBeatSubmessage)
    (hl : 1 ≤ hb.lastSN) :
    (process_heartbeat_apply true info hb).1.recvd_ =
      if info.recvd_.empty = false then
        info.recvd_.insert_range (0, if 1 < hb.firstSN then hb.firstSN - 1 else 0)
      else info.recvd_ := by
  unfold process_heartbeat_apply
  simp only [SequenceNumber.INITIAL_VALUE, SequenceNumber.ZERO, SequenceNumber.previous,
    ge_iff_le, hl, if_true, gt_iff_lt]
  show (deliver_held_data _ true).1.recvd_ = _
  rw [deliver_held_data_recvd]
  cases info.recvd_.empty <;> simp

theorem insert_range_low_of_empty (s : DisjointSequence) (h : s.empty = true) :
    s.insert_range (SequenceNumber.ZERO, s.low) = s := by
  have hs : s.sequences_ = [] := (DisjointSequence.empty_eq_true_iff s).1 h
  unfold DisjointSequence.insert_range DisjointSequence.low
  rw [hs]
  simp [SequenceNumber.ZERO, SequenceNumber.SEQUENCENUMBER_UNKNOWN]

/-- C16 (amended): the baseline a valid heartbeat gives a durable reader.  For
every durable reader and associated writer, after `process_heartbeat_i` accepts a
heartbeat with `lastSN ≥ 1` and `firstSN = f`: when `recvd` was not empty it
contains every sequence number in `[0, max(f - 1, 0)]`; when `recvd` was empty it
is still empty; in both cases it keeps what it contained.  The call returns
whenever no record holds a fragment hint. -/
theorem durable_heartbeat_baseline (r : RtpsReader) (rs : ReceiveStrategy)
    (hb : HeartBeatSubmessage) (src : RepoId) (info : WriterInfo) (hd : r.durable_ = true)
    (hfind : guid_find r.remote_writers_ src = some info)
    (hacc : info.heartbeat_recvd_count_ < hb.count) (hwf : info.recvd_.WF)
    (hl : 1 ≤ hb.lastSN) :
    (∀ res, r.process_heartbeat_i true rs hb src = some res →
      ∃ info1, guid_find res.reader.remote_writers_ src = some info1 ∧
        (info.recvd_.empty = false → ∀ n, 0 ≤ n → n ≤ max (hb.firstSN - 1) 0 →
          info1.recvd_.contains n = true) ∧
        (info.recvd_.empty = true → info1.recvd_ = info.recvd_) ∧
        (∀ n, info.recvd_.contains n = true → info1.recvd_.contains n = true)) ∧
    ((∀ e ∈ r.remote_writers_, e.2.frags_ = []) →
      ∃ res, r.process_heartbeat_i true rs hb src = some res) := by
  refine ⟨?_, fun hfr => process_heartbeat_i_returns r rs hb src hfr⟩
  obtain ⟨id_, durable_, writers⟩ := r
  simp only at hd hfind
  subst hd
  have hrec := process_heartbeat_apply_recvd_durable info hb hl
  -- the received set after the heartbeat has been applied
  have happ : (info.recvd_.empty = false → ∀ n, 0 ≤ n → n ≤ max (hb.firstSN - 1) 0 →
        (process_heartbeat_apply true info hb).1.recvd_.Mem n) ∧
      (info.recvd_.empty = true → (process_heartbeat_apply true info hb).1.recvd_ = info.recvd_) ∧
      (∀ n, info.recvd_.Mem n → (process_heartbeat_apply true info hb).1.recvd_.Mem n) ∧
      (process_heartbeat_apply true info hb).1.recvd_.WF := by
    rw [hrec]
    by_cases c : info.recvd_.empty = false
    · rw [if_pos c]
      have hm := DisjointSequence.mem_insert_range hwf
        (0, if 1 < hb.firstSN then hb.firstSN - 1 else 0)
      refine ⟨fun _ n h0 h1 => (hm n).2 (Or.inl ⟨h0, ?_⟩), fun c2 => absurd c2 (by simp [c]),
        fun n hn => (hm n).2 (Or.inr hn), DisjointSequence.wf_insert_range hwf _⟩
      show n ≤ if 1 < hb.firstSN then hb.firstSN - 1 else 0
      split_ifs <;> omega
    · rw [if_neg c]
      exact ⟨fun c2 => absurd c2 c, fun _ => rfl, fun n hn => hn, hwf⟩
  obtain ⟨p1, p2, p3, p4⟩ := happ
  intro res hres
  rw [process_heartbeat_i_accepted ⟨id_, true, writers⟩ rs hb src info _ hfind hacc rfl] at hres
  simp only at hres
  -- the three ways the call ends on a record whose received set is the applied one
  have hdone : ∀ info1 : WriterInfo,
      (info1.recvd_ = (process_heartbeat_apply true info hb).1.recvd_ ∨
        info1.recvd_ = (process_heartbeat_apply true info hb).1.recvd_.insert_range
          (SequenceNumber.ZERO, (process_heartbeat_apply true info hb).1.recvd_.low)) →
      (info.recvd_.empty = false → ∀ n, 0 ≤ n → n ≤ max (hb.firstSN - 1) 0 →
          info1.recvd_.contains n = true) ∧
        (info.recvd_.empty = true → info1.recvd_ = info.recvd_) ∧
        (∀ n, info.recvd_.contains n = true → info1.recvd_.contains n = true) := by
    intro info1 h1
    rcases h1 with h1 | h1
    · rw [h1]
      exact ⟨fun c n h0 hn => (DisjointSequence.contains_iff _ _).2 (p1 c n h0 hn), p2,
        fun n hn => (DisjointSequence.contains_iff _ _).2
          (p3 n ((DisjointSequence.contains_iff _ _).1 hn))⟩
    · rw [h1]
      have hm := DisjointSequence.mem_insert_range p4
        (SequenceNumber.ZERO, (process_heartbeat_apply true info hb).1.recvd_.low)
      refine ⟨fun c n h0 hn => (DisjointSequence.contains_iff _ _).2
          ((hm n).2 (Or.inr (p1 c n h0 hn))), fun c => ?_,
        fun n hn => (DisjointSequence.contains_iff _ _).2
          ((hm n).2 (Or.inr (p3 n ((DisjointSequence.contains_iff _ _).1 hn))))⟩
      rw [p2 c]
      exact insert_range_low_of_empty _ c
  split_ifs at hres
  · simp only [Option.map_eq_some'] at hres
    obtain ⟨g, hg, rfl⟩ := hres
    obtain ⟨gw, h1, h2, _⟩ :=
      heartbeat_immediate_result ⟨id_, true, writers⟩ rs src info _ hfind g hg
    obtain ⟨_, _, _, _, _, _, f7, _⟩ := gather_ack_nacks_wi_frame _ _ _ _ _ _ gw h1
    exact ⟨gw.1, h2, hdone gw.1 f7⟩
  · cases hres
    exact ⟨_, guid_find_set _ _ _ _ hfind, hdone _ (Or.inl rfl)⟩
  · cases hres
    exact ⟨_, guid_find_set _ _ _ _ hfind, hdone _ (Or.inl rfl)⟩

/-- Witness for C16: a durable reader that holds DATA 5 receives the heartbeat
`[3, 8]`; afterwards `recvd` contains 0, 1 and 2 (and still 5). -/
theorem durable_heartbeat_baseline_witness :
    (∀ res, RtpsReader.process_heartbeat_i
        ⟨⟨1, 4⟩, true, [(⟨7, 2⟩, { WriterInfo.fresh with recvd_ := ⟨[(5, 5)]⟩, held_ := [(5, 105)] })]⟩
        true ⟨fun _ _ => (false, []), fun b _ _ _ => (false, b)⟩
        ⟨⟨HEARTBEAT, FLAG_E, HEARTBEAT_SZ⟩, 4, 2, 3, 8, 1⟩ ⟨7, 2⟩ = some res →
      ∃ info1, guid_find res.reader.remote_writers_ ⟨7, 2⟩ = some info1 ∧
        (DisjointSequence.empty ⟨[(5, 5)]⟩ = false → ∀ n, 0 ≤ n → n ≤ max ((3 : Int) - 1) 0 →
          info1.recvd_.contains n = true) ∧
        (DisjointSequence.empty ⟨[(5, 5)]⟩ = true → info1.recvd_ = ⟨[(5, 5)]⟩) ∧
        (∀ n, DisjointSequence.contains ⟨[(5, 5)]⟩ n = true → info1.recvd_.contains n = true)) ∧
    (RtpsReader.process_heartbeat_i
        ⟨⟨1, 4⟩, true, [(⟨7, 2⟩, { WriterInfo.fresh with recvd_ := ⟨[(5, 5)]⟩, held_ := [(5, 105)] })]⟩
        true ⟨fun _ _ => (false, []), fun b _ _ _ => (false, b)⟩
        ⟨⟨HEARTBEAT, FLAG_E, HEARTBEAT_SZ⟩, 4, 2, 3, 8, 1⟩ ⟨7, 2⟩).map
      (fun res => res.reader.remote_writers_.map (fun e => e.2.recvd_)) =
      some [⟨[(0, 2), (5, 5)]⟩] :=
  ⟨(durable_heartbeat_baseline
      ⟨⟨1, 4⟩, true, [(⟨7, 2⟩, { WriterInfo.fresh with recvd_ := ⟨[(5, 5)]⟩, held_ := [(5, 105)] })]⟩
      ⟨fun _ _ => (false, []), fun b _ _ _ => (false, b)⟩
      ⟨⟨HEARTBEAT, FLAG_E, HEARTBEAT_SZ⟩, 4, 2, 3, 8, 1⟩ ⟨7, 2⟩
      { WriterInfo.fresh with recvd_ := ⟨[(5, 5)]⟩, held_ := [(5, 105)] } rfl (by decide)
      (by decide) ⟨0, by simp [DisjointSequence.RunsFrom]⟩ (by decide)).1, by decide⟩

/-- C16 as stated fails for an empty `recvd`: a durable reader that has received
nothing accepts the heartbeat `[3, 5]`, answers at once with an ACKNACK of base 3
that nacks 3, 4 and 5, and its `recvd` is still empty: it does not contain 0, 1
or 2. -/
theorem durable_heartbeat_baseline_counterexample :
    (RtpsReader.process_heartbeat_i ⟨⟨1, 4⟩, true, [(⟨7, 2⟩, WriterInfo.fresh)]⟩ true
        ⟨fun _ _ => (false, []), fun b _ _ _ => (false, b)⟩
        ⟨⟨HEARTBEAT, FLAG_E, HEARTBEAT_SZ⟩, 4, 2, 3, 5, 1⟩ ⟨7, 2⟩).map
      (fun res => (res.reader.remote_writers_.map (fun e => e.2.recvd_),
        res.reader.remote_writers_.map (fun e => e.2.recvd_.contains 0),
        res.meta_submessages.map (fun m => m.sm_))) =
      some ([⟨[]⟩], [false],
        [Submessage.acknack_sm ⟨⟨ACKNACK, FLAG_E, 0⟩, 4, 2, ⟨3, 3, [3758096384]⟩, 1⟩]) := by
  decide

/-! ## Heartbeat baseline of a non-durable reader -/

/-- C4 (amended): the baseline a valid heartbeat gives a non-durable reader.  For
every non-durable reader and associated writer, after `process_heartbeat_i`
accepts a heartbeat (count above `heartbeat_recvd_count_`) with `firstSN = f` and
`lastSN = l ≥ 1`, the immediate reply included: on the first valid heartbeat
(`initial_hb`), `recvd` contains `[0, l]` when it was empty or its lowest number
was `≥ l`, and `[0, recvd.low()]` otherwise; on a later heartbeat a non-empty
`recvd` contains `[0, max(f - 1, 0)]` and an empty one stays empty; in every case
`recvd` keeps what it contained.  The call returns whenever no record holds a
fragment hint. -/
theorem heartbeat_baseline_nondurable (r : RtpsReader) (rs : ReceiveStrategy)
    (hb : HeartBeatSubmessage) (src : RepoId) (info : WriterInfo) (hd : r.durable_ = false)
    (hfind : guid_find r.remote_writers_ src = some info)
    (hacc : info.heartbeat_recvd_count_ < hb.count) (hwf : info.recvd_.WF)
    (hl : 1 ≤ hb.lastSN) :
    (∀ res, r.process_heartbeat_i true rs hb src = some res →
      ∃ info1, guid_find res.reader.remote_writers_ src = some info1 ∧
        (info.initial_hb_ = true → (info.recvd_.empty = true ∨ hb.lastSN ≤ info.recvd_.low) →
          ∀ n, 0 ≤ n → n ≤ hb.lastSN → info1.recvd_.contains n = true) ∧
        (info.initial_hb_ = true → info.recvd_.empty = false → info.recvd_.low < hb.lastSN →
          ∀ n, 0 ≤ n → n ≤ info.recvd_.low → info1.recvd_.contains n = true) ∧
        (info.initial_hb_ = false → info.recvd_.empty = false →
          ∀ n, 0 ≤ n → n ≤ max (hb.firstSN - 1) 0 → info1.recvd_.contains n = true) ∧
        (info.initial_hb_ = false → info.recvd_.empty = true → info1.recvd_ = info.recvd_) ∧
        (∀ n, info.recvd_.contains n = true → info1.recvd_.contains n = true)) ∧
    ((∀ e ∈ r.remote_writers_, e.2.frags_ = []) →
      ∃ res, r.process_heartbeat_i true rs hb src = some res) := by
  refine ⟨?_, fun hfr => process_heartbeat_i_returns r rs hb src hfr⟩
  obtain ⟨id_, durable_, writers⟩ := r
  simp only at hd hfind
  subst hd
  obtain ⟨a1, a2, a3, a4⟩ := process_heartbeat_apply_baseline info hb hwf hl
  have hrec := process_heartbeat_apply_recvd info hb hl
  have hwf1 : (process_heartbeat_apply false info hb).1.recvd_.WF := by
    rw [hrec]
    split_ifs <;> first | exact hwf | exact DisjointSequence.wf_insert_range hwf _
  have hemp : info.initial_hb_ = false → info.recvd_.empty = true →
      (process_heartbeat_apply false info hb).1.recvd_ = info.recvd_ := by
    intro h1 h2
    rw [hrec, if_neg (by simp [h1]), if_neg (by simp [h2])]
  intro res hres
  rw [process_heartbeat_i_accepted ⟨id_, false, writers⟩ rs hb src info _ hfind hacc rfl] at hres
  simp only at hres
  -- the two received sets the call can leave on the record
  have hdone : ∀ info1 : WriterInfo,
      (info1.recvd_ = (process_heartbeat_apply false info hb).1.recvd_ ∨
        info1.recvd_ = (process_heartbeat_apply false info hb).1.recvd_.insert_range
          (SequenceNumber.ZERO, (process_heartbeat_apply false info hb).1.recvd_.low)) →
      (info.initial_hb_ = true → (info.recvd_.empty = true ∨ hb.lastSN ≤ info.recvd_.low) →
          ∀ n, 0 ≤ n → n ≤ hb.lastSN → info1.recvd_.contains n = true) ∧
        (info.initial_hb_ = true → info.recvd_.empty = false → info.recvd_.low < hb.lastSN →
          ∀ n, 0 ≤ n → n ≤ info.recvd_.low → info1.recvd_.contains n = true) ∧
        (info.initial_hb_ = false → info.recvd_.empty = false →
          ∀ n, 0 ≤ n → n ≤ max (hb.firstSN - 1) 0 → info1.recvd_.contains n = true) ∧
        (info.initial_hb_ = false → info.recvd_.empty = true → info1.recvd_ = info.recvd_) ∧
        (∀ n, info.recvd_.contains n = true → info1.recvd_.contains n = true) := by
    intro info1 h1
    have hgrow : ∀ n, (process_heartbeat_apply false info hb).1.recvd_.contains n = true →
        info1.recvd_.contains n = true := by
      intro n hn
      rcases h1 with h1 | h1
      · rw [h1]
        exact hn
      · rw [h1, DisjointSequence.contains_iff, DisjointSequence.mem_insert_range hwf1]
        exact Or.inr ((DisjointSequence.contains_iff _ _).1 hn)
    refine ⟨fun c1 c2 n h0 hn => hgrow n (a1 c1 c2 n h0 hn),
      fun c1 c2 c3 n h0 hn => hgrow n (a2 c1 c2 c3 n h0 hn),
      fun c1 c2 n h0 hn => hgrow n (a3 c1 c2 n h0 hn), fun c1 c2 => ?_,
      fun n hn => hgrow n (a4 n hn)⟩
    rcases h1 with h1 | h1
    · rw [h1]
      exact hemp c1 c2
    · rw [h1, hemp c1 c2]
      exact insert_range_low_of_empty _ c2
  split_ifs at hres
  · simp only [Option.map_eq_some'] at hres
    obtain ⟨g, hg, rfl⟩ := hres
    obtain ⟨gw, h1, h2, _⟩ :=
      heartbeat_immediate_result ⟨id_, false, writers⟩ rs src info _ hfind g hg
    obtain ⟨_, _, _, _, _, _, f7, _⟩ := gather_ack_nacks_wi_frame _ _ _ _ _ _ gw h1
    exact ⟨gw.1, h2, hdone gw.1 f7⟩
  · cases hres
    exact ⟨_, guid_find_set _ _ _ _ hfind, hdone _ (Or.inl rfl)⟩
  · cases hres
    exact ⟨_, guid_find_set _ _ _ _ hfind, hdone _ (Or.inl rfl)⟩

/-- Witness for C4: a non-durable reader that has received nothing accepts the
first heartbeat `[1, 5]`, final, of the writer `(7, 2)`; afterwards `recvd` is
`[0, 5]`. -/
theorem heartbeat_baseline_nondurable_witness :
    (∀ res, RtpsReader.process_heartbeat_i ⟨⟨1, 4⟩, false, [(⟨7, 2⟩, WriterInfo.fresh)]⟩ true
        ⟨fun _ _ => (false, []), fun b _ _ _ => (false, b)⟩
        ⟨⟨HEARTBEAT, FLAG_E ||| FLAG_F, HEARTBEAT_SZ⟩, 0, 2, 1, 5, 1⟩ ⟨7, 2⟩ = some res →
      ∃ info1, guid_find res.reader.remote_writers_ ⟨7, 2⟩ = some info1 ∧
        ∀ n, 0 ≤ n → n ≤ (5 : Int) → info1.recvd_.contains n = true) ∧
    (RtpsReader.process_heartbeat_i ⟨⟨1, 4⟩, false, [(⟨7, 2⟩, WriterInfo.fresh)]⟩ true
        ⟨fun _ _ => (false, []), fun b _ _ _ => (false, b)⟩
        ⟨⟨HEARTBEAT, FLAG_E ||| FLAG_F, HEARTBEAT_SZ⟩, 0, 2, 1, 5, 1⟩ ⟨7, 2⟩).map
      (fun res => res.reader.remote_writers_.map (fun e => e.2.recvd_)) =
      some [⟨[(0, 5)]⟩] :=
  ⟨fun res hres =>
    ((heartbeat_baseline_nondurable ⟨⟨1, 4⟩, false, [(⟨7, 2⟩, WriterInfo.fresh)]⟩
      ⟨fun _ _ => (false, []), fun b _ _ _ => (false, b)⟩
      ⟨⟨HEARTBEAT, FLAG_E ||| FLAG_F, HEARTBEAT_SZ⟩, 0, 2, 1, 5, 1⟩ ⟨7, 2⟩ WriterInfo.fresh rfl
      (by decide) (by decide) DisjointSequence.wf_nil (by decide)).1 res hres).imp
      (fun _ h => ⟨h.1, h.2.1 rfl (Or.inl rfl)⟩),
   by decide⟩

/-- C17 (amended): the reply decision of `process_heartbeat_i`.  For every accepted
heartbeat, let `owed` say that the heartbeat is non-final, or is not a liveliness
heartbeat while a nack is owed on the record after the heartbeat has been applied
(`should_nack`, `should_nack_durable`, or partial fragments in `hb_range`), and let
`immediate` say that the previously recorded `lastSN` was 0 and the new `lastSN`
is not 0 (positive or negative).  If `owed` and `immediate`, an ACKNACK for the
writer is emitted in the call, `ack_pending` is false afterwards and false is
returned; if `owed` and not `immediate`, `ack_pending` is set, nothing is emitted
and true is returned; if not `owed`, `ack_pending` is unchanged, nothing is
emitted and false is returned. -/
theorem heartbeat_reply_decision (r : RtpsReader) (rs : ReceiveStrategy)
    (hb : HeartBeatSubmessage) (src : RepoId) (info : WriterInfo)
    (hfind : guid_find r.remote_writers_ src = some info)
    (hacc : info.heartbeat_recvd_count_ < hb.count) :
    (heartbeat_immediate_reply info hb = true ↔ (info.hb_range_.2 = 0 ∧ hb.lastSN ≠ 0)) ∧
    (heartbeat_reply_owed r.durable_ rs src (process_heartbeat_apply r.durable_ info hb).1 hb = true →
      heartbeat_immediate_reply info hb = true →
      ∀ res, r.process_heartbeat_i true rs hb src = some res →
        res.ret = false ∧
        (∃ an, (⟨r.id_, src, [], Submessage.acknack_sm an⟩ : MetaSubmessage) ∈ res.meta_submessages ∧
          an.count = wrap_int32 (info.acknack_count_ + 1)) ∧
        ∃ info1, guid_find res.reader.remote_writers_ src = some info1 ∧
          info1.ack_pending_ = false) ∧
    (heartbeat_reply_owed r.durable_ rs src (process_heartbeat_apply r.durable_ info hb).1 hb = true →
      heartbeat_immediate_reply info hb = false →
      ∃ res, r.process_heartbeat_i true rs hb src = some res ∧
        res.ret = true ∧ res.meta_submessages = [] ∧
        ∃ info1, guid_find res.reader.remote_writers_ src = some info1 ∧
          info1.ack_pending_ = true) ∧
    (heartbeat_reply_owed r.durable_ rs src (process_heartbeat_apply r.durable_ info hb).1 hb = false →
      ∃ res, r.process_heartbeat_i true rs hb src = some res ∧
        res.ret = false ∧ res.meta_submessages = [] ∧
        ∃ info1, guid_find res.reader.remote_writers_ src = some info1 ∧
          info1.ack_pending_ = info.ack_pending_) ∧
    ((∀ e ∈ r.remote_writers_, e.2.frags_ = []) →
      ∃ res, r.process_heartbeat_i true rs hb src = some res) := by
  have hf := process_heartbeat_apply_frame r.durable_ info hb
  rw [process_heartbeat_i_accepted r rs hb src info _ hfind hacc rfl]
  refine ⟨?_, ?_, ?_, ?_, ?_⟩
  · unfold heartbeat_immediate_reply
    simp
  · intro ho hi res hres
    rw [if_pos ho, if_pos hi] at hres
    simp only [Option.map_eq_some'] at hres
    obtain ⟨g, hg, rfl⟩ := hres
    obtain ⟨gw, h1, h2, h3⟩ := heartbeat_immediate_result r rs src info _ hfind g hg
    obtain ⟨_, _, _, _, _, _, _, f8⟩ := gather_ack_nacks_wi_frame _ _ _ _ _ _ gw h1
    obtain ⟨p1, an, rest, p2, p3⟩ := f8 rfl
    refine ⟨rfl, ⟨an, h3 _ (by rw [p2]; exact List.mem_cons_self _ _), ?_⟩, gw.1, h2, p1⟩
    rw [p3]
    exact congrArg (fun x => wrap_int32 (x + 1)) hf.2.2.2.2.2.1
  · intro ho hi
    rw [if_pos ho, hi]
    exact ⟨_, rfl, rfl, rfl, _, guid_find_set _ _ _ _ hfind, rfl⟩
  · intro ho
    rw [ho]
    exact ⟨_, rfl, rfl, rfl, _, guid_find_set _ _ _ _ hfind, hf.2.2.1⟩
  · intro hfr
    have := process_heartbeat_i_returns r rs hb src hfr
    rw [process_heartbeat_i_accepted r rs hb src info _ hfind hacc rfl] at this
    exact this

/-- Witness for C17: the first heartbeat `[1, 5]`, not final, at a fresh
non-durable reader is answered at once. -/
theorem heartbeat_reply_decision_witness :
    heartbeat_reply_owed false ⟨fun _ _ => (false, []), fun b _ _ _ => (false, b)⟩ ⟨7, 2⟩
        (process_heartbeat_apply false WriterInfo.fresh
          ⟨⟨HEARTBEAT, FLAG_E, HEARTBEAT_SZ⟩, 4, 2, 1, 5, 1⟩).1
        ⟨⟨HEARTBEAT, FLAG_E, HEARTBEAT_SZ⟩, 4, 2, 1, 5, 1⟩ = true ∧
    heartbeat_immediate_reply WriterInfo.fresh
        ⟨⟨HEARTBEAT, FLAG_E, HEARTBEAT_SZ⟩, 4, 2, 1, 5, 1⟩ = true ∧
    (∀ res, RtpsReader.process_heartbeat_i ⟨⟨1, 4⟩, false, [(⟨7, 2⟩, WriterInfo.fresh)]⟩ true
        ⟨fun _ _ => (false, []), fun b _ _ _ => (false, b)⟩
        ⟨⟨HEARTBEAT, FLAG_E, HEARTBEAT_SZ⟩, 4, 2, 1, 5, 1⟩ ⟨7, 2⟩ = some res →
      res.ret = false ∧
      (∃ an, (⟨⟨1, 4⟩, ⟨7, 2⟩, [], Submessage.acknack_sm an⟩ : MetaSubmessage) ∈
          res.meta_submessages ∧
        an.count = wrap_int32 (WriterInfo.fresh.acknack_count_ + 1)) ∧
      ∃ info1, guid_find res.reader.remote_writers_ ⟨7, 2⟩ = some info1 ∧
        info1.ack_pending_ = false) :=
  ⟨by decide, by decide,
   (heartbeat_reply_decision ⟨⟨1, 4⟩, false, [(⟨7, 2⟩, WriterInfo.fresh)]⟩
      ⟨fun _ _ => (false, []), fun b _ _ _ => (false, b)⟩
      ⟨⟨HEARTBEAT, FLAG_E, HEARTBEAT_SZ⟩, 4, 2, 1, 5, 1⟩ ⟨7, 2⟩ WriterInfo.fresh
      (by decide) (by decide)).2.1 (by decide) (by decide)⟩

/-- C17 as stated fails for a negative `lastSN`: the first heartbeat of a writer,
not final, with `lastSN = -1` (not `> 0`) is answered at once: the ACKNACK is
emitted in the call, which returns false and leaves `ack_pending` false. -/
theorem heartbeat_reply_counterexample :
    (RtpsReader.process_heartbeat_i ⟨⟨1, 4⟩, false, [(⟨7, 2⟩, WriterInfo.fresh)]⟩ true
        ⟨fun _ _ => (false, []), fun b _ _ _ => (false, b)⟩
        ⟨⟨HEARTBEAT, FLAG_E, HEARTBEAT_SZ⟩, 4, 2, 1, -1, 1⟩ ⟨7, 2⟩).map
      (fun res => (res.ret, res.meta_submessages.map (fun m => m.sm_),
        res.reader.remote_writers_.map (fun e => e.2.ack_pending_))) =
      some (false,
        [Submessage.acknack_sm ⟨⟨ACKNACK, FLAG_E ||| FLAG_F, 0⟩, 4, 2, ⟨1, 1, [0]⟩, 1⟩],
        [false]) := by
  decide

/-! ## Duplicate DATA -/

theorem insert_i_of_mem {l : List (Int × Int)} :
    ∀ {lb n : Int}, DisjointSequence.RunsFrom lb l → (∃ r ∈ l, r.1 ≤ n ∧ n ≤ r.2) →
      DisjointSequence.insert_i n n l = l := by
  induction l with
  | nil =>
    intro lb n _ hm
    obtain ⟨r, hr, _⟩ := hm
    cases hr
  | cons r rest ih =>
    intro lb n hl hm
    obtain ⟨h1, h2, h3⟩ := hl
    obtain ⟨r0, hr0, ha, hb⟩ := hm
    rcases List.mem_cons.1 hr0 with heq | hin
    · subst heq
      unfold DisjointSequence.insert_i
      rw [if_neg (by omega), if_neg (by omega), min_eq_right ha, max_eq_right hb]
      cases rest with
      | nil => simp [DisjointSequence.insert_i]
      | cons r2 rest2 =>
        unfold DisjointSequence.insert_i
        rw [if_pos h3.1]
    · have hg := DisjointSequence.mem_runs_gt h3 r0 hin
      unfold DisjointSequence.insert_i
      rw [if_neg (by omega), if_pos (by omega)]
      rw [ih h3 ⟨r0, hin, ha, hb⟩]

theorem insert_of_contains (s : DisjointSequence) (hs : s.WF) (n : Int)
    (h : s.contains n = true) : s.insert n = s := by
  obtain ⟨lb, hl⟩ := hs
  have hm := (DisjointSequence.contains_iff s n).1 h
  unfold DisjointSequence.insert DisjointSequence.insert_range
  simp only [le_refl, if_true]
  cases s with
  | mk l =>
    simp only [DisjointSequence.mk.injEq]
    exact insert_i_of_mem hl hm

theorem process_data_wi_duplicate (durable : Bool) (info : WriterInfo) (seq : Int)
    (sample : ReceivedDataSample) (hwf : info.recvd_.WF)
    (hdup : info.recvd_.contains seq = true) :
    process_data_wi durable info seq sample =
      ((deliver_held_data { info with frags_ := map_erase info.frags_ seq } durable).1,
        ReaderEvent.withhold_data_from seq ::
          (deliver_held_data { info with frags_ := map_erase info.frags_ seq } durable).2) := by
  unfold process_data_wi process_data_decide data_disposition
  simp only [hdup, if_true, insert_of_contains info.recvd_ hwf seq hdup, List.singleton_append]

/-- C19 (amended): a duplicate DATA is withheld and is not stored.  For every DATA
from an associated writer whose sequence number is already in `recvd`,
`process_data_i` withholds the sample; afterwards `recvd` is unchanged, `frags`
has lost the entry of that sequence number, and `held` has received nothing: it
is the former `held` without its leading entries up to `recvd.cumulative_ack()`,
which `deliver_held_data` releases (none of them when the reader is durable and
`recvd.low() > 1`).  When every held sequence number is above the cumulative ack,
`held` is unchanged and no held sample is released. -/
theorem duplicate_data (r : RtpsReader) (data : DataSubmessage) (sample : ReceivedDataSample)
    (src : RepoId) (info : WriterInfo) (hfind : guid_find r.remote_writers_ src = some info)
    (hwf : info.recvd_.WF) (hdup : info.recvd_.contains data.writerSN = true) :
    (r.process_data_i true data sample src).events.head? =
      some (ReaderEvent.withhold_data_from data.writerSN) ∧
    ∃ info1, guid_find (r.process_data_i true data sample src).reader.remote_writers_ src =
        some info1 ∧
      info1.recvd_ = info.recvd_ ∧
      info1.frags_ = map_erase info.frags_ data.writerSN ∧
      info1.held_ =
        (if (r.durable_ && (info.recvd_.empty || decide (info.recvd_.low > 1))) = true
         then info.held_
         else info.held_.dropWhile (fun e => decide (e.1 ≤ info.recvd_.cumulative_ack))) ∧
      (∀ e ∈ info1.held_, e ∈ info.held_) ∧
      ((∀ e ∈ info.held_, info.recvd_.cumulative_ack < e.1) →
        info1.held_ = info.held_ ∧
        released (r.process_data_i true data sample src).events = []) := by
  unfold RtpsReader.process_data_i
  simp only [hfind]
  rw [process_data_wi_duplicate r.durable_ info data.writerSN sample hwf hdup]
  refine ⟨rfl, _, guid_find_set _ _ _ _ hfind, ?_⟩
  simp only
  unfold deliver_held_data notify_delivery
  by_cases c : (r.durable_ && (info.recvd_.empty || decide (info.recvd_.low > 1))) = true
  · rw [if_pos c, if_pos c]
    exact ⟨rfl, rfl, rfl, fun e he => he, fun _ => ⟨rfl, rfl⟩⟩
  · rw [if_neg c, if_neg c]
    refine ⟨rfl, rfl, rfl, fun e he => (List.dropWhile_suffix _).subset he, fun hab => ?_⟩
    cases hh : info.held_ with
    | nil => exact ⟨rfl, rfl⟩
    | cons x rest =>
      have hx := hab x (by rw [hh]; exact List.mem_cons_self _ _)
      have hx1 : ¬ x.1 ≤ info.recvd_.cumulative_ack := by omega
      simp [List.dropWhile_cons, List.takeWhile_cons, hx1, released]

/-- Witness for C19: a non-durable reader that received DATA 1 and 2 and holds
DATA 5 receives DATA 2 again: the sample is withheld, `recvd` and `held` are as
before. -/
theorem duplicate_data_witness :
    (RtpsReader.process_data_i
        ⟨⟨1, 4⟩, false, [(⟨7, 2⟩, { WriterInfo.fresh with recvd_ := ⟨[(1, 2), (5, 5)]⟩,
                                                            held_ := [(5, 105)] })]⟩
        true ⟨4, 2, 2⟩ 102 ⟨7, 2⟩).events.head? = some (ReaderEvent.withhold_data_from 2) ∧
    (RtpsReader.process_data_i
        ⟨⟨1, 4⟩, false, [(⟨7, 2⟩, { WriterInfo.fresh with recvd_ := ⟨[(1, 2), (5, 5)]⟩,
                                                            held_ := [(5, 105)] })]⟩
        true ⟨4, 2, 2⟩ 102 ⟨7, 2⟩).reader.remote_writers_.map (fun e => (e.2.recvd_, e.2.held_)) =
      [(⟨[(1, 2), (5, 5)]⟩, [(5, 105)])] :=
  ⟨(duplicate_data
      ⟨⟨1, 4⟩, false, [(⟨7, 2⟩, { WriterInfo.fresh with recvd_ := ⟨[(1, 2), (5, 5)]⟩,
                                                          held_ := [(5, 105)] })]⟩
      ⟨4, 2, 2⟩ 102 ⟨7, 2⟩
      { WriterInfo.fresh with recvd_ := ⟨[(1, 2), (5, 5)]⟩, held_ := [(5, 105)] }
      (by decide) ⟨0, by simp [DisjointSequence.RunsFrom]⟩ (by decide)).1, by decide⟩

/-- C19 as stated fails for `held`.  A durable reader holds DATA 3 (`recvd = {3}`),
receives the non-final heartbeat `[5, 0]` and answers it from the timer; building
that ACKNACK extends `recvd` to `[0, 3]` without releasing anything.  When DATA 3
arrives again it is withheld as a duplicate, and `deliver_held_data` then
releases the held 3: `held` loses its entry. -/
theorem duplicate_data_counterexample :
    ((RtpsReader.receive_all ⟨⟨1, 4⟩, true, [(⟨7, 2⟩, WriterInfo.fresh)]⟩
        [(⟨7, 2⟩, ReaderInput.data ⟨4, 2, 3⟩ 103),
         (⟨7, 2⟩, ReaderInput.heartbeat ⟨⟨HEARTBEAT, FLAG_E, HEARTBEAT_SZ⟩, 4, 2, 5, 0, 1⟩
            ⟨fun _ _ => (false, []), fun b _ _ _ => (false, b)⟩)]).bind
      (fun t => RtpsReader.gather_ack_nacks_i t.1 true
        ⟨fun _ _ => (false, []), fun b _ _ _ => (false, b)⟩ false)).map (fun t => t.1) =
      some ⟨⟨1, 4⟩, true, [(⟨7, 2⟩, { WriterInfo.fresh with
        recvd_ := ⟨[(0, 3)]⟩, held_ := [(3, 103)], hb_range_ := (5, 0),
        heartbeat_recvd_count_ := 1, acknack_count_ := 1 })]⟩ ∧
    (RtpsReader.process_data_i
        ⟨⟨1, 4⟩, true, [(⟨7, 2⟩, { WriterInfo.fresh with
          recvd_ := ⟨[(0, 3)]⟩, held_ := [(3, 103)], hb_range_ := (5, 0),
          heartbeat_recvd_count_ := 1, acknack_count_ := 1 })]⟩
        true ⟨4, 2, 3⟩ 103 ⟨7, 2⟩).events =
      [ReaderEvent.withhold_data_from 3, ReaderEvent.held_data 3 103, ReaderEvent.notify] ∧
    (RtpsReader.process_data_i
        ⟨⟨1, 4⟩, true, [(⟨7, 2⟩, { WriterInfo.fresh with
          recvd_ := ⟨[(0, 3)]⟩, held_ := [(3, 103)], hb_range_ := (5, 0),
          heartbeat_recvd_count_ := 1, acknack_count_ := 1 })]⟩
        true ⟨4, 2, 3⟩ 103 ⟨7, 2⟩).reader.remote_writers_.map (fun e => e.2.held_) = [[]] := by
  refine ⟨by decide, by decide, by decide⟩

/-! ## ACKNACK bitmap bounds -/

theorem bitmap_set_length (b : LongSeq8) (i : Nat) : (bitmap_set b i).length = b.length := by
  unfold bitmap_set
  split_ifs <;> simp

theorem bitmap_set_run_length (b : LongSeq8) (lo : Nat) :
    ∀ n, (bitmap_set_run b lo n).length = b.length := by
  intro n
  induction n with
  | zero => rfl
  | succ k ih =>
    unfold bitmap_set_run
    rw [bitmap_set_length, ih]

theorem bitmap_resize_length (b : LongSeq8) (n : Nat) : (bitmap_resize b n).length = n := by
  unfold bitmap_resize
  simp only [List.length_append, List.length_take, List.length_replicate]
  omega

theorem fill_bitmap_range_bounds (lo hi : Nat) (bitmap : LongSeq8) (length nb : Nat) :
    (DisjointSequence.fill_bitmap_range lo hi bitmap length nb).2.1.length = bitmap.length ∧
    (DisjointSequence.fill_bitmap_range lo hi bitmap length nb).2.2 ≤ max nb (32 * length) := by
  unfold DisjointSequence.fill_bitmap_range
  by_cases c : length ≤ lo / 32
  · rw [if_pos c]
    exact ⟨rfl, le_max_left _ _⟩
  · rw [if_neg c]
    refine ⟨bitmap_set_run_length _ _ _, ?_⟩
    by_cases c2 : length ≤ hi / 32
    · simp only [c2, decide_True, if_true]
      refine max_le (le_max_left _ _) (le_trans ?_ (le_max_right _ _))
      omega
    · simp only [c2, decide_False, Bool.false_eq_true, if_false]
      refine max_le (le_max_left _ _) (le_trans ?_ (le_max_right _ _))
      omega

theorem to_bitmap_i_bounds (base : Int) (invert : Bool) (length : Nat)
    (runs : List (Int × Int)) :
    ∀ (bitmap : LongSeq8) (nb : Nat),
      (DisjointSequence.to_bitmap_i base invert length runs bitmap nb).2.1.length = bitmap.length ∧
      (DisjointSequence.to_bitmap_i base invert length runs bitmap nb).2.2 ≤
        max nb (32 * length) := by
  induction runs with
  | nil =>
    intro bitmap nb
    unfold DisjointSequence.to_bitmap_i
    exact ⟨rfl, le_max_left _ _⟩
  | cons prev rest ih =>
    intro bitmap nb
    cases rest with
    | nil =>
      unfold DisjointSequence.to_bitmap_i
      exact ⟨rfl, le_max_left _ _⟩
    | cons iter rest2 =>
      unfold DisjointSequence.to_bitmap_i
      simp only
      split_ifs
      all_goals
        first
        | exact ⟨(ih _ _).1.trans (fill_bitmap_range_bounds _ _ _ _ _).1,
            le_trans (ih _ _).2
              (max_le (fill_bitmap_range_bounds _ _ _ _ _).2 (le_max_right _ _))⟩
        | exact fill_bitmap_range_bounds _ _ _ _ _

theorem to_bitmap_bounds (s : DisjointSequence) (bitmap : LongSeq8) (length : Nat)
    (invert : Bool) :
    (s.to_bitmap bitmap length invert).2.1.length = bitmap.length ∧
    (s.to_bitmap bitmap length invert).2.2 ≤ 32 * length := by
  unfold DisjointSequence.to_bitmap
  split_ifs
  · exact ⟨rfl, Nat.zero_le _⟩
  · have h := to_bitmap_i_bounds (SequenceNumber.next s.cumulative_ack) invert length
      s.sequences_ bitmap 0
    exact ⟨h.1, le_trans h.2 (max_le (Nat.zero_le _) (le_refl _))⟩

theorem bitmap_num_longs_le (low high : Int) : bitmap_num_longs low high ≤ 8 := by
  unfold bitmap_num_longs
  split_ifs
  · decide
  · exact min_le_left _ _

theorem bitmap_num_longs_ge (low high : Int)
    (h : high < low ∨ high - low < 137438953440) : 1 ≤ bitmap_num_longs low high := by
  unfold bitmap_num_longs
  by_cases c : high < low
  · rw [if_pos c]
  · rw [if_neg c]
    have hd : high - low < 137438953440 := by
      rcases h with h | h
      · exact absurd h c
      · exact h
    have hw : wrap_int64 (high - low + 32) = high - low + 32 := by
      unfold wrap_int64
      omega
    have ht : Int.tdiv (high - low + 32) 32 = (high - low + 32) / 32 :=
      Int.tdiv_eq_ediv (by omega) (by omega)
    rw [hw, ht]
    unfold toULong
    refine le_min (by decide) ?_
    omega

theorem mem_last_ack (s : DisjointSequence) (hs : s.WF) (hne : s.empty = false) :
    s.Mem s.last_ack := by
  unfold DisjointSequence.last_ack DisjointSequence.Mem
  cases hl : s.sequences_.getLast? with
  | none =>
    exfalso
    have : s.sequences_ = [] := List.getLast?_eq_none_iff.1 hl
    have := (DisjointSequence.empty_eq_true_iff s).2 this
    rw [this] at hne
    cases hne
  | some r =>
    have hr : r ∈ s.sequences_ := by
      obtain ⟨ys, hys⟩ := List.getLast?_eq_some_iff.1 hl
      rw [hys]
      simp
    exact ⟨r, hr, le_refl _, DisjointSequence.runs_valid hs r hr⟩

theorem acknack_base_bounds (durable : Bool) (info : WriterInfo) (p n : Bool)
    (hwf : info.recvd_.WF)
    (hrange : ∀ x, info.recvd_.Mem x → 0 ≤ x ∧ x < 137438953440)
    (hlo : 0 ≤ info.hb_range_.1) (hhi : info.hb_range_.2 < 137438953440) :
    1 ≤ (acknack_base durable info p n).2.1.length ∧
    (acknack_base durable info p n).2.1.length ≤ 8 ∧
    (acknack_base durable info p n).2.2.1 ≤ 32 * (acknack_base durable info p n).2.1.length := by
  have hfill : ∀ (k lo hi : Nat), 1 ≤ k → k ≤ 8 →
      1 ≤ (DisjointSequence.fill_bitmap_range lo hi (bitmap_resize [0] k)
          (bitmap_resize [0] k).length 1).2.1.length ∧
      (DisjointSequence.fill_bitmap_range lo hi (bitmap_resize [0] k)
          (bitmap_resize [0] k).length 1).2.1.length ≤ 8 ∧
      (DisjointSequence.fill_bitmap_range lo hi (bitmap_resize [0] k)
          (bitmap_resize [0] k).length 1).2.2 ≤
        32 * (DisjointSequence.fill_bitmap_range lo hi (bitmap_resize [0] k)
          (bitmap_resize [0] k).length 1).2.1.length := by
    intro k lo hi h1 h8
    obtain ⟨f1, f2⟩ := fill_bitmap_range_bounds lo hi (bitmap_resize [0] k)
      (bitmap_resize [0] k).length 1
    rw [f1, bitmap_resize_length]
    rw [bitmap_resize_length] at f2
    refine ⟨h1, h8, le_trans f2 (max_le (by omega) (le_refl _))⟩
  unfold acknack_base
  simp only
  by_cases c1 : info.recvd_.empty = true
  · rw [if_pos c1]
    by_cases c2 : info.hb_range_.1 ≤ info.hb_range_.2
    · rw [if_pos c2]
      exact hfill _ _ _ (bitmap_num_longs_ge _ _ (Or.inr (by omega))) (bitmap_num_longs_le _ _)
    · rw [if_neg c2]
      exact ⟨by simp, by simp, by simp⟩
  · rw [if_neg c1]
    have hne : info.recvd_.empty = false := by simpa using c1
    have hlowm := DisjointSequence.mem_low hwf hne
    have hfr := DisjointSequence.first_run hwf hne
    by_cases c2 : (((p && !n) || should_nack_durable durable info)
        && decide (info.recvd_.low > info.hb_range_.1)) = true
    · rw [if_pos c2]
      have := (hrange _ hlowm).2
      exact hfill _ _ _ (bitmap_num_longs_ge _ _ (Or.inr (by omega))) (bitmap_num_longs_le _ _)
    · rw [if_neg c2]
      have hwf1 : (if info.recvd_.low > 1 then
          info.recvd_.insert_range (SequenceNumber.ZERO, info.recvd_.low)
          else info.recvd_).WF := by
        split_ifs
        · exact DisjointSequence.wf_insert_range hwf _
        · exact hwf
      have hrange1 : ∀ x, (if info.recvd_.low > 1 then
          info.recvd_.insert_range (SequenceNumber.ZERO, info.recvd_.low)
          else info.recvd_).Mem x → 0 ≤ x ∧ x < 137438953440 := by
        intro x hx
        split_ifs at hx
        · rcases (DisjointSequence.mem_insert_range hwf _ x).1 hx with h | h
          · have := (hrange _ hlowm).2
            simp only [SequenceNumber.ZERO] at h
            omega
          · exact hrange x h
        · exact hrange x hx
      by_cases c3 : (if info.recvd_.low > 1 then
          info.recvd_.insert_range (SequenceNumber.ZERO, info.recvd_.low)
          else info.recvd_).disjoint = true
      · rw [if_pos c3]
        have hne1 : (if info.recvd_.low > 1 then
            info.recvd_.insert_range (SequenceNumber.ZERO, info.recvd_.low)
            else info.recvd_).empty = false := by
          unfold DisjointSequence.disjoint at c3
          unfold DisjointSequence.empty
          simp only [decide_eq_true_eq] at c3
          cases hq : (if info.recvd_.low > 1 then
            info.recvd_.insert_range (SequenceNumber.ZERO, info.recvd_.low)
            else info.recvd_).sequences_ with
          | nil => rw [hq] at c3; simp at c3
          | cons a b => rfl
        have hla := (hrange1 _ (mem_last_ack _ hwf1 hne1)).2
        have hca := (hrange _ (hfr.2.1 _ hfr.1 (le_refl _))).1
        have hk1 : 1 ≤ bitmap_num_longs (SequenceNumber.next info.recvd_.cumulative_ack)
            (SequenceNumber.previous (if info.recvd_.low > 1 then
              info.recvd_.insert_range (SequenceNumber.ZERO, info.recvd_.low)
              else info.recvd_).last_ack) :=
          bitmap_num_longs_ge _ _ (Or.inr (by
            simp only [SequenceNumber.next, SequenceNumber.previous]
            omega))
        obtain ⟨t1, t2⟩ := to_bitmap_bounds (if info.recvd_.low > 1 then
            info.recvd_.insert_range (SequenceNumber.ZERO, info.recvd_.low)
            else info.recvd_)
          (bitmap_resize [0] (bitmap_num_longs (SequenceNumber.next info.recvd_.cumulative_ack)
            (SequenceNumber.previous (if info.recvd_.low > 1 then
              info.recvd_.insert_range (SequenceNumber.ZERO, info.recvd_.low)
              else info.recvd_).last_ack)))
          (bitmap_resize [0] (bitmap_num_longs (SequenceNumber.next info.recvd_.cumulative_ack)
            (SequenceNumber.previous (if info.recvd_.low > 1 then
              info.recvd_.insert_range (SequenceNumber.ZERO, info.recvd_.low)
              else info.recvd_).last_ack))).length true
        simp only
        rw [t1]
        rw [bitmap_resize_length] at t2 ⊢
        exact ⟨hk1, bitmap_num_longs_le _ _, t2⟩
      · rw [if_neg c3]
        exact ⟨by simp, by simp, by simp⟩

theorem acknack_extend_bounds (hb_high : Int) (b : Int × LongSeq8 × Nat × DisjointSequence)
    (h : 1 ≤ b.2.1.length ∧ b.2.1.length ≤ 8 ∧ b.2.2.1 ≤ 32 * b.2.1.length) :
    1 ≤ (acknack_extend hb_high b).2.1.length ∧
    (acknack_extend hb_high b).2.1.length ≤ 8 ∧
    (acknack_extend hb_high b).2.2.1 ≤ 32 * (acknack_extend hb_high b).2.1.length := by
  obtain ⟨h1, h2, h3⟩ := h
  unfold acknack_extend
  simp only
  by_cases c : (!b.2.2.2.empty && decide (hb_high > b.2.2.2.high)) = true
  · rw [if_pos c]
    simp only
    have hk := bitmap_num_longs_le b.1 (if hb_high ≤ b.1 + 255 then hb_high else b.1 + 255)
    by_cases c2 : bitmap_num_longs b.1 (if hb_high ≤ b.1 + 255 then hb_high else b.1 + 255)
        > b.2.1.length
    · rw [if_pos c2]
      obtain ⟨f1, f2⟩ := fill_bitmap_range_bounds
        (if b.2.2.2.disjoint = true then toULong (b.2.2.2.high - b.1) else 0)
        (toULong ((if hb_high ≤ b.1 + 255 then hb_high else b.1 + 255) - b.1))
        (bitmap_resize b.2.1
          (bitmap_num_longs b.1 (if hb_high ≤ b.1 + 255 then hb_high else b.1 + 255)))
        (bitmap_num_longs b.1 (if hb_high ≤ b.1 + 255 then hb_high else b.1 + 255)) b.2.2.1
      rw [f1, bitmap_resize_length]
      refine ⟨by omega, hk, le_trans f2 (max_le (by omega) (le_refl _))⟩
    · rw [if_neg c2]
      obtain ⟨f1, f2⟩ := fill_bitmap_range_bounds
        (if b.2.2.2.disjoint = true then toULong (b.2.2.2.high - b.1) else 0)
        (toULong ((if hb_high ≤ b.1 + 255 then hb_high else b.1 + 255) - b.1))
        b.2.1
        (bitmap_num_longs b.1 (if hb_high ≤ b.1 + 255 then hb_high else b.1 + 255)) b.2.2.1
      rw [f1]
      refine ⟨h1, h2, le_trans f2 (max_le h3 (by omega))⟩
  · rw [if_neg c]
    exact ⟨h1, h2, h3⟩

theorem gather_ack_nacks_wi_acknack (id_ : RepoId) (durable : Bool) (rs : ReceiveStrategy)
    (finalFlag : Bool) (wid : RepoId) (info : WriterInfo) (g : WriterInfo × List MetaSubmessage)
    (h : gather_ack_nacks_wi id_ durable true rs finalFlag wid info = some g)
    (m : MetaSubmessage) (hm : m ∈ g.2) (an : AckNackSubmessage)
    (han : m.sm_ = Submessage.acknack_sm an) :
    an.readerSNState.numBits =
      (acknack_bitmap durable info info.ack_pending_
        (info.should_nack || should_nack_durable durable info)).2.2.1 ∧
    an.readerSNState.bitmap =
      (rs.remove_frags_from_bitmap
        (acknack_bitmap durable info info.ack_pending_
          (info.should_nack || should_nack_durable durable info)).2.1
        (acknack_bitmap durable info info.ack_pending_
          (info.should_nack || should_nack_durable durable info)).2.2.1
        (acknack_bitmap durable info info.ack_pending_
          (info.should_nack || should_nack_durable durable info)).1 wid).2 := by
  unfold gather_ack_nacks_wi at h
  simp only [Bool.not_true, Bool.false_eq_true, if_false] at h
  by_cases c : (info.ack_pending_ || (info.should_nack || should_nack_durable durable info)
      || finalFlag) = true
  · rw [if_pos c] at h
    cases hg : generate_nack_frags rs
      { info with ack_pending_ := false,
                  recvd_ := (acknack_bitmap durable info info.ack_pending_
                    (info.should_nack || should_nack_durable durable info)).2.2.2,
                  acknack_count_ := wrap_int32 (info.acknack_count_ + 1) } wid with
    | none => rw [hg] at h; cases h
    | some g1 =>
      rw [hg] at h
      cases h
      rcases List.mem_cons.1 hm with hm | hm
      · rw [hm] at han
        simp only [Submessage.acknack_sm.injEq] at han
        rw [← han]
        exact ⟨rfl, rfl⟩
      · obtain ⟨nf, _, rfl⟩ := List.mem_map.1 hm
        cases han
  · rw [if_neg c] at h
    cases h
    cases hm

theorem gather_ack_nacks_loop_mem (id_ : RepoId) (durable : Bool) (rs : ReceiveStrategy)
    (finalFlag : Bool) (l : List (RepoId × WriterInfo)) :
    ∀ t, gather_ack_nacks_loop id_ durable true rs finalFlag l = some t →
      ∀ m ∈ t.2, ∃ e ∈ l, ∃ gw,
        gather_ack_nacks_wi id_ durable true rs finalFlag e.1 e.2 = some gw ∧ m ∈ gw.2 := by
  induction l with
  | nil =>
    intro t ht m hm
    unfold gather_ack_nacks_loop at ht
    cases ht
    cases hm
  | cons e rest ih =>
    intro t ht m hm
    unfold gather_ack_nacks_loop at ht
    cases hg : gather_ack_nacks_wi id_ durable true rs finalFlag e.1 e.2 with
    | none => rw [hg] at ht; cases ht
    | some g =>
      rw [hg] at ht
      cases hr : gather_ack_nacks_loop id_ durable true rs finalFlag rest with
      | none => rw [hr] at ht; cases ht
      | some t1 =>
        rw [hr] at ht
        cases ht
        rcases List.mem_append.1 hm with hm | hm
        · exact ⟨e, List.mem_cons_self _ _, g, hg, hm⟩
        · obtain ⟨e1, he1, gw, h1, h2⟩ := ih t1 hr m hm
          exact ⟨e1, List.mem_cons_of_mem _ he1, gw, h1, h2⟩

/-- Bounds of the ACKNACK bitmap for short ranges.  When every record's received
sequence numbers lie in `[0, 2^37 - 32)`, its heartbeat range has `firstSN ≥ 0`
and `lastSN < 2^37 - 32`, and the fragment subtraction of the receive strategy
keeps the length of the bitmap, every ACKNACK pushed by `gather_ack_nacks_i` has
`numBits ≤ 256`, a bitmap of 1 to 8 words, and `numBits ≤ 32 *` (number of
words).  The call returns whenever no record holds a fragment hint. -/
theorem acknack_bitmap_bounds (r : RtpsReader) (rs : ReceiveStrategy) (finalFlag : Bool)
    (hrs : ∀ b n base pub, (rs.remove_frags_from_bitmap b n base pub).2.length = b.length)
    (hw : ∀ e ∈ r.remote_writers_, e.2.recvd_.WF ∧
      (∀ x, e.2.recvd_.Mem x → 0 ≤ x ∧ x < 137438953440) ∧
      0 ≤ e.2.hb_range_.1 ∧ e.2.hb_range_.2 < 137438953440) :
    (∀ g, r.gather_ack_nacks_i true rs finalFlag = some g →
      ∀ m ∈ g.2, ∀ an, m.sm_ = Submessage.acknack_sm an →
        an.readerSNState.numBits ≤ 256 ∧ 1 ≤ an.readerSNState.bitmap.length ∧
        an.readerSNState.bitmap.length ≤ 8 ∧
        an.readerSNState.numBits ≤ 32 * an.readerSNState.bitmap.length) ∧
    ((∀ e ∈ r.remote_writers_, e.2.frags_ = []) →
      ∃ g, r.gather_ack_nacks_i true rs finalFlag = some g) := by
  constructor
  · intro g hg m hm an han
    unfold RtpsReader.gather_ack_nacks_i at hg
    cases ht : gather_ack_nacks_loop r.id_ r.durable_ true rs finalFlag r.remote_writers_ with
    | none => rw [ht] at hg; cases hg
    | some t =>
      rw [ht] at hg
      cases hg
      obtain ⟨e, he, gw, h1, h2⟩ := gather_ack_nacks_loop_mem _ _ _ _ _ t ht m hm
      obtain ⟨a1, a2⟩ := gather_ack_nacks_wi_acknack _ _ _ _ _ _ gw h1 m h2 an han
      obtain ⟨w1, w2, w3, w4⟩ := hw e he
      have hb := acknack_extend_bounds e.2.hb_range_.2 _
        (acknack_base_bounds r.durable_ e.2 e.2.ack_pending_
          (e.2.should_nack || should_nack_durable r.durable_ e.2) w1 w2 w3 w4)
      rw [a1, a2, hrs]
      unfold acknack_bitmap
      obtain ⟨b1, b2, b3⟩ := hb
      exact ⟨by omega, b1, b2, b3⟩
  · intro hfr
    obtain ⟨t, ht⟩ := gather_ack_nacks_loop_returns r.id_ r.durable_ rs finalFlag _ hfr
    unfold RtpsReader.gather_ack_nacks_i
    rw [ht]
    exact ⟨_, rfl⟩

/-- A reader that received 1, 2 and 5 and knows the heartbeat range `[1, 8]` sends
an ACKNACK of base 3 with 6 bits in one word. -/
theorem acknack_bitmap_bounds_short_range :
    (∀ g, RtpsReader.gather_ack_nacks_i
        ⟨⟨1, 4⟩, false, [(⟨7, 2⟩, { WriterInfo.fresh with recvd_ := ⟨[(0, 2), (5, 5)]⟩,
                                                            hb_range_ := (1, 8) })]⟩
        true ⟨fun _ _ => (false, []), fun b _ _ _ => (false, b)⟩ false = some g →
      ∀ m ∈ g.2, ∀ an, m.sm_ = Submessage.acknack_sm an →
        an.readerSNState.numBits ≤ 256 ∧ 1 ≤ an.readerSNState.bitmap.length ∧
        an.readerSNState.bitmap.length ≤ 8 ∧
        an.readerSNState.numBits ≤ 32 * an.readerSNState.bitmap.length) ∧
    (RtpsReader.gather_ack_nacks_i
        ⟨⟨1, 4⟩, false, [(⟨7, 2⟩, { WriterInfo.fresh with recvd_ := ⟨[(0, 2), (5, 5)]⟩,
                                                            hb_range_ := (1, 8) })]⟩
        true ⟨fun _ _ => (false, []), fun b _ _ _ => (false, b)⟩ false).map
      (fun g => g.2.map (fun m => m.sm_)) =
      some [Submessage.acknack_sm ⟨⟨ACKNACK, FLAG_E, 0⟩, 4, 2, ⟨3, 6, [4227858432]⟩, 1⟩] :=
  ⟨(acknack_bitmap_bounds
      ⟨⟨1, 4⟩, false, [(⟨7, 2⟩, { WriterInfo.fresh with recvd_ := ⟨[(0, 2), (5, 5)]⟩,
                                                          hb_range_ := (1, 8) })]⟩
      ⟨fun _ _ => (false, []), fun b _ _ _ => (false, b)⟩ false (fun _ _ _ _ => rfl)
      (fun e he => by
        have he1 : e = (⟨7, 2⟩, { WriterInfo.fresh with recvd_ := ⟨[(0, 2), (5, 5)]⟩,
                                                         hb_range_ := (1, 8) }) := by
          simpa using he
        subst he1
        refine ⟨⟨-1, by simp [DisjointSequence.RunsFrom]⟩, ?_, by decide, by decide⟩
        intro x hx
        simp only [DisjointSequence.Mem, List.mem_cons, List.mem_singleton, List.not_mem_nil,
          or_false] at hx
        obtain ⟨rr, hr, h1, h2⟩ := hx
        rcases hr with hr | hr <;> subst hr <;> simp only at h1 h2 <;> omega)).1,
   by decide⟩

/-- C20 (code defect): an ACKNACK whose bitmap has no word.  A durable reader that
has received nothing and knows the heartbeat range `[1, 2^37 - 31]` sends, when
an acknowledgement is pending, an ACKNACK with `numBits = 1` and a bitmap of 0
words, so that `numBits` exceeds 32 times the number of words:
`bitmap_num_longs` converts the quotient `2^32` to a `CORBA::ULong`, which gives
0, and the bitmap that was started with one word is resized to that length.
The state is reached by the first heartbeat of the writer: a durable reader that
has received nothing answers the non-final heartbeat `[1, 2^37 - 31]` at once
with that ACKNACK. -/
theorem acknack_bitmap_without_words :
    bitmap_num_longs 1 137438953441 = 0 ∧
    (RtpsReader.gather_ack_nacks_i
        ⟨⟨1, 4⟩, true, [(⟨7, 2⟩, { WriterInfo.fresh with hb_range_ := (1, 137438953441),
                                                           ack_pending_ := true })]⟩
        true ⟨fun _ _ => (false, []), fun b _ _ _ => (false, b)⟩ false).map
      (fun g => g.2.map (fun m => m.sm_)) =
      some [Submessage.acknack_sm ⟨⟨ACKNACK, FLAG_E, 0⟩, 4, 2, ⟨1, 1, []⟩, 1⟩] ∧
    (RtpsReader.process_heartbeat_i ⟨⟨1, 4⟩, true, [(⟨7, 2⟩, WriterInfo.fresh)]⟩ true
        ⟨fun _ _ => (false, []), fun b _ _ _ => (false, b)⟩
        ⟨⟨HEARTBEAT, FLAG_E, HEARTBEAT_SZ⟩, 4, 2, 1, 137438953441, 1⟩ ⟨7, 2⟩).map
      (fun res => res.meta_submessages.map (fun m => m.sm_)) =
      some [Submessage.acknack_sm ⟨⟨ACKNACK, FLAG_E, 0⟩, 4, 2, ⟨1, 1, []⟩, 1⟩] ∧
    ¬ (1 ≤ 32 * ([] : LongSeq8).length) := by
  refine ⟨by decide, by decide, by decide, by decide⟩

/-! ## Outgoing ACKNACK counter -/

theorem acknack_counts_append (wid : RepoId) (a b : List MetaSubmessage) :
    acknack_counts wid (a ++ b) = acknack_counts wid a ++ acknack_counts wid b := by
  induction a with
  | nil => rfl
  | cons m rest ih =>
    show acknack_counts wid (m :: (rest ++ b)) = _
    simp only [acknack_counts]
    cases m.sm_ <;> simp only [] <;> first | exact ih | (split_ifs <;> simp [ih])

theorem acknack_counts_nack_frags (wid : RepoId) (f : NackFragSubmessage → MetaSubmessage)
    (hf : ∀ nf, ∃ nf1, (f nf).sm_ = Submessage.nack_frag_sm nf1) (l : List NackFragSubmessage) :
    acknack_counts wid (l.map f) = [] := by
  induction l with
  | nil => rfl
  | cons nf rest ih =>
    obtain ⟨nf1, h1⟩ := hf nf
    simp only [List.map_cons, acknack_counts, h1, ih]

theorem gather_ack_nacks_wi_counts (id_ : RepoId) (durable : Bool) (rs : ReceiveStrategy)
    (finalFlag : Bool) (wid : RepoId) (info : WriterInfo) (g : WriterInfo × List MetaSubmessage)
    (h : gather_ack_nacks_wi id_ durable true rs finalFlag wid info = some g) :
    (∀ w, acknack_counts w g.2 =
      if w = wid ∧ acknack_emitted durable finalFlag info = true
      then [wrap_int32 (info.acknack_count_ + 1)] else []) ∧
    g.1.acknack_count_ =
      (if acknack_emitted durable finalFlag info = true
       then wrap_int32 (info.acknack_count_ + 1) else info.acknack_count_) := by
  unfold gather_ack_nacks_wi at h
  simp only [Bool.not_true, Bool.false_eq_true, if_false] at h
  unfold acknack_emitted
  by_cases c : (info.ack_pending_ || (info.should_nack || should_nack_durable durable info)
      || finalFlag) = true
  · rw [if_pos c] at h
    cases hg : generate_nack_frags rs
      { info with ack_pending_ := false,
                  recvd_ := (acknack_bitmap durable info info.ack_pending_
                    (info.should_nack || should_nack_durable durable info)).2.2.2,
                  acknack_count_ := wrap_int32 (info.acknack_count_ + 1) } wid with
    | none => rw [hg] at h; cases h
    | some g1 =>
      rw [hg] at h
      have hf := generate_nack_frags_frame _ _ _ _ hg
      cases h
      simp only
      rw [hf, if_pos c]
      refine ⟨fun w => ?_, rfl⟩
      simp only [acknack_counts]
      rw [acknack_counts_nack_frags w _ (fun nf => ⟨_, rfl⟩)]
      by_cases cw : w = wid
      · simp [cw, c]
      · have cw1 : ¬ wid = w := fun e => cw e.symm
        simp [cw, cw1]
  · rw [if_neg c] at h
    cases h
    rw [if_neg c]
    refine ⟨fun w => ?_, rfl⟩
    simp [acknack_counts, c]

theorem gather_ack_nacks_loop_counts_other (id_ : RepoId) (durable : Bool) (rs : ReceiveStrategy)
    (finalFlag : Bool) (w : RepoId) (l : List (RepoId × WriterInfo)) :
    ∀ t, gather_ack_nacks_loop id_ durable true rs finalFlag l = some t →
      (∀ e ∈ l, e.1 ≠ w) → acknack_counts w t.2 = [] := by
  induction l with
  | nil =>
    intro t ht _
    simp only [gather_ack_nacks_loop, Option.some.injEq] at ht
    subst ht
    rfl
  | cons e rest ih =>
    intro t ht hne
    unfold gather_ack_nacks_loop at ht
    cases hg : gather_ack_nacks_wi id_ durable true rs finalFlag e.1 e.2 with
    | none => rw [hg] at ht; cases ht
    | some g =>
      rw [hg] at ht
      cases hr : gather_ack_nacks_loop id_ durable true rs finalFlag rest with
      | none => rw [hr] at ht; cases ht
      | some t1 =>
        rw [hr] at ht
        cases ht
        have h1 := (gather_ack_nacks_wi_counts _ _ _ _ _ _ g hg).1 w
        have hw : ¬ (w = e.1 ∧ acknack_emitted durable finalFlag e.2 = true) :=
          fun c => hne e (List.mem_cons_self _ _) c.1.symm
        rw [if_neg hw] at h1
        simp only
        rw [acknack_counts_append, h1,
          ih t1 hr (fun e1 he1 => hne e1 (List.mem_cons_of_mem _ he1))]
        rfl

theorem gather_ack_nacks_loop_counts (id_ : RepoId) (durable : Bool) (rs : ReceiveStrategy)
    (finalFlag : Bool) (w : RepoId) (info : WriterInfo) (l : List (RepoId × WriterInfo)) :
    ∀ t, gather_ack_nacks_loop id_ durable true rs finalFlag l = some t →
      (l.map (fun e => e.1)).Nodup → guid_find l w = some info →
      acknack_counts w t.2 =
        (if acknack_emitted durable finalFlag info = true
         then [wrap_int32 (info.acknack_count_ + 1)] else []) ∧
      ∃ info1, guid_find t.1 w = some info1 ∧
        info1.acknack_count_ =
          (if acknack_emitted durable finalFlag info = true
           then wrap_int32 (info.acknack_count_ + 1) else info.acknack_count_) := by
  induction l with
  | nil => intro t _ _ hf; simp [guid_find] at hf
  | cons e rest ih =>
    intro t ht hnd hf
    unfold gather_ack_nacks_loop at ht
    cases hg : gather_ack_nacks_wi id_ durable true rs finalFlag e.1 e.2 with
    | none => rw [hg] at ht; cases ht
    | some g =>
      rw [hg] at ht
      cases hr : gather_ack_nacks_loop id_ durable true rs finalFlag rest with
      | none => rw [hr] at ht; cases ht
      | some t1 =>
        rw [hr] at ht
        cases ht
        obtain ⟨k1, k2⟩ := gather_ack_nacks_wi_counts _ _ _ _ _ _ g hg
        simp only [List.map_cons, List.nodup_cons, List.mem_map, not_exists, not_and] at hnd
        simp only
        rw [acknack_counts_append]
        by_cases c : e.1 = w
        · have hx : e.2 = info := by
            simpa [guid_find, List.find?_cons, c] using hf
          have hrest : acknack_counts w t1.2 = [] :=
            gather_ack_nacks_loop_counts_other _ _ _ _ w rest t1 hr
              (fun e1 he1 h => hnd.1 e1 he1 (h.trans c.symm))
          rw [hrest, k1 w, List.append_nil, hx]
          refine ⟨?_, g.1, by simp [guid_find, List.find?_cons, c], by rw [k2, hx]⟩
          by_cases ce : acknack_emitted durable finalFlag info = true
          · rw [if_pos ce, if_pos ⟨c.symm, ce⟩]
          · rw [if_neg ce, if_neg (fun h => ce h.2)]
        · have hf1 : guid_find rest w = some info := by
            simpa [guid_find, List.find?_cons, c] using hf
          obtain ⟨h1, info1, h2, h3⟩ := ih t1 hr hnd.2 hf1
          have hw : ¬ (w = e.1 ∧ acknack_emitted durable finalFlag e.2 = true) :=
            fun h => c h.1.symm
          rw [k1 w, if_neg hw, h1, List.nil_append]
          exact ⟨rfl, info1, by simpa [guid_find, List.find?_cons, c] using h2, h3⟩

/-- C21: the outgoing ACKNACK counter.  For every writer record of a reader whose
records have distinct GUIDs, one call of `gather_ack_nacks_i` pushes for that
writer either exactly one ACKNACK, when `ack_pending_ || nack || finalFlag`, or
none.  In the first case the ACKNACK's count is the record's `acknack_count`
after the increment `++acknack_count_` (the 32-bit successor, which is
`acknack_count + 1` below `2^31 - 1`), and the record keeps that value; in the
second case `acknack_count` is unchanged.  The call returns whenever no record
holds a fragment hint. -/
theorem acknack_counter (r : RtpsReader) (rs : ReceiveStrategy) (finalFlag : Bool)
    (w : RepoId) (info : WriterInfo)
    (hnd : (r.remote_writers_.map (fun e => e.1)).Nodup)
    (hfind : guid_find r.remote_writers_ w = some info) :
    (∀ g, r.gather_ack_nacks_i true rs finalFlag = some g →
      ∃ info1, guid_find g.1.remote_writers_ w = some info1 ∧
        (acknack_emitted r.durable_ finalFlag info = true →
          acknack_counts w g.2 = [info1.acknack_count_] ∧
          info1.acknack_count_ = wrap_int32 (info.acknack_count_ + 1) ∧
          (-2147483648 ≤ info.acknack_count_ → info.acknack_count_ < 2147483647 →
            info1.acknack_count_ = info.acknack_count_ + 1)) ∧
        (acknack_emitted r.durable_ finalFlag info = false →
          acknack_counts w g.2 = [] ∧ info1.acknack_count_ = info.acknack_count_)) ∧
    ((∀ e ∈ r.remote_writers_, e.2.frags_ = []) →
      ∃ g, r.gather_ack_nacks_i true rs finalFlag = some g) := by
  constructor
  · intro g hg
    unfold RtpsReader.gather_ack_nacks_i at hg
    cases ht : gather_ack_nacks_loop r.id_ r.durable_ true rs finalFlag r.remote_writers_ with
    | none => rw [ht] at hg; cases hg
    | some t =>
      rw [ht] at hg
      cases hg
      obtain ⟨h1, info1, h2, h3⟩ :=
        gather_ack_nacks_loop_counts _ _ _ _ w info _ t ht hnd hfind
      refine ⟨info1, h2, fun ce => ?_, fun ce => ?_⟩
      · rw [if_pos ce] at h1 h3
        refine ⟨by rw [h1, h3], h3, fun hlo hhi => ?_⟩
        rw [h3]
        exact wrap_int32_succ _ hlo hhi
      · rw [if_neg (by simp [ce])] at h1 h3
        exact ⟨h1, h3⟩
  · intro hfr
    obtain ⟨t, ht⟩ := gather_ack_nacks_loop_returns r.id_ r.durable_ rs finalFlag _ hfr
    unfold RtpsReader.gather_ack_nacks_i
    rw [ht]
    exact ⟨_, rfl⟩

/-- Witness for C21: a reader with two writer records answers a final gather
twice; the ACKNACKs for the writer `(7, 2)` carry the counts 1 and then 2. -/
theorem acknack_counter_witness :
    (∀ g, RtpsReader.gather_ack_nacks_i
        ⟨⟨1, 4⟩, false, [(⟨7, 2⟩, WriterInfo.fresh), (⟨7, 3⟩, WriterInfo.fresh)]⟩ true
        ⟨fun _ _ => (false, []), fun b _ _ _ => (false, b)⟩ true = some g →
      ∃ info1, guid_find g.1.remote_writers_ ⟨7, 2⟩ = some info1 ∧
        (acknack_emitted false true WriterInfo.fresh = true →
          acknack_counts ⟨7, 2⟩ g.2 = [info1.acknack_count_] ∧
          info1.acknack_count_ = wrap_int32 (WriterInfo.fresh.acknack_count_ + 1) ∧
          (-2147483648 ≤ WriterInfo.fresh.acknack_count_ →
            WriterInfo.fresh.acknack_count_ < 2147483647 →
            info1.acknack_count_ = WriterInfo.fresh.acknack_count_ + 1)) ∧
        (acknack_emitted false true WriterInfo.fresh = false →
          acknack_counts ⟨7, 2⟩ g.2 = [] ∧
          info1.acknack_count_ = WriterInfo.fresh.acknack_count_)) ∧
    (RtpsReader.gather_ack_nacks_i
        ⟨⟨1, 4⟩, false, [(⟨7, 2⟩, WriterInfo.fresh), (⟨7, 3⟩, WriterInfo.fresh)]⟩ true
        ⟨fun _ _ => (false, []), fun b _ _ _ => (false, b)⟩ true).map
      (fun g => acknack_counts ⟨7, 2⟩ g.2) = some [1] ∧
    ((RtpsReader.gather_ack_nacks_i
        ⟨⟨1, 4⟩, false, [(⟨7, 2⟩, WriterInfo.fresh), (⟨7, 3⟩, WriterInfo.fresh)]⟩ true
        ⟨fun _ _ => (false, []), fun b _ _ _ => (false, b)⟩ true).bind
      (fun g => RtpsReader.gather_ack_nacks_i g.1 true
        ⟨fun _ _ => (false, []), fun b _ _ _ => (false, b)⟩ true)).map
      (fun g => (acknack_counts ⟨7, 2⟩ g.2,
        g.1.remote_writers_.map (fun e => e.2.acknack_count_))) = some ([2], [2, 2]) ∧
    (RtpsReader.gather_ack_nacks_i
        ⟨⟨1, 4⟩, false, [(⟨7, 2⟩, { WriterInfo.fresh with recvd_ := ⟨[(0, 5)]⟩,
                                                            hb_range_ := (1, 5),
                                                            acknack_count_ := 4 })]⟩ true
        ⟨fun _ _ => (false, []), fun b _ _ _ => (false, b)⟩ false).map
      (fun g => (acknack_counts ⟨7, 2⟩ g.2,
        g.1.remote_writers_.map (fun e => e.2.acknack_count_))) = some ([], [4]) :=
  ⟨(acknack_counter
      ⟨⟨1, 4⟩, false, [(⟨7, 2⟩, WriterInfo.fresh), (⟨7, 3⟩, WriterInfo.fresh)]⟩
      ⟨fun _ _ => (false, []), fun b _ _ _ => (false, b)⟩ true ⟨7, 2⟩ WriterInfo.fresh
      (by decide) (by decide)).1, by decide, by decide, by decide⟩

/-! ## Directed GAPs of a durable writer -/

/-- C26 (code defect): the GAPs that `gather_gaps_i` pushes for a durable writer
and a non-directed target are not directed at their readers.  The writer has the
readers `(9, 7)`, which expects no durable data, and `(9, 8)`, a durable reader
still waiting for its historic samples.  For the gaps `{1, 2}` and the target
`GUID_UNKNOWN` one GAP is pushed, for `(9, 7)`; its `dst_guid_` is `(9, 0)`, the
prefix of the reader with the unknown entity id, and the GAP's `readerId` is
`ENTITYID_UNKNOWN`, not 7: only the prefix is copied into `dst_guid_`, and the
`readerId` is assigned to the local `gap`, after it has been copied into the
meta-submessage. -/
theorem gather_gaps_not_directed :
    RtpsWriter.gather_gaps_i
        ⟨[(⟨9, 7⟩, ReaderInfo.fresh false), (⟨9, 8⟩, ReaderInfo.fresh true)],
          some ⟨[]⟩, 3, [], [], ⟨1, 2⟩, true, 0⟩ GUID_UNKNOWN ⟨[(1, 2)]⟩ =
      [⟨⟨1, 2⟩, ⟨9, ENTITYID_UNKNOWN⟩, [],
        Submessage.gap_sm ⟨⟨GAP, FLAG_E, 0⟩, ENTITYID_UNKNOWN, 2, 1, ⟨3, 1, [0]⟩⟩⟩] ∧
    (ReaderInfo.fresh false).expecting_durable_data = false ∧
    (ReaderInfo.fresh true).expecting_durable_data = true ∧
    (⟨9, ENTITYID_UNKNOWN⟩ : RepoId) ≠ ⟨9, 7⟩ ∧ ENTITYID_UNKNOWN ≠ 7 := by
  refine ⟨by decide, by decide, by decide, by decide, by decide⟩

/-! ## Contents of the heartbeats of `gather_heartbeats` -/

theorem gather_heartbeats_fold_durable (has_data : Bool) (now timeout : Nat) :
    ∀ (l : List (RepoId × ReaderInfo)) (st : HeartbeatGather),
      ((l.foldl (gather_heartbeats_reader has_data now timeout) st).has_durable_data =
        (st.has_durable_data || l.any (fun ri => ri.2.unexpired_durable_data now timeout))) ∧
      st.durable_max ≤ (l.foldl (gather_heartbeats_reader has_data now timeout) st).durable_max ∧
      (∀ ri ∈ l, ri.2.unexpired_durable_data now timeout = true →
        map_last_key ri.2.durable_data_ ≤
          (l.foldl (gather_heartbeats_reader has_data now timeout) st).durable_max) ∧
      ((l.foldl (gather_heartbeats_reader has_data now timeout) st).durable_max = st.durable_max ∨
        ∃ ri ∈ l, ri.2.unexpired_durable_data now timeout = true ∧
          map_last_key ri.2.durable_data_ =
            (l.foldl (gather_heartbeats_reader has_data now timeout) st).durable_max) := by
  intro l
  induction l with
  | nil => intro st; simp
  | cons ri rest ih =>
    intro st
    simp only [List.foldl_cons, List.any_cons]
    obtain ⟨i1, i2, i3, i4⟩ := ih (gather_heartbeats_reader has_data now timeout st ri)
    have hhd : (gather_heartbeats_reader has_data now timeout st ri).has_durable_data =
          (st.has_durable_data || ri.2.unexpired_durable_data now timeout) ∧
        (gather_heartbeats_reader has_data now timeout st ri).durable_max =
          (if ri.2.unexpired_durable_data now timeout = true then
            (if map_last_key ri.2.durable_data_ > st.durable_max then
              map_last_key ri.2.durable_data_ else st.durable_max)
           else st.durable_max) := by
      unfold gather_heartbeats_reader ReaderInfo.unexpired_durable_data
      by_cases c2 : now > ri.2.durable_timestamp_ + timeout
      · have c2n : ¬ now ≤ ri.2.durable_timestamp_ + timeout := by omega
        cases has_data <;> cases ri.2.handshake_done_ <;> cases ri.2.durable_data_.isEmpty <;>
          simp [c2, c2n]
      · have c2n : now ≤ ri.2.durable_timestamp_ + timeout := by omega
        cases has_data <;> cases ri.2.handshake_done_ <;> cases ri.2.durable_data_.isEmpty <;>
          simp [c2, c2n]
    have hstep : (gather_heartbeats_reader has_data now timeout st ri).has_durable_data =
          (st.has_durable_data || ri.2.unexpired_durable_data now timeout) ∧
        st.durable_max ≤ (gather_heartbeats_reader has_data now timeout st ri).durable_max ∧
        (ri.2.unexpired_durable_data now timeout = true →
          map_last_key ri.2.durable_data_ ≤
            (gather_heartbeats_reader has_data now timeout st ri).durable_max) ∧
        ((gather_heartbeats_reader has_data now timeout st ri).durable_max = st.durable_max ∨
          (ri.2.unexpired_durable_data now timeout = true ∧
            map_last_key ri.2.durable_data_ =
              (gather_heartbeats_reader has_data now timeout st ri).durable_max)) := by
      refine ⟨hhd.1, ?_, ?_, ?_⟩
      · rw [hhd.2]
        split_ifs <;> omega
      · intro hu
        rw [hhd.2, if_pos hu]
        split_ifs <;> omega
      · rw [hhd.2]
        by_cases hu : ri.2.unexpired_durable_data now timeout = true
        · rw [if_pos hu]
          split_ifs
          · exact Or.inr ⟨hu, rfl⟩
          · exact Or.inl rfl
        · rw [if_neg hu]
          exact Or.inl rfl
    obtain ⟨s1, s2, s3, s4⟩ := hstep
    refine ⟨?_, le_trans s2 i2, ?_, ?_⟩
    · rw [i1, s1, Bool.or_assoc]
    · intro r hr hu
      rcases List.mem_cons.1 hr with h | h
      · subst h
        exact le_trans (s3 hu) i2
      · exact i3 r h hu
    · rcases i4 with h | ⟨r, hr, hu, he⟩
      · rcases s4 with h2 | ⟨hu, he⟩
        · exact Or.inl (h.trans h2)
        · exact Or.inr ⟨ri, List.mem_cons_self _ _, hu, he.trans h.symm⟩
      · exact Or.inr ⟨r, List.mem_cons_of_mem _ hr, hu, he⟩

theorem guid_set_insert_append (l : List RepoId) (k : RepoId)
    (h : ∀ x ∈ l, x.lt k = true) : guid_set_insert l k = l ++ [k] := by
  induction l with
  | nil => rfl
  | cons x rest ih =>
    have hx := h x (List.mem_cons_self _ _)
    have h1 : k.lt x = false := by
      cases hk : k.lt x with
      | false => rfl
      | true =>
        have := repoId_lt_strict.2.1 x k x hx hk
        rw [repoId_lt_strict.1 x] at this
        cases this
    have h2 : k ≠ x := by
      intro e
      rw [e, repoId_lt_strict.1 x] at hx
      cases hx
    simp only [guid_set_insert, h1, Bool.false_eq_true, if_false, h2, List.cons_append]
    rw [ih (fun y hy => h y (List.mem_cons_of_mem _ hy))]

theorem gather_heartbeats_fold_pre (has_data : Bool) (now timeout : Nat) :
    ∀ (l : List (RepoId × ReaderInfo)) (st : HeartbeatGather),
      KeysSorted RepoId.lt l →
      (∀ x ∈ st.pre_assoc_hb_guids, ∀ ri ∈ l, x.lt ri.1 = true) →
      (l.foldl (gather_heartbeats_reader has_data now timeout) st).pre_assoc_hb_guids =
        st.pre_assoc_hb_guids ++
          (l.filter (fun ri => !has_data && !ri.2.handshake_done_)).map (fun ri => ri.1) := by
  intro l
  induction l with
  | nil => intro st _ _; simp
  | cons ri rest ih =>
    intro st hs hlt
    simp only [List.foldl_cons]
    have hs1 : KeysSorted RepoId.lt rest := (List.pairwise_cons.1 hs).2
    have hhead : ∀ r ∈ rest, ri.1.lt r.1 = true := (List.pairwise_cons.1 hs).1
    have hpre : (gather_heartbeats_reader has_data now timeout st ri).pre_assoc_hb_guids =
        if (!has_data && !ri.2.handshake_done_) = true then st.pre_assoc_hb_guids ++ [ri.1]
        else st.pre_assoc_hb_guids := by
      have hins := guid_set_insert_append st.pre_assoc_hb_guids ri.1
        (fun x hx => hlt x hx ri (List.mem_cons_self _ _))
      unfold gather_heartbeats_reader
      cases has_data <;> cases ri.2.handshake_done_ <;> simp only [Bool.not_true, Bool.not_false,
        Bool.false_eq_true, if_false, if_true, Bool.and_true, Bool.and_false, Bool.false_and,
        Bool.true_and] <;> split_ifs <;> simp [hins]
    rw [ih _ hs1, hpre]
    · by_cases c : (!has_data && !ri.2.handshake_done_) = true
      · rw [if_pos c]
        simp [List.filter_cons, c]
      · rw [if_neg c]
        simp [List.filter_cons, c]
    · intro x hx r hr
      rw [hpre] at hx
      by_cases c : (!has_data && !ri.2.handshake_done_) = true
      · rw [if_pos c] at hx
        rcases List.mem_append.1 hx with h | h
        · exact hlt x h r (List.mem_cons_of_mem _ hr)
        · rw [List.mem_singleton.1 h]
          exact hhead r hr
      · rw [if_neg c] at hx
        exact hlt x hx r (List.mem_cons_of_mem _ hr)

theorem mem_guid_set_insert (k x : RepoId) :
    ∀ l : List RepoId, x ∈ guid_set_insert l k → x ∈ l ∨ x = k := by
  intro l
  induction l with
  | nil =>
    intro h
    simp only [guid_set_insert, List.mem_singleton] at h
    exact Or.inr h
  | cons y rest ih =>
    intro h
    simp only [guid_set_insert] at h
    split_ifs at h with c1 c2
    · rcases List.mem_cons.1 h with h | h
      · exact Or.inr h
      · exact Or.inl h
    · exact Or.inl h
    · rcases List.mem_cons.1 h with h | h
      · exact Or.inl (h ▸ List.mem_cons_self _ _)
      · rcases ih h with h | h
        · exact Or.inl (List.mem_cons_of_mem _ h)
        · exact Or.inr h

theorem gather_heartbeats_fold_pre_mem (has_data : Bool) (now timeout : Nat) (x : RepoId) :
    ∀ (l : List (RepoId × ReaderInfo)) (st : HeartbeatGather),
      x ∈ (l.foldl (gather_heartbeats_reader has_data now timeout) st).pre_assoc_hb_guids →
      x ∈ st.pre_assoc_hb_guids ∨ ∃ ri ∈ l, ri.1 = x := by
  intro l
  induction l with
  | nil => intro st h; exact Or.inl h
  | cons ri rest ih =>
    intro st h
    simp only [List.foldl_cons] at h
    rcases ih _ h with h1 | ⟨r, hr, he⟩
    · have hpre : x ∈ st.pre_assoc_hb_guids ∨ x = ri.1 := by
        unfold gather_heartbeats_reader at h1
        revert h1
        cases has_data <;> cases ri.2.handshake_done_ <;>
          simp only [Bool.not_true, Bool.not_false, Bool.false_eq_true, if_false, if_true] <;>
          split_ifs <;> intro h1 <;>
          first
            | exact Or.inl h1
            | exact mem_guid_set_insert _ _ _ h1
      rcases hpre with h2 | h2
      · exact Or.inl h2
      · exact Or.inr ⟨ri, List.mem_cons_self _ _, h2.symm⟩
    · exact Or.inr ⟨r, List.mem_cons_of_mem _ hr, he⟩

theorem heartbeat_final_flag (is_final : Bool) :
    (FLAG_E ||| (if is_final = true then FLAG_F else 0)) &&& FLAG_F ≠ 0 ↔ is_final = true := by
  cases is_final <;> decide

theorem map_last_key_max {α : Type} (m : List (Int × α))
    (hs : m.Pairwise (fun a b => a.1 < b.1)) (hne : m.isEmpty = false) :
    (∃ e ∈ m, e.1 = map_last_key m) ∧ ∀ e ∈ m, e.1 ≤ map_last_key m := by
  induction m with
  | nil => simp at hne
  | cons x rest ih =>
    cases rest with
    | nil => simp [map_last_key]
    | cons y ys =>
      have hk : map_last_key (x :: y :: ys) = map_last_key (y :: ys) := by
        unfold map_last_key
        rw [List.getLast?_cons_cons]
      obtain ⟨h1, h2⟩ := List.pairwise_cons.1 hs
      obtain ⟨⟨e, he, hee⟩, i2⟩ := ih h2 rfl
      rw [hk]
      refine ⟨⟨e, List.mem_cons_of_mem _ he, hee⟩, fun e1 he1 => ?_⟩
      rcases List.mem_cons.1 he1 with c | c
      · subst c
        have := h1 e he
        omega
      · exact i2 e1 c

theorem unexpired_durable_data_nonempty (ri : ReaderInfo) (now timeout : Nat)
    (h : ri.unexpired_durable_data now timeout = true) : ri.durable_data_.isEmpty = false := by
  unfold ReaderInfo.unexpired_durable_data at h
  simp only [Bool.and_eq_true, Bool.not_eq_true', decide_eq_true_eq] at h
  exact h.1

theorem gather_heartbeats_durable_max (has_data : Bool) (now timeout : Nat)
    (l : List (RepoId × ReaderInfo)) (st : HeartbeatGather) (h0 : st.durable_max = 0)
    (hdd : ∀ ri ∈ l, ri.2.durable_data_.Pairwise (fun a b => a.1 < b.1)) :
    0 ≤ (l.foldl (gather_heartbeats_reader has_data now timeout) st).durable_max ∧
    (∀ ri ∈ l, ri.2.unexpired_durable_data now timeout = true →
      ∀ e ∈ ri.2.durable_data_,
        e.1 ≤ (l.foldl (gather_heartbeats_reader has_data now timeout) st).durable_max) ∧
    ((l.foldl (gather_heartbeats_reader has_data now timeout) st).durable_max = 0 ∨
      ∃ ri ∈ l, ri.2.unexpired_durable_data now timeout = true ∧
        ∃ e ∈ ri.2.durable_data_,
          e.1 = (l.foldl (gather_heartbeats_reader has_data now timeout) st).durable_max) := by
  obtain ⟨_, d2, d3, d4⟩ := gather_heartbeats_fold_durable has_data now timeout l st
  rw [h0] at d2 d4
  refine ⟨d2, fun ri hri hu e he => ?_, ?_⟩
  · exact le_trans ((map_last_key_max _ (hdd ri hri)
      (unexpired_durable_data_nonempty _ _ _ hu)).2 e he) (d3 ri hri hu)
  · rcases d4 with h | ⟨ri, hri, hu, he⟩
    · exact Or.inl h
    · obtain ⟨e, hem, hee⟩ := (map_last_key_max _ (hdd ri hri)
        (unexpired_durable_data_nonempty _ _ _ hu)).1
      exact Or.inr ⟨ri, hri, hu, e, hem, hee.trans he⟩

theorem heartbeat_messages_tail (security : Bool) (id_ : RepoId)
    (to_guids_ pre_assoc_hb_guids : List RepoId) (hb : HeartBeatSubmessage) (stop : Bool) :
    heartbeat_messages security id_ to_guids_ pre_assoc_hb_guids hb stop =
      pre_assoc_hb_guids.map (fun g => (⟨id_, g, [], Submessage.heartbeat_sm
        { hb with smHeader := { hb.smHeader with flags := hb.smHeader.flags &&& (255 - FLAG_F) }
                  readerId := g.entityId }⟩ : MetaSubmessage)) ++
      (if stop = true then []
       else if (security &&
          decide (id_.entityId = ENTITYID_P2P_BUILTIN_PARTICIPANT_VOLATILE_SECURE_WRITER)) = true
        then to_guids_.map (fun g => (⟨id_, g, [], Submessage.heartbeat_sm
          { hb with readerId := g.entityId }⟩ : MetaSubmessage))
        else [⟨id_, GUID_UNKNOWN, to_guids_, Submessage.heartbeat_sm hb⟩]) := by
  unfold heartbeat_messages
  simp only
  split_ifs <;> simp

theorem gather_heartbeats_state (w : RtpsWriter) (security : Bool) (now timeout : Nat)
    (additional_guids : List RepoId) (allow_final : Bool) :
    ∃ st : HeartbeatGather,
      st = w.remote_readers_.foldl
        (gather_heartbeats_reader (send_buff_has_data w.send_buff_) now timeout)
        ⟨additional_guids, [], [], false, SequenceNumber.ZERO, []⟩ ∧
      (w.gather_heartbeats true security now timeout additional_guids
          allow_final).meta_submessages =
        heartbeat_messages security w.id_ st.to_guids_ st.pre_assoc_hb_guids
          ⟨⟨HEARTBEAT, FLAG_E ||| (if (allow_final && w.elems_not_acked_.isEmpty) = true
              then FLAG_F else 0), HEARTBEAT_SZ⟩, ENTITYID_UNKNOWN, w.id_.entityId,
            if w.durable_ = true ∨ send_buff_has_data w.send_buff_ = false then (1 : Int)
              else (w.send_buff_.map SingleSendBuffer.low).getD 1,
            max st.durable_max (if send_buff_has_data w.send_buff_ = true
              then (w.send_buff_.map SingleSendBuffer.high).getD 0 else 0),
            wrap_int32 (w.heartbeat_count_ + 1)⟩
          ((allow_final && w.elems_not_acked_.isEmpty) &&
            !send_buff_has_data w.send_buff_ && !st.has_durable_data) := by
  refine ⟨_, rfl, ?_⟩
  have hhigh : (match w.send_buff_ with | none => (0 : Int) | some sb => sb.high) =
      (w.send_buff_.map SingleSendBuffer.high).getD 0 := by
    cases w.send_buff_ <;> rfl
  have hlow : (match w.send_buff_ with | none => (1 : Int) | some sb => sb.low) =
      (w.send_buff_.map SingleSendBuffer.low).getD 1 := by
    cases w.send_buff_ <;> rfl
  have hfirst : (if (w.durable_ || !send_buff_has_data w.send_buff_) = true then (1 : Int)
        else (w.send_buff_.map SingleSendBuffer.low).getD 1) =
      (if w.durable_ = true ∨ send_buff_has_data w.send_buff_ = false then 1
        else (w.send_buff_.map SingleSendBuffer.low).getD 1) := by
    cases w.durable_ <;> cases send_buff_has_data w.send_buff_ <;> simp
  unfold RtpsWriter.gather_heartbeats
  simp only [Bool.not_true, Bool.false_eq_true, if_false, SequenceNumber.ZERO]
  rw [show (match w.send_buff_ with | none => false | some sb => !sb.empty) =
    send_buff_has_data w.send_buff_ from rfl, hhigh, hlow, hfirst]

/-- C28: the contents of the heartbeats of `gather_heartbeats`.  The reader map
and the durable data of every reader being in key order, let `dm` be the largest
key of the unexpired durable data of the readers (0 when there is none).  The
call pushes the pre-handshake heartbeats and then the combined heartbeat `hb`:
`hb` has `firstSN = 1` when the writer is durable or the send buffer holds no
data and `firstSN = send_buff.low()` otherwise, `lastSN = max(dm,
send_buff.high())` with 0 for a buffer without data, and the final flag exactly
when `allow_final` holds and `elems_not_acked_` is empty.  When the heartbeat
would be final and there is neither buffered data nor unexpired durable data,
nothing is pushed after the pre-handshake heartbeats; otherwise `hb` is pushed
once, non-directed, or, by the secure volatile writer of a build with
`OPENDDS_SECURITY`, as one directed copy for each destination. -/
theorem heartbeat_contents (w : RtpsWriter) (security : Bool) (now timeout : Nat)
    (additional_guids : List RepoId) (allow_final : Bool)
    (hs : KeysSorted RepoId.lt w.remote_readers_)
    (hdd : ∀ ri ∈ w.remote_readers_, ri.2.durable_data_.Pairwise (fun a b => a.1 < b.1)) :
    ∃ (dm : Int) (hb : HeartBeatSubmessage) (to_guids : List RepoId)
        (tail : List MetaSubmessage),
      (0 ≤ dm ∧
        (∀ ri ∈ w.remote_readers_, ri.2.unexpired_durable_data now timeout = true →
          ∀ e ∈ ri.2.durable_data_, e.1 ≤ dm) ∧
        (dm = 0 ∨ ∃ ri ∈ w.remote_readers_, ri.2.unexpired_durable_data now timeout = true ∧
          ∃ e ∈ ri.2.durable_data_, e.1 = dm)) ∧
      (hb.smHeader.submessageId = HEARTBEAT ∧ hb.readerId = ENTITYID_UNKNOWN ∧
        hb.writerId = w.id_.entityId ∧
        hb.firstSN = (if w.durable_ = true ∨ send_buff_has_data w.send_buff_ = false then 1
          else (w.send_buff_.map SingleSendBuffer.low).getD 1) ∧
        hb.lastSN = max dm (if send_buff_has_data w.send_buff_ = true
          then (w.send_buff_.map SingleSendBuffer.high).getD 0 else 0) ∧
        (hb.smHeader.flags &&& FLAG_F ≠ 0 ↔
          (allow_final = true ∧ w.elems_not_acked_ = []))) ∧
      (w.gather_heartbeats true security now timeout additional_guids
          allow_final).meta_submessages =
        (w.remote_readers_.filter
            (fun ri => !send_buff_has_data w.send_buff_ && !ri.2.handshake_done_)).map
          (fun ri => (⟨w.id_, ri.1, [], Submessage.heartbeat_sm
            { hb with smHeader := { hb.smHeader with
                                    flags := hb.smHeader.flags &&& (255 - FLAG_F) }
                      readerId := ri.1.entityId }⟩ : MetaSubmessage))
        ++ tail ∧
      ((allow_final = true ∧ w.elems_not_acked_ = [] ∧ send_buff_has_data w.send_buff_ = false ∧
          ∀ ri ∈ w.remote_readers_, ri.2.unexpired_durable_data now timeout = false) →
        tail = []) ∧
      (¬ (allow_final = true ∧ w.elems_not_acked_ = [] ∧ send_buff_has_data w.send_buff_ = false ∧
          ∀ ri ∈ w.remote_readers_, ri.2.unexpired_durable_data now timeout = false) →
        (¬ (security = true ∧
            w.id_.entityId = ENTITYID_P2P_BUILTIN_PARTICIPANT_VOLATILE_SECURE_WRITER) →
          tail = [⟨w.id_, GUID_UNKNOWN, to_guids, Submessage.heartbeat_sm hb⟩]) ∧
        ((security = true ∧
            w.id_.entityId = ENTITYID_P2P_BUILTIN_PARTICIPANT_VOLATILE_SECURE_WRITER) →
          tail = to_guids.map (fun g => (⟨w.id_, g, [], Submessage.heartbeat_sm
            { hb with readerId := g.entityId }⟩ : MetaSubmessage)))) := by
  obtain ⟨st, hst, hm⟩ :=
    gather_heartbeats_state w security now timeout additional_guids allow_final
  obtain ⟨d1, _, _, _⟩ := gather_heartbeats_fold_durable (send_buff_has_data w.send_buff_)
    now timeout w.remote_readers_ ⟨additional_guids, [], [], false, SequenceNumber.ZERO, []⟩
  have hdm := gather_heartbeats_durable_max (send_buff_has_data w.send_buff_) now timeout
    w.remote_readers_ ⟨additional_guids, [], [], false, SequenceNumber.ZERO, []⟩ rfl hdd
  have hpre := gather_heartbeats_fold_pre (send_buff_has_data w.send_buff_) now timeout
    w.remote_readers_ ⟨additional_guids, [], [], false, SequenceNumber.ZERO, []⟩ hs
    (fun x hx => by simp at hx)
  simp only [List.nil_append] at hpre
  rw [← hst] at d1 hdm hpre
  have hfin : ((allow_final && w.elems_not_acked_.isEmpty) = true) ↔
      (allow_final = true ∧ w.elems_not_acked_ = []) := by
    simp [List.isEmpty_iff]
  have hstop : ((allow_final && w.elems_not_acked_.isEmpty) &&
        !send_buff_has_data w.send_buff_ && !st.has_durable_data) = true ↔
      (allow_final = true ∧ w.elems_not_acked_ = [] ∧ send_buff_has_data w.send_buff_ = false ∧
        ∀ ri ∈ w.remote_readers_, ri.2.unexpired_durable_data now timeout = false) := by
    rw [d1]
    simp only [Bool.false_or, Bool.and_eq_true, Bool.not_eq_true', List.any_eq_false,
      List.isEmpty_iff, Bool.not_eq_true]
    constructor
    · rintro ⟨⟨⟨a, b⟩, c⟩, d⟩
      exact ⟨a, b, c, d⟩
    · rintro ⟨a, b, c, d⟩
      exact ⟨⟨⟨a, b⟩, c⟩, d⟩
  have hsec : (security &&
      decide (w.id_.entityId = ENTITYID_P2P_BUILTIN_PARTICIPANT_VOLATILE_SECURE_WRITER)) = true ↔
      (security = true ∧
        w.id_.entityId = ENTITYID_P2P_BUILTIN_PARTICIPANT_VOLATILE_SECURE_WRITER) := by
    simp
  rw [heartbeat_messages_tail, hpre, List.map_map] at hm
  refine ⟨st.durable_max, _, st.to_guids_, _, hdm, ⟨rfl, rfl, rfl, rfl, rfl, ?_⟩, hm, ?_, ?_⟩
  · rw [← hfin]
    exact heartbeat_final_flag _
  · intro h
    rw [if_pos (hstop.2 h)]
  · intro h
    rw [if_neg (fun c => h (hstop.1 c))]
    refine ⟨fun hn => ?_, fun hy => ?_⟩
    · rw [if_neg (fun c => hn (hsec.1 c))]
    · rw [if_pos (hsec.2 hy)]
/-- Witness for C28: a durable writer whose send buffer holds the samples 3 and 5,
with 5 not yet acknowledged, and whose reader `(9, 7)` has the unexpired durable
data 4 and 7, pushes one combined heartbeat `[1, 7]` that is not final. -/
theorem heartbeat_contents_witness :
    (∃ (dm : Int) (hb : HeartBeatSubmessage),
      (0 ≤ dm ∧
        (∀ ri ∈ [((⟨9, 7⟩ : RepoId),
            { ReaderInfo.fresh true with
              handshake_done_ := true, durable_data_ := [(4, 40), (7, 70)],
              durable_timestamp_ := 8 })],
          ri.2.unexpired_durable_data 10 5 = true → ∀ e ∈ ri.2.durable_data_, e.1 ≤ dm) ∧
        (dm = 0 ∨ ∃ ri ∈ [((⟨9, 7⟩ : RepoId),
            { ReaderInfo.fresh true with
              handshake_done_ := true, durable_data_ := [(4, 40), (7, 70)],
              durable_timestamp_ := 8 })],
          ri.2.unexpired_durable_data 10 5 = true ∧ ∃ e ∈ ri.2.durable_data_, e.1 = dm)) ∧
      hb.lastSN = max dm (if send_buff_has_data (some ⟨[⟨3, 30, []⟩, ⟨5, 50, []⟩]⟩) = true
        then ((some (⟨[⟨3, 30, []⟩, ⟨5, 50, []⟩]⟩ : SingleSendBuffer)).map
          SingleSendBuffer.high).getD 0 else 0)) ∧
    (RtpsWriter.gather_heartbeats
        ⟨[(⟨9, 7⟩, { ReaderInfo.fresh true with
              handshake_done_ := true, durable_data_ := [(4, 40), (7, 70)],
              durable_timestamp_ := 8 })],
          some ⟨[⟨3, 30, []⟩, ⟨5, 50, []⟩]⟩, 6, [(5, 50)], [], ⟨1, 2⟩, true, 0⟩
        true false 10 5 [] true).meta_submessages =
      [⟨⟨1, 2⟩, GUID_UNKNOWN, [⟨9, 7⟩],
        Submessage.heartbeat_sm ⟨⟨HEARTBEAT, FLAG_E, HEARTBEAT_SZ⟩, ENTITYID_UNKNOWN, 2, 1, 7, 1⟩⟩] :=
  ⟨(heartbeat_contents
      ⟨[(⟨9, 7⟩, { ReaderInfo.fresh true with
              handshake_done_ := true, durable_data_ := [(4, 40), (7, 70)],
              durable_timestamp_ := 8 })],
        some ⟨[⟨3, 30, []⟩, ⟨5, 50, []⟩]⟩, 6, [(5, 50)], [], ⟨1, 2⟩, true, 0⟩
      false 10 5 [] true (by unfold KeysSorted; decide) (by decide)).imp
        (fun _ h => h.imp (fun _ h2 => h2.elim (fun _ h3 => h3.elim (fun _ h4 =>
          ⟨h4.1, h4.2.1.2.2.2.2.1⟩)))), by decide⟩

/-! ## Pre-handshake heartbeats -/

theorem heartbeat_pre_flag (is_final : Bool) :
    ((FLAG_E ||| (if is_final = true then FLAG_F else 0)) &&& (255 - FLAG_F)) &&& FLAG_F = 0 := by
  cases is_final <;> decide

theorem heartbeat_messages_split (security : Bool) (id_ : RepoId)
    (to_guids_ pre_assoc_hb_guids : List RepoId) (hb : HeartBeatSubmessage) (stop : Bool) :
    ∃ tail : List MetaSubmessage,
      heartbeat_messages security id_ to_guids_ pre_assoc_hb_guids hb stop =
        pre_assoc_hb_guids.map (fun g => (⟨id_, g, [], Submessage.heartbeat_sm
          { hb with smHeader := { hb.smHeader with flags := hb.smHeader.flags &&& (255 - FLAG_F) }
                    readerId := g.entityId }⟩ : MetaSubmessage)) ++ tail ∧
      ((security &&
          decide (id_.entityId = ENTITYID_P2P_BUILTIN_PARTICIPANT_VOLATILE_SECURE_WRITER)) = false →
        ∀ m ∈ tail, m.dst_guid_ = GUID_UNKNOWN) := by
  unfold heartbeat_messages
  simp only
  cases stop with
  | true => exact ⟨[], by simp, fun _ m hm => by cases hm⟩
  | false =>
    simp only [Bool.false_eq_true, if_false]
    by_cases c : (security &&
        decide (id_.entityId = ENTITYID_P2P_BUILTIN_PARTICIPANT_VOLATILE_SECURE_WRITER)) = true
    · rw [if_pos c]
      exact ⟨_, rfl, fun hc => by rw [c] at hc; cases hc⟩
    · rw [if_neg c]
      refine ⟨_, rfl, fun _ m hm => ?_⟩
      rw [List.mem_singleton] at hm
      rw [hm]

theorem gather_heartbeats_messages (w : RtpsWriter) (security : Bool) (now timeout : Nat)
    (additional_guids : List RepoId) (allow_final : Bool) :
    ∃ (hb : HeartBeatSubmessage) (to_guids_ : List RepoId) (stop : Bool),
      hb.smHeader.flags =
        (FLAG_E ||| (if (allow_final && w.elems_not_acked_.isEmpty) = true then FLAG_F else 0)) ∧
      hb.smHeader.submessageId = HEARTBEAT ∧ hb.writerId = w.id_.entityId ∧
      (w.gather_heartbeats true security now timeout additional_guids
          allow_final).meta_submessages =
        heartbeat_messages security w.id_ to_guids_
          (w.remote_readers_.foldl
            (gather_heartbeats_reader (send_buff_has_data w.send_buff_) now timeout)
            ⟨additional_guids, [], [], false, SequenceNumber.ZERO, []⟩).pre_assoc_hb_guids
          hb stop := by
  unfold RtpsWriter.gather_heartbeats
  simp only [Bool.not_true, Bool.false_eq_true, if_false]
  exact ⟨_, _, _, rfl, rfl, rfl, rfl⟩

/-- C29 (amended): the pre-handshake heartbeats.  For a writer whose reader map is
in key order, the meta-submessages `gather_heartbeats` pushes begin with one
HEARTBEAT for each remote reader whose `handshake_done_` is false while the send
buffer holds no data, in map order: its `dst_guid_` is that reader, its
`readerId` that reader's entity id, its final flag is cleared and it has no
further destinations.  Unless the writer is the secure volatile writer of a build
with `OPENDDS_SECURITY`, everything pushed after them is non-directed
(`dst_guid_ = GUID_UNKNOWN`), so that, the reader GUIDs being known ones, the
directed heartbeats pushed are exactly these. -/
theorem pre_handshake_heartbeat (w : RtpsWriter) (security : Bool) (now timeout : Nat)
    (additional_guids : List RepoId) (allow_final : Bool)
    (hs : KeysSorted RepoId.lt w.remote_readers_)
    (hk : ∀ ri ∈ w.remote_readers_, ri.1 ≠ GUID_UNKNOWN) :
    ∃ (hb : HeartBeatSubmessage) (tail : List MetaSubmessage),
      hb.smHeader.flags &&& FLAG_F = 0 ∧ hb.smHeader.submessageId = HEARTBEAT ∧
      hb.writerId = w.id_.entityId ∧
      (w.gather_heartbeats true security now timeout additional_guids
          allow_final).meta_submessages =
        (w.remote_readers_.filter
            (fun ri => !send_buff_has_data w.send_buff_ && !ri.2.handshake_done_)).map
          (fun ri => (⟨w.id_, ri.1, [],
            Submessage.heartbeat_sm { hb with readerId := ri.1.entityId }⟩ : MetaSubmessage))
        ++ tail ∧
      (¬ (security = true ∧
          w.id_.entityId = ENTITYID_P2P_BUILTIN_PARTICIPANT_VOLATILE_SECURE_WRITER) →
        (∀ m ∈ tail, m.dst_guid_ = GUID_UNKNOWN) ∧
        (w.gather_heartbeats true security now timeout additional_guids
            allow_final).meta_submessages.filter (fun m => decide (m.dst_guid_ ≠ GUID_UNKNOWN)) =
          (w.remote_readers_.filter
              (fun ri => !send_buff_has_data w.send_buff_ && !ri.2.handshake_done_)).map
            (fun ri => (⟨w.id_, ri.1, [],
              Submessage.heartbeat_sm { hb with readerId := ri.1.entityId }⟩ :
                MetaSubmessage))) := by
  have hpre := gather_heartbeats_fold_pre (send_buff_has_data w.send_buff_) now timeout
    w.remote_readers_ ⟨additional_guids, [], [], false, SequenceNumber.ZERO, []⟩ hs
    (fun x hx => by simp at hx)
  simp only [List.nil_append] at hpre
  obtain ⟨hb, tg, stop, f1, f2, f3, hm⟩ :=
    gather_heartbeats_messages w security now timeout additional_guids allow_final
  obtain ⟨tail, ht1, ht2⟩ := heartbeat_messages_split security w.id_ tg
    (w.remote_readers_.foldl
      (gather_heartbeats_reader (send_buff_has_data w.send_buff_) now timeout)
      ⟨additional_guids, [], [], false, SequenceNumber.ZERO, []⟩).pre_assoc_hb_guids hb stop
  rw [ht1, hpre, List.map_map] at hm
  refine ⟨{ hb with smHeader := { hb.smHeader with flags := hb.smHeader.flags &&& (255 - FLAG_F) } },
    tail, ?_, f2, f3, hm, fun hnp => ?_⟩
  · show (hb.smHeader.flags &&& (255 - FLAG_F)) &&& FLAG_F = 0
    rw [f1]
    exact heartbeat_pre_flag _
  · have hpv : (security &&
        decide (w.id_.entityId = ENTITYID_P2P_BUILTIN_PARTICIPANT_VOLATILE_SECURE_WRITER))
          = false := by
      by_contra c
      simp only [Bool.not_eq_false, Bool.and_eq_true, decide_eq_true_eq] at c
      exact hnp c
    refine ⟨ht2 hpv, ?_⟩
    rw [hm, List.filter_append]
    have h1 : tail.filter (fun m => decide (m.dst_guid_ ≠ GUID_UNKNOWN)) = [] := by
      rw [List.filter_eq_nil_iff]
      intro m hmem
      simp [ht2 hpv m hmem]
    rw [h1, List.append_nil]
    refine List.filter_eq_self.2 (fun m hmem => ?_)
    obtain ⟨ri, hri, rfl⟩ := List.mem_map.1 hmem
    have := hk ri (List.mem_of_mem_filter hri)
    simpa using this

/-- Witness for C29: a writer without buffered data and with two readers, of which
`(9, 8)` has not completed the handshake, pushes one directed, non-final
heartbeat for `(9, 8)` and then the combined heartbeat. -/
theorem pre_handshake_heartbeat_witness :
    (∃ (hb : HeartBeatSubmessage) (tail : List MetaSubmessage),
      hb.smHeader.flags &&& FLAG_F = 0 ∧
      (RtpsWriter.gather_heartbeats
          ⟨[(⟨9, 7⟩, { ReaderInfo.fresh false with handshake_done_ := true }),
            (⟨9, 8⟩, ReaderInfo.fresh false)], none, 1, [], [], ⟨1, 2⟩, false, 0⟩
          true false 10 5 [] false).meta_submessages =
        ([(⟨9, 7⟩, { ReaderInfo.fresh false with handshake_done_ := true }),
          (⟨9, 8⟩, ReaderInfo.fresh false)].filter
            (fun ri => !send_buff_has_data none && !ri.2.handshake_done_)).map
          (fun ri => (⟨⟨1, 2⟩, ri.1, [],
            Submessage.heartbeat_sm { hb with readerId := ri.1.entityId }⟩ : MetaSubmessage))
        ++ tail) ∧
    (RtpsWriter.gather_heartbeats
        ⟨[(⟨9, 7⟩, { ReaderInfo.fresh false with handshake_done_ := true }),
          (⟨9, 8⟩, ReaderInfo.fresh false)], none, 1, [], [], ⟨1, 2⟩, false, 0⟩
        true false 10 5 [] false).meta_submessages =
      [⟨⟨1, 2⟩, ⟨9, 8⟩, [],
        Submessage.heartbeat_sm ⟨⟨HEARTBEAT, FLAG_E, HEARTBEAT_SZ⟩, 8, 2, 1, 0, 1⟩⟩,
       ⟨⟨1, 2⟩, GUID_UNKNOWN, [],
        Submessage.heartbeat_sm ⟨⟨HEARTBEAT, FLAG_E, HEARTBEAT_SZ⟩, ENTITYID_UNKNOWN, 2, 1, 0, 1⟩⟩] :=
  ⟨(pre_handshake_heartbeat
      ⟨[(⟨9, 7⟩, { ReaderInfo.fresh false with handshake_done_ := true }),
        (⟨9, 8⟩, ReaderInfo.fresh false)], none, 1, [], [], ⟨1, 2⟩, false, 0⟩
      false 10 5 [] false (by unfold KeysSorted; decide) (by decide)).imp
        (fun _ h => h.imp (fun _ h2 => ⟨h2.1, h2.2.2.2.1⟩)), by decide⟩

/-- C29 as stated fails for the secure volatile writer of a build with
`OPENDDS_SECURITY`: with data in the send buffer and a reader whose handshake is
done, `gather_heartbeats` pushes a HEARTBEAT whose `dst_guid_` is that reader,
whose `readerId` is that reader's entity id and whose final flag is cleared. -/
theorem pre_handshake_heartbeat_counterexample :
    (RtpsWriter.gather_heartbeats
        ⟨[(⟨9, 7⟩, { ReaderInfo.fresh false with handshake_done_ := true })],
          some ⟨[⟨3, 30, []⟩]⟩, 4, [(3, 30)], [],
          ⟨1, ENTITYID_P2P_BUILTIN_PARTICIPANT_VOLATILE_SECURE_WRITER⟩, false, 0⟩
        true true 10 5 [] true).meta_submessages =
      [⟨⟨1, ENTITYID_P2P_BUILTIN_PARTICIPANT_VOLATILE_SECURE_WRITER⟩, ⟨9, 7⟩, [],
        Submessage.heartbeat_sm ⟨⟨HEARTBEAT, FLAG_E, HEARTBEAT_SZ⟩, 7,
          ENTITYID_P2P_BUILTIN_PARTICIPANT_VOLATILE_SECURE_WRITER, 3, 3, 1⟩⟩] ∧
    FLAG_E &&& FLAG_F = 0 := by
  refine ⟨by decide, by decide⟩

/-! ## Release of a reader and the dispatch to unknown readers -/

/-- C30 (code defect): `release_reservations_i` leaves the released reader in
`readers_of_writer_`.  On a fresh link the reader `(1, 4)` is associated with the
remote writer `(7, 2)` and then released.  The release erases the reader from
`readers_` and the writer from the reader's records, but `readers_of_writer_`
still maps `(7, 2)` to the reader object: the loop compares the key of the entry,
the writer GUID, with `local_id`.  A DATA from `(7, 2)` with the reader id
`ENTITYID_UNKNOWN` is then handed to the released reader, which does not know the
writer any more and lets the sample through. -/
theorem release_keeps_reader_of_writer :
    ((LinkState.associated (LinkState.fresh 1) (fun g => decide (g.entityId = 2))
        (fun g => decide (g.entityId = 4)) ⟨1, 4⟩ ⟨7, 2⟩ true true false false).1.readers_,
      (LinkState.associated (LinkState.fresh 1) (fun g => decide (g.entityId = 2))
        (fun g => decide (g.entityId = 4)) ⟨1, 4⟩ ⟨7, 2⟩ true true false false).1.readers_of_writer_,
      (LinkState.associated (LinkState.fresh 1) (fun g => decide (g.entityId = 2))
        (fun g => decide (g.entityId = 4)) ⟨1, 4⟩ ⟨7, 2⟩ true true false false).1.reader_objs) =
      ([(⟨1, 4⟩, 0)], [(⟨7, 2⟩, 0)], [⟨⟨1, 4⟩, false, [(⟨7, 2⟩, WriterInfo.fresh)]⟩]) ∧
    (LinkState.release_reservations_i
        (LinkState.associated (LinkState.fresh 1) (fun g => decide (g.entityId = 2))
          (fun g => decide (g.entityId = 4)) ⟨1, 4⟩ ⟨7, 2⟩ true true false false).1
        (fun g => decide (g.entityId = 2)) (fun g => decide (g.entityId = 4))
        ⟨7, 2⟩ ⟨1, 4⟩).map
      (fun t => (t.1.readers_, t.1.readers_of_writer_, t.1.reader_objs,
        t.1.datareader_targets ENTITYID_UNKNOWN ⟨7, 2⟩)) =
      some ([], [(⟨7, 2⟩, 0)], [⟨⟨1, 4⟩, false, []⟩], [0]) ∧
    ((LinkState.release_reservations_i
        (LinkState.associated (LinkState.fresh 1) (fun g => decide (g.entityId = 2))
          (fun g => decide (g.entityId = 4)) ⟨1, 4⟩ ⟨7, 2⟩ true true false false).1
        (fun g => decide (g.entityId = 2)) (fun g => decide (g.entityId = 4))
        ⟨7, 2⟩ ⟨1, 4⟩).bind
      (fun t => t.1.received_data ⟨ENTITYID_UNKNOWN, 2, 5⟩ 105 7)).map (fun d => d.calls) =
      some [(⟨1, 4⟩, [ReaderEvent.do_not_withhold_data_from 5])] := by
  refine ⟨by decide, by decide, by decide⟩

/-! ## The send path: liveliness heartbeat and inline GAP -/

theorem send_heartbeats_manual_msg (w : RtpsWriter) (now timeout : Nat) :
    ∃ hb : HeartBeatSubmessage,
      (w.send_heartbeats_manual_i true now timeout).2 =
        [⟨w.id_, GUID_UNKNOWN, [], Submessage.heartbeat_sm hb⟩] ∧
      hb.smHeader = ⟨HEARTBEAT, FLAG_E ||| FLAG_F ||| FLAG_L, HEARTBEAT_SZ⟩ ∧
      hb.readerId = ENTITYID_UNKNOWN ∧ hb.writerId = w.id_.entityId ∧
      hb.firstSN = (if w.durable_ = true ∨ send_buff_has_data w.send_buff_ = false
        then 1 else (w.send_buff_.map SingleSendBuffer.low).getD 1) ∧
      hb.lastSN = max
        (w.remote_readers_.foldl (manual_durable_max now timeout) SequenceNumber.INITIAL_VALUE)
        (if send_buff_has_data w.send_buff_ = true
          then (w.send_buff_.map SingleSendBuffer.high).getD 0 else 1) ∧
      hb.count = wrap_int32 (w.heartbeat_count_ + 1) := by
  unfold RtpsWriter.send_heartbeats_manual_i
  simp only [Bool.not_true, Bool.false_eq_true, if_false]
  refine ⟨_, rfl, rfl, rfl, rfl, ?_, ?_, rfl⟩
  · cases w.send_buff_ <;> cases w.durable_ <;> simp [send_buff_has_data]
  · cases w.send_buff_ <;> simp [send_buff_has_data]

theorem customize_liveliness_reliable (w : RtpsWriter) (sp : SendPath) (now timeout : Nat)
    (requires_inline_qos : Bool) (element : QueueElement) (body_sub : RepoId)
    (hkind : element.kind = ElementKind.control MessageId.DATAWRITER_LIVELINESS body_sub)
    (hsup : sp.control_message_supported MessageId.DATAWRITER_LIVELINESS = false) :
    ∃ x : Int,
      w.customize_queue_element_helper true sp now timeout element requires_inline_qos =
        ⟨(RtpsWriter.send_heartbeats_manual_i { w with expected_ := x } true now timeout).1,
          CustomizeReturn.null, [],
          (RtpsWriter.send_heartbeats_manual_i { w with expected_ := x } true now timeout).2,
          true⟩ := by
  unfold RtpsWriter.customize_queue_element_helper
  simp only [Bool.not_true, Bool.false_eq_true, if_false, hkind, hsup, reduceCtorEq, if_true]
  by_cases c : element.sequence ≠ SequenceNumber.SEQUENCENUMBER_UNKNOWN
  · rw [if_pos c]
    exact ⟨_, rfl⟩
  · rw [if_neg c]
    exact ⟨w.expected_, rfl⟩

theorem manual_durable_max_fold (now timeout : Nat) :
    ∀ (l : List (RepoId × ReaderInfo)) (init : Int),
      init ≤ l.foldl (manual_durable_max now timeout) init ∧
      (∀ ri ∈ l, ri.2.unexpired_durable_data now timeout = true →
        map_last_key ri.2.durable_data_ ≤ l.foldl (manual_durable_max now timeout) init) ∧
      (l.foldl (manual_durable_max now timeout) init = init ∨
        ∃ ri ∈ l, ri.2.unexpired_durable_data now timeout = true ∧
          map_last_key ri.2.durable_data_ = l.foldl (manual_durable_max now timeout) init) := by
  intro l
  induction l with
  | nil => intro init; simp
  | cons ri rest ih =>
    intro init
    simp only [List.foldl_cons]
    obtain ⟨i1, i2, i3⟩ := ih (manual_durable_max now timeout init ri)
    have hstep : manual_durable_max now timeout init ri =
        if ri.2.unexpired_durable_data now timeout = true ∧
            map_last_key ri.2.durable_data_ > init
        then map_last_key ri.2.durable_data_ else init := by
      unfold manual_durable_max ReaderInfo.unexpired_durable_data
      cases ri.2.durable_data_.isEmpty <;> simp
    have hge : init ≤ manual_durable_max now timeout init ri := by
      rw [hstep]
      split_ifs with c
      · omega
      · exact le_refl _
    refine ⟨le_trans hge i1, ?_, ?_⟩
    · intro r hr hu
      rcases List.mem_cons.1 hr with c | c
      · subst c
        refine le_trans ?_ i1
        rw [hstep]
        split_ifs with c2
        · exact le_refl _
        · have : ¬ map_last_key r.2.durable_data_ > init := fun h => c2 ⟨hu, h⟩
          omega
      · exact i2 r c hu
    · rcases i3 with h | ⟨r, hr, hu, he⟩
      · rw [h, hstep]
        split_ifs with c
        · exact Or.inr ⟨ri, List.mem_cons_self _ _, c.1, rfl⟩
        · exact Or.inl rfl
      · exact Or.inr ⟨r, List.mem_cons_of_mem _ hr, hu, he⟩

theorem manual_durable_max_keys (now timeout : Nat) (l : List (RepoId × ReaderInfo))
    (hdd : ∀ ri ∈ l, ri.2.durable_data_.Pairwise (fun a b => a.1 < b.1)) :
    1 ≤ l.foldl (manual_durable_max now timeout) SequenceNumber.INITIAL_VALUE ∧
    (∀ ri ∈ l, ri.2.unexpired_durable_data now timeout = true →
      ∀ e ∈ ri.2.durable_data_,
        e.1 ≤ l.foldl (manual_durable_max now timeout) SequenceNumber.INITIAL_VALUE) ∧
    (l.foldl (manual_durable_max now timeout) SequenceNumber.INITIAL_VALUE = 1 ∨
      ∃ ri ∈ l, ri.2.unexpired_durable_data now timeout = true ∧
        ∃ e ∈ ri.2.durable_data_,
          e.1 = l.foldl (manual_durable_max now timeout) SequenceNumber.INITIAL_VALUE) := by
  obtain ⟨d1, d2, d3⟩ := manual_durable_max_fold now timeout l SequenceNumber.INITIAL_VALUE
  refine ⟨d1, fun ri hri hu e he => ?_, ?_⟩
  · exact le_trans ((map_last_key_max _ (hdd ri hri)
      (unexpired_durable_data_nonempty _ _ _ hu)).2 e he) (d2 ri hri hu)
  · rcases d3 with h | ⟨ri, hri, hu, he⟩
    · exact Or.inl h
    · obtain ⟨e, hem, hee⟩ := (map_last_key_max _ (hdd ri hri)
        (unexpired_durable_data_nonempty _ _ _ hu)).1
      exact Or.inr ⟨ri, hri, hu, e, hem, hee.trans he⟩

/-- C23 (amended): the liveliness heartbeat.  For every DATAWRITER_LIVELINESS
control element with a message block (the message id not being one that
`control_message_supported` accepts), `customize_queue_element` returns null,
hands exactly one HEARTBEAT to `send_bundled_submessages` and then reports the
element delivered.  The HEARTBEAT is non-directed, has `readerId =
ENTITYID_UNKNOWN` and the flags E|F|L.  For a publication without an `RtpsWriter`
it has `firstSN = 1`, `lastSN = seq` and the next `best_effort_heartbeat_count_`;
for a reliable writer, the durable data of whose readers is in key order, it has
`firstSN = 1` when the writer is durable or the send buffer holds no data and
`send_buff.low()` otherwise, `lastSN = max(dm, send_buff.high())` with 1 for a
buffer without data, `dm` being the largest key of the unexpired durable data of
the readers and at least 1 (1 when there is none above it), and the writer's
next `heartbeat_count_`. -/
theorem liveliness_heartbeat (link : LinkState) (sp : SendPath) (now timeout : Nat)
    (requires_inline_qos : Bool) (element : QueueElement) (body_sub : RepoId)
    (hmsg : element.has_msg = true)
    (hkind : element.kind = ElementKind.control MessageId.DATAWRITER_LIVELINESS body_sub)
    (hsup : sp.control_message_supported MessageId.DATAWRITER_LIVELINESS = false)
    (hdd : ∀ writer, guid_find link.writers_ element.publication_id = some writer →
      ∀ ri ∈ writer.remote_readers_, ri.2.durable_data_.Pairwise (fun a b => a.1 < b.1)) :
    (link.customize_queue_element sp now timeout requires_inline_qos element).result =
      CustomizeReturn.null ∧
    ∃ (hb : HeartBeatSubmessage) (from_guid : RepoId),
      (link.customize_queue_element sp now timeout requires_inline_qos element).events =
        [LinkEvent.send_bundled_submessages
            [⟨from_guid, GUID_UNKNOWN, [], Submessage.heartbeat_sm hb⟩],
          LinkEvent.data_delivered element.id] ∧
      hb.smHeader = ⟨HEARTBEAT, FLAG_E ||| FLAG_F ||| FLAG_L, HEARTBEAT_SZ⟩ ∧
      hb.readerId = ENTITYID_UNKNOWN ∧
      (guid_find link.writers_ element.publication_id = none →
        from_guid = element.publication_id ∧
        hb.writerId = element.publication_id.entityId ∧
        hb.firstSN = 1 ∧ hb.lastSN = element.sequence ∧
        hb.count = wrap_int32 (link.best_effort_heartbeat_count_ + 1)) ∧
      (∀ writer, guid_find link.writers_ element.publication_id = some writer →
        from_guid = writer.id_ ∧ hb.writerId = writer.id_.entityId ∧
        hb.firstSN = (if writer.durable_ = true ∨ send_buff_has_data writer.send_buff_ = false
          then 1 else (writer.send_buff_.map SingleSendBuffer.low).getD 1) ∧
        (∃ dm : Int,
          1 ≤ dm ∧
          (∀ ri ∈ writer.remote_readers_, ri.2.unexpired_durable_data now timeout = true →
            ∀ e ∈ ri.2.durable_data_, e.1 ≤ dm) ∧
          (dm = 1 ∨ ∃ ri ∈ writer.remote_readers_,
            ri.2.unexpired_durable_data now timeout = true ∧
              ∃ e ∈ ri.2.durable_data_, e.1 = dm) ∧
          hb.lastSN = max dm (if send_buff_has_data writer.send_buff_ = true
            then (writer.send_buff_.map SingleSendBuffer.high).getD 0 else 1)) ∧
        hb.count = wrap_int32 (writer.heartbeat_count_ + 1)) := by
  unfold LinkState.customize_queue_element
  rw [hmsg]
  simp only [Bool.not_true, Bool.false_eq_true, if_false]
  cases hw : guid_find link.writers_ element.publication_id with
  | none =>
    have hn : customize_queue_element_non_reliable_i link.best_effort_heartbeat_count_ sp
        element requires_inline_qos =
        ((send_heartbeats_manual_i link.best_effort_heartbeat_count_ element).1,
          CustomizeReturn.null, [],
          (send_heartbeats_manual_i link.best_effort_heartbeat_count_ element).2, true) := by
      unfold customize_queue_element_non_reliable_i
      simp only [hkind, hsup, Bool.false_eq_true, if_false, if_true]
    rw [hn]
    refine ⟨rfl, _, _, rfl, rfl, rfl, fun _ => ⟨rfl, rfl, rfl, rfl, rfl⟩, fun writer h => ?_⟩
    cases h
  | some writer =>
    obtain ⟨x, hx⟩ := customize_liveliness_reliable writer sp now timeout requires_inline_qos
      element body_sub hkind hsup
    obtain ⟨hb, h1, h2, h3, h4, h5, h6, h7⟩ :=
      send_heartbeats_manual_msg { writer with expected_ := x } now timeout
    obtain ⟨k1, k2, k3⟩ := manual_durable_max_keys now timeout writer.remote_readers_
      (hdd writer hw)
    dsimp only
    rw [hx, h1]
    refine ⟨rfl, hb, _, rfl, h2, h3, (fun h => by cases h), fun writer1 h => ?_⟩
    cases h
    exact ⟨rfl, h4, h5, ⟨_, k1, k2, k3, h6⟩, h7⟩

/-- Witness for C23: on a link without an `RtpsWriter` for the publication
`(1, 2)`, the liveliness element with sequence number 8 gives the heartbeat
`[1, 8]` with the flags E|F|L.  On a link whose durable writer `(1, 2)` holds the
samples 3 to 5 in its send buffer and the unexpired durable data 4 and 7 for the
reader `(9, 7)`, the same element gives the heartbeat `[1, 7]`. -/
theorem liveliness_heartbeat_witness :
    ((LinkState.customize_queue_element (LinkState.fresh 1)
        ⟨fun _ => false, fun _ _ => [InlineSubmessage.populated 0], fun _ => 32⟩ 10 5 false
        ⟨77, true, 8, ⟨1, 2⟩, GUID_UNKNOWN,
          ElementKind.control MessageId.DATAWRITER_LIVELINESS GUID_UNKNOWN⟩).result =
      CustomizeReturn.null ∧
    (LinkState.customize_queue_element (LinkState.fresh 1)
        ⟨fun _ => false, fun _ _ => [InlineSubmessage.populated 0], fun _ => 32⟩ 10 5 false
        ⟨77, true, 8, ⟨1, 2⟩, GUID_UNKNOWN,
          ElementKind.control MessageId.DATAWRITER_LIVELINESS GUID_UNKNOWN⟩).events =
      [LinkEvent.send_bundled_submessages
          [⟨⟨1, 2⟩, GUID_UNKNOWN, [], Submessage.heartbeat_sm
            ⟨⟨HEARTBEAT, FLAG_E ||| FLAG_F ||| FLAG_L, HEARTBEAT_SZ⟩, ENTITYID_UNKNOWN, 2, 1, 8, 1⟩⟩],
        LinkEvent.data_delivered 77]) ∧
    ((LinkState.customize_queue_element
        { LinkState.fresh 1 with
          writers_ := [(⟨1, 2⟩, ⟨[(⟨9, 7⟩, { ReaderInfo.fresh true with
              handshake_done_ := true, durable_data_ := [(4, 40), (7, 70)],
              durable_timestamp_ := 8 })],
            some ⟨[⟨3, 30, []⟩, ⟨4, 40, []⟩, ⟨5, 50, []⟩]⟩, 6, [], [], ⟨1, 2⟩, true, 4⟩)] }
        ⟨fun _ => false, fun _ _ => [InlineSubmessage.populated 0], fun _ => 32⟩ 10 5 false
        ⟨77, true, 8, ⟨1, 2⟩, GUID_UNKNOWN,
          ElementKind.control MessageId.DATAWRITER_LIVELINESS GUID_UNKNOWN⟩).result =
      CustomizeReturn.null ∧
    (LinkState.customize_queue_element
        { LinkState.fresh 1 with
          writers_ := [(⟨1, 2⟩, ⟨[(⟨9, 7⟩, { ReaderInfo.fresh true with
              handshake_done_ := true, durable_data_ := [(4, 40), (7, 70)],
              durable_timestamp_ := 8 })],
            some ⟨[⟨3, 30, []⟩, ⟨4, 40, []⟩, ⟨5, 50, []⟩]⟩, 6, [], [], ⟨1, 2⟩, true, 4⟩)] }
        ⟨fun _ => false, fun _ _ => [InlineSubmessage.populated 0], fun _ => 32⟩ 10 5 false
        ⟨77, true, 8, ⟨1, 2⟩, GUID_UNKNOWN,
          ElementKind.control MessageId.DATAWRITER_LIVELINESS GUID_UNKNOWN⟩).events =
      [LinkEvent.send_bundled_submessages
          [⟨⟨1, 2⟩, GUID_UNKNOWN, [], Submessage.heartbeat_sm
            ⟨⟨HEARTBEAT, FLAG_E ||| FLAG_F ||| FLAG_L, HEARTBEAT_SZ⟩, ENTITYID_UNKNOWN, 2, 1, 7, 5⟩⟩],
        LinkEvent.data_delivered 77]) :=
  ⟨⟨(liveliness_heartbeat (LinkState.fresh 1)
      ⟨fun _ => false, fun _ _ => [InlineSubmessage.populated 0], fun _ => 32⟩ 10 5 false
      ⟨77, true, 8, ⟨1, 2⟩, GUID_UNKNOWN,
        ElementKind.control MessageId.DATAWRITER_LIVELINESS GUID_UNKNOWN⟩ GUID_UNKNOWN
      rfl rfl rfl (fun _ h => by cases h)).1, by decide⟩,
   ⟨(liveliness_heartbeat
      { LinkState.fresh 1 with
        writers_ := [(⟨1, 2⟩, ⟨[(⟨9, 7⟩, { ReaderInfo.fresh true with
            handshake_done_ := true, durable_data_ := [(4, 40), (7, 70)],
            durable_timestamp_ := 8 })],
          some ⟨[⟨3, 30, []⟩, ⟨4, 40, []⟩, ⟨5, 50, []⟩]⟩, 6, [], [], ⟨1, 2⟩, true, 4⟩)] }
      ⟨fun _ => false, fun _ _ => [InlineSubmessage.populated 0], fun _ => 32⟩ 10 5 false
      ⟨77, true, 8, ⟨1, 2⟩, GUID_UNKNOWN,
        ElementKind.control MessageId.DATAWRITER_LIVELINESS GUID_UNKNOWN⟩ GUID_UNKNOWN
      rfl rfl rfl (fun writer h => by
        have hw : writer = ⟨[(⟨9, 7⟩, { ReaderInfo.fresh true with
            handshake_done_ := true, durable_data_ := [(4, 40), (7, 70)],
            durable_timestamp_ := 8 })],
          some ⟨[⟨3, 30, []⟩, ⟨4, 40, []⟩, ⟨5, 50, []⟩]⟩, 6, [], [], ⟨1, 2⟩, true, 4⟩ := by
          simpa [guid_find] using h.symm
        subst hw
        decide)).1, by decide⟩⟩

/-- C23 as stated fails for a reliable writer: with the samples 3 to 7 in the send
buffer of the non-durable writer `(1, 2)`, the liveliness element with sequence
number 8 gives the heartbeat `[3, 7]`, not `[1, 8]`. -/
theorem liveliness_heartbeat_counterexample :
    (LinkState.customize_queue_element
        { LinkState.fresh 1 with
          writers_ := [(⟨1, 2⟩, ⟨[(⟨9, 7⟩, ReaderInfo.fresh false)],
            some ⟨[⟨3, 30, []⟩, ⟨4, 40, []⟩, ⟨5, 50, []⟩, ⟨6, 60, []⟩, ⟨7, 70, []⟩]⟩, 8, [], [],
            ⟨1, 2⟩, false, 4⟩)] }
        ⟨fun _ => false, fun _ _ => [InlineSubmessage.populated 0], fun _ => 32⟩ 10 5 false
        ⟨77, true, 8, ⟨1, 2⟩, GUID_UNKNOWN,
          ElementKind.control MessageId.DATAWRITER_LIVELINESS GUID_UNKNOWN⟩).events =
      [LinkEvent.send_bundled_submessages
          [⟨⟨1, 2⟩, GUID_UNKNOWN, [], Submessage.heartbeat_sm
            ⟨⟨HEARTBEAT, FLAG_E ||| FLAG_F ||| FLAG_L, HEARTBEAT_SZ⟩, ENTITYID_UNKNOWN, 2, 3, 7, 5⟩⟩],
        LinkEvent.data_delivered 77] := by
  decide

/-- C24 (code defect): an inline GAP for an element that skips nothing.  The
non-durable writer `(1, 2)`, expecting 1, customizes the sample 4: the inline GAP
has `gapStart = 1` and `gapListBase = 4`, and `expected_` becomes 5.  It then
customizes the sample 3, which is below `expected_`: an inline GAP is appended
again, with `gapStart = 5` above `gapListBase = 3`, because `add_gap_submsg_i`
tests `seq != expected_` and not `seq > expected_`. -/
theorem inline_gap_below_expected :
    (RtpsWriter.customize_queue_element_helper
        ⟨[(⟨9, 7⟩, ReaderInfo.fresh false)], none, 1, [], [], ⟨1, 2⟩, false, 0⟩ true
        ⟨fun _ => false, fun _ _ => [InlineSubmessage.populated 0], fun _ => 32⟩ 10 5
        ⟨74, true, 4, ⟨1, 2⟩, GUID_UNKNOWN, ElementKind.send false⟩ false) =
      ⟨⟨[(⟨9, 7⟩, ReaderInfo.fresh false)], none, 5, [], [], ⟨1, 2⟩, false, 0⟩,
        CustomizeReturn.rtps ⟨74, true, 4, ⟨1, 2⟩, GUID_UNKNOWN, ElementKind.send false⟩
          [InlineSubmessage.gap_sm ⟨⟨GAP, FLAG_E, 28⟩, ENTITYID_UNKNOWN, 2, 1, ⟨4, 1, [0]⟩⟩,
            InlineSubmessage.populated 0],
        [], [], false⟩ ∧
    (RtpsWriter.customize_queue_element_helper
        ⟨[(⟨9, 7⟩, ReaderInfo.fresh false)], none, 5, [], [], ⟨1, 2⟩, false, 0⟩ true
        ⟨fun _ => false, fun _ _ => [InlineSubmessage.populated 0], fun _ => 32⟩ 10 5
        ⟨73, true, 3, ⟨1, 2⟩, GUID_UNKNOWN, ElementKind.send false⟩ false) =
      ⟨⟨[(⟨9, 7⟩, ReaderInfo.fresh false)], none, 4, [], [], ⟨1, 2⟩, false, 0⟩,
        CustomizeReturn.rtps ⟨73, true, 3, ⟨1, 2⟩, GUID_UNKNOWN, ElementKind.send false⟩
          [InlineSubmessage.gap_sm ⟨⟨GAP, FLAG_E, 28⟩, ENTITYID_UNKNOWN, 2, 5, ⟨3, 1, [0]⟩⟩,
            InlineSubmessage.populated 0],
        [], [], false⟩ ∧
    ¬ ((3 : Int) > 5) := by
  refine ⟨by decide, by decide, by decide⟩

theorem gather_heartbeats_reader_expiry (has_data : Bool) (now timeout : Nat)
    (st : HeartbeatGather) (ri : RepoId × ReaderInfo) :
    (gather_heartbeats_reader has_data now timeout st ri).readers =
      st.readers ++ [if ri.2.expired_durable_data now timeout
        then (ri.1, { ri.2 with durable_data_ := [] }) else ri] ∧
    (gather_heartbeats_reader has_data now timeout st ri).pendingCallbacks =
      st.pendingCallbacks ++ (if ri.2.expired_durable_data now timeout
        then ri.2.durable_data_.map (fun e => e.2) else []) := by
  unfold gather_heartbeats_reader ReaderInfo.expired_durable_data
  cases has_data <;> cases ri.2.handshake_done_ <;> cases hde : ri.2.durable_data_.isEmpty <;>
    by_cases hn : now > ri.2.durable_timestamp_ + timeout <;> simp [hn]

theorem gather_heartbeats_fold_expiry (has_data : Bool) (now timeout : Nat)
    (readers : List (RepoId × ReaderInfo)) :
    ∀ st : HeartbeatGather,
      (readers.foldl (gather_heartbeats_reader has_data now timeout) st).readers =
        st.readers ++ readers.map (fun ri => if ri.2.expired_durable_data now timeout
          then (ri.1, { ri.2 with durable_data_ := [] }) else ri) ∧
      (readers.foldl (gather_heartbeats_reader has_data now timeout) st).pendingCallbacks =
        st.pendingCallbacks ++
          (readers.filter (fun ri => ri.2.expired_durable_data now timeout)).flatMap
            (fun ri => ri.2.durable_data_.map (fun e => e.2)) := by
  induction readers with
  | nil =>
    intro st
    simp
  | cons ri rest ih =>
    intro st
    rw [List.foldl_cons]
    obtain ⟨h1, h2⟩ := gather_heartbeats_reader_expiry has_data now timeout st ri
    obtain ⟨i1, i2⟩ := ih (gather_heartbeats_reader has_data now timeout st ri)
    rw [i1, i2, h1, h2]
    constructor
    · simp
    · by_cases c : ri.2.expired_durable_data now timeout = true
      · simp [List.filter_cons, c]
      · simp [List.filter_cons, c]

theorem gather_heartbeats_pending (w : RtpsWriter) (security : Bool) (now timeout : Nat)
    (additional_guids : List RepoId) (allow_final : Bool) :
    (w.gather_heartbeats true security now timeout additional_guids allow_final).pendingCallbacks =
      (w.remote_readers_.filter (fun ri => ri.2.expired_durable_data now timeout)).flatMap
        (fun ri => ri.2.durable_data_.map (fun e => e.2)) := by
  unfold RtpsWriter.gather_heartbeats
  simp only [Bool.not_true, Bool.false_eq_true, if_false]
  rw [(gather_heartbeats_fold_expiry _ now timeout w.remote_readers_ _).2]
  rfl

theorem send_heartbeats_writers_pending (security : Bool) (now timeout : Nat)
    (writers : List (RepoId × RtpsWriter)) :
    ∀ st : HeartbeatSend,
      (writers.foldl (send_heartbeats_writer security now timeout) st).pendingCallbacks =
        st.pendingCallbacks ++ writers.flatMap (fun rw =>
          (rw.2.remote_readers_.filter (fun ri => ri.2.expired_durable_data now timeout)).flatMap
            (fun ri => ri.2.durable_data_.map (fun e => e.2))) := by
  induction writers with
  | nil =>
    intro st
    simp
  | cons rw rest ih =>
    intro st
    rw [List.foldl_cons, ih]
    have hstep : (send_heartbeats_writer security now timeout st rw).pendingCallbacks =
        st.pendingCallbacks ++
          (rw.2.remote_readers_.filter (fun ri => ri.2.expired_durable_data now timeout)).flatMap
            (fun ri => ri.2.durable_data_.map (fun e => e.2)) := by
      unfold send_heartbeats_writer
      cases guid_find st.writers_to_advertise rw.1 with
      | none =>
        simp only
        rw [gather_heartbeats_pending]
      | some guids =>
        simp only
        rw [gather_heartbeats_pending]
    rw [hstep]
    simp

/-- C31: expiry of durable data.  `gather_heartbeats` (link alive) running at `now`
clears the `durable_data_` of exactly the remote readers that have some and whose
`durable_timestamp_ + durable_data_timeout` is earlier than `now`, changing
nothing else in the reader records, and appends to `pendingCallbacks` the
elements of these maps, each once, reader after reader in map order.
`send_heartbeats` ends by reporting `data_dropped` for the elements so collected
from all writers, and reports no other element as dropped. -/
theorem durable_data_expiry (w : RtpsWriter) (security : Bool) (now timeout : Nat)
    (additional_guids : List RepoId) (allow_final : Bool) (link : LinkState)
    (heartbeat_period : Nat) :
    (w.gather_heartbeats true security now timeout additional_guids
        allow_final).writer.remote_readers_ =
      w.remote_readers_.map (fun ri => if ri.2.expired_durable_data now timeout
        then (ri.1, { ri.2 with durable_data_ := [] }) else ri) ∧
    (w.gather_heartbeats true security now timeout additional_guids
        allow_final).pendingCallbacks =
      (w.remote_readers_.filter (fun ri => ri.2.expired_durable_data now timeout)).flatMap
        (fun ri => ri.2.durable_data_.map (fun e => e.2)) ∧
    ∃ pre : List LinkEvent,
      (link.send_heartbeats security now heartbeat_period timeout).2 =
        pre ++ (link.writers_.flatMap (fun rw =>
          (rw.2.remote_readers_.filter (fun ri => ri.2.expired_durable_data now timeout)).flatMap
            (fun ri => ri.2.durable_data_.map (fun e => e.2)))).map
          (fun e => LinkEvent.data_dropped e false) ∧
      pre.all (fun ev => match ev with
        | LinkEvent.data_dropped _ _ => false
        | _ => true) = true := by
  refine ⟨?_, gather_heartbeats_pending w security now timeout additional_guids allow_final, ?_⟩
  · unfold RtpsWriter.gather_heartbeats
    simp only [Bool.not_true, Bool.false_eq_true, if_false]
    rw [(gather_heartbeats_fold_expiry _ now timeout w.remote_readers_ _).1]
    rfl
  · unfold LinkState.send_heartbeats
    simp only
    rw [send_heartbeats_writers_pending]
    refine ⟨_, rfl, ?_⟩
    simp only [List.all_append, List.all_map, Bool.and_eq_true]
    refine ⟨⟨?_, rfl⟩, ?_⟩
    · split_ifs <;> rfl
    · rw [List.all_eq_true]
      intro x hx
      obtain ⟨c, _, rfl⟩ := List.mem_map.1 hx
      rfl

/-! ## Existence callbacks for interesting remote entities -/

theorem foldl_scan {σ α β γ : Type} (step : σ → α → σ) (pi : σ → List β) (pc : σ → List γ)
    (g : α → β) (k : α → List γ)
    (h : ∀ st e, pi (step st e) = pi st ++ [g e] ∧ pc (step st e) = pc st ++ k e) :
    ∀ (l : List α) (st : σ),
      pi (l.foldl step st) = pi st ++ l.map g ∧ pc (l.foldl step st) = pc st ++ l.flatMap k := by
  intro l
  induction l with
  | nil =>
    intro st
    simp
  | cons e rest ih =>
    intro st
    rw [List.foldl_cons]
    obtain ⟨i1, i2⟩ := ih (step st e)
    obtain ⟨h1, h2⟩ := h st e
    rw [i1, i2, h1, h2]
    simp

theorem flatMap_if {α β : Type} (c : α → Bool) (f : α → β) (l : List α) :
    l.flatMap (fun e => if c e = true then [f e] else []) = (l.filter c).map f := by
  induction l with
  | nil => rfl
  | cons e rest ih =>
    rw [List.flatMap_cons, ih]
    by_cases h : c e = true
    · rw [if_pos h, List.filter_cons_of_pos h]
      rfl
    · rw [if_neg h, List.filter_cons_of_neg h]
      rfl

theorem flatMap_if_self {α : Type} (c : α → Bool) (l : List α) :
    l.flatMap (fun e => if c e = true then [e] else []) = l.filter c := by
  induction l with
  | nil => rfl
  | cons e rest ih =>
    rw [List.flatMap_cons, ih]
    by_cases h : c e = true
    · rw [if_pos h, List.filter_cons_of_pos h]
      rfl
    · rw [if_neg h, List.filter_cons_of_neg h]
      rfl

theorem check_heartbeats_fold (now period : Nat) (entries : List (RepoId × InterestingRemote))
    (st : HeartbeatCheck) :
    (entries.foldl (check_heartbeats_scan now period) st).interesting =
      st.interesting ++ entries.map (fun e => if e.2.timed_out now period = true
        then (e.1, { e.2 with status := InterestingStatus.DOES_NOT_EXIST }) else e) ∧
    (entries.foldl (check_heartbeats_scan now period) st).callbacks =
      st.callbacks ++ entries.filter (fun e => e.2.timed_out now period) := by
  have h := foldl_scan (check_heartbeats_scan now period) (fun s => s.interesting)
    (fun s => s.callbacks)
    (fun e => if e.2.timed_out now period = true
      then (e.1, { e.2 with status := InterestingStatus.DOES_NOT_EXIST }) else e)
    (fun e => if e.2.timed_out now period = true then [e] else [])
    (by
      intro s e
      unfold check_heartbeats_scan
      dsimp only
      by_cases c : e.2.status = InterestingStatus.EXISTS ∧ e.2.last_activity + 10 * period < now
      · have ht : e.2.timed_out now period = true := by
          simp [InterestingRemote.timed_out, c.1, c.2]
        rw [if_pos c, if_pos ht, if_pos ht]
        exact ⟨rfl, rfl⟩
      · have ht : ¬ e.2.timed_out now period = true := by
          simpa [InterestingRemote.timed_out] using c
        rw [if_neg c, if_neg ht, if_neg ht]
        exact ⟨rfl, (List.append_nil _).symm⟩)
    entries st
  refine ⟨h.1, ?_⟩
  rw [h.2, flatMap_if_self (fun e : RepoId × InterestingRemote => e.2.timed_out now period)]

theorem send_heartbeats_scan_fold (now period : Nat)
    (entries : List (RepoId × InterestingRemote)) (st : HeartbeatScan) :
    (entries.foldl (send_heartbeats_scan now period) st).interesting =
      st.interesting ++ entries.map (fun e => if e.2.timed_out now period = true
        then (e.1, { e.2 with status := InterestingStatus.DOES_NOT_EXIST }) else e) ∧
    (entries.foldl (send_heartbeats_scan now period) st).callbacks =
      st.callbacks ++ entries.filter (fun e => e.2.timed_out now period) := by
  have h := foldl_scan (send_heartbeats_scan now period) (fun s => s.interesting)
    (fun s => s.callbacks)
    (fun e => if e.2.timed_out now period = true
      then (e.1, { e.2 with status := InterestingStatus.DOES_NOT_EXIST }) else e)
    (fun e => if e.2.timed_out now period = true then [e] else [])
    (by
      intro s e
      unfold send_heartbeats_scan
      dsimp only
      by_cases c : e.2.status = InterestingStatus.EXISTS ∧ e.2.last_activity + 10 * period < now
      · have ht : e.2.timed_out now period = true := by
          simp [InterestingRemote.timed_out, c.1, c.2]
        rw [if_pos c, if_pos ht, if_pos ht]
        exact ⟨rfl, rfl⟩
      · have ht : ¬ e.2.timed_out now period = true := by
          simpa [InterestingRemote.timed_out] using c
        rw [if_neg c, if_neg ht, if_neg ht]
        exact ⟨rfl, (List.append_nil _).symm⟩)
    entries st
  refine ⟨h.1, ?_⟩
  rw [h.2, flatMap_if_self (fun e : RepoId × InterestingRemote => e.2.timed_out now period)]

theorem received_heartbeat_fold (link : LinkState) (src : RepoId) (now : Nat)
    (entries : List (RepoId × InterestingRemote)) (st : WriterInterestScan) :
    (entries.foldl (received_heartbeat_scan link src now) st).interesting =
      st.interesting ++ entries.map (fun e => if e.1 = src
        then (e.1, { e.2 with last_activity := now, status := InterestingStatus.EXISTS })
        else e) ∧
    (entries.foldl (received_heartbeat_scan link src now) st).callbacks =
      st.callbacks ++ (entries.filter (fun e => decide (e.1 = src) &&
        decide (e.2.status = InterestingStatus.DOES_NOT_EXIST))).map
          (fun e => { e.2 with last_activity := now }) := by
  have h := foldl_scan (received_heartbeat_scan link src now) (fun s => s.interesting)
    (fun s => s.callbacks)
    (fun e => if e.1 = src
      then (e.1, { e.2 with last_activity := now, status := InterestingStatus.EXISTS })
      else e)
    (fun e => if (decide (e.1 = src) &&
        decide (e.2.status = InterestingStatus.DOES_NOT_EXIST)) = true
      then [({ e.2 with last_activity := now } : InterestingRemote)] else [])
    (by
      intro s e
      unfold received_heartbeat_scan
      dsimp only
      by_cases c : e.1 = src
      · rw [if_pos c, if_pos c]
        by_cases c2 : e.2.status = InterestingStatus.DOES_NOT_EXIST
        · rw [if_pos c2, if_pos (by simp [c, c2])]
          exact ⟨rfl, rfl⟩
        · rw [if_neg c2, if_neg (by simp [c2])]
          have hs : e.2.status = InterestingStatus.EXISTS := by
            cases h : e.2.status with
            | DOES_NOT_EXIST => exact absurd h c2
            | EXISTS => rfl
          refine ⟨?_, (List.append_nil _).symm⟩
          show s.interesting ++ [(e.1, ({ e.2 with last_activity := now } : InterestingRemote))]
            = _
          rw [show ({ e.2 with last_activity := now } : InterestingRemote) =
            { e.2 with last_activity := now, status := InterestingStatus.EXISTS } by rw [← hs]]
      · rw [if_neg c, if_neg c, if_neg (by simp [c])]
        exact ⟨rfl, (List.append_nil _).symm⟩)
    entries st
  refine ⟨h.1, ?_⟩
  rw [h.2, flatMap_if (fun e : RepoId × InterestingRemote => decide (e.1 = src) &&
    decide (e.2.status = InterestingStatus.DOES_NOT_EXIST))
    (fun e => ({ e.2 with last_activity := now } : InterestingRemote))]

theorem received_acknack_fold (local_id remote : RepoId) (now : Nat)
    (entries : List (RepoId × InterestingRemote)) :
    ∀ st : ReaderInterestScan,
      (entries.foldl (received_acknack_scan local_id remote now) st).interesting =
        st.interesting ++ entries.map (fun e => if e.1 = remote
          then (if local_id = e.2.localid ∧ e.2.status = InterestingStatus.DOES_NOT_EXIST
            then (e.1, { e.2 with last_activity := now, status := InterestingStatus.EXISTS })
            else (e.1, { e.2 with last_activity := now }))
          else e) ∧
      (entries.foldl (received_acknack_scan local_id remote now) st).callbacks =
        st.callbacks + (entries.filter (fun e => decide (e.1 = remote) &&
          (decide (local_id = e.2.localid) &&
            decide (e.2.status = InterestingStatus.DOES_NOT_EXIST)))).length := by
  induction entries with
  | nil =>
    intro st
    simp
  | cons e rest ih =>
    intro st
    rw [List.foldl_cons]
    obtain ⟨i1, i2⟩ := ih (received_acknack_scan local_id remote now st e)
    rw [i1, i2, List.map_cons]
    unfold received_acknack_scan
    by_cases c : e.1 = remote
    · rw [if_pos c, if_pos c]
      by_cases c2 : local_id = e.2.localid ∧ e.2.status = InterestingStatus.DOES_NOT_EXIST
      · rw [if_pos c2, if_pos c2, List.filter_cons_of_pos (by simp [c, c2.1.symm, c2.2])]
        refine ⟨by simp, ?_⟩
        simp only [List.length_cons]
        omega
      · rw [if_neg c2, if_neg c2, List.filter_cons_of_neg (by simpa [c] using c2)]
        exact ⟨by simp, rfl⟩
    · rw [if_neg c, if_neg c, List.filter_cons_of_neg (by simp [c])]
      exact ⟨by simp, rfl⟩

theorem interest_entries_map (m : List (RepoId × InterestingRemote)) (a b : RepoId)
    (g : RepoId × InterestingRemote → RepoId × InterestingRemote)
    (hg : ∀ e, (g e).1 = e.1 ∧ (g e).2.localid = e.2.localid) :
    interest_entries (m.map g) a b = (interest_entries m a b).map g := by
  unfold interest_entries
  rw [List.filter_map]
  congr 1
  apply List.filter_congr
  intro e _
  simp only [Function.comp, (hg e).1, (hg e).2]

theorem interest_entries_filter (m : List (RepoId × InterestingRemote)) (a b : RepoId)
    (c : RepoId × InterestingRemote → Bool) :
    interest_entries (m.filter c) a b = (interest_entries m a b).filter c := by
  unfold interest_entries
  rw [List.filter_filter, List.filter_filter]
  apply List.filter_congr
  intro e _
  exact Bool.and_comm _ _

theorem interest_entries_single (m : List (RepoId × InterestingRemote)) (a b : RepoId)
    (s : InterestingStatus)
    (h : (interest_entries m a b).map (fun e => e.2.status) = [s]) :
    ∃ e, interest_entries m a b = [e] ∧ e.2.status = s ∧ e.1 = a ∧ e.2.localid = b := by
  cases hl : interest_entries m a b with
  | nil =>
    rw [hl] at h
    cases h
  | cons e rest =>
    rw [hl] at h
    cases rest with
    | cons _ _ => cases h
    | nil =>
      have hm : e ∈ interest_entries m a b := by
        rw [hl]
        exact List.mem_cons_self _ _
      unfold interest_entries at hm
      have hp := (List.mem_filter.1 hm).2
      simp only [Bool.and_eq_true, decide_eq_true_eq] at hp
      simp only [List.map_cons, List.map_nil, List.cons.injEq, and_true] at h
      exact ⟨e, rfl, h, hp.1, hp.2⟩

theorem writer_callbacks_append (w r : RepoId) (a b : List LinkEvent) :
    writer_callbacks w r (a ++ b) = writer_callbacks w r a ++ writer_callbacks w r b := by
  induction a with
  | nil => rfl
  | cons x rest ih =>
    rw [List.cons_append]
    cases x <;> simp only [writer_callbacks, ih] <;> split_ifs <;> simp

theorem reader_callbacks_append (r w : RepoId) (a b : List LinkEvent) :
    reader_callbacks r w (a ++ b) = reader_callbacks r w a ++ reader_callbacks r w b := by
  induction a with
  | nil => rfl
  | cons x rest ih =>
    rw [List.cons_append]
    cases x <;> simp only [reader_callbacks, ih] <;> split_ifs <;> simp

theorem writer_callbacks_does_not_exist (w r : RepoId)
    (cbs : List (RepoId × InterestingRemote)) :
    writer_callbacks w r (cbs.map (fun c => LinkEvent.writer_does_not_exist c.1 c.2.localid)) =
      (interest_entries cbs w r).map (fun _ => false) := by
  induction cbs with
  | nil => rfl
  | cons c rest ih =>
    rw [List.map_cons]
    unfold interest_entries at ih ⊢
    simp only [writer_callbacks, ih]
    by_cases h : c.1 = w ∧ c.2.localid = r
    · rw [if_pos h, List.filter_cons_of_pos (by simp [h.1, h.2])]
      rfl
    · rw [if_neg h, List.filter_cons_of_neg (by simpa using h)]

theorem reader_callbacks_does_not_exist (r w : RepoId)
    (cbs : List (RepoId × InterestingRemote)) :
    reader_callbacks r w (cbs.map (fun c => LinkEvent.reader_does_not_exist c.1 c.2.localid)) =
      (interest_entries cbs r w).map (fun _ => false) := by
  induction cbs with
  | nil => rfl
  | cons c rest ih =>
    rw [List.map_cons]
    unfold interest_entries at ih ⊢
    simp only [reader_callbacks, ih]
    by_cases h : c.1 = r ∧ c.2.localid = w
    · rw [if_pos h, List.filter_cons_of_pos (by simp [h.1, h.2])]
      rfl
    · rw [if_neg h, List.filter_cons_of_neg (by simpa using h)]

theorem writer_callbacks_exists (w r src : RepoId) (cs : List (RepoId × InterestingRemote)) :
    writer_callbacks w r (cs.map (fun c => LinkEvent.writer_exists src c.2.localid)) =
      if src = w then (cs.filter (fun c => decide (c.2.localid = r))).map (fun _ => true)
      else [] := by
  induction cs with
  | nil =>
    split_ifs <;> rfl
  | cons c rest ih =>
    rw [List.map_cons]
    simp only [writer_callbacks, ih]
    by_cases h1 : src = w
    · by_cases h2 : c.2.localid = r
      · rw [if_pos ⟨h1, h2⟩, if_pos h1, if_pos h1, List.filter_cons_of_pos (by simp [h2])]
        rfl
      · rw [if_neg (fun h => h2 h.2), if_pos h1, if_pos h1,
          List.filter_cons_of_neg (by simpa using h2)]
    · rw [if_neg (fun h => h1 h.1), if_neg h1, if_neg h1]

theorem reader_callbacks_exists (r w remote local_id : RepoId) (n : Nat) :
    reader_callbacks r w (List.replicate n (LinkEvent.reader_exists remote local_id)) =
      if remote = r ∧ local_id = w then List.replicate n true else [] := by
  induction n with
  | zero =>
    split_ifs <;> rfl
  | succ k ih =>
    rw [List.replicate_succ]
    simp only [reader_callbacks, ih]
    by_cases h : remote = r ∧ local_id = w
    · rw [if_pos h, if_pos h, if_pos h]
      rfl
    · rw [if_neg h, if_neg h, if_neg h]

theorem writer_callbacks_none (w r : RepoId) (l : List LinkEvent)
    (h : ∀ ev ∈ l, (∀ a b, ev ≠ LinkEvent.writer_exists a b) ∧
      ∀ a b, ev ≠ LinkEvent.writer_does_not_exist a b) :
    writer_callbacks w r l = [] := by
  induction l with
  | nil => rfl
  | cons x rest ih =>
    have hx := h x (List.mem_cons_self _ _)
    have hr := ih (fun ev hev => h ev (List.mem_cons_of_mem _ hev))
    cases x <;> simp only [writer_callbacks, hr]
    · exact absurd rfl (hx.2 _ _)
    · exact absurd rfl (hx.1 _ _)

theorem reader_callbacks_none (r w : RepoId) (l : List LinkEvent)
    (h : ∀ ev ∈ l, (∀ a b, ev ≠ LinkEvent.reader_exists a b) ∧
      ∀ a b, ev ≠ LinkEvent.reader_does_not_exist a b) :
    reader_callbacks r w l = [] := by
  induction l with
  | nil => rfl
  | cons x rest ih =>
    have hx := h x (List.mem_cons_self _ _)
    have hr := ih (fun ev hev => h ev (List.mem_cons_of_mem _ hev))
    cases x <;> simp only [reader_callbacks, hr]
    · exact absurd rfl (hx.2 _ _)
    · exact absurd rfl (hx.1 _ _)

theorem datareader_dispatch_frame (link : LinkState) (readerId : Nat) (src : RepoId)
    (func : RtpsReader → Option ReaderResult) (d : DispatchResult)
    (h : link.datareader_dispatch readerId src func = some d) :
    d.link.interesting_writers_ = link.interesting_writers_ ∧
    d.link.interesting_readers_ = link.interesting_readers_ ∧
    d.link.interesting_ack_nacks_ = link.interesting_ack_nacks_ := by
  unfold LinkState.datareader_dispatch at h
  cases hd : dispatch_calls func (link.datareader_targets readerId src) link.reader_objs with
  | none =>
    rw [hd] at h
    cases h
  | some t =>
    rw [hd] at h
    simp only [Option.some.injEq] at h
    rw [← h]
    exact ⟨rfl, rfl, rfl⟩

theorem datawriter_dispatch_frame (link : LinkState) (writerId readerId : Nat) ( src_prefix : Nat)
    (func : RtpsWriter → RepoId → Option WriterResult) (d : WriterDispatchResult)
    (h : link.datawriter_dispatch writerId readerId src_prefix func = some d) :
    d.link.interesting_writers_ = link.interesting_writers_ ∧
    d.link.interesting_readers_ = link.interesting_readers_ := by
  unfold LinkState.datawriter_dispatch at h
  cases hw : guid_find link.writers_ ⟨link.local_prefix_, writerId⟩ with
  | none =>
    rw [hw] at h
    simp only [Option.some.injEq] at h
    rw [← h]
    exact ⟨rfl, rfl⟩
  | some w =>
    rw [hw] at h
    simp only at h
    cases hf : func w ⟨ src_prefix, readerId⟩ with
    | none =>
      rw [hf] at h
      cases h
    | some res =>
      rw [hf] at h
      simp only [Option.some.injEq] at h
      rw [← h]
      exact ⟨rfl, rfl⟩

theorem check_heartbeats_callbacks (link : LinkState) (now period : Nat) :
    (link.check_heartbeats now period).1.interesting_writers_ =
      link.interesting_writers_.map (fun e => if e.2.timed_out now period = true
        then (e.1, { e.2 with status := InterestingStatus.DOES_NOT_EXIST }) else e) ∧
    (link.check_heartbeats now period).1.interesting_readers_ = link.interesting_readers_ ∧
    (link.check_heartbeats now period).2 =
      (link.interesting_writers_.filter (fun e => e.2.timed_out now period)).map
        (fun c => LinkEvent.writer_does_not_exist c.1 c.2.localid) := by
  have h := check_heartbeats_fold now period link.interesting_writers_ ⟨[], []⟩
  unfold LinkState.check_heartbeats
  simp only [h.1, h.2, List.nil_append]
  exact ⟨trivial, trivial, trivial⟩

theorem received_heartbeat_callbacks (link : LinkState) (rs : ReceiveStrategy)
    (hb : HeartBeatSubmessage) (p now : Nat) :
    (∀ d, (link.received_heartbeat rs hb p now).2 = some d →
      d.link.interesting_writers_ =
        link.interesting_writers_.map (fun e => if e.1 = ⟨p, hb.writerId⟩
          then (e.1, { e.2 with last_activity := now, status := InterestingStatus.EXISTS })
          else e) ∧
      d.link.interesting_readers_ = link.interesting_readers_) ∧
    ∃ sched : List LinkEvent,
      (sched = [] ∨ sched = [LinkEvent.heartbeat_reply_schedule]) ∧
      (link.received_heartbeat rs hb p now).1 =
        ((link.interesting_writers_.filter (fun e => decide (e.1 = ⟨p, hb.writerId⟩) &&
          decide (e.2.status = InterestingStatus.DOES_NOT_EXIST))).map
            (fun e => LinkEvent.writer_exists ⟨p, hb.writerId⟩ e.2.localid)) ++ sched := by
  have h := received_heartbeat_fold link ⟨p, hb.writerId⟩ now link.interesting_writers_
    ⟨[], link.interesting_ack_nacks_, []⟩
  simp only [List.nil_append] at h
  unfold LinkState.received_heartbeat
  constructor
  · intro d hd
    obtain ⟨f1, f2, _⟩ := datareader_dispatch_frame _ _ _ _ d hd
    rw [f1, f2]
    exact ⟨h.1, rfl⟩
  · refine ⟨if (!(link.interesting_writers_.foldl
        (received_heartbeat_scan link ⟨p, hb.writerId⟩ now)
        ⟨[], link.interesting_ack_nacks_, []⟩).interesting_ack_nacks.isEmpty) = true
      then [LinkEvent.heartbeat_reply_schedule] else [], ?_, ?_⟩
    · split_ifs
      · exact Or.inr rfl
      · exact Or.inl rfl
    · simp only
      rw [h.2, List.map_map]
      rfl

theorem received_acknack_callbacks (link : LinkState) (an : AckNackSubmessage) (p now : Nat) :
    (∀ d, (link.received_acknack an p now).2 = some d →
      d.link.interesting_readers_ =
        link.interesting_readers_.map (fun e => if e.1 = ⟨p, an.readerId⟩
          then (if (⟨link.local_prefix_, an.writerId⟩ : RepoId) = e.2.localid ∧
              e.2.status = InterestingStatus.DOES_NOT_EXIST
            then (e.1, { e.2 with last_activity := now, status := InterestingStatus.EXISTS })
            else (e.1, { e.2 with last_activity := now }))
          else e) ∧
      d.link.interesting_writers_ = link.interesting_writers_) ∧
    (link.received_acknack an p now).1 =
      List.replicate
        (link.interesting_readers_.filter (fun e => decide (e.1 = ⟨p, an.readerId⟩) &&
          (decide ((⟨link.local_prefix_, an.writerId⟩ : RepoId) = e.2.localid) &&
            decide (e.2.status = InterestingStatus.DOES_NOT_EXIST)))).length
        (LinkEvent.reader_exists ⟨p, an.readerId⟩ ⟨link.local_prefix_, an.writerId⟩) := by
  have h := received_acknack_fold ⟨link.local_prefix_, an.writerId⟩ ⟨p, an.readerId⟩ now
    link.interesting_readers_ ⟨[], 0⟩
  simp only [List.nil_append, Nat.zero_add] at h
  unfold LinkState.received_acknack
  constructor
  · intro d hd
    obtain ⟨f1, f2⟩ := datawriter_dispatch_frame _ _ _ _ _ d hd
    rw [f1, f2]
    exact ⟨h.1, rfl⟩
  · simp only
    rw [h.2]

theorem send_heartbeats_callbacks (link : LinkState) (security : Bool)
    (now period timeout : Nat) :
    (link.send_heartbeats security now period timeout).1.interesting_readers_ =
      link.interesting_readers_.map (fun e => if e.2.timed_out now period = true
        then (e.1, { e.2 with status := InterestingStatus.DOES_NOT_EXIST }) else e) ∧
    (link.send_heartbeats security now period timeout).1.interesting_writers_ =
      link.interesting_writers_ ∧
    ∃ pre post : List LinkEvent,
      (link.send_heartbeats security now period timeout).2 =
        pre ++ (link.interesting_readers_.filter (fun e => e.2.timed_out now period)).map
          (fun c => LinkEvent.reader_does_not_exist c.1 c.2.localid) ++ post ∧
      (∀ ev ∈ pre ++ post,
        ((∀ a b, ev ≠ LinkEvent.reader_exists a b) ∧
          ∀ a b, ev ≠ LinkEvent.reader_does_not_exist a b) ∧
        (∀ a b, ev ≠ LinkEvent.writer_exists a b) ∧
          ∀ a b, ev ≠ LinkEvent.writer_does_not_exist a b) := by
  have h := send_heartbeats_scan_fold now period link.interesting_readers_ ⟨[], [], []⟩
  simp only [List.nil_append] at h
  unfold LinkState.send_heartbeats
  simp only
  rw [h.1, h.2]
  refine ⟨rfl, trivial, _, _, rfl, ?_⟩
  intro ev hev
  rcases List.mem_append.1 hev with h1 | h1
  · rcases List.mem_append.1 h1 with h2 | h2
    · split_ifs at h2
      · rw [List.mem_singleton.1 h2]
        refine ⟨⟨?_, ?_⟩, ?_, ?_⟩ <;> intro a b hh <;> cases hh
      · cases h2
    · rw [List.mem_singleton.1 h2]
      refine ⟨⟨?_, ?_⟩, ?_, ?_⟩ <;> intro a b hh <;> cases hh
  · obtain ⟨x, _, hx⟩ := List.mem_map.1 h1
    rw [← hx]
    refine ⟨⟨?_, ?_⟩, ?_, ?_⟩ <;> intro a b hh <;> cases hh

theorem writer_interest_step (w r : RepoId) (rs : ReceiveStrategy) (link : LinkState)
    (s : InterestingStatus) (op : InterestOp)
    (h : (interest_entries link.interesting_writers_ w r).map (fun e => e.2.status) = [s]) :
    ∃ s1 : InterestingStatus,
      (∀ link1, (link.interest_step rs op).2 = some link1 →
        (interest_entries link1.interesting_writers_ w r).map (fun e => e.2.status) = [s1]) ∧
      ((s1 = s ∧ writer_callbacks w r (link.interest_step rs op).1 = []) ∨
        (s = InterestingStatus.DOES_NOT_EXIST ∧ s1 = InterestingStatus.EXISTS ∧
          writer_callbacks w r (link.interest_step rs op).1 = [true]) ∨
        (s = InterestingStatus.EXISTS ∧ s1 = InterestingStatus.DOES_NOT_EXIST ∧
          writer_callbacks w r (link.interest_step rs op).1 = [false])) := by
  obtain ⟨e, he, hs, hk, hl⟩ := interest_entries_single _ _ _ _ h
  cases op with
  | heartbeat hb p now =>
    obtain ⟨c1, sched, c2, c3⟩ := received_heartbeat_callbacks link rs hb p now
    have hev : (link.interest_step rs (InterestOp.heartbeat hb p now)).1 =
        (link.received_heartbeat rs hb p now).1 := rfl
    have hlink : ∀ link1, (link.interest_step rs (InterestOp.heartbeat hb p now)).2 = some link1 →
        ∃ d, (link.received_heartbeat rs hb p now).2 = some d ∧ d.link = link1 := by
      intro link1 h1
      exact Option.map_eq_some'.1 h1
    have hsched : writer_callbacks w r sched = [] := by
      rcases c2 with c2 | c2 <;> rw [c2] <;> rfl
    rw [hev, c3, writer_callbacks_append, hsched, List.append_nil, writer_callbacks_exists]
    have hmap : ∀ link1,
        (link.interest_step rs (InterestOp.heartbeat hb p now)).2 = some link1 →
        interest_entries link1.interesting_writers_ w r =
          [if e.1 = ⟨p, hb.writerId⟩
            then (e.1, { e.2 with last_activity := now, status := InterestingStatus.EXISTS })
            else e] := by
      intro link1 h1
      obtain ⟨d, hd, hdl⟩ := hlink link1 h1
      rw [← hdl, (c1 d hd).1, interest_entries_map _ _ _ _ (fun x => by split_ifs <;> exact ⟨rfl, rfl⟩),
        he]
      rfl
    by_cases hsrc : (⟨p, hb.writerId⟩ : RepoId) = w
    · refine ⟨InterestingStatus.EXISTS, fun link1 h1 => ?_, ?_⟩
      · rw [hmap link1 h1, if_pos (hk.trans hsrc.symm)]
        rfl
      · rw [if_pos hsrc, List.filter_filter]
        have hf : link.interesting_writers_.filter
            (fun a => decide (a.2.localid = r) &&
              (decide (a.1 = ⟨p, hb.writerId⟩) &&
                decide (a.2.status = InterestingStatus.DOES_NOT_EXIST))) =
            (interest_entries link.interesting_writers_ w r).filter
              (fun a => decide (a.2.status = InterestingStatus.DOES_NOT_EXIST)) := by
          unfold interest_entries
          rw [List.filter_filter]
          apply List.filter_congr
          intro x _
          rw [hsrc]
          cases decide (x.2.localid = r) <;> cases decide (x.1 = w) <;>
            cases decide (x.2.status = InterestingStatus.DOES_NOT_EXIST) <;> rfl
        rw [hf, he]
        cases hst : s with
        | DOES_NOT_EXIST =>
          right; left
          rw [List.filter_cons_of_pos (by simp [hs, hst])]
          exact ⟨rfl, rfl, rfl⟩
        | EXISTS =>
          left
          rw [List.filter_cons_of_neg (by simp [hs, hst])]
          exact ⟨rfl, rfl⟩
    · refine ⟨s, fun link1 h1 => ?_, Or.inl ⟨rfl, ?_⟩⟩
      · rw [hmap link1 h1, if_neg (fun hh => hsrc (hh.symm.trans hk))]
        simp only [List.map_cons, List.map_nil, hs]
      · rw [if_neg hsrc]
  | acknack an p now =>
    obtain ⟨c1, c2⟩ := received_acknack_callbacks link an p now
    have hev : (link.interest_step rs (InterestOp.acknack an p now)).1 =
        (link.received_acknack an p now).1 := rfl
    refine ⟨s, fun link1 h1 => ?_, Or.inl ⟨rfl, ?_⟩⟩
    · obtain ⟨d, hd, hdl⟩ := Option.map_eq_some'.1 h1
      rw [← hdl, (c1 d hd).2]
      exact h
    · rw [hev, c2]
      apply writer_callbacks_none
      intro ev hev2
      rw [(List.mem_replicate.1 hev2).2]
      constructor <;> intro a b hh <;> cases hh
  | check_heartbeats now period =>
    obtain ⟨c1, _, c3⟩ := check_heartbeats_callbacks link now period
    have hev : (link.interest_step rs (InterestOp.check_heartbeats now period)).1 =
        (link.check_heartbeats now period).2 := rfl
    have hlk : ∀ link1,
        (link.interest_step rs (InterestOp.check_heartbeats now period)).2 = some link1 →
        link1 = (link.check_heartbeats now period).1 := by
      intro link1 h1
      exact (Option.some.inj h1).symm
    rw [hev, c3, writer_callbacks_does_not_exist, interest_entries_filter, he]
    by_cases ht : e.2.timed_out now period = true
    · have hex : s = InterestingStatus.EXISTS := by
        unfold InterestingRemote.timed_out at ht
        simp only [Bool.and_eq_true, decide_eq_true_eq] at ht
        rw [← hs]
        exact ht.1
      refine ⟨InterestingStatus.DOES_NOT_EXIST, fun link1 h1 => ?_, Or.inr (Or.inr ⟨hex, rfl, ?_⟩)⟩
      · rw [hlk link1 h1, c1,
          interest_entries_map _ _ _ _ (fun x => by split_ifs <;> exact ⟨rfl, rfl⟩), he]
        simp only [List.map_cons, List.map_nil, if_pos ht]
      · simp [List.filter_cons, ht]
    · refine ⟨s, fun link1 h1 => ?_, Or.inl ⟨rfl, ?_⟩⟩
      · rw [hlk link1 h1, c1,
          interest_entries_map _ _ _ _ (fun x => by split_ifs <;> exact ⟨rfl, rfl⟩), he]
        simp only [List.map_cons, List.map_nil, if_neg ht, hs]
      · simp [List.filter_cons, ht]
  | send_heartbeats security now period timeout =>
    obtain ⟨_, c2, pre, post, c3, c4⟩ := send_heartbeats_callbacks link security now period timeout
    have hev : (link.interest_step rs
        (InterestOp.send_heartbeats security now period timeout)).1 =
        (link.send_heartbeats security now period timeout).2 := rfl
    refine ⟨s, fun link1 h1 => ?_, Or.inl ⟨rfl, ?_⟩⟩
    · rw [← Option.some.inj h1, c2]
      exact h
    · rw [hev, c3, writer_callbacks_append, writer_callbacks_append,
        writer_callbacks_none w r pre (fun ev hh => (c4 ev (List.mem_append_left _ hh)).2),
        writer_callbacks_none w r post (fun ev hh => (c4 ev (List.mem_append_right _ hh)).2),
        writer_callbacks_none]
      · rfl
      · intro ev hh
        obtain ⟨x, _, hx⟩ := List.mem_map.1 hh
        rw [← hx]
        constructor <;> intro a b hh2 <;> cases hh2

theorem reader_interest_step (r w : RepoId) (rs : ReceiveStrategy) (link : LinkState)
    (s : InterestingStatus) (op : InterestOp)
    (h : (interest_entries link.interesting_readers_ r w).map (fun e => e.2.status) = [s]) :
    ∃ s1 : InterestingStatus,
      (∀ link1, (link.interest_step rs op).2 = some link1 →
        (interest_entries link1.interesting_readers_ r w).map (fun e => e.2.status) = [s1]) ∧
      ((s1 = s ∧ reader_callbacks r w (link.interest_step rs op).1 = []) ∨
        (s = InterestingStatus.DOES_NOT_EXIST ∧ s1 = InterestingStatus.EXISTS ∧
          reader_callbacks r w (link.interest_step rs op).1 = [true]) ∨
        (s = InterestingStatus.EXISTS ∧ s1 = InterestingStatus.DOES_NOT_EXIST ∧
          reader_callbacks r w (link.interest_step rs op).1 = [false])) := by
  obtain ⟨e, he, hs, hk, hl⟩ := interest_entries_single _ _ _ _ h
  cases op with
  | heartbeat hb p now =>
    obtain ⟨c1, sched, c2, c3⟩ := received_heartbeat_callbacks link rs hb p now
    have hev : (link.interest_step rs (InterestOp.heartbeat hb p now)).1 =
        (link.received_heartbeat rs hb p now).1 := rfl
    refine ⟨s, fun link1 h1 => ?_, Or.inl ⟨rfl, ?_⟩⟩
    · obtain ⟨d, hd, hdl⟩ := Option.map_eq_some'.1 h1
      rw [← hdl, (c1 d hd).2]
      exact h
    · rw [hev, c3]
      apply reader_callbacks_none
      intro ev hev2
      rcases List.mem_append.1 hev2 with h2 | h2
      · obtain ⟨x, _, hx⟩ := List.mem_map.1 h2
        rw [← hx]
        constructor <;> intro a b hh <;> cases hh
      · rcases c2 with c2 | c2
        · rw [c2] at h2
          cases h2
        · rw [c2] at h2
          rw [List.mem_singleton.1 h2]
          constructor <;> intro a b hh <;> cases hh
  | acknack an p now =>
    obtain ⟨c1, c2⟩ := received_acknack_callbacks link an p now
    have hev : (link.interest_step rs (InterestOp.acknack an p now)).1 =
        (link.received_acknack an p now).1 := rfl
    have hmap : ∀ link1,
        (link.interest_step rs (InterestOp.acknack an p now)).2 = some link1 →
        interest_entries link1.interesting_readers_ r w =
          [if e.1 = ⟨p, an.readerId⟩
            then (if (⟨link.local_prefix_, an.writerId⟩ : RepoId) = e.2.localid ∧
                e.2.status = InterestingStatus.DOES_NOT_EXIST
              then (e.1, { e.2 with last_activity := now, status := InterestingStatus.EXISTS })
              else (e.1, { e.2 with last_activity := now }))
            else e] := by
      intro link1 h1
      obtain ⟨d, hd, hdl⟩ := Option.map_eq_some'.1 h1
      rw [← hdl, (c1 d hd).1,
        interest_entries_map _ _ _ _ (fun x => by split_ifs <;> exact ⟨rfl, rfl⟩), he]
      rfl
    rw [hev, c2, reader_callbacks_exists]
    by_cases hpair : (⟨p, an.readerId⟩ : RepoId) = r ∧
        (⟨link.local_prefix_, an.writerId⟩ : RepoId) = w
    · rw [if_pos hpair]
      have hf : link.interesting_readers_.filter
          (fun a => decide (a.1 = ⟨p, an.readerId⟩) &&
            (decide ((⟨link.local_prefix_, an.writerId⟩ : RepoId) = a.2.localid) &&
              decide (a.2.status = InterestingStatus.DOES_NOT_EXIST))) =
          (interest_entries link.interesting_readers_ r w).filter
            (fun a => decide (a.2.status = InterestingStatus.DOES_NOT_EXIST)) := by
        unfold interest_entries
        rw [List.filter_filter]
        apply List.filter_congr
        intro x _
        rw [hpair.1, hpair.2]
        have hsym : decide (w = x.2.localid) = decide (x.2.localid = w) := by
          by_cases hx : x.2.localid = w
          · simp [hx]
          · have hx2 : ¬ w = x.2.localid := fun hh => hx hh.symm
            simp [hx, hx2]
        rw [hsym]
        cases decide (x.2.localid = w) <;> cases decide (x.1 = r) <;>
          cases decide (x.2.status = InterestingStatus.DOES_NOT_EXIST) <;> rfl
      rw [hf, he]
      cases hst : s with
      | DOES_NOT_EXIST =>
        refine ⟨InterestingStatus.EXISTS, fun link1 h1 => ?_, Or.inr (Or.inl ⟨rfl, rfl, ?_⟩)⟩
        · rw [hmap link1 h1, if_pos (hk.trans hpair.1.symm),
            if_pos ⟨hpair.2.trans hl.symm, hs.trans hst⟩]
          rfl
        · simp [List.filter_cons, hs, hst]
      | EXISTS =>
        refine ⟨InterestingStatus.EXISTS, fun link1 h1 => ?_, Or.inl ⟨rfl, ?_⟩⟩
        · rw [hmap link1 h1, if_pos (hk.trans hpair.1.symm),
            if_neg (fun hh => by rw [hs, hst] at hh; exact absurd hh.2 (by decide))]
          simp only [List.map_cons, List.map_nil, hs, hst]
        · simp [List.filter_cons, hs, hst]
    · rw [if_neg hpair]
      refine ⟨s, fun link1 h1 => ?_, Or.inl ⟨rfl, rfl⟩⟩
      rw [hmap link1 h1]
      by_cases hr : e.1 = ⟨p, an.readerId⟩
      · rw [if_pos hr, if_neg (fun hh => hpair ⟨hr.symm.trans hk, hh.1.trans hl⟩)]
        simp only [List.map_cons, List.map_nil, hs]
      · rw [if_neg hr]
        simp only [List.map_cons, List.map_nil, hs]
  | check_heartbeats now period =>
    obtain ⟨_, c2, c3⟩ := check_heartbeats_callbacks link now period
    have hev : (link.interest_step rs (InterestOp.check_heartbeats now period)).1 =
        (link.check_heartbeats now period).2 := rfl
    refine ⟨s, fun link1 h1 => ?_, Or.inl ⟨rfl, ?_⟩⟩
    · rw [← Option.some.inj h1, c2]
      exact h
    · rw [hev, c3]
      apply reader_callbacks_none
      intro ev hh
      obtain ⟨x, _, hx⟩ := List.mem_map.1 hh
      rw [← hx]
      constructor <;> intro a b hh2 <;> cases hh2
  | send_heartbeats security now period timeout =>
    obtain ⟨c1, _, pre, post, c3, c4⟩ := send_heartbeats_callbacks link security now period timeout
    have hev : (link.interest_step rs
        (InterestOp.send_heartbeats security now period timeout)).1 =
        (link.send_heartbeats security now period timeout).2 := rfl
    have hlk : ∀ link1,
        (link.interest_step rs (InterestOp.send_heartbeats security now period timeout)).2 =
          some link1 →
        link1 = (link.send_heartbeats security now period timeout).1 := by
      intro link1 h1
      exact (Option.some.inj h1).symm
    rw [hev, c3, reader_callbacks_append, reader_callbacks_append,
      reader_callbacks_none r w pre (fun ev hh => (c4 ev (List.mem_append_left _ hh)).1),
      reader_callbacks_none r w post (fun ev hh => (c4 ev (List.mem_append_right _ hh)).1),
      reader_callbacks_does_not_exist, interest_entries_filter, he, List.nil_append,
      List.append_nil]
    by_cases ht : e.2.timed_out now period = true
    · have hex : s = InterestingStatus.EXISTS := by
        unfold InterestingRemote.timed_out at ht
        simp only [Bool.and_eq_true, decide_eq_true_eq] at ht
        rw [← hs]
        exact ht.1
      refine ⟨InterestingStatus.DOES_NOT_EXIST, fun link1 h1 => ?_, Or.inr (Or.inr ⟨hex, rfl, ?_⟩)⟩
      · rw [hlk link1 h1, c1,
          interest_entries_map _ _ _ _ (fun x => by split_ifs <;> exact ⟨rfl, rfl⟩), he]
        simp only [List.map_cons, List.map_nil, if_pos ht]
      · simp [List.filter_cons, ht]
    · refine ⟨s, fun link1 h1 => ?_, Or.inl ⟨rfl, ?_⟩⟩
      · rw [hlk link1 h1, c1,
          interest_entries_map _ _ _ _ (fun x => by split_ifs <;> exact ⟨rfl, rfl⟩), he]
        simp only [List.map_cons, List.map_nil, if_neg ht, hs]
      · simp [List.filter_cons, ht]

theorem alternates_step (s s1 : InterestingStatus) (cb rest : List Bool)
    (hstep : (s1 = s ∧ cb = []) ∨
      (s = InterestingStatus.DOES_NOT_EXIST ∧ s1 = InterestingStatus.EXISTS ∧ cb = [true]) ∨
      (s = InterestingStatus.EXISTS ∧ s1 = InterestingStatus.DOES_NOT_EXIST ∧ cb = [false]))
    (hrest : alternates (decide (s1 = InterestingStatus.DOES_NOT_EXIST)) rest = true) :
    alternates (decide (s = InterestingStatus.DOES_NOT_EXIST)) (cb ++ rest) = true := by
  rcases hstep with ⟨h1, h2⟩ | ⟨h1, h2, h3⟩ | ⟨h1, h2, h3⟩
  · rw [h2, ← h1]
    exact hrest
  · rw [h3, h1]
    rw [h2] at hrest
    simpa [alternates] using hrest
  · rw [h3, h1]
    rw [h2] at hrest
    simpa [alternates] using hrest

theorem writer_callbacks_run (w r : RepoId) (rs : ReceiveStrategy) (ops : List InterestOp) :
    ∀ (link : LinkState) (s : InterestingStatus),
      (interest_entries link.interesting_writers_ w r).map (fun e => e.2.status) = [s] →
      alternates (decide (s = InterestingStatus.DOES_NOT_EXIST))
        (writer_callbacks w r (link.interest_run rs ops)) = true := by
  induction ops with
  | nil =>
    intro link s _
    rfl
  | cons op rest ih =>
    intro link s h
    obtain ⟨s1, h1, h2⟩ := writer_interest_step w r rs link s op h
    unfold LinkState.interest_run
    rw [writer_callbacks_append]
    apply alternates_step s s1 _ _ h2
    cases hst : (link.interest_step rs op).2 with
    | none => rfl
    | some link1 => exact ih link1 s1 (h1 link1 hst)

theorem reader_callbacks_run (r w : RepoId) (rs : ReceiveStrategy) (ops : List InterestOp) :
    ∀ (link : LinkState) (s : InterestingStatus),
      (interest_entries link.interesting_readers_ r w).map (fun e => e.2.status) = [s] →
      alternates (decide (s = InterestingStatus.DOES_NOT_EXIST))
        (reader_callbacks r w (link.interest_run rs ops)) = true := by
  induction ops with
  | nil =>
    intro link s _
    rfl
  | cons op rest ih =>
    intro link s h
    obtain ⟨s1, h1, h2⟩ := reader_interest_step r w rs link s op h
    unfold LinkState.interest_run
    rw [reader_callbacks_append]
    apply alternates_step s s1 _ _ h2
    cases hst : (link.interest_step rs op).2 with
    | none => rfl
    | some link1 => exact ih link1 s1 (h1 link1 hst)

/-- C32 (amended): the existence callbacks for interesting remote entities.  Both
registrations enter the remote entity with the status `DOES_NOT_EXIST`.
`check_heartbeats` calls `writer_does_not_exist` for exactly the entries of
`interesting_writers_` whose status is `EXISTS` and whose last activity is older
than `now - 10 * heartbeat_period`, and sets their status to `DOES_NOT_EXIST`;
`send_heartbeats` does the same with `reader_does_not_exist` for
`interesting_readers_`.  A HEARTBEAT from a writer calls `writer_exists` for
exactly the entries of that writer whose status is `DOES_NOT_EXIST`.  An ACKNACK
from a reader calls `reader_exists` once for each entry of that reader whose
status is `DOES_NOT_EXIST` and whose local writer is the writer the ACKNACK is
addressed to; the entries of the reader for other local writers only get a new
last activity.  Hence, over any sequence of HEARTBEATs, ACKNACKs and runs of the
two timers, the callbacks for a remote writer and a local reader that have one
entry alternate, beginning with `writer_exists` when the entry's status is
`DOES_NOT_EXIST`, and likewise for a remote reader and a local writer. -/
theorem existence_callbacks (link : LinkState) (rs : ReceiveStrategy)
    (w r rd wr : RepoId) (sw sr : InterestingStatus) (ops : List InterestOp)
    (hw : (interest_entries link.interesting_writers_ w r).map (fun e => e.2.status) = [sw])
    (hr : (interest_entries link.interesting_readers_ rd wr).map (fun e => e.2.status) = [sr]) :
    (∀ (l : LinkState) (a b : RepoId) (addr : Nat),
      (l.register_for_writer a b addr).1.interesting_writers_ =
        guid_multimap_insert l.interesting_writers_ b
          ⟨a, addr, 0, InterestingStatus.DOES_NOT_EXIST⟩ ∧
      (l.register_for_reader a b addr).1.interesting_readers_ =
        guid_multimap_insert l.interesting_readers_ b
          ⟨a, addr, 0, InterestingStatus.DOES_NOT_EXIST⟩) ∧
    (∀ now period : Nat,
      (link.check_heartbeats now period).1.interesting_writers_ =
        link.interesting_writers_.map (fun e => if e.2.timed_out now period = true
          then (e.1, { e.2 with status := InterestingStatus.DOES_NOT_EXIST }) else e) ∧
      (link.check_heartbeats now period).2 =
        (link.interesting_writers_.filter (fun e => e.2.timed_out now period)).map
          (fun c => LinkEvent.writer_does_not_exist c.1 c.2.localid)) ∧
    (∀ (security : Bool) (now period timeout : Nat),
      (link.send_heartbeats security now period timeout).1.interesting_readers_ =
        link.interesting_readers_.map (fun e => if e.2.timed_out now period = true
          then (e.1, { e.2 with status := InterestingStatus.DOES_NOT_EXIST }) else e) ∧
      ∃ pre post : List LinkEvent,
        (link.send_heartbeats security now period timeout).2 =
          pre ++ (link.interesting_readers_.filter (fun e => e.2.timed_out now period)).map
            (fun c => LinkEvent.reader_does_not_exist c.1 c.2.localid) ++ post ∧
        ∀ ev ∈ pre ++ post, ∀ a b, ev ≠ LinkEvent.reader_does_not_exist a b) ∧
    (∀ (hb : HeartBeatSubmessage) (p now : Nat),
      ∃ sched : List LinkEvent,
        (sched = [] ∨ sched = [LinkEvent.heartbeat_reply_schedule]) ∧
        (link.received_heartbeat rs hb p now).1 =
          ((link.interesting_writers_.filter (fun e => decide (e.1 = ⟨p, hb.writerId⟩) &&
            decide (e.2.status = InterestingStatus.DOES_NOT_EXIST))).map
              (fun e => LinkEvent.writer_exists ⟨p, hb.writerId⟩ e.2.localid)) ++ sched) ∧
    (∀ (an : AckNackSubmessage) (p now : Nat),
      (link.received_acknack an p now).1 =
        List.replicate
          (link.interesting_readers_.filter (fun e => decide (e.1 = ⟨p, an.readerId⟩) &&
            (decide ((⟨link.local_prefix_, an.writerId⟩ : RepoId) = e.2.localid) &&
              decide (e.2.status = InterestingStatus.DOES_NOT_EXIST)))).length
          (LinkEvent.reader_exists ⟨p, an.readerId⟩ ⟨link.local_prefix_, an.writerId⟩)) ∧
    alternates (decide (sw = InterestingStatus.DOES_NOT_EXIST))
      (writer_callbacks w r (link.interest_run rs ops)) = true ∧
    alternates (decide (sr = InterestingStatus.DOES_NOT_EXIST))
      (reader_callbacks rd wr (link.interest_run rs ops)) = true := by
  refine ⟨fun l a b addr => ⟨rfl, rfl⟩, fun now period => ?_, fun security now period timeout => ?_,
    fun hb p now => (received_heartbeat_callbacks link rs hb p now).2,
    fun an p now => (received_acknack_callbacks link an p now).2,
    writer_callbacks_run w r rs ops link sw hw, reader_callbacks_run rd wr rs ops link sr hr⟩
  · exact ⟨(check_heartbeats_callbacks link now period).1,
      (check_heartbeats_callbacks link now period).2.2⟩
  · obtain ⟨c1, _, pre, post, c3, c4⟩ :=
      send_heartbeats_callbacks link security now period timeout
    exact ⟨c1, pre, post, c3, fun ev hev => (c4 ev hev).1.2⟩

/-- Witness for C32: on a fresh link the local reader `(1, 4)` registers the remote
writer `(7, 2)` and the local writer `(1, 2)` registers the remote reader
`(9, 7)`.  A HEARTBEAT of the writer at 100, the check at 1000, a second
HEARTBEAT at 1010, an ACKNACK of the reader at 1020 and the heartbeat timer at
2000 give the callbacks exists, does-not-exist, exists for the writer and exists,
does-not-exist for the reader. -/
theorem existence_callbacks_witness :
    (alternates true
      (writer_callbacks ⟨7, 2⟩ ⟨1, 4⟩
        (LinkState.interest_run
          ((((LinkState.fresh 1).register_for_writer ⟨1, 4⟩ ⟨7, 2⟩ 5).1).register_for_reader
            ⟨1, 2⟩ ⟨9, 7⟩ 6).1
          ⟨fun _ _ => (false, []), fun b _ _ _ => (false, b)⟩
          [InterestOp.heartbeat ⟨⟨HEARTBEAT, FLAG_E, HEARTBEAT_SZ⟩, 0, 2, 1, 0, 1⟩ 7 100,
            InterestOp.check_heartbeats 1000 10,
            InterestOp.heartbeat ⟨⟨HEARTBEAT, FLAG_E, HEARTBEAT_SZ⟩, 0, 2, 1, 0, 2⟩ 7 1010,
            InterestOp.acknack ⟨⟨ACKNACK, FLAG_E, 0⟩, 7, 2, ⟨1, 0, []⟩, 1⟩ 9 1020,
            InterestOp.send_heartbeats false 2000 10 50])) = true ∧
     alternates true
      (reader_callbacks ⟨9, 7⟩ ⟨1, 2⟩
        (LinkState.interest_run
          ((((LinkState.fresh 1).register_for_writer ⟨1, 4⟩ ⟨7, 2⟩ 5).1).register_for_reader
            ⟨1, 2⟩ ⟨9, 7⟩ 6).1
          ⟨fun _ _ => (false, []), fun b _ _ _ => (false, b)⟩
          [InterestOp.heartbeat ⟨⟨HEARTBEAT, FLAG_E, HEARTBEAT_SZ⟩, 0, 2, 1, 0, 1⟩ 7 100,
            InterestOp.check_heartbeats 1000 10,
            InterestOp.heartbeat ⟨⟨HEARTBEAT, FLAG_E, HEARTBEAT_SZ⟩, 0, 2, 1, 0, 2⟩ 7 1010,
            InterestOp.acknack ⟨⟨ACKNACK, FLAG_E, 0⟩, 7, 2, ⟨1, 0, []⟩, 1⟩ 9 1020,
            InterestOp.send_heartbeats false 2000 10 50])) = true) ∧
    (writer_callbacks ⟨7, 2⟩ ⟨1, 4⟩
        (LinkState.interest_run
          ((((LinkState.fresh 1).register_for_writer ⟨1, 4⟩ ⟨7, 2⟩ 5).1).register_for_reader
            ⟨1, 2⟩ ⟨9, 7⟩ 6).1
          ⟨fun _ _ => (false, []), fun b _ _ _ => (false, b)⟩
          [InterestOp.heartbeat ⟨⟨HEARTBEAT, FLAG_E, HEARTBEAT_SZ⟩, 0, 2, 1, 0, 1⟩ 7 100,
            InterestOp.check_heartbeats 1000 10,
            InterestOp.heartbeat ⟨⟨HEARTBEAT, FLAG_E, HEARTBEAT_SZ⟩, 0, 2, 1, 0, 2⟩ 7 1010,
            InterestOp.acknack ⟨⟨ACKNACK, FLAG_E, 0⟩, 7, 2, ⟨1, 0, []⟩, 1⟩ 9 1020,
            InterestOp.send_heartbeats false 2000 10 50]),
      reader_callbacks ⟨9, 7⟩ ⟨1, 2⟩
        (LinkState.interest_run
          ((((LinkState.fresh 1).register_for_writer ⟨1, 4⟩ ⟨7, 2⟩ 5).1).register_for_reader
            ⟨1, 2⟩ ⟨9, 7⟩ 6).1
          ⟨fun _ _ => (false, []), fun b _ _ _ => (false, b)⟩
          [InterestOp.heartbeat ⟨⟨HEARTBEAT, FLAG_E, HEARTBEAT_SZ⟩, 0, 2, 1, 0, 1⟩ 7 100,
            InterestOp.check_heartbeats 1000 10,
            InterestOp.heartbeat ⟨⟨HEARTBEAT, FLAG_E, HEARTBEAT_SZ⟩, 0, 2, 1, 0, 2⟩ 7 1010,
            InterestOp.acknack ⟨⟨ACKNACK, FLAG_E, 0⟩, 7, 2, ⟨1, 0, []⟩, 1⟩ 9 1020,
            InterestOp.send_heartbeats false 2000 10 50])) =
      ([true, false, true], [true, false]) :=
  ⟨(existence_callbacks
      ((((LinkState.fresh 1).register_for_writer ⟨1, 4⟩ ⟨7, 2⟩ 5).1).register_for_reader
        ⟨1, 2⟩ ⟨9, 7⟩ 6).1
      ⟨fun _ _ => (false, []), fun b _ _ _ => (false, b)⟩
      ⟨7, 2⟩ ⟨1, 4⟩ ⟨9, 7⟩ ⟨1, 2⟩ InterestingStatus.DOES_NOT_EXIST InterestingStatus.DOES_NOT_EXIST
      [InterestOp.heartbeat ⟨⟨HEARTBEAT, FLAG_E, HEARTBEAT_SZ⟩, 0, 2, 1, 0, 1⟩ 7 100,
        InterestOp.check_heartbeats 1000 10,
        InterestOp.heartbeat ⟨⟨HEARTBEAT, FLAG_E, HEARTBEAT_SZ⟩, 0, 2, 1, 0, 2⟩ 7 1010,
        InterestOp.acknack ⟨⟨ACKNACK, FLAG_E, 0⟩, 7, 2, ⟨1, 0, []⟩, 1⟩ 9 1020,
        InterestOp.send_heartbeats false 2000 10 50]
      (by decide) (by decide)).2.2.2.2.2,
   by decide⟩

/-- C32 as stated fails for an ACKNACK addressed to another local writer: the local
writer `(1, 2)` has registered the remote reader `(9, 7)`, whose status is
`DOES_NOT_EXIST`.  An ACKNACK of that reader for the writer `(1, 3)` arrives at
1020: no `reader_exists` callback is made, the status stays `DOES_NOT_EXIST`, and
the last activity of the entry becomes 1020. -/
theorem existence_callbacks_counterexample :
    ((LinkState.fresh 1).register_for_reader ⟨1, 2⟩ ⟨9, 7⟩ 6).1.interesting_readers_ =
      [(⟨9, 7⟩, ⟨⟨1, 2⟩, 6, 0, InterestingStatus.DOES_NOT_EXIST⟩)] ∧
    (LinkState.received_acknack ((LinkState.fresh 1).register_for_reader ⟨1, 2⟩ ⟨9, 7⟩ 6).1
        ⟨⟨ACKNACK, FLAG_E, 0⟩, 7, 3, ⟨1, 0, []⟩, 1⟩ 9 1020).1 = [] ∧
    (LinkState.received_acknack ((LinkState.fresh 1).register_for_reader ⟨1, 2⟩ ⟨9, 7⟩ 6).1
        ⟨⟨ACKNACK, FLAG_E, 0⟩, 7, 3, ⟨1, 0, []⟩, 1⟩ 9 1020).2.map
      (fun d => d.link.interesting_readers_) =
      some [(⟨9, 7⟩, ⟨⟨1, 2⟩, 6, 1020, InterestingStatus.DOES_NOT_EXIST⟩)] := by
  decide

/-- C33 (code defect): the pre-association ACKNACK is queued for the wrong readers.
The local reader `(1, 4)` has registered the remote writer `(7, 2)` as
interesting.  When the reader is associated with that writer, a HEARTBEAT of the
writer puts the pair into `interesting_ack_nacks_` and schedules the heartbeat
reply; when the reader has an `RtpsReader` that is associated with the writer
`(8, 2)` only, the HEARTBEAT of `(7, 2)` puts nothing into
`interesting_ack_nacks_`: the second branch of the loop tests `has_writer` where
its comment says that the reader is not associated with the writer. -/
theorem pre_association_acknack_inverted :
    ((((LinkState.fresh 1).associated (fun g => decide (g.entityId = 2))
          (fun g => decide (g.entityId = 4)) ⟨1, 4⟩ ⟨7, 2⟩ true true false false).1.register_for_writer
        ⟨1, 4⟩ ⟨7, 2⟩ 5).1.reader_objs.map (fun r => (r.id_, r.has_writer ⟨7, 2⟩)) =
      [(⟨1, 4⟩, true)] ∧
     ((((LinkState.fresh 1).associated (fun g => decide (g.entityId = 2))
          (fun g => decide (g.entityId = 4)) ⟨1, 4⟩ ⟨7, 2⟩ true true false false).1.register_for_writer
        ⟨1, 4⟩ ⟨7, 2⟩ 5).1.received_heartbeat
          ⟨fun _ _ => (false, []), fun b _ _ _ => (false, b)⟩
          ⟨⟨HEARTBEAT, FLAG_E ||| FLAG_F, HEARTBEAT_SZ⟩, 0, 2, 1, 0, 1⟩ 7 100).1 =
      [LinkEvent.writer_exists ⟨7, 2⟩ ⟨1, 4⟩, LinkEvent.heartbeat_reply_schedule] ∧
     ((((LinkState.fresh 1).associated (fun g => decide (g.entityId = 2))
          (fun g => decide (g.entityId = 4)) ⟨1, 4⟩ ⟨7, 2⟩ true true false false).1.register_for_writer
        ⟨1, 4⟩ ⟨7, 2⟩ 5).1.received_heartbeat
          ⟨fun _ _ => (false, []), fun b _ _ _ => (false, b)⟩
          ⟨⟨HEARTBEAT, FLAG_E ||| FLAG_F, HEARTBEAT_SZ⟩, 0, 2, 1, 0, 1⟩ 7 100).2.map
        (fun d => d.link.interesting_ack_nacks_) = some [(⟨7, 2⟩, ⟨1, 4⟩, 5)]) ∧
    ((((LinkState.fresh 1).associated (fun g => decide (g.entityId = 2))
          (fun g => decide (g.entityId = 4)) ⟨1, 4⟩ ⟨8, 2⟩ true true false false).1.register_for_writer
        ⟨1, 4⟩ ⟨7, 2⟩ 5).1.reader_objs.map (fun r => (r.id_, r.has_writer ⟨7, 2⟩)) =
      [(⟨1, 4⟩, false)] ∧
     ((((LinkState.fresh 1).associated (fun g => decide (g.entityId = 2))
          (fun g => decide (g.entityId = 4)) ⟨1, 4⟩ ⟨8, 2⟩ true true false false).1.register_for_writer
        ⟨1, 4⟩ ⟨7, 2⟩ 5).1.received_heartbeat
          ⟨fun _ _ => (false, []), fun b _ _ _ => (false, b)⟩
          ⟨⟨HEARTBEAT, FLAG_E ||| FLAG_F, HEARTBEAT_SZ⟩, 0, 2, 1, 0, 1⟩ 7 100).1 =
      [LinkEvent.writer_exists ⟨7, 2⟩ ⟨1, 4⟩] ∧
     ((((LinkState.fresh 1).associated (fun g => decide (g.entityId = 2))
          (fun g => decide (g.entityId = 4)) ⟨1, 4⟩ ⟨8, 2⟩ true true false false).1.register_for_writer
        ⟨1, 4⟩ ⟨7, 2⟩ 5).1.received_heartbeat
          ⟨fun _ _ => (false, []), fun b _ _ _ => (false, b)⟩
          ⟨⟨HEARTBEAT, FLAG_E ||| FLAG_F, HEARTBEAT_SZ⟩, 0, 2, 1, 0, 1⟩ 7 100).2.map
        (fun d => d.link.interesting_ack_nacks_) = some []) := by
  decide

/-! ## NACK_FRAG bitmaps, the resend rule and the word count of a bitmap -/

/-- C34 (code defect): `extend_bitmap_range` fills the bitmap one bit too far.  The
set with base 1 and `numBits = 1` (fragment 1 missing) is extended to the extent
3: afterwards `numBits` is 4, not 3, the bit of fragment 2 (index 1) is clear and
the bits of the fragments 3 and 4 (indices 2 and 3) are set.  The range filled is
`[numBits + 1, new_num_bits]`, where the indices of the fragments from
`base + numBits` to the extent are `[numBits, new_num_bits - 1]`.  A set that
ends exactly at the extent has its `numBits` increased by one. -/
theorem extend_bitmap_range_one_too_far :
    extend_bitmap_range ⟨1, 1, [2147483648]⟩ 3 = ⟨1, 4, [2952790016]⟩ ∧
    (bitmap_bit [2952790016] 0, bitmap_bit [2952790016] 1, bitmap_bit [2952790016] 2,
      bitmap_bit [2952790016] 3) = (true, false, true, true) ∧
    (1 + 1 - 1 < 3 ∧ 3 ≤ 1 + 254) ∧
    extend_bitmap_range ⟨1, 3, [2147483648]⟩ 3 = ⟨1, 4, [2147483648]⟩ := by
  decide

/-- C35 (code defect): the rule for the high end of the heartbeat range is applied
to an explicit nack.  The durable writer has an empty send buffer and a reader
with the durable sample 5, so that `heartbeat_high` is 5.  The entry with base 5,
`numBits = 1` and the bit of 5 set (word `0x80000000`) requests nothing: the test
`bitmap[0] & 1` reads the least significant bit of the word, which is clear, not
bit 0 of the set, so the entry falls under the rule and the buffer does not
contain 5.  The writer with the samples 3 and 4 in its buffer serves the entry
with base 4, `numBits = 1` and an empty bitmap by the rule, and requests nothing
for the same entry with the word 1, which has no bit set below `numBits`. -/
theorem resend_rule_reads_last_bit :
    RtpsWriter.heartbeat_high
        ⟨[], some ⟨[]⟩, 6, [], [], ⟨1, 2⟩, true, 0⟩
        { ReaderInfo.fresh true with
          durable_data_ := [(5, 50)], requested_changes_ := [⟨5, 1, [2147483648]⟩] } = 5 ∧
    bitmap_bit [2147483648] 0 = true ∧
    RtpsWriter.process_requested_changes_i
        ⟨[], some ⟨[]⟩, 6, [], [], ⟨1, 2⟩, true, 0⟩ DisjointSequence.nil
        { ReaderInfo.fresh true with
          durable_data_ := [(5, 50)], requested_changes_ := [⟨5, 1, [2147483648]⟩] } =
      DisjointSequence.nil ∧
    RtpsWriter.process_requested_changes_i
        ⟨[], some ⟨[⟨3, 30, []⟩, ⟨4, 40, []⟩]⟩, 5, [], [], ⟨1, 2⟩, false, 0⟩ DisjointSequence.nil
        { ReaderInfo.fresh false with requested_changes_ := [⟨4, 1, [0]⟩] } = ⟨[(4, 4)]⟩ ∧
    bitmap_bit [1] 0 = false ∧
    RtpsWriter.process_requested_changes_i
        ⟨[], some ⟨[⟨3, 30, []⟩, ⟨4, 40, []⟩]⟩, 5, [], [], ⟨1, 2⟩, false, 0⟩ DisjointSequence.nil
        { ReaderInfo.fresh false with requested_changes_ := [⟨4, 1, [1]⟩] } =
      DisjointSequence.nil := by
  decide

/-- The word count of a bitmap where the conversion does not truncate.  For
`low ≤ high` with `high - low < 2^37 - 32`, `bitmap_num_longs low high` is the
number of 32-bit words needed for the `high - low + 1` numbers from `low` to
`high`, that is the least `k` with `high - low + 1 ≤ 32 * k`, capped at 8, and it
lies between 1 and 8.  For `high < low` it is 1.  It is at most 8 for all
arguments. -/
theorem bitmap_word_count (low high : Int) (h1 : low ≤ high)
    (h2 : high - low < 137438953440) :
    bitmap_num_longs low high = min 8 (((high - low).toNat + 32) / 32) ∧
    (∀ k : Nat, (high - low).toNat + 1 ≤ 32 * k ↔ ((high - low).toNat + 32) / 32 ≤ k) ∧
    1 ≤ bitmap_num_longs low high ∧ bitmap_num_longs low high ≤ 8 ∧
    (∀ lo hi : Int, hi < lo → bitmap_num_longs lo hi = 1) ∧
    (∀ lo hi : Int, bitmap_num_longs lo hi ≤ 8) := by
  have hval : bitmap_num_longs low high = min 8 (((high - low).toNat + 32) / 32) := by
    unfold bitmap_num_longs
    rw [if_neg (by omega)]
    have hw : wrap_int64 (high - low + 32) = high - low + 32 := by
      unfold wrap_int64
      omega
    have ht : Int.tdiv (high - low + 32) 32 = (high - low + 32) / 32 :=
      Int.tdiv_eq_ediv (by omega) (by omega)
    rw [hw, ht]
    unfold toULong
    congr 1
    omega
  refine ⟨hval, fun k => by omega, ?_, bitmap_num_longs_le low high, ?_,
    fun lo hi => bitmap_num_longs_le lo hi⟩
  · rw [hval]
    exact le_min (by decide) (by omega)
  · intro lo hi h
    unfold bitmap_num_longs
    rw [if_pos h]

/-- The numbers 1 to 100 need 4 words, and for `high < low` the count is 1. -/
theorem bitmap_word_count_short_range :
    bitmap_num_longs 1 100 = min 8 (((100 - 1 : Int).toNat + 32) / 32) ∧
    bitmap_num_longs 1 100 = 4 ∧ bitmap_num_longs 5 3 = 1 :=
  ⟨(bitmap_word_count 1 100 (by decide) (by decide)).1, by decide, by decide⟩

/-- C36 (code defect): `bitmap_num_longs` gives a wrong word count for a long
range.  For `low = 0` and `high = 2^37 - 32` the quotient `(high - low + 32) / 32`
is `2^32`, which the conversion to `CORBA::ULong` makes 0 before the minimum with
8 is taken: the count is 0, where the 8 words of the cap are needed and the
function is to give the words that the range needs, at most 8.  For `low = 1`
and `high = 2^37 + 1` the quotient is `2^32 + 1` and the count is 1. -/
theorem bitmap_num_longs_truncates :
    bitmap_num_longs 0 137438953440 = 0 ∧ (0 : Int) ≤ 137438953440 ∧
    min 8 (((137438953440 - 0 : Int).toNat + 32) / 32) = 8 ∧
    bitmap_num_longs 1 137438953473 = 1 ∧ (1 : Int) ≤ 137438953473 ∧
    min 8 (((137438953473 - 1 : Int).toNat + 32) / 32) = 8 := by
  decide

/-- C37 (code defect): the size recorded for a bundle can be smaller than what is
serialized into it.  Two directed HEARTBEATs to the reader `(9, 7)` (32 bytes
each, an INFO_DST being 16 bytes) are bundled with a limit of 64 bytes, so that a
submessage with an INFO_DST fits.  The second HEARTBEAT does not fit into the
first bundle and opens a second one, for which the size 32 is recorded; the
message block of 32 bytes then gets an INFO_DST and the HEARTBEAT, 48 bytes. -/
theorem bundle_recorded_size_too_small :
    (RtpsUdpDataLink.send_bundled_submessages
        ⟨[(⟨9, 7⟩, 5)], [], [], 64, 0, fun _ => none, fun _ => false, fun _ => false, none⟩
        (fun (v : BundleItem) (_ _ : Nat) => match v with
          | BundleItem.info_dst _ => (SMHDR_SZ + INFO_DST_SZ, 0)
          | BundleItem.sm _ => (SMHDR_SZ + HEARTBEAT_SZ, 0))
        [⟨⟨1, 2⟩, ⟨9, 7⟩, [], Submessage.heartbeat_sm ⟨⟨HEARTBEAT, FLAG_E, HEARTBEAT_SZ⟩, 7, 2, 1, 3, 1⟩⟩,
         ⟨⟨1, 2⟩, ⟨9, 7⟩, [], Submessage.heartbeat_sm ⟨⟨HEARTBEAT, FLAG_E, HEARTBEAT_SZ⟩, 7, 2, 1, 3, 2⟩⟩]).map
      (fun evs => evs.map (fun ev => (ev.capacity, ev.bundle,
        ev.content.map (fun c => match c with
          | BundleItem.info_dst _ => true
          | BundleItem.sm _ => false),
        serialized_size (fun (v : BundleItem) (_ _ : Nat) => match v with
          | BundleItem.info_dst _ => (SMHDR_SZ + INFO_DST_SZ, 0)
          | BundleItem.sm _ => (SMHDR_SZ + HEARTBEAT_SZ, 0)) ev.content))) =
      some [(48, [0], [true, false], 48), (32, [1], [true, false], 48)] ∧
    SMHDR_SZ + INFO_DST_SZ + (SMHDR_SZ + HEARTBEAT_SZ) ≤ 64 := by
  decide

/-- C38 (code defect): a nil send buffer is used.  The writer `(1, 2)` is created by
`associated` with the reader `(9, 7)`; no sample has been sent, so `send_buff_` is
nil.  A NACK_FRAG of the reader for the sequence number 1 is accepted and
recorded in `requested_frags_`.  The reply to the NACKs then does not return:
`send_nackfrag_replies_i` calls `send_buff_->contains` for the entry.  Without
the NACK_FRAG the reply returns. -/
theorem nackfrag_reply_nil_send_buffer :
    ((LinkState.fresh 1).associated (fun g => decide (g.entityId = 2))
        (fun g => decide (g.entityId = 4)) ⟨1, 2⟩ ⟨9, 7⟩ true true false false).1.writers_.map
      (fun e => (e.1, e.2.send_buff_.isSome)) = [(⟨1, 2⟩, false)] ∧
    ((LinkState.fresh 1).associated (fun g => decide (g.entityId = 2))
        (fun g => decide (g.entityId = 4)) ⟨1, 2⟩ ⟨9, 7⟩ true true false false).1.writers_.map
      (fun e =>
        (e.2.process_nackfrag true
          ⟨⟨NACK_FRAG, FLAG_E, 0⟩, 7, 2, 1, ⟨1, 1, [2147483648]⟩, 1⟩ ⟨9, 7⟩).writer.remote_readers_.map
            (fun r => (r.1, r.2.requested_frags_))) =
      [[(⟨9, 7⟩, [(1, ⟨1, 1, [2147483648]⟩)])]] ∧
    ((LinkState.fresh 1).associated (fun g => decide (g.entityId = 2))
        (fun g => decide (g.entityId = 4)) ⟨1, 2⟩ ⟨9, 7⟩ true true false false).1.writers_.map
      (fun e =>
        ((e.2.process_nackfrag true
          ⟨⟨NACK_FRAG, FLAG_E, 0⟩, 7, 2, 1, ⟨1, 1, [2147483648]⟩, 1⟩
            ⟨9, 7⟩).writer.send_and_gather_nack_replies
          (some ⟨[(⟨9, 7⟩, 5)], [], [], 1000, 0, fun _ => none, fun _ => true, fun _ => false,
            none⟩) false).isSome) = [false] ∧
    ((LinkState.fresh 1).associated (fun g => decide (g.entityId = 2))
        (fun g => decide (g.entityId = 4)) ⟨1, 2⟩ ⟨9, 7⟩ true true false false).1.writers_.map
      (fun e =>
        (e.2.send_and_gather_nack_replies
          (some ⟨[(⟨9, 7⟩, 5)], [], [], 1000, 0, fun _ => none, fun _ => true, fun _ => false,
            none⟩) false).isSome) = [true] := by
  decide

/-! ## The port of an address string -/

theorem find_last_of_i_append (c : Char) (a b : List Char) :
    ∀ i acc, find_last_of_i c (a ++ b) i acc =
      find_last_of_i c b (i + a.length) (find_last_of_i c a i acc) := by
  induction a with
  | nil =>
    intro i acc
    rfl
  | cons x rest ih =>
    intro i acc
    simp only [List.cons_append, find_last_of_i, List.length_cons]
    have e := ih (i + 1) (if x = c then i else acc)
    have e2 : i + (rest.length + 1) = i + 1 + rest.length := by omega
    rw [e2]
    exact e

theorem find_last_of_i_not_mem (c : Char) (l : List Char) (h : c ∉ l) :
    ∀ i acc, find_last_of_i c l i acc = acc := by
  induction l with
  | nil =>
    intro i acc
    rfl
  | cons x rest ih =>
    intro i acc
    unfold find_last_of_i
    rw [ih (fun hh => h (List.mem_cons_of_mem _ hh)),
      if_neg (fun hh => h (by rw [hh]; exact List.mem_cons_self _ _))]

theorem c_str_append (x y : List Char) (h : Char.ofNat 0 ∉ x) :
    c_str (x ++ y) = x ++ c_str y := by
  induction x with
  | nil => rfl
  | cons c rest ih =>
    have hc : c ≠ Char.ofNat 0 := fun hh => h (by rw [hh]; exact List.mem_cons_self _ _)
    have hr := ih (fun hh => h (List.mem_cons_of_mem _ hh))
    unfold c_str at hr ⊢
    rw [List.cons_append, List.takeWhile_cons_of_pos (by simpa using hc), hr]
    rfl

theorem c_str_self (x : List Char) (h : Char.ofNat 0 ∉ x) : c_str x = x := by
  have := c_str_append x [] h
  rw [List.append_nil] at this
  rw [this]
  show x ++ [] = x
  exact List.append_nil x

theorem digitChar_plain (d : Nat) (h : d < 10) :
    Nat.digitChar d ≠ ':' ∧ Nat.digitChar d ≠ ']' ∧ Nat.digitChar d ≠ Char.ofNat 0 := by
  interval_cases d <;> decide

theorem toDigitsCore_plain (fuel : Nat) :
    ∀ (n : Nat) (ds : List Char),
      (∀ c ∈ ds, c ≠ ':' ∧ c ≠ ']' ∧ c ≠ Char.ofNat 0) →
      ∀ c ∈ Nat.toDigitsCore 10 fuel n ds, c ≠ ':' ∧ c ≠ ']' ∧ c ≠ Char.ofNat 0 := by
  induction fuel with
  | zero =>
    intro n ds h c hc
    exact h c hc
  | succ k ih =>
    intro n ds h c hc
    unfold Nat.toDigitsCore at hc
    have hd : ∀ c ∈ Nat.digitChar (n % 10) :: ds,
        c ≠ ':' ∧ c ≠ ']' ∧ c ≠ Char.ofNat 0 := by
      intro c hc
      rcases List.mem_cons.1 hc with e | e
      · rw [e]
        exact digitChar_plain _ (Nat.mod_lt _ (by decide))
      · exact h c e
    simp only at hc
    split_ifs at hc
    · exact hd c hc
    · exact ih _ _ hd c hc

theorem toDigitsCore_length (fuel : Nat) :
    ∀ (n : Nat) (ds : List Char) (k : Nat), n < 10 ^ (k + 1) →
      (Nat.toDigitsCore 10 fuel n ds).length ≤ ds.length + (k + 1) := by
  induction fuel with
  | zero =>
    intro n ds k _
    unfold Nat.toDigitsCore
    omega
  | succ f ih =>
    intro n ds k hn
    unfold Nat.toDigitsCore
    simp only
    split_ifs with h0
    · rw [List.length_cons]
      omega
    · cases k with
      | zero =>
        exfalso
        apply h0
        rw [Nat.div_eq_zero_iff (by decide)]
        simpa using hn
      | succ k1 =>
        have hdiv : n / 10 < 10 ^ (k1 + 1) := by
          rw [Nat.div_lt_iff_lt_mul (by decide)]
          rw [pow_succ] at hn
          exact hn
        have := ih (n / 10) (Nat.digitChar (n % 10) :: ds) k1 hdiv
        rw [List.length_cons] at this
        omega

theorem format_hu_plain (p : Nat) :
    ':' ∉ format_hu p ∧ ']' ∉ format_hu p ∧ Char.ofNat 0 ∉ format_hu p ∧
    (format_hu p).length ≤ 5 := by
  have h := toDigitsCore_plain (p % 65536 + 1) (p % 65536) [] (fun c hc => by cases hc)
  have hl := toDigitsCore_length (p % 65536 + 1) (p % 65536) [] 4
    (lt_of_lt_of_le (Nat.mod_lt _ (by decide)) (by decide))
  unfold format_hu Nat.toDigits
  exact ⟨fun hh => (h _ hh).1 rfl, fun hh => (h _ hh).2.1 rfl, fun hh => (h _ hh).2.2 rfl,
    by simpa using hl⟩

theorem set_port_host_port (host port : List Char) (p : Nat) (hh : ':' ∉ host)
    (hh0 : Char.ofNat 0 ∉ host) (hhl : host.length ≤ 1000) (hp : ':' ∉ port) :
    set_port_in_addr_string (host ++ ':' :: port) p = host ++ ':' :: format_hu p := by
  have hcount : (host ++ ':' :: port).count ':' = 1 := by
    rw [List.count_append, List.count_cons_self, List.count_eq_zero.2 hh,
      List.count_eq_zero.2 hp]
  have hpos : find_last_of (host ++ ':' :: port) ':' = host.length := by
    unfold find_last_of
    rw [find_last_of_i_append, find_last_of_i_not_mem _ host hh]
    unfold find_last_of_i
    rw [if_pos rfl, find_last_of_i_not_mem _ port hp, Nat.zero_add]
  have hw : wrap_int32 (host.length : Int) = host.length := by
    unfold wrap_int32
    omega
  unfold set_port_in_addr_string
  rw [if_pos (by rw [hcount]; decide)]
  simp only [hpos]
  unfold snprintf_precision_s
  rw [hw, if_neg (by omega), Int.toNat_ofNat, c_str_append host _ hh0, List.take_left]
  apply List.take_of_length_le
  have := (format_hu_plain p).2.2.2
  simp only [List.length_append, List.length_cons]
  omega

theorem set_port_host (host : List Char) (p : Nat) (hh : ':' ∉ host)
    (hh0 : Char.ofNat 0 ∉ host) (hhl : host.length ≤ 1000) :
    set_port_in_addr_string host p = host ++ ':' :: format_hu p := by
  have hpos : find_last_of host ':' = npos := by
    unfold find_last_of
    rw [find_last_of_i_not_mem _ host hh]
  have hw : wrap_int32 (npos : Int) = -1 := by decide
  unfold set_port_in_addr_string
  rw [if_pos (by rw [List.count_eq_zero.2 hh]; decide)]
  simp only [hpos]
  unfold snprintf_precision_s
  rw [hw, if_pos (by decide), c_str_self host hh0]
  apply List.take_of_length_le
  have := (format_hu_plain p).2.2.2
  simp only [List.length_append, List.length_cons]
  omega

theorem set_port_unbracketed (a : List Char) (p : Nat) (ha : 2 ≤ a.count ':')
    (ha0 : Char.ofNat 0 ∉ a) (hal : a.length ≤ 1000) (hb : a.head? ≠ some '[') :
    set_port_in_addr_string a p = '[' :: a ++ ']' :: ':' :: format_hu p := by
  unfold set_port_in_addr_string
  rw [if_neg (by omega), if_pos hb]
  unfold snprintf_bracket
  rw [c_str_self a ha0]
  apply List.take_of_length_le
  have := (format_hu_plain p).2.2.2
  simp only [List.length_append, List.length_cons]
  omega

theorem set_port_bracketed (a rest : List Char) (p : Nat) (ha : 2 ≤ a.count ':')
    (ha0 : Char.ofNat 0 ∉ a) (hal : a.length ≤ 1000) (hr : ']' ∉ rest) :
    set_port_in_addr_string ('[' :: a ++ ']' :: rest) p =
      '[' :: a ++ ']' :: ':' :: format_hu p := by
  have hcount : 2 ≤ ('[' :: a ++ ']' :: rest).count ':' := by
    rw [List.count_append, List.count_cons]
    omega
  have hsplit : '[' :: a ++ ']' :: rest = ('[' :: a) ++ ']' :: rest := rfl
  have hpos : find_last_of ('[' :: a ++ ']' :: rest) ']' = a.length + 1 := by
    unfold find_last_of
    rw [hsplit, find_last_of_i_append]
    generalize find_last_of_i ']' ('[' :: a) 0 npos = acc
    unfold find_last_of_i
    rw [if_pos rfl, find_last_of_i_not_mem _ rest hr, Nat.zero_add, List.length_cons]
  have hw : wrap_int32 (((a.length + 1 + 1) % 18446744073709551616 : Nat) : Int) =
      ((a.length + 2 : Nat) : Int) := by
    unfold wrap_int32
    omega
  have h0 : Char.ofNat 0 ∉ '[' :: a ++ [']'] := by
    intro hh
    rcases List.mem_cons.1 hh with e | e
    · exact absurd e (by decide)
    · rcases List.mem_append.1 e with e1 | e1
      · exact ha0 e1
      · exact absurd (List.mem_singleton.1 e1) (by decide)
  have hs2 : '[' :: a ++ ']' :: rest = ('[' :: a ++ [']']) ++ rest := by simp
  unfold set_port_in_addr_string
  rw [if_neg (by omega), if_neg (by simp)]
  simp only [hpos]
  unfold snprintf_precision_s
  rw [hw, if_neg (by omega), Int.toNat_ofNat, hs2, c_str_append _ _ h0]
  have hlen : ('[' :: a ++ [']']).length = a.length + 2 := by simp
  rw [← hlen, List.take_left]
  have hfin : ('[' :: a ++ [']']) ++ ':' :: format_hu p =
      '[' :: a ++ ']' :: ':' :: format_hu p := by simp
  rw [hfin]
  apply List.take_of_length_le
  have := (format_hu_plain p).2.2.2
  simp only [List.length_append, List.length_cons]
  omega

/-- C39: `set_port_in_addr_string` swaps or appends the port of `host:port`
and `host`, brackets an unbracketed IPv6 address before appending the port,
appends after or replaces after the closing bracket of a bracketed one, and
applying it again with another port gives the result of applying it once with
that port.  The host holds no colon, the port neither a colon nor a closing
bracket, the IPv6 address holds at least two colons, neither host nor address
holds a NUL and both fit the 1024 byte buffer. -/
theorem set_port_forms (host port a : List Char) (p p2 : Nat)
    (hh : ':' ∉ host) (hh0 : Char.ofNat 0 ∉ host) (hhl : host.length ≤ 1000)
    (hp : ':' ∉ port) (hpb : ']' ∉ port)
    (ha : 2 ≤ a.count ':') (ha0 : Char.ofNat 0 ∉ a) (hal : a.length ≤ 1000) :
    set_port_in_addr_string (host ++ ':' :: port) p = host ++ ':' :: format_hu p ∧
    set_port_in_addr_string host p = host ++ ':' :: format_hu p ∧
    (a.head? ≠ some '[' →
      set_port_in_addr_string a p = '[' :: a ++ ']' :: ':' :: format_hu p) ∧
    set_port_in_addr_string ('[' :: a ++ [']']) p =
      '[' :: a ++ ']' :: ':' :: format_hu p ∧
    set_port_in_addr_string ('[' :: a ++ ']' :: ':' :: port) p =
      '[' :: a ++ ']' :: ':' :: format_hu p ∧
    set_port_in_addr_string (set_port_in_addr_string (host ++ ':' :: port) p) p2 =
      set_port_in_addr_string (host ++ ':' :: port) p2 ∧
    set_port_in_addr_string (set_port_in_addr_string host p) p2 =
      set_port_in_addr_string host p2 ∧
    (a.head? ≠ some '[' →
      set_port_in_addr_string (set_port_in_addr_string a p) p2 =
        set_port_in_addr_string a p2) ∧
    set_port_in_addr_string (set_port_in_addr_string ('[' :: a ++ [']']) p) p2 =
      set_port_in_addr_string ('[' :: a ++ [']']) p2 ∧
    set_port_in_addr_string
        (set_port_in_addr_string ('[' :: a ++ ']' :: ':' :: port) p) p2 =
      set_port_in_addr_string ('[' :: a ++ ']' :: ':' :: port) p2 := by
  have hd := format_hu_plain p
  have hrest : ∀ l : List Char, ']' ∉ l → ']' ∉ ':' :: l := by
    intro l hl hm
    rcases List.mem_cons.1 hm with e | e
    · exact absurd e (by decide)
    · exact hl e
  have f1 := fun q => set_port_host_port host port q hh hh0 hhl hp
  have f1d := fun q => set_port_host_port host (format_hu p) q hh hh0 hhl hd.1
  have f2 := fun q => set_port_host host q hh hh0 hhl
  have f3 := fun q hb => set_port_unbracketed a q ha ha0 hal hb
  have f4 := fun q => set_port_bracketed a [] q ha ha0 hal (by simp)
  have f5 := fun q => set_port_bracketed a (':' :: port) q ha ha0 hal (hrest _ hpb)
  have f5d := fun q =>
    set_port_bracketed a (':' :: format_hu p) q ha ha0 hal (hrest _ hd.2.1)
  refine ⟨f1 p, f2 p, f3 p, f4 p, f5 p, ?_, ?_, ?_, ?_, ?_⟩
  · rw [f1 p, f1 p2, f1d p2]
  · rw [f2 p, f2 p2, f1d p2]
  · intro hb
    rw [f3 p hb, f3 p2 hb, f5d p2]
  · rw [f4 p, f4 p2, f5d p2]
  · rw [f5 p, f5 p2, f5d p2]

theorem set_port_forms_witness :
    set_port_in_addr_string ("h:80".toList) 81 = "h:81".toList ∧
    set_port_in_addr_string ("h".toList) 81 = "h:81".toList ∧
    set_port_in_addr_string ("::1".toList) 81 = "[::1]:81".toList ∧
    set_port_in_addr_string ("[::1]".toList) 81 = "[::1]:81".toList ∧
    set_port_in_addr_string ("[::1]:80".toList) 81 = "[::1]:81".toList ∧
    set_port_in_addr_string (set_port_in_addr_string ("::1".toList) 81) 9000 =
      set_port_in_addr_string ("::1".toList) 9000 := by
  have h := set_port_forms ['h'] ['8', '0'] [':', ':', '1'] 81 9000 (by decide) (by decide)
    (by decide) (by decide) (by decide) (by decide) (by decide) (by decide)
  have e : format_hu 81 = ['8', '1'] := by decide
  rw [e] at h
  exact ⟨h.1, h.2.1, h.2.2.1 (by decide), h.2.2.2.1, h.2.2.2.2.1,
    h.2.2.2.2.2.2.2.1 (by decide)⟩

end DCPS
end OpenDDS
